import Mathlib

/-! tboot TPM 1.2 driver (`tboot/common/tpm.c`): shallow embedding

Memory areas (C arrays, structs seen through a `uint8_t *`) are lists of bytes in
the host (little-endian, packed) layout.  A pointer is an area together with a
position in it.  Reads outside an area give 0 and writes outside an area are
dropped, so every function is total; the theorems state the capacity they need.
-/

namespace Tboot

/-! ## Bytes, memory areas, host integers -/

/-- Byte `i` of a memory area (0 outside the area). -/
def rd (m : List Nat) (i : Nat) : Nat := m.getD i 0

/-- The `n` bytes of `m` that start at position `off`. -/
def readBytes (m : List Nat) (off n : Nat) : List Nat :=
  (List.range n).map fun i => rd m (off + i)

/-- C `memcpy(dst + off, src, |src|)` into the fixed-capacity area `dst`. -/
def memcpy (dst : List Nat) (off : Nat) (src : List Nat) : List Nat :=
  (List.range dst.length).map fun i =>
    if off ≤ i ∧ i < off + src.length then rd src (i - off) else rd dst i

/-- C `memset(dst + off, v, n)`. -/
def memset (dst : List Nat) (off v n : Nat) : List Nat :=
  memcpy dst off (List.replicate n v)

/-- Source `_reverse_copy(out, in, count)`: `out[i] = in[count - i - 1]`; the
result is the `count` bytes stored through `out`. -/
def _reverse_copy (inp : List Nat) (count : Nat) : List Nat :=
  (List.range count).map fun i => rd inp (count - i - 1)

/-- Value of an unsigned integer stored in host (little-endian) byte order. -/
def le_val : List Nat → Nat
  | [] => 0
  | b :: bs => b % 256 + 256 * le_val bs

/-- Host (little-endian) image of an `n`-byte unsigned integer variable. -/
def le_bytes (n v : Nat) : List Nat :=
  (List.range n).map fun i => v / 256 ^ i % 256

/-- A `uint16_t` struct field at position `off` of the area `m`. -/
def u16_at (m : List Nat) (off : Nat) : Nat := le_val (readBytes m off 2)

/-- A `uint32_t` struct field at position `off` of the area `m`. -/
def u32_at (m : List Nat) (off : Nat) : Nat := le_val (readBytes m off 4)

/-- Value of the `n`-byte big-endian integer at position `off` of a wire buffer. -/
def be_at (buf : List Nat) (off n : Nat) : Nat := le_val (_reverse_copy (readBytes buf off n) n)

/-- Wrap-around of `uint32_t` arithmetic modulo 2^32 (also `size_t` on the i386
target). -/
def u32 (n : Nat) : Nat := n % 4294967296

/-! ## Constants -/

/-- Source `TPM_TAG_PCR_INFO_LONG`. -/
def TPM_TAG_PCR_INFO_LONG : Nat := 0x0006

/-- Source `TPM_TAG_STORED_DATA12`. -/
def TPM_TAG_STORED_DATA12 : Nat := 0x0016

/-- Return code 0, "0 = success" in the comment above `tpm_write_cmd_fifo`. -/
def TPM_SUCCESS : Nat := 0

/-- Modelled from the spec: `TPM_NR_PCRS` of the absent `tpm.h`; the spec fixes
the number of measurement registers to 24 (3 selection bytes). -/
def TPM_NR_PCRS : Nat := 24

/-- Modelled from the spec: `sizeof(tpm_digest_t)` (`tpm_pcr_value_t`,
`tpm_composite_hash_t`) of the absent `tpm.h`: a 20-byte SHA-1 digest. -/
def TPM_DIGEST_SIZE : Nat := 20

/-! ## Packed struct layouts (`tpm_stored_data12_*`, `tpm_pcr_info_long_t`)

`tpm_locality_selection_t` is one byte. -/

/-- Source `sizeof(tpm_pcr_selection_t)`: `size_of_select` (2) and `pcr_select[3]`. -/
def sizeof_pcr_selection : Nat := 5

/-- Source `sizeof(tpm_stored_data12_header_t)`: tag (2), et (2), seal_info_size (4). -/
def sizeof_stored_data12_header : Nat := 8

/-- Source `sizeof(tpm_stored_data12_short_t)`: header and enc_data_size. -/
def sizeof_stored_data12_short : Nat := sizeof_stored_data12_header + 4

/-- Source `sizeof(tpm_pcr_info_long_t)`: tag (2), two localities (1 + 1), two
selections (5 + 5), two digests (20 + 20). -/
def sizeof_pcr_info_long : Nat :=
  2 + 1 + 1 + sizeof_pcr_selection + sizeof_pcr_selection + TPM_DIGEST_SIZE + TPM_DIGEST_SIZE

/-- Source `sizeof(tpm_stored_data12_t)`: header, seal_info and enc_data_size. -/
def sizeof_stored_data12 : Nat := sizeof_stored_data12_header + sizeof_pcr_info_long + 4

/-- Field `tag` of `tpm_stored_data12_header_t`. -/
def hdr_tag (data : List Nat) : Nat := u16_at data 0

/-- Field `et` of `tpm_stored_data12_header_t`. -/
def hdr_et (data : List Nat) : Nat := u16_at data 2

/-- Field `seal_info_size` of `tpm_stored_data12_header_t`. -/
def hdr_seal_info_size (data : List Nat) : Nat := u32_at data 4

/-- Field `enc_data_size` of `tpm_stored_data12_short_t`. -/
def short_enc_data_size (data : List Nat) : Nat := u32_at data 8

/-- Field `enc_data_size` of `tpm_stored_data12_t`. -/
def long_enc_data_size (data : List Nat) : Nat := u32_at data 62

/-- Position of `seal_info.digest_at_creation` in `tpm_stored_data12_t`. -/
def off_digest_at_creation : Nat := 8 + 2 + 1 + 1 + sizeof_pcr_selection + sizeof_pcr_selection

/-! ## `check_sealed_data` -/

/-- Source `check_sealed_data(size, data)`. -/
def check_sealed_data (size : Nat) (data : List Nat) : Bool :=
  if size < sizeof_stored_data12_header then false
  else if hdr_tag data ≠ TPM_TAG_STORED_DATA12 then false
  else if hdr_seal_info_size data = 0 then
    if size < sizeof_stored_data12_short then false
    else if size ≠ u32 (sizeof_stored_data12_short + short_enc_data_size data) then false
    else true
  else
    if size < sizeof_stored_data12 then false
    else if size ≠ u32 (sizeof_stored_data12 + long_enc_data_size data) then false
    else true

/-! ## Structure codec: the `UNLOAD_*` and `LOAD_*` macros

A cursor is the pair the macros update: the area written to and the running
`offset`.  `base` is the position of the macro argument `buf` in its area
(10 for `WRAPPER_IN_BUF` / `WRAPPER_OUT_BUF`). -/

/-- The destination area and the `uint32_t offset` variable of the codec macros. -/
structure Cur where
  mem : List Nat
  offset : Nat
deriving DecidableEq, Repr

/-- Source `UNLOAD_BLOB(buf, offset, blob, size)`; `blob` holds the `size` bytes
read through the source pointer. -/
def UNLOAD_BLOB (base : Nat) (blob : List Nat) (c : Cur) : Cur :=
  ⟨memcpy c.mem (base + c.offset) blob, u32 (c.offset + blob.length)⟩

/-- Source `UNLOAD_INTEGER(buf, offset, var)`; `var` is the host image of the
variable, `sizeof(var)` bytes. -/
def UNLOAD_INTEGER (base : Nat) (var : List Nat) (c : Cur) : Cur :=
  ⟨memcpy c.mem (base + c.offset) (_reverse_copy var var.length), u32 (c.offset + var.length)⟩

/-- Source `UNLOAD_PCR_SELECTION(buf, offset, sel)`, `sel` at position `so` of `hdr`. -/
def UNLOAD_PCR_SELECTION (base : Nat) (hdr : List Nat) (so : Nat) (c : Cur) : Cur :=
  c |> UNLOAD_INTEGER base (readBytes hdr so 2)
    |> UNLOAD_BLOB base (readBytes hdr (so + 2) (u16_at hdr so))

/-- Source `UNLOAD_PCR_INFO_LONG(buf, offset, info)`, `info` at position `io` of `hdr`. -/
def UNLOAD_PCR_INFO_LONG (base : Nat) (hdr : List Nat) (io : Nat) (c : Cur) : Cur :=
  c |> UNLOAD_INTEGER base (readBytes hdr io 2)
    |> UNLOAD_BLOB base (readBytes hdr (io + 2) 1)
    |> UNLOAD_BLOB base (readBytes hdr (io + 3) 1)
    |> UNLOAD_PCR_SELECTION base hdr (io + 4)
    |> UNLOAD_PCR_SELECTION base hdr (io + 9)
    |> UNLOAD_BLOB base (readBytes hdr (io + 14) TPM_DIGEST_SIZE)
    |> UNLOAD_BLOB base (readBytes hdr (io + 34) TPM_DIGEST_SIZE)

/-- Source `UNLOAD_STORED_DATA12(buf, offset, hdr)`. -/
def UNLOAD_STORED_DATA12 (base : Nat) (hdr : List Nat) (c : Cur) : Cur :=
  let c3 := c |> UNLOAD_INTEGER base (readBytes hdr 0 2)
              |> UNLOAD_INTEGER base (readBytes hdr 2 2)
              |> UNLOAD_INTEGER base (readBytes hdr 4 4)
  if hdr_seal_info_size hdr = 0 then
    c3 |> UNLOAD_INTEGER base (readBytes hdr 8 4)
       |> UNLOAD_BLOB base (readBytes hdr 12 (short_enc_data_size hdr))
  else
    c3 |> UNLOAD_PCR_INFO_LONG base hdr 8
       |> UNLOAD_INTEGER base (readBytes hdr 62 4)
       |> UNLOAD_BLOB base (readBytes hdr 66 (long_enc_data_size hdr))

/-- Source `LOAD_BLOB(buf, offset, blob, size)`; `blob` is position `fo` of the
destination area. -/
def LOAD_BLOB (buf : List Nat) (base fo size : Nat) (c : Cur) : Cur :=
  ⟨memcpy c.mem fo (readBytes buf (base + c.offset) size), u32 (c.offset + size)⟩

/-- Source `LOAD_INTEGER(buf, offset, var)`; `var` is the `n`-byte field at
position `fo` of the destination area. -/
def LOAD_INTEGER (buf : List Nat) (base fo n : Nat) (c : Cur) : Cur :=
  ⟨memcpy c.mem fo (_reverse_copy (readBytes buf (base + c.offset) n) n), u32 (c.offset + n)⟩

/-- Source `LOAD_PCR_SELECTION(buf, offset, sel)`, `sel` at position `so`. -/
def LOAD_PCR_SELECTION (buf : List Nat) (base so : Nat) (c : Cur) : Cur :=
  let c1 := LOAD_INTEGER buf base so 2 c
  LOAD_BLOB buf base (so + 2) (u16_at c1.mem so) c1

/-- Source `LOAD_PCR_INFO_LONG(buf, offset, info)`, `info` at position `io`. -/
def LOAD_PCR_INFO_LONG (buf : List Nat) (base io : Nat) (c : Cur) : Cur :=
  c |> LOAD_INTEGER buf base io 2
    |> LOAD_BLOB buf base (io + 2) 1
    |> LOAD_BLOB buf base (io + 3) 1
    |> LOAD_PCR_SELECTION buf base (io + 4)
    |> LOAD_PCR_SELECTION buf base (io + 9)
    |> LOAD_BLOB buf base (io + 14) TPM_DIGEST_SIZE
    |> LOAD_BLOB buf base (io + 34) TPM_DIGEST_SIZE

/-- Source `LOAD_STORED_DATA12(buf, offset, hdr)`; the cursor holds `hdr`. -/
def LOAD_STORED_DATA12 (buf : List Nat) (base : Nat) (c : Cur) : Cur :=
  let c3 := c |> LOAD_INTEGER buf base 0 2
              |> LOAD_INTEGER buf base 2 2
              |> LOAD_INTEGER buf base 4 4
  if hdr_seal_info_size c3.mem = 0 then
    let c4 := LOAD_INTEGER buf base 8 4 c3
    LOAD_BLOB buf base 12 (short_enc_data_size c4.mem) c4
  else
    let c4 := c3 |> LOAD_PCR_INFO_LONG buf base 8 |> LOAD_INTEGER buf base 62 4
    LOAD_BLOB buf base 66 (long_enc_data_size c4.mem) c4

/-! ## Composite digest and creation-binding check -/

/-- Source `CMD_HEAD_SIZE`; `WRAPPER_IN_BUF` is `cmd_buf + CMD_HEAD_SIZE`. -/
def CMD_HEAD_SIZE : Nat := 10

/-- Source `RSP_HEAD_SIZE`; `WRAPPER_OUT_BUF` is `rsp_buf + RSP_HEAD_SIZE`. -/
def RSP_HEAD_SIZE : Nat := 10

/-- The 20 bytes that the external primitive `sha1_buffer(buf, len, md)` stores
through `md`; `sha1` is the primitive, a parameter of the embedding. -/
def sha1_buffer (sha1 : List Nat → List Nat) (msg : List Nat) : List Nat :=
  readBytes (sha1 msg) 0 TPM_DIGEST_SIZE

/-- Statement `sel.pcr_select[idx/8] |= 1 << (idx % 8)` for the selection at
position `so` of `m` (`pcr_select` starts at `so + 2`). -/
def pcr_select_or (m : List Nat) (so idx : Nat) : List Nat :=
  memcpy m (so + 2 + idx / 8) [(rd m (so + 2 + idx / 8) ||| (1 <<< (idx % 8))) % 256]

/-- Element `i` of a C array of pointers to 20-byte values (`values[i]`), read
as 20 bytes. -/
def pcr_value (values : List (Option (List Nat))) (i : Nat) : List Nat :=
  readBytes ((values.getD i none).getD []) 0 TPM_DIGEST_SIZE

/-- Source `calc_pcr_composition(nr, indcs, values, composite)`; returns the
global `cmd_buf` and the area behind `composite` after the call. -/
def calc_pcr_composition (sha1 : List Nat → List Nat) (cmd_buf : List Nat) (nr : Nat)
    (indcs : Option (List Nat)) (values : Option (List (Option (List Nat))))
    (composite : Option (List Nat)) : List Nat × Option (List Nat) :=
  match indcs, values, composite with
  | some ix, some vs, some comp =>
    if nr = 0 then (cmd_buf, composite)
    else
      let sel0 : List Nat := le_bytes 2 3 ++ [0, 0, 0]
      let sel := (List.range nr).foldl (fun s i => pcr_select_or s 0 (rd ix i)) sel0
      let c1 := (⟨cmd_buf, 0⟩ : Cur) |> UNLOAD_PCR_SELECTION CMD_HEAD_SIZE sel 0
      let blob_size := u32 (TPM_DIGEST_SIZE * nr)
      let c2 := UNLOAD_INTEGER CMD_HEAD_SIZE (le_bytes 4 blob_size) c1
      let c3 := (List.range nr).foldl (fun c i => UNLOAD_BLOB CMD_HEAD_SIZE (pcr_value vs i) c) c2
      (c3.mem, some (memcpy comp 0 (sha1_buffer sha1 (readBytes c3.mem CMD_HEAD_SIZE c3.offset))))
  | _, _, _ => (cmd_buf, composite)

/-- Source `get_cre_pcr_composite(data)`: `NULL`, or the position of
`seal_info.digest_at_creation` in `data`. -/
def get_cre_pcr_composite (data : List Nat) : Option Nat :=
  if hdr_seal_info_size data = 0 then none else some off_digest_at_creation

/-- Source `tpm_cmp_creation_pcrs`; returns the result and the global `cmd_buf`. -/
def tpm_cmp_creation_pcrs (sha1 : List Nat → List Nat) (cmd_buf : List Nat)
    (pcr_nr_create : Nat) (pcr_indcs_create : Option (List Nat))
    (pcr_values_create : Option (List (Option (List Nat))))
    (sealed_data_size : Nat) (sealed_data : List Nat) : Bool × List Nat :=
  let composite0 : List Nat := List.replicate TPM_DIGEST_SIZE 0
  let nr := if pcr_indcs_create = none then 0 else pcr_nr_create
  if (List.range nr).any (fun i => decide (TPM_NR_PCRS ≤ rd (pcr_indcs_create.getD []) i)) then
    (false, cmd_buf)
  else if !check_sealed_data sealed_data_size sealed_data then (false, cmd_buf)
  else
    let r := if 0 < nr then
        calc_pcr_composition sha1 cmd_buf nr pcr_indcs_create pcr_values_create (some composite0)
      else (cmd_buf, some composite0)
    match get_cre_pcr_composite sealed_data with
    | none => (false, r.1)
    | some p =>
      if readBytes (r.2.getD []) 0 TPM_DIGEST_SIZE ≠ readBytes sealed_data p TPM_DIGEST_SIZE then
        (false, r.1)
      else (true, r.1)

/-! ## Hardware: registers, events, global state

`TPM_LOCALITY_BASE_N` is a macro of the absent `tpm.h`; the byte address
`(TPM_LOCALITY_BASE_N(locality) | reg) + i` is kept as the triple
`(locality, reg, i)`.  The TPM is an arbitrary state machine answering byte
reads and byte writes. -/

/-- Constants of the header `tpm.h`, which is not among the sources: they are
parameters of the embedding.  `TPM_LOC` lists `TPM_LOC_ZERO` ... `TPM_LOC_FOUR`,
the initialiser of the table `localities` in `init_pcr_info`. -/
structure TpmH where
  TPM_NR_LOCALITIES : Nat
  TPM_CMD_SIZE_MAX : Nat
  TPM_RSP_SIZE_MAX : Nat
  TPM_BAD_PARAMETER : Nat
  TPM_FAIL : Nat
  TPM_NOSPACE : Nat
  TPM_LOC_RSVD : Nat
  TPM_LOC : List Nat
  TPM_PCR_RESETABLE_MIN : Nat
  TPM_NV_READ_VALUE_DATA_SIZE_MAX : Nat
  TPM_NV_WRITE_VALUE_DATA_SIZE_MAX : Nat
deriving DecidableEq, Repr

/-- The memory-mapped module: `readb` and `writeb` on the byte at
`(locality, reg, i)`, with the module's own state `σ`. -/
structure Tpm (σ : Type) where
  readb : σ → Nat → Nat → Nat → Nat × σ
  writeb : σ → Nat → Nat → Nat → Nat → σ

/-- The `printk` messages of the functions embedded here. -/
inductive Msg where
  | validate_locality_timeout
  | invalid_locality
  | invalid_parameter
  | buf_size_too_small
  | locality_not_open
  | access_reg_not_valid
  | request_use_timeout
  | status_reg_content
  | command_ready_timeout
  | write_cmd_timeout
  | data_avail_timeout
  | read_rsp_timeout
  | submit_invalid_param
  | cmd_exceeds_max
  | get_random_failed
  | random_short
  | random_retry
  | osap_failed
  | _tpm_seal_bad_parameter
  | seal_failed
  | sealed_blob_too_small
  | tpm_seal_bad_parameter
  | oiap_failed
  | _tpm_unseal_bad_parameter
  | unseal_failed
  | unsealed_data_too_small
  | tpm_unseal_bad_parameter
  | tpm_unseal_blob_invalid
  | pcr_read_failed
  | pcr_extend_failed
  | pcr_reset_result
  | nv_read_failed
  | nv_write_failed
  | release_locality_timeout
  | get_capability_bad_parameter
  | get_capability_failed
  | capability_response_too_small
  | get_nvindex_size_bad_parameter
  | nvindex_response_size_incorrect
  | policy_size_is_null
  | policy_size_failed
  | policy_too_big
  | policy_read_error
deriving DecidableEq, Repr

/-- What the driver does that is visible outside it: one event per
`read_tpm_reg` (with the bytes obtained), per `write_tpm_reg` (with the bytes
written) and per `printk`. -/
inductive Ev where
  | rd (locality reg : Nat) (val : List Nat)
  | wr (locality reg : Nat) (val : List Nat)
  | msg (m : Msg)
deriving DecidableEq, Repr

/-- The hardware side of the state: the module and the events so far, newest
first. -/
structure Hw (σ : Type) where
  dev : σ
  log : List Ev

/-- Global state: the hardware, the static buffers `cmd_buf` and `rsp_buf`, and
the static `first_attempt` of `tpm_get_random`. -/
structure St (σ : Type) where
  hw : Hw σ
  cmd_buf : List Nat
  rsp_buf : List Nat
  first_attempt : Bool

/-- Source `TPM_REG_ACCESS`. -/
def TPM_REG_ACCESS : Nat := 0x00

/-- Source `TPM_REG_STS`. -/
def TPM_REG_STS : Nat := 0x18

/-- Source `TPM_REG_DATA_FIFO`. -/
def TPM_REG_DATA_FIFO : Nat := 0x24

/-- Bit `k` of a register byte (bit-fields are allocated from bit 0 upwards). -/
def bit (b k : Nat) : Nat := b / 2 ^ k % 2

/-- Field `seize` of `tpm_reg_access_t`. -/
def acc_seize (raw : List Nat) : Nat := bit (rd raw 0) 3

/-- Field `active_locality` of `tpm_reg_access_t`. -/
def acc_active_locality (raw : List Nat) : Nat := bit (rd raw 0) 5

/-- Field `tpm_reg_valid_sts` of `tpm_reg_access_t`. -/
def acc_tpm_reg_valid_sts (raw : List Nat) : Nat := bit (rd raw 0) 7

/-- Field `data_avail` of `tpm_reg_sts_t`. -/
def sts_data_avail (raw : List Nat) : Nat := bit (rd raw 0) 4

/-- Field `command_ready` of `tpm_reg_sts_t`. -/
def sts_command_ready (raw : List Nat) : Nat := bit (rd raw 0) 6

/-- Field `sts_valid` of `tpm_reg_sts_t`. -/
def sts_sts_valid (raw : List Nat) : Nat := bit (rd raw 0) 7

/-- Field `burst_count` of `tpm_reg_sts_t` (bytes 1 and 2). -/
def sts_burst_count (raw : List Nat) : Nat := u16_at raw 1

/-- Access register image with only `request_use` set. -/
def ACC_REQUEST_USE : List Nat := [0x02]

/-- Access register image with only `active_locality` set: the deactivation value. -/
def ACC_ACTIVE_LOCALITY : List Nat := [0x20]

/-- Status register image with only `command_ready` set. -/
def STS_COMMAND_READY : List Nat := [0x40, 0, 0]

/-- Status register image with only `tpm_go` set. -/
def STS_TPM_GO : List Nat := [0x20, 0, 0]

/-- The byte loop of `_read_tpm_reg`: bytes `i, i+1, ...` (`n` of them). -/
def readb_loop {σ : Type} (t : Tpm σ) (locality reg : Nat) : Nat → Nat → σ → List Nat × σ
  | 0, _, d => ([], d)
  | n + 1, i, d =>
    let r := t.readb d locality reg i
    let rest := readb_loop t locality reg n (i + 1) r.2
    (r.1 % 256 :: rest.1, rest.2)

/-- The byte loop of `_write_tpm_reg`. -/
def writeb_loop {σ : Type} (t : Tpm σ) (locality reg : Nat) : List Nat → Nat → σ → σ
  | [], _, d => d
  | b :: bs, i, d => writeb_loop t locality reg bs (i + 1) (t.writeb d locality reg i b)

/-- Source `read_tpm_reg(locality, reg, pdata)` for a register of `size` bytes. -/
def read_tpm_reg {σ : Type} (t : Tpm σ) (locality reg size : Nat) (s : Hw σ) : List Nat × Hw σ :=
  let r := readb_loop t locality reg size 0 s.dev
  (r.1, { s with dev := r.2, log := Ev.rd locality reg r.1 :: s.log })

/-- Source `write_tpm_reg(locality, reg, pdata)`; `raw` is the register image. -/
def write_tpm_reg {σ : Type} (t : Tpm σ) (locality reg : Nat) (raw : List Nat) (s : Hw σ) : Hw σ :=
  { s with dev := writeb_loop t locality reg raw 0 s.dev, log := Ev.wr locality reg raw :: s.log }

/-- C `printk`: only the message is kept. -/
def printk {σ : Type} (m : Msg) (s : Hw σ) : Hw σ := { s with log := Ev.msg m :: s.log }

/-- The loop shape `for ( i = budget; i > 0; i-- ) { body; if ( cond ) break; else
cpu_relax(); }` shared by the six waits: `body` performs the register accesses
and returns `some v` when the condition holds (`v` is what the code reads
afterwards).  The result is `none` when the loop ends with `i = 0`. -/
def poll {σ α : Type} (body : Hw σ → Option α × Hw σ) : Nat → Hw σ → Option α × Hw σ
  | 0, s => (none, s)
  | i + 1, s =>
    let r := body s
    match r.1 with
    | some v => (some v, r.2)
    | none => poll body i r.2

/-- Source `TPM_VALIDATE_LOCALITY_TIME_OUT`. -/
def TPM_VALIDATE_LOCALITY_TIME_OUT : Nat := 0x100

/-- Source `TIMEOUT_UNIT`. -/
def TIMEOUT_UNIT : Nat := 0x100000 / 330

/-- Source `TIMEOUT_A`. -/
def TIMEOUT_A : Nat := TIMEOUT_UNIT * 750

/-- Source `TIMEOUT_B`. -/
def TIMEOUT_B : Nat := TIMEOUT_UNIT * 2000

/-- Source `TPM_ACTIVE_LOCALITY_TIME_OUT`. -/
def TPM_ACTIVE_LOCALITY_TIME_OUT : Nat := TIMEOUT_A

/-- Source `TPM_CMD_READY_TIME_OUT`. -/
def TPM_CMD_READY_TIME_OUT : Nat := TIMEOUT_B

/-- Source `TPM_CMD_WRITE_TIME_OUT`. -/
def TPM_CMD_WRITE_TIME_OUT : Nat := TIMEOUT_A

/-- Source `TPM_DATA_AVAIL_TIME_OUT`. -/
def TPM_DATA_AVAIL_TIME_OUT : Nat := TIMEOUT_B

/-- Source `TPM_RSP_READ_TIME_OUT`. -/
def TPM_RSP_READ_TIME_OUT : Nat := TIMEOUT_A

/-- One iteration of the loop of `tpm_validate_locality`. -/
def validate_body {σ : Type} (t : Tpm σ) (locality : Nat) (s : Hw σ) : Option Unit × Hw σ :=
  let r := read_tpm_reg t locality TPM_REG_ACCESS 1 s
  if acc_tpm_reg_valid_sts r.1 = 1 ∧ acc_seize r.1 = 0 then (some (), r.2) else (none, r.2)

/-- Source `tpm_validate_locality(locality)`. -/
def tpm_validate_locality {σ : Type} (t : Tpm σ) (locality : Nat) (s : Hw σ) : Bool × Hw σ :=
  let r := poll (validate_body t locality) TPM_VALIDATE_LOCALITY_TIME_OUT s
  match r.1 with
  | some _ => (true, r.2)
  | none => (false, printk Msg.validate_locality_timeout r.2)

/-- One iteration of the request-use wait of `tpm_wait_cmd_ready`. -/
def active_body {σ : Type} (t : Tpm σ) (locality : Nat) (s : Hw σ) : Option Unit × Hw σ :=
  let r := read_tpm_reg t locality TPM_REG_ACCESS 1 s
  if acc_active_locality r.1 = 1 then (some (), r.2) else (none, r.2)

/-- One iteration of the command-ready wait of `tpm_wait_cmd_ready`. -/
def cmd_ready_body {σ : Type} (t : Tpm σ) (locality : Nat) (s : Hw σ) : Option Unit × Hw σ :=
  let s1 := write_tpm_reg t locality TPM_REG_STS STS_COMMAND_READY s
  let r := read_tpm_reg t locality TPM_REG_STS 3 s1
  if sts_command_ready r.1 = 1 then (some (), r.2) else (none, r.2)

/-- Source `tpm_wait_cmd_ready(locality)`. -/
def tpm_wait_cmd_ready {σ : Type} (h : TpmH) (t : Tpm σ) (locality : Nat) (s : Hw σ) :
    Nat × Hw σ :=
  let r0 := read_tpm_reg t locality TPM_REG_ACCESS 1 s
  if acc_tpm_reg_valid_sts r0.1 = 0 then (h.TPM_FAIL, printk Msg.access_reg_not_valid r0.2)
  else
    let s1 := write_tpm_reg t locality TPM_REG_ACCESS ACC_REQUEST_USE r0.2
    let r1 := poll (active_body t locality) TPM_ACTIVE_LOCALITY_TIME_OUT s1
    match r1.1 with
    | none => (h.TPM_FAIL, printk Msg.request_use_timeout r1.2)
    | some _ =>
      let r2 := poll (cmd_ready_body t locality) TPM_CMD_READY_TIME_OUT r1.2
      match r2.1 with
      | none =>
        let s2 := printk Msg.command_ready_timeout (printk Msg.status_reg_content r2.2)
        (h.TPM_FAIL, write_tpm_reg t locality TPM_REG_ACCESS ACC_ACTIVE_LOCALITY s2)
      | some _ => (TPM_SUCCESS, r2.2)

/-- One iteration of the wait of `release_locality`. -/
def release_body {σ : Type} (t : Tpm σ) (locality : Nat) (s : Hw σ) : Option Unit × Hw σ :=
  let r := read_tpm_reg t locality TPM_REG_ACCESS 1 s
  if acc_active_locality r.1 = 0 then (some (), r.2) else (none, r.2)

/-- Source `release_locality(locality)`; `reg_acc._raw[0] = 0;
reg_acc.active_locality = 1;` builds the deactivation value. -/
def release_locality {σ : Type} (t : Tpm σ) (locality : Nat) (s : Hw σ) : Bool × Hw σ :=
  let r0 := read_tpm_reg t locality TPM_REG_ACCESS 1 s
  if acc_active_locality r0.1 = 0 then (true, r0.2)
  else
    let s1 := write_tpm_reg t locality TPM_REG_ACCESS ACC_ACTIVE_LOCALITY r0.2
    let r1 := poll (release_body t locality) TPM_ACTIVE_LOCALITY_TIME_OUT s1
    match r1.1 with
    | some _ => (true, r1.2)
    | none => (false, printk Msg.release_locality_timeout r1.2)

/-- Source `RSP_SIZE_OFFSET`. -/
def RSP_SIZE_OFFSET : Nat := 2

/-- Source `RSP_RST_OFFSET`. -/
def RSP_RST_OFFSET : Nat := 6

/-- One iteration of the burst-count waits of `tpm_write_cmd_fifo`; the value
kept is `row_size`. -/
def burst_body {σ : Type} (t : Tpm σ) (locality : Nat) (s : Hw σ) : Option Nat × Hw σ :=
  let r := read_tpm_reg t locality TPM_REG_STS 3 s
  if 0 < sts_burst_count r.1 then (some (sts_burst_count r.1), r.2) else (none, r.2)

/-- One iteration of the data-available wait of `tpm_write_cmd_fifo`. -/
def data_avail_body {σ : Type} (t : Tpm σ) (locality : Nat) (s : Hw σ) : Option Unit × Hw σ :=
  let r := read_tpm_reg t locality TPM_REG_STS 3 s
  if sts_sts_valid r.1 = 1 ∧ sts_data_avail r.1 = 1 then (some (), r.2) else (none, r.2)

/-- The inner loop `for ( ; row_size > 0 && offset < in_size; row_size--, offset++ )`
of the command write; returns the new `offset`. -/
def fifo_write_row {σ : Type} (t : Tpm σ) (locality : Nat) (inp : List Nat) (in_size : Nat) :
    Nat → Nat → Hw σ → Nat × Hw σ
  | 0, offset, s => (offset, s)
  | row_size + 1, offset, s =>
    if offset < in_size then
      fifo_write_row t locality inp in_size row_size (offset + 1)
        (write_tpm_reg t locality TPM_REG_DATA_FIFO [rd inp offset] s)
    else (offset, s)

/-- The loop `do { ... } while ( offset < in_size )` of the command write, run
for at most `fuel` iterations: `none` when the fuel does not suffice,
`some (false, _)` after a burst-count timeout, `some (true, _)` when the loop
ends. -/
def fifo_write_loop {σ : Type} (t : Tpm σ) (locality : Nat) (inp : List Nat) (in_size : Nat) :
    Nat → Nat → Hw σ → Option (Bool × Hw σ)
  | 0, _, _ => none
  | fuel + 1, offset, s =>
    let r := poll (burst_body t locality) TPM_CMD_WRITE_TIME_OUT s
    match r.1 with
    | none => some (false, printk Msg.write_cmd_timeout r.2)
    | some row_size =>
      let w := fifo_write_row t locality inp in_size row_size offset r.2
      if w.1 < in_size then fifo_write_loop t locality inp in_size fuel w.1 w.2
      else some (true, w.2)

/-- The variables the response read loop updates. -/
structure RdVars (σ : Type) where
  offset : Nat
  rsp_size : Nat
  out : List Nat
  s : Hw σ

/-- The inner loop `for ( ; row_size > 0 && offset < *out_size; row_size--, offset++ )`
of the response read. -/
def fifo_read_row {σ : Type} (t : Tpm σ) (locality out_size : Nat) :
    Nat → RdVars σ → RdVars σ
  | 0, v => v
  | row_size + 1, v =>
    if v.offset < out_size then
      let r := read_tpm_reg t locality TPM_REG_DATA_FIFO 1 v.s
      let out1 := if v.offset < out_size then memcpy v.out v.offset r.1 else v.out
      let rsp_size1 :=
        if v.offset = RSP_RST_OFFSET - 1 then
          le_val (_reverse_copy (readBytes out1 RSP_SIZE_OFFSET 4) 4)
        else v.rsp_size
      fifo_read_row t locality out_size row_size ⟨v.offset + 1, rsp_size1, out1, r.2⟩
    else v

/-- The loop `do { ... } while ( offset < RSP_RST_OFFSET || (offset < rsp_size &&
offset < *out_size) )` of the response read, run for at most `fuel` iterations
(`none`: fuel does not suffice; `false`: burst-count timeout). -/
def fifo_read_loop {σ : Type} (t : Tpm σ) (locality out_size : Nat) :
    Nat → RdVars σ → Option (Bool × RdVars σ)
  | 0, _ => none
  | fuel + 1, v =>
    let r := poll (burst_body t locality) TPM_RSP_READ_TIME_OUT v.s
    match r.1 with
    | none => some (false, { v with s := printk Msg.read_rsp_timeout r.2 })
    | some row_size =>
      let v1 := fifo_read_row t locality out_size row_size { v with s := r.2 }
      if v1.offset < RSP_RST_OFFSET ∨ (v1.offset < v1.rsp_size ∧ v1.offset < out_size) then
        fifo_read_loop t locality out_size fuel v1
      else some (true, v1)

/-- What `tpm_write_cmd_fifo` leaves behind: the returned code, the area behind
`out`, `*out_size` and the hardware state. -/
structure FifoRes (σ : Type) where
  ret : Nat
  out : Option (List Nat)
  out_size : Option Nat
  hw : Hw σ

/-- The label `RelinquishControl` of `tpm_write_cmd_fifo`: deactivate the
locality and return `ret`. -/
def relinquish_control {σ : Type} (t : Tpm σ) (locality ret : Nat) (out : List Nat)
    (out_size : Nat) (s : Hw σ) : FifoRes σ :=
  ⟨ret, some out, some out_size, write_tpm_reg t locality TPM_REG_ACCESS ACC_ACTIVE_LOCALITY s⟩

/-- Source `tpm_write_cmd_fifo(locality, in, in_size, out, out_size)`.  The
write loop runs with fuel `in_size` and the read loop with fuel `*out_size`;
the result is `none` only if one of them needs more. -/
def tpm_write_cmd_fifo {σ : Type} (h : TpmH) (t : Tpm σ) (locality : Nat)
    (inp : Option (List Nat)) (in_size : Nat) (out : Option (List Nat))
    (out_size : Option Nat) (s : Hw σ) : Option (FifoRes σ) :=
  if h.TPM_NR_LOCALITIES ≤ locality then
    some ⟨h.TPM_BAD_PARAMETER, out, out_size, printk Msg.invalid_locality s⟩
  else
    match inp, out, out_size with
    | some inb, some outb, some osz =>
      if in_size < CMD_HEAD_SIZE ∨ osz < RSP_HEAD_SIZE then
        some ⟨h.TPM_BAD_PARAMETER, out, out_size, printk Msg.buf_size_too_small s⟩
      else
        let v := tpm_validate_locality t locality s
        if !v.1 then some ⟨h.TPM_FAIL, out, out_size, printk Msg.locality_not_open v.2⟩
        else
          let r := tpm_wait_cmd_ready h t locality v.2
          if r.1 ≠ TPM_SUCCESS then some ⟨r.1, out, out_size, r.2⟩
          else
            match fifo_write_loop t locality inb in_size in_size 0 r.2 with
            | none => none
            | some (false, s1) => some (relinquish_control t locality h.TPM_FAIL outb osz s1)
            | some (true, s1) =>
              let s2 := write_tpm_reg t locality TPM_REG_STS STS_TPM_GO s1
              let d := poll (data_avail_body t locality) TPM_DATA_AVAIL_TIME_OUT s2
              match d.1 with
              | none =>
                some (relinquish_control t locality h.TPM_FAIL outb osz
                  (printk Msg.data_avail_timeout d.2))
              | some _ =>
                match fifo_read_loop t locality osz osz ⟨0, 0, outb, d.2⟩ with
                | none => none
                | some (false, v1) =>
                  some (relinquish_control t locality h.TPM_FAIL v1.out osz v1.s)
                | some (true, v1) =>
                  let osz1 := if v1.rsp_size < osz then v1.rsp_size else osz
                  let ret := le_val (_reverse_copy (readBytes v1.out RSP_RST_OFFSET 4) 4)
                  let s3 := write_tpm_reg t locality TPM_REG_STS STS_COMMAND_READY v1.s
                  some (relinquish_control t locality ret v1.out osz1 s3)
    | _, _, _ => some ⟨h.TPM_BAD_PARAMETER, out, out_size, printk Msg.invalid_parameter s⟩

/-! ## Command submission and `tpm_get_random` -/

/-- Source `TPM_TAG_RQU_COMMAND`. -/
def TPM_TAG_RQU_COMMAND : Nat := 0x00C1

/-- Source `TPM_TAG_RQU_AUTH1_COMMAND`. -/
def TPM_TAG_RQU_AUTH1_COMMAND : Nat := 0x00C2

/-- Source `TPM_TAG_RQU_AUTH2_COMMAND`. -/
def TPM_TAG_RQU_AUTH2_COMMAND : Nat := 0x00C3

/-- Source `TPM_ORD_GET_RANDOM`. -/
def TPM_ORD_GET_RANDOM : Nat := 0x00000046

/-- Source `CMD_SIZE_OFFSET`. -/
def CMD_SIZE_OFFSET : Nat := 2

/-- Source `CMD_ORD_OFFSET`. -/
def CMD_ORD_OFFSET : Nat := 6

/-- What `_tpm_submit_cmd` leaves behind: the returned code, `*out_size` and the
global state. -/
structure SubmitRes (σ : Type) where
  ret : Nat
  out_size : Option Nat
  s : St σ

/-- Source `_tpm_submit_cmd(locality, tag, cmd, arg_size, out_size)`. -/
def _tpm_submit_cmd {σ : Type} (h : TpmH) (t : Tpm σ) (locality tag cmd arg_size : Nat)
    (out_size : Option Nat) (s : St σ) : Option (SubmitRes σ) :=
  match out_size with
  | none =>
    some ⟨h.TPM_BAD_PARAMETER, out_size, { s with hw := printk Msg.submit_invalid_param s.hw }⟩
  | some osz =>
    let cmd_size := u32 (CMD_HEAD_SIZE + arg_size)
    if h.TPM_CMD_SIZE_MAX < cmd_size then
      some ⟨h.TPM_BAD_PARAMETER, out_size, { s with hw := printk Msg.cmd_exceeds_max s.hw }⟩
    else
      let b1 := memcpy s.cmd_buf 0 (_reverse_copy (le_bytes 2 tag) 2)
      let b2 := memcpy b1 CMD_SIZE_OFFSET (_reverse_copy (le_bytes 4 cmd_size) 4)
      let b3 := memcpy b2 CMD_ORD_OFFSET (_reverse_copy (le_bytes 4 cmd) 4)
      let s1 := { s with cmd_buf := b3 }
      let rsp_size0 := u32 (RSP_HEAD_SIZE + osz)
      let rsp_size1 := if h.TPM_RSP_SIZE_MAX < rsp_size0 then h.TPM_RSP_SIZE_MAX else rsp_size0
      match tpm_write_cmd_fifo h t locality (some s1.cmd_buf) cmd_size (some s1.rsp_buf)
          (some rsp_size1) s1.hw with
      | none => none
      | some r =>
        let s2 := { s1 with hw := r.hw, rsp_buf := r.out.getD s1.rsp_buf }
        let rsp_size2 := r.out_size.getD rsp_size1
        let rsp_size3 := rsp_size2 - (if RSP_HEAD_SIZE < rsp_size2 then RSP_HEAD_SIZE else rsp_size2)
        if r.ret ≠ TPM_SUCCESS then some ⟨r.ret, out_size, s2⟩
        else if osz = 0 ∨ rsp_size3 = 0 then some ⟨r.ret, some 0, s2⟩
        else some ⟨r.ret, some (if rsp_size3 < osz then rsp_size3 else osz), s2⟩

/-- Source `tpm_submit_cmd(locality, cmd, arg_size, out_size)`. -/
def tpm_submit_cmd {σ : Type} (h : TpmH) (t : Tpm σ) (locality cmd arg_size : Nat)
    (out_size : Option Nat) (s : St σ) : Option (SubmitRes σ) :=
  _tpm_submit_cmd h t locality TPM_TAG_RQU_COMMAND cmd arg_size out_size s

/-- Source `tpm_submit_cmd_auth1(locality, cmd, arg_size, out_size)`. -/
def tpm_submit_cmd_auth1 {σ : Type} (h : TpmH) (t : Tpm σ) (locality cmd arg_size : Nat)
    (out_size : Option Nat) (s : St σ) : Option (SubmitRes σ) :=
  _tpm_submit_cmd h t locality TPM_TAG_RQU_AUTH1_COMMAND cmd arg_size out_size s

/-- Source `tpm_submit_cmd_auth2(locality, cmd, arg_size, out_size)`. -/
def tpm_submit_cmd_auth2 {σ : Type} (h : TpmH) (t : Tpm σ) (locality cmd arg_size : Nat)
    (out_size : Option Nat) (s : St σ) : Option (SubmitRes σ) :=
  _tpm_submit_cmd h t locality TPM_TAG_RQU_AUTH2_COMMAND cmd arg_size out_size s

/-- What `tpm_get_random` leaves behind: the returned code, the area that
`random_data` points into, `*data_size` and the global state. -/
structure RandomRes (σ : Type) where
  ret : Nat
  random_data : Option (List Nat)
  data_size : Option Nat
  s : St σ

/-- Source `tpm_get_random(locality, random_data, data_size)`.  The pointer
`random_data` is the area `random_data` and the position `pos` in it (0 for the
caller, `pos + *data_size` in the recursive call).  `fuel` bounds the depth of
the recursion; the result is `none` when it does not suffice. -/
def tpm_get_random {σ : Type} (h : TpmH) (t : Tpm σ) :
    Nat → Nat → Option (List Nat) → Nat → Option Nat → St σ → Option (RandomRes σ)
  | 0, _, _, _, _, _ => none
  | fuel + 1, locality, random_data, pos, data_size, s =>
    match random_data, data_size with
    | some rdat, some dsz =>
      if dsz = 0 then some ⟨h.TPM_BAD_PARAMETER, random_data, data_size, s⟩
      else
        let requested_size := dsz
        let s1 := { s with first_attempt := true,
                           cmd_buf := memcpy s.cmd_buf (CMD_HEAD_SIZE + 0)
                                        (_reverse_copy (le_bytes 4 dsz) 4) }
        let in_size := 4
        let out_size := u32 (dsz + 4)
        match tpm_submit_cmd h t locality TPM_ORD_GET_RANDOM in_size (some out_size) s1 with
        | none => none
        | some r =>
          if r.ret ≠ TPM_SUCCESS then
            some ⟨r.ret, random_data, data_size,
              { r.s with hw := printk Msg.get_random_failed r.s.hw }⟩
          else if r.out_size.getD out_size ≤ 4 then some ⟨r.ret, random_data, some 0, r.s⟩
          else
            let dsz1 := be_at r.s.rsp_buf RSP_HEAD_SIZE 4
            let rdat1 :=
              if 0 < dsz1 then memcpy rdat pos (readBytes r.s.rsp_buf (RSP_HEAD_SIZE + 4) dsz1)
              else rdat
            let s3 := { r.s with rsp_buf := memset r.s.rsp_buf (RSP_HEAD_SIZE + 4) 0 dsz1 }
            if dsz1 < requested_size then
              let s4 := { s3 with hw := printk Msg.random_short s3.hw }
              if s4.first_attempt then
                let s5 := { s4 with first_attempt := false,
                                    hw := printk Msg.random_retry s4.hw }
                let second_size := requested_size - dsz1
                match tpm_get_random h t fuel locality (some rdat1) (pos + dsz1)
                    (some second_size) s5 with
                | none => none
                | some r2 =>
                  some ⟨r2.ret, r2.random_data,
                    some (u32 (dsz1 + r2.data_size.getD second_size)), r2.s⟩
              else some ⟨r.ret, some rdat1, some dsz1, s4⟩
            else some ⟨r.ret, some rdat1, some dsz1, s3⟩
    | _, _ => some ⟨h.TPM_BAD_PARAMETER, random_data, data_size, s⟩

/-- Number of "execute" writes (`tpm_go`) in an event list: one per command
executed by the module. -/
def go_count (log : List Ev) : Nat :=
  (log.filter fun e => match e with
    | Ev.wr _ reg val => decide (reg = TPM_REG_STS ∧ val = STS_TPM_GO)
    | _ => false).length

/-! ## Sealing: `hmac`, `tpm_osap`, `_tpm_seal`, `_tpm_wrap_seal`, `init_pcr_info`, `tpm_seal` -/

/-- Source `TPM_ORD_SEAL`. -/
def TPM_ORD_SEAL : Nat := 0x00000017

/-- Source `TPM_ORD_OSAP`. -/
def TPM_ORD_OSAP : Nat := 0x0000000B

/-- Source `TPM_ET_SRK`. -/
def TPM_ET_SRK : Nat := 0x0004

/-- Source `TPM_KH_SRK`. -/
def TPM_KH_SRK : Nat := 0x40000000

/-- Source `HMAC_BLOCK_SIZE`. -/
def HMAC_BLOCK_SIZE : Nat := 64

/-- Source `HMAC_OUTPUT_SIZE`. -/
def HMAC_OUTPUT_SIZE : Nat := 20

/-- Source `srk_authdata`. -/
def srk_authdata : List Nat := [0, 0, 0, 0, 0, 0, 0, 0, 0, 0, 0, 0, 0, 0, 0, 0, 0, 0, 0, 0]

/-- Source `blob_authdata`. -/
def blob_authdata : List Nat := [0, 0, 0, 0, 0, 0, 0, 0, 0, 0, 0, 0, 0, 0, 0, 0, 0, 0, 0, 0]

/-- Source `sizeof(tpm_nonce_t)`, also `sizeof(tpm_authdata_t)`. -/
def sizeof_nonce : Nat := 20

/-- Source `WRAPPER_OUT_MAX_SIZE`. -/
def WRAPPER_OUT_MAX_SIZE (h : TpmH) : Nat := h.TPM_RSP_SIZE_MAX - RSP_HEAD_SIZE

/-- Source `hmac(key, msg, len, md)`: the returned `bool` and the 20 bytes
stored through `md`.  `SHA1_Init`, `SHA1_Update`..., `SHA1_Final` hash the
concatenation of the updates with the primitive `sha1`. -/
def hmac (sha1 : List Nat → List Nat) (key msg : List Nat) : Bool × List Nat :=
  let ipad := (List.range HMAC_BLOCK_SIZE).map fun i =>
    if i < HMAC_OUTPUT_SIZE then (0x36 ^^^ rd key i) % 256 else 0x36
  let opad := (List.range HMAC_BLOCK_SIZE).map fun i =>
    if i < HMAC_OUTPUT_SIZE then (0x5C ^^^ rd key i) % 256 else 0x5C
  let md := readBytes (sha1 (ipad ++ msg)) 0 HMAC_OUTPUT_SIZE
  (true, readBytes (sha1 (opad ++ readBytes md 0 HMAC_OUTPUT_SIZE)) 0 HMAC_OUTPUT_SIZE)

/-- Source `XOR_BLOB_TYPE(data, pad)` with `n = sizeof(*(data))` and
`m = sizeof(*(pad))`. -/
def XOR_BLOB_TYPE (data pad : List Nat) (n m : Nat) : List Nat :=
  (List.range n).foldl (fun d i => memcpy d i [(rd d i ^^^ rd pad (i % m)) % 256]) data

/-- What `tpm_osap` leaves behind: the returned code, the areas behind its three
output pointers and the global state. -/
structure OsapRes (σ : Type) where
  ret : Nat
  hauth : Option (List Nat)
  nonce_even : Option (List Nat)
  even_osap : Option (List Nat)
  s : St σ

/-- Source `tpm_osap(locality, ent_type, ent_value, odd_osap, hauth, nonce_even,
even_osap)`; `ent_type` is a `uint16_t`, `*hauth` a `uint32_t`. -/
def tpm_osap {σ : Type} (h : TpmH) (t : Tpm σ) (locality ent_type ent_value : Nat)
    (odd_osap hauth nonce_even even_osap : Option (List Nat)) (s : St σ) :
    Option (OsapRes σ) :=
  match odd_osap, hauth, nonce_even, even_osap with
  | some odd, some ha, some ne, some eo =>
    let c := (⟨s.cmd_buf, 0⟩ : Cur)
      |> UNLOAD_INTEGER CMD_HEAD_SIZE (le_bytes 2 ent_type)
      |> UNLOAD_INTEGER CMD_HEAD_SIZE (le_bytes 4 ent_value)
      |> UNLOAD_BLOB CMD_HEAD_SIZE (readBytes odd 0 sizeof_nonce)
    let out_size := 4 + sizeof_nonce + sizeof_nonce
    match tpm_submit_cmd h t locality TPM_ORD_OSAP c.offset (some out_size)
        { s with cmd_buf := c.mem } with
    | none => none
    | some r =>
      if r.ret ≠ TPM_SUCCESS then
        some ⟨r.ret, hauth, nonce_even, even_osap,
          { r.s with hw := printk Msg.osap_failed r.s.hw }⟩
      else
        let c1 := LOAD_INTEGER r.s.rsp_buf RSP_HEAD_SIZE 0 4 ⟨ha, 0⟩
        let c2 := LOAD_BLOB r.s.rsp_buf RSP_HEAD_SIZE 0 sizeof_nonce ⟨ne, c1.offset⟩
        let c3 := LOAD_BLOB r.s.rsp_buf RSP_HEAD_SIZE 0 sizeof_nonce ⟨eo, c2.offset⟩
        some ⟨r.ret, some c1.mem, some c2.mem, some c3.mem, r.s⟩
  | _, _, _, _ => some ⟨h.TPM_BAD_PARAMETER, hauth, nonce_even, even_osap, s⟩

/-- What `_tpm_seal` leaves behind: the returned code, the areas behind its
output pointers and the global state. -/
structure SealRes (σ : Type) where
  ret : Nat
  cont_session : Option (List Nat)
  sealed_data_size : Option Nat
  sealed_data : Option (List Nat)
  nonce_even : Option (List Nat)
  res_auth : Option (List Nat)
  s : St σ

/-- Source `_tpm_seal(locality, hkey, enc_auth, pcr_info_size, pcr_info,
in_data_size, in_data, hauth, nonce_odd, cont_session, pub_auth,
sealed_data_size, sealed_data, nonce_even, res_auth)`. -/
def _tpm_seal {σ : Type} (h : TpmH) (t : Tpm σ) (locality hkey : Nat)
    (enc_auth : Option (List Nat)) (pcr_info_size : Nat) (pcr_info : Option (List Nat))
    (in_data_size : Nat) (in_data : Option (List Nat)) (hauth : Nat)
    (nonce_odd cont_session pub_auth : Option (List Nat)) (sealed_data_size : Option Nat)
    (sealed_data nonce_even res_auth : Option (List Nat)) (s : St σ) : Option (SealRes σ) :=
  match enc_auth, pcr_info, in_data, nonce_odd, cont_session, pub_auth, sealed_data_size,
      sealed_data, nonce_even, res_auth with
  | some ea, some info, some ind, some no, some cs, some pa, some sds, some sd, some ne,
      some ra =>
    let c := (⟨s.cmd_buf, 0⟩ : Cur)
      |> UNLOAD_INTEGER CMD_HEAD_SIZE (le_bytes 4 hkey)
      |> UNLOAD_BLOB CMD_HEAD_SIZE (readBytes ea 0 sizeof_nonce)
      |> UNLOAD_INTEGER CMD_HEAD_SIZE (le_bytes 4 pcr_info_size)
      |> UNLOAD_PCR_INFO_LONG CMD_HEAD_SIZE info 0
      |> UNLOAD_INTEGER CMD_HEAD_SIZE (le_bytes 4 in_data_size)
      |> UNLOAD_BLOB CMD_HEAD_SIZE (readBytes ind 0 in_data_size)
      |> UNLOAD_INTEGER CMD_HEAD_SIZE (le_bytes 4 hauth)
      |> UNLOAD_BLOB CMD_HEAD_SIZE (readBytes no 0 sizeof_nonce)
      |> UNLOAD_INTEGER CMD_HEAD_SIZE (readBytes cs 0 1)
      |> UNLOAD_BLOB CMD_HEAD_SIZE (readBytes pa 0 sizeof_nonce)
    let out_size := WRAPPER_OUT_MAX_SIZE h
    match tpm_submit_cmd_auth1 h t locality TPM_ORD_SEAL c.offset (some out_size)
        { s with cmd_buf := c.mem } with
    | none => none
    | some r =>
      if r.ret ≠ TPM_SUCCESS then
        some ⟨r.ret, cont_session, sealed_data_size, sealed_data, nonce_even, res_auth,
          { r.s with hw := printk Msg.seal_failed r.s.hw }⟩
      else
        let out_size1 := r.out_size.getD out_size
        if sds < u32 (out_size1 + (4294967296 - (sizeof_nonce + 1 + sizeof_nonce))) then
          some ⟨h.TPM_NOSPACE, cont_session, sealed_data_size, sealed_data, nonce_even,
            res_auth, { r.s with hw := printk Msg.sealed_blob_too_small r.s.hw }⟩
        else
          let c1 := LOAD_STORED_DATA12 r.s.rsp_buf RSP_HEAD_SIZE ⟨sd, 0⟩
          let c2 := LOAD_BLOB r.s.rsp_buf RSP_HEAD_SIZE 0 sizeof_nonce ⟨ne, c1.offset⟩
          let c3 := LOAD_INTEGER r.s.rsp_buf RSP_HEAD_SIZE 0 1 ⟨cs, c2.offset⟩
          let c4 := LOAD_BLOB r.s.rsp_buf RSP_HEAD_SIZE 0 sizeof_nonce ⟨ra, c3.offset⟩
          some ⟨r.ret, some c3.mem, some c1.offset, some c1.mem, some c2.mem, some c4.mem, r.s⟩
  | _, _, _, _, _, _, _, _, _, _ =>
    some ⟨h.TPM_BAD_PARAMETER, cont_session, sealed_data_size, sealed_data, nonce_even,
      res_auth, { s with hw := printk Msg._tpm_seal_bad_parameter s.hw }⟩

/-- What `tpm_seal` and `_tpm_wrap_seal` leave behind: the returned code,
`*sealed_data_size`, the area behind `sealed_data` and the global state. -/
structure SealOut (σ : Type) where
  ret : Nat
  sealed_data_size : Option Nat
  sealed_data : Option (List Nat)
  s : St σ

/-- Source `_tpm_wrap_seal(locality, pcr_info, in_data_size, in_data,
sealed_data_size, sealed_data)`.  `odd_osap` and `nonce_odd` are the contents
of the two locals that the function uses without initialising them ("just use
the random value in stack"); the other locals are written before they are read
and start as zero bytes here. -/
def _tpm_wrap_seal {σ : Type} (h : TpmH) (t : Tpm σ) (sha1 : List Nat → List Nat)
    (odd_osap nonce_odd : List Nat) (locality : Nat) (pcr_info : List Nat)
    (in_data_size : Nat) (in_data : List Nat) (sealed_data_size : Option Nat)
    (sealed_data : Option (List Nat)) (s : St σ) : Option (SealOut σ) :=
  let zero20 : List Nat := List.replicate sizeof_nonce 0
  let cont_session : List Nat := [0]
  let hkey := TPM_KH_SRK
  let pcr_info_size := sizeof_pcr_info_long
  let ordinal := TPM_ORD_SEAL
  match tpm_osap h t locality TPM_ET_SRK TPM_KH_SRK (some odd_osap)
      (some (List.replicate 4 0)) (some zero20) (some zero20) s with
  | none => none
  | some o =>
    if o.ret ≠ TPM_SUCCESS then some ⟨o.ret, sealed_data_size, sealed_data, o.s⟩
    else
      let hauth := o.hauth.getD []
      let nonce_even := o.nonce_even.getD []
      let even_osap := o.even_osap.getD []
      let a := (⟨o.s.cmd_buf, 0⟩ : Cur)
        |> UNLOAD_BLOB CMD_HEAD_SIZE (readBytes even_osap 0 sizeof_nonce)
        |> UNLOAD_BLOB CMD_HEAD_SIZE (readBytes odd_osap 0 sizeof_nonce)
      let shared_secret := (hmac sha1 srk_authdata (readBytes a.mem CMD_HEAD_SIZE a.offset)).2
      let b := (⟨a.mem, 0⟩ : Cur)
        |> UNLOAD_BLOB CMD_HEAD_SIZE (readBytes shared_secret 0 sizeof_nonce)
        |> UNLOAD_BLOB CMD_HEAD_SIZE (readBytes nonce_even 0 sizeof_nonce)
      let digest := sha1_buffer sha1 (readBytes b.mem CMD_HEAD_SIZE b.offset)
      let enc_auth := XOR_BLOB_TYPE (memcpy zero20 0 (readBytes blob_authdata 0 sizeof_nonce))
        digest sizeof_nonce TPM_DIGEST_SIZE
      let c := (⟨b.mem, 0⟩ : Cur)
        |> UNLOAD_INTEGER CMD_HEAD_SIZE (le_bytes 4 ordinal)
        |> UNLOAD_BLOB CMD_HEAD_SIZE (readBytes enc_auth 0 sizeof_nonce)
        |> UNLOAD_INTEGER CMD_HEAD_SIZE (le_bytes 4 pcr_info_size)
        |> UNLOAD_PCR_INFO_LONG CMD_HEAD_SIZE pcr_info 0
        |> UNLOAD_INTEGER CMD_HEAD_SIZE (le_bytes 4 in_data_size)
        |> UNLOAD_BLOB CMD_HEAD_SIZE (readBytes in_data 0 in_data_size)
      let digest2 := sha1_buffer sha1 (readBytes c.mem CMD_HEAD_SIZE c.offset)
      let d := (⟨c.mem, 0⟩ : Cur)
        |> UNLOAD_BLOB CMD_HEAD_SIZE (readBytes digest2 0 TPM_DIGEST_SIZE)
        |> UNLOAD_BLOB CMD_HEAD_SIZE (readBytes nonce_even 0 sizeof_nonce)
        |> UNLOAD_BLOB CMD_HEAD_SIZE (readBytes nonce_odd 0 sizeof_nonce)
        |> UNLOAD_INTEGER CMD_HEAD_SIZE (readBytes cont_session 0 1)
      let pub_auth := (hmac sha1 shared_secret (readBytes d.mem CMD_HEAD_SIZE d.offset)).2
      match _tpm_seal h t locality hkey (some enc_auth) pcr_info_size (some pcr_info)
          in_data_size (some in_data) (le_val (readBytes hauth 0 4)) (some nonce_odd)
          (some cont_session) (some pub_auth) sealed_data_size sealed_data (some nonce_even)
          (some zero20) { o.s with cmd_buf := d.mem } with
      | none => none
      | some r => some ⟨r.ret, r.sealed_data_size, r.sealed_data, r.s⟩

/-- The value a C function declared `bool` returns for `return v;`: true exactly
when the integer `v` is non-zero. -/
def c_bool (v : Nat) : Bool := decide (v ≠ 0)

/-- Source `init_pcr_info(locality, release_locs, nr_create, indcs_create,
nr_release, indcs_release, values_release, pcr_info)`, declared `bool`; every
rejection is the statement `return TPM_BAD_PARAMETER;`.  Returns the result,
the area behind `pcr_info` and the global `cmd_buf`. -/
def init_pcr_info (h : TpmH) (sha1 : List Nat → List Nat) (cmd_buf : List Nat)
    (locality release_locs nr_create : Nat) (indcs_create : Option (List Nat))
    (nr_release : Nat) (indcs_release : Option (List Nat))
    (values_release : Option (List (Option (List Nat)))) (pcr_info : Option (List Nat)) :
    Bool × Option (List Nat) × List Nat :=
  if release_locs &&& h.TPM_LOC_RSVD ≠ 0 then (c_bool h.TPM_BAD_PARAMETER, pcr_info, cmd_buf)
  else
    match pcr_info with
    | none => (c_bool h.TPM_BAD_PARAMETER, pcr_info, cmd_buf)
    | some info0 =>
      if h.TPM_NR_LOCALITIES ≤ locality then (c_bool h.TPM_BAD_PARAMETER, pcr_info, cmd_buf)
      else
        let nr_create := if indcs_create = none then 0 else nr_create
        let nr_release := if indcs_release = none ∨ values_release = none then 0 else nr_release
        let ixc := indcs_create.getD []
        let ixr := indcs_release.getD []
        let vs := values_release.getD []
        if (List.range nr_create).any (fun i => decide (TPM_NR_PCRS ≤ rd ixc i)) then
          (c_bool h.TPM_BAD_PARAMETER, pcr_info, cmd_buf)
        else if (List.range nr_release).any
            (fun i => decide (TPM_NR_PCRS ≤ rd ixr i) || (vs.getD i none).isNone) then
          (c_bool h.TPM_BAD_PARAMETER, pcr_info, cmd_buf)
        else
          let m0 := memset info0 0 0 sizeof_pcr_info_long
          let m1 := memcpy m0 0 (le_bytes 2 TPM_TAG_PCR_INFO_LONG)
          let m2 := memcpy m1 2 [rd h.TPM_LOC locality]
          let m3 := memcpy m2 3 [release_locs % 256]
          let m4 := memcpy m3 4 (le_bytes 2 3)
          let m5 := (List.range nr_create).foldl (fun m i => pcr_select_or m 4 (rd ixc i)) m4
          let m6 := memcpy m5 9 (le_bytes 2 3)
          let m7 := (List.range nr_release).foldl (fun m i => pcr_select_or m 9 (rd ixr i)) m6
          if 0 < nr_release then
            let c1 := (⟨cmd_buf, 0⟩ : Cur) |> UNLOAD_PCR_SELECTION CMD_HEAD_SIZE m7 9
            let blob_size := u32 (TPM_DIGEST_SIZE * nr_release)
            let c2 := UNLOAD_INTEGER CMD_HEAD_SIZE (le_bytes 4 blob_size) c1
            let c3 := (List.range nr_release).foldl
              (fun c i => UNLOAD_BLOB CMD_HEAD_SIZE (pcr_value vs i) c) c2
            (true, some (memcpy m7 34
              (sha1_buffer sha1 (readBytes c3.mem CMD_HEAD_SIZE c3.offset))), c3.mem)
          else (true, some m7, cmd_buf)

/-- Contents of the locals of `tpm_seal` and `_tpm_wrap_seal` that can be read
before the code has written them: `pcr_info`, `odd_osap`, `nonce_odd`. -/
structure SealStack where
  pcr_info : List Nat
  odd_osap : List Nat
  nonce_odd : List Nat
deriving DecidableEq, Repr

/-- Source `tpm_seal(locality, release_locs, pcr_nr_create, pcr_indcs_create,
pcr_nr_release, pcr_indcs_release, pcr_values_release, in_data_size, in_data,
sealed_data_size, sealed_data)`. -/
def tpm_seal {σ : Type} (h : TpmH) (t : Tpm σ) (sha1 : List Nat → List Nat)
    (stack : SealStack) (locality release_locs pcr_nr_create : Nat)
    (pcr_indcs_create : Option (List Nat)) (pcr_nr_release : Nat)
    (pcr_indcs_release : Option (List Nat))
    (pcr_values_release : Option (List (Option (List Nat)))) (in_data_size : Nat)
    (in_data : Option (List Nat)) (sealed_data_size : Option Nat)
    (sealed_data : Option (List Nat)) (s : St σ) : Option (SealOut σ) :=
  if h.TPM_NR_LOCALITIES ≤ locality ∨ in_data_size = 0 ∨ in_data = none ∨
      sealed_data_size = none ∨ sealed_data = none ∨ sealed_data_size = some 0 then
    some ⟨h.TPM_BAD_PARAMETER, sealed_data_size, sealed_data,
      { s with hw := printk Msg.tpm_seal_bad_parameter s.hw }⟩
  else
    let r := init_pcr_info h sha1 s.cmd_buf locality release_locs pcr_nr_create
      pcr_indcs_create pcr_nr_release pcr_indcs_release pcr_values_release
      (some stack.pcr_info)
    if !r.1 then
      some ⟨h.TPM_BAD_PARAMETER, sealed_data_size, sealed_data,
        { s with cmd_buf := r.2.2, hw := printk Msg.tpm_seal_bad_parameter s.hw }⟩
    else
      _tpm_wrap_seal h t sha1 stack.odd_osap stack.nonce_odd locality
        (r.2.1.getD stack.pcr_info) in_data_size (in_data.getD []) sealed_data_size
        sealed_data { s with cmd_buf := r.2.2 }

/-! ## Unsealing: `tpm_oiap`, `_tpm_unseal`, `_tpm_wrap_unseal`, `tpm_unseal` -/

/-- Source `TPM_ORD_UNSEAL`. -/
def TPM_ORD_UNSEAL : Nat := 0x00000018

/-- Source `TPM_ORD_OIAP`. -/
def TPM_ORD_OIAP : Nat := 0x0000000A

/-- What `tpm_oiap` leaves behind: the returned code, the areas behind its two
output pointers and the global state. -/
structure OiapRes (σ : Type) where
  ret : Nat
  hauth : Option (List Nat)
  nonce_even : Option (List Nat)
  s : St σ

/-- Source `tpm_oiap(locality, hauth, nonce_even)`. -/
def tpm_oiap {σ : Type} (h : TpmH) (t : Tpm σ) (locality : Nat)
    (hauth nonce_even : Option (List Nat)) (s : St σ) : Option (OiapRes σ) :=
  match hauth, nonce_even with
  | some ha, some ne =>
    let offset := 0
    let out_size := 4 + sizeof_nonce
    match tpm_submit_cmd h t locality TPM_ORD_OIAP offset (some out_size) s with
    | none => none
    | some r =>
      if r.ret ≠ TPM_SUCCESS then
        some ⟨r.ret, hauth, nonce_even, { r.s with hw := printk Msg.oiap_failed r.s.hw }⟩
      else
        let c1 := LOAD_INTEGER r.s.rsp_buf RSP_HEAD_SIZE 0 4 ⟨ha, 0⟩
        let c2 := LOAD_BLOB r.s.rsp_buf RSP_HEAD_SIZE 0 sizeof_nonce ⟨ne, c1.offset⟩
        some ⟨r.ret, some c1.mem, some c2.mem, r.s⟩
  | _, _ => some ⟨h.TPM_BAD_PARAMETER, hauth, nonce_even, s⟩

/-- What `_tpm_unseal` leaves behind: the returned code, the areas behind its
output pointers and the global state. -/
structure UnsealRes (σ : Type) where
  ret : Nat
  cont_session : Option (List Nat)
  cont_session_d : Option (List Nat)
  secret_size : Option Nat
  secret : Option (List Nat)
  nonce_even : Option (List Nat)
  res_auth : Option (List Nat)
  nonce_even_d : Option (List Nat)
  res_auth_d : Option (List Nat)
  s : St σ

/-- Source `_tpm_unseal(locality, hkey, in_data, hauth, nonce_odd, cont_session,
auth, hauth_d, nonce_odd_d, cont_session_d, auth_d, secret_size, secret,
nonce_even, res_auth, nonce_even_d, res_auth_d)`. -/
def _tpm_unseal {σ : Type} (h : TpmH) (t : Tpm σ) (locality hkey : Nat)
    (in_data : Option (List Nat)) (hauth : Nat)
    (nonce_odd cont_session auth : Option (List Nat)) (hauth_d : Nat)
    (nonce_odd_d cont_session_d auth_d : Option (List Nat)) (secret_size : Option Nat)
    (secret nonce_even res_auth nonce_even_d res_auth_d : Option (List Nat)) (s : St σ) :
    Option (UnsealRes σ) :=
  match in_data, nonce_odd, cont_session, auth, nonce_odd_d, cont_session_d, auth_d,
      secret_size, secret, nonce_even, res_auth, nonce_even_d, res_auth_d with
  | some ind, some no, some cs, some au, some nod, some csd, some aud, some ssz, some sec,
      some ne, some ra, some ned, some rad =>
    let c := (⟨s.cmd_buf, 0⟩ : Cur)
      |> UNLOAD_INTEGER CMD_HEAD_SIZE (le_bytes 4 hkey)
      |> UNLOAD_STORED_DATA12 CMD_HEAD_SIZE ind
      |> UNLOAD_INTEGER CMD_HEAD_SIZE (le_bytes 4 hauth)
      |> UNLOAD_BLOB CMD_HEAD_SIZE (readBytes no 0 sizeof_nonce)
      |> UNLOAD_INTEGER CMD_HEAD_SIZE (readBytes cs 0 1)
      |> UNLOAD_BLOB CMD_HEAD_SIZE (readBytes au 0 sizeof_nonce)
      |> UNLOAD_INTEGER CMD_HEAD_SIZE (le_bytes 4 hauth_d)
      |> UNLOAD_BLOB CMD_HEAD_SIZE (readBytes nod 0 sizeof_nonce)
      |> UNLOAD_INTEGER CMD_HEAD_SIZE (readBytes csd 0 1)
      |> UNLOAD_BLOB CMD_HEAD_SIZE (readBytes aud 0 sizeof_nonce)
    let out_size := WRAPPER_OUT_MAX_SIZE h
    match tpm_submit_cmd_auth2 h t locality TPM_ORD_UNSEAL c.offset (some out_size)
        { s with cmd_buf := c.mem } with
    | none => none
    | some r =>
      if r.ret ≠ TPM_SUCCESS then
        some ⟨r.ret, cont_session, cont_session_d, secret_size, secret, nonce_even, res_auth,
          nonce_even_d, res_auth_d, { r.s with hw := printk Msg.unseal_failed r.s.hw }⟩
      else
        let out_size1 := r.out_size.getD out_size
        if ssz < u32 (out_size1 + (4294967296 - (4 + sizeof_nonce + 1 + sizeof_nonce +
            sizeof_nonce + 1 + sizeof_nonce))) then
          some ⟨h.TPM_NOSPACE, cont_session, cont_session_d, secret_size, secret, nonce_even,
            res_auth, nonce_even_d, res_auth_d,
            { r.s with hw := printk Msg.unsealed_data_too_small r.s.hw }⟩
        else
          let ssz1 := be_at r.s.rsp_buf (RSP_HEAD_SIZE + 0) 4
          let c1 := LOAD_BLOB r.s.rsp_buf RSP_HEAD_SIZE 0 ssz1 ⟨sec, 4⟩
          let c2 := LOAD_BLOB r.s.rsp_buf RSP_HEAD_SIZE 0 sizeof_nonce ⟨ne, c1.offset⟩
          let c3 := LOAD_INTEGER r.s.rsp_buf RSP_HEAD_SIZE 0 1 ⟨cs, c2.offset⟩
          let c4 := LOAD_BLOB r.s.rsp_buf RSP_HEAD_SIZE 0 sizeof_nonce ⟨ra, c3.offset⟩
          let c5 := LOAD_BLOB r.s.rsp_buf RSP_HEAD_SIZE 0 sizeof_nonce ⟨ned, c4.offset⟩
          let c6 := LOAD_INTEGER r.s.rsp_buf RSP_HEAD_SIZE 0 1 ⟨csd, c5.offset⟩
          let c7 := LOAD_BLOB r.s.rsp_buf RSP_HEAD_SIZE 0 sizeof_nonce ⟨rad, c6.offset⟩
          some ⟨r.ret, some c3.mem, some c6.mem, some ssz1, some c1.mem, some c2.mem,
            some c4.mem, some c5.mem, some c7.mem, r.s⟩
  | _, _, _, _, _, _, _, _, _, _, _, _, _ =>
    some ⟨h.TPM_BAD_PARAMETER, cont_session, cont_session_d, secret_size, secret, nonce_even,
      res_auth, nonce_even_d, res_auth_d,
      { s with hw := printk Msg._tpm_unseal_bad_parameter s.hw }⟩

/-- What `tpm_unseal` and `_tpm_wrap_unseal` leave behind: the returned code,
`*secret_size`, the area behind `secret` and the global state. -/
structure UnsealOut (σ : Type) where
  ret : Nat
  secret_size : Option Nat
  secret : Option (List Nat)
  s : St σ

/-- Contents of the locals of `_tpm_wrap_unseal` that are read without having
been written: `odd_osap`, `nonce_odd`, `nonce_odd_d`. -/
structure UnsealStack where
  odd_osap : List Nat
  nonce_odd : List Nat
  nonce_odd_d : List Nat
deriving DecidableEq, Repr

/-- Source `_tpm_wrap_unseal(locality, in_data, secret_size, secret)`; the
locals other than those of `stack` are written before they are read and start
as zero bytes here. -/
def _tpm_wrap_unseal {σ : Type} (h : TpmH) (t : Tpm σ) (sha1 : List Nat → List Nat)
    (stack : UnsealStack) (locality : Nat) (in_data : List Nat) (secret_size : Option Nat)
    (secret : Option (List Nat)) (s : St σ) : Option (UnsealOut σ) :=
  let zero20 : List Nat := List.replicate sizeof_nonce 0
  let cont_session : List Nat := [0]
  let cont_session_d : List Nat := [0]
  let hkey := TPM_KH_SRK
  let ordinal := TPM_ORD_UNSEAL
  match tpm_osap h t locality TPM_ET_SRK TPM_KH_SRK (some stack.odd_osap)
      (some (List.replicate 4 0)) (some zero20) (some zero20) s with
  | none => none
  | some o =>
    if o.ret ≠ TPM_SUCCESS then some ⟨o.ret, secret_size, secret, o.s⟩
    else
      let hauth := o.hauth.getD []
      let nonce_even := o.nonce_even.getD []
      let even_osap := o.even_osap.getD []
      let a := (⟨o.s.cmd_buf, 0⟩ : Cur)
        |> UNLOAD_BLOB CMD_HEAD_SIZE (readBytes even_osap 0 sizeof_nonce)
        |> UNLOAD_BLOB CMD_HEAD_SIZE (readBytes stack.odd_osap 0 sizeof_nonce)
      let shared_secret := (hmac sha1 srk_authdata (readBytes a.mem CMD_HEAD_SIZE a.offset)).2
      match tpm_oiap h t locality (some (List.replicate 4 0)) (some zero20)
          { o.s with cmd_buf := a.mem } with
      | none => none
      | some p =>
        if p.ret ≠ TPM_SUCCESS then some ⟨p.ret, secret_size, secret, p.s⟩
        else
          let hauth_d := p.hauth.getD []
          let nonce_even_d := p.nonce_even.getD []
          let b := (⟨p.s.cmd_buf, 0⟩ : Cur)
            |> UNLOAD_INTEGER CMD_HEAD_SIZE (le_bytes 4 ordinal)
            |> UNLOAD_STORED_DATA12 CMD_HEAD_SIZE in_data
          let digest := sha1_buffer sha1 (readBytes b.mem CMD_HEAD_SIZE b.offset)
          let c := (⟨b.mem, 0⟩ : Cur)
            |> UNLOAD_BLOB CMD_HEAD_SIZE (readBytes digest 0 TPM_DIGEST_SIZE)
            |> UNLOAD_BLOB CMD_HEAD_SIZE (readBytes nonce_even 0 sizeof_nonce)
            |> UNLOAD_BLOB CMD_HEAD_SIZE (readBytes stack.nonce_odd 0 sizeof_nonce)
            |> UNLOAD_INTEGER CMD_HEAD_SIZE (readBytes cont_session 0 1)
          let pub_auth := (hmac sha1 shared_secret (readBytes c.mem CMD_HEAD_SIZE c.offset)).2
          let d := (⟨c.mem, 0⟩ : Cur)
            |> UNLOAD_BLOB CMD_HEAD_SIZE (readBytes digest 0 TPM_DIGEST_SIZE)
            |> UNLOAD_BLOB CMD_HEAD_SIZE (readBytes nonce_even_d 0 sizeof_nonce)
            |> UNLOAD_BLOB CMD_HEAD_SIZE (readBytes stack.nonce_odd_d 0 sizeof_nonce)
            |> UNLOAD_INTEGER CMD_HEAD_SIZE (readBytes cont_session_d 0 1)
          let pub_auth_d := (hmac sha1 blob_authdata (readBytes d.mem CMD_HEAD_SIZE d.offset)).2
          match _tpm_unseal h t locality hkey (some in_data) (le_val (readBytes hauth 0 4))
              (some stack.nonce_odd) (some cont_session) (some pub_auth)
              (le_val (readBytes hauth_d 0 4)) (some stack.nonce_odd_d) (some cont_session_d)
              (some pub_auth_d) secret_size secret (some nonce_even) (some zero20)
              (some nonce_even_d) (some zero20) { p.s with cmd_buf := d.mem } with
          | none => none
          | some r => some ⟨r.ret, r.secret_size, r.secret, r.s⟩

/-- Source `tpm_unseal(locality, sealed_data_size, sealed_data, secret_size,
secret)`. -/
def tpm_unseal {σ : Type} (h : TpmH) (t : Tpm σ) (sha1 : List Nat → List Nat)
    (stack : UnsealStack) (locality sealed_data_size : Nat) (sealed_data : Option (List Nat))
    (secret_size : Option Nat) (secret : Option (List Nat)) (s : St σ) :
    Option (UnsealOut σ) :=
  match sealed_data, secret_size, secret with
  | some sd, some _, some _ =>
    if !check_sealed_data sealed_data_size sd then
      some ⟨h.TPM_BAD_PARAMETER, secret_size, secret,
        { s with hw := printk Msg.tpm_unseal_blob_invalid s.hw }⟩
    else _tpm_wrap_unseal h t sha1 stack locality sd secret_size secret s
  | _, _, _ =>
    some ⟨h.TPM_BAD_PARAMETER, secret_size, secret,
      { s with hw := printk Msg.tpm_unseal_bad_parameter s.hw }⟩

/-! ## Register and non-volatile storage commands -/

/-- Source `TPM_ORD_PCR_EXTEND`. -/
def TPM_ORD_PCR_EXTEND : Nat := 0x00000014

/-- Source `TPM_ORD_PCR_READ`. -/
def TPM_ORD_PCR_READ : Nat := 0x00000015

/-- Source `TPM_ORD_PCR_RESET`. -/
def TPM_ORD_PCR_RESET : Nat := 0x000000C8

/-- Source `TPM_ORD_NV_READ_VALUE`. -/
def TPM_ORD_NV_READ_VALUE : Nat := 0x000000CF

/-- What the register commands leave behind: the returned code, the area behind
`out` and the global state. -/
structure PcrRes (σ : Type) where
  ret : Nat
  out : Option (List Nat)
  s : St σ

/-- Source `tpm_pcr_read(locality, pcr, out)`. -/
def tpm_pcr_read {σ : Type} (h : TpmH) (t : Tpm σ) (locality pcr : Nat)
    (out : Option (List Nat)) (s : St σ) : Option (PcrRes σ) :=
  match out with
  | none => some ⟨h.TPM_BAD_PARAMETER, out, s⟩
  | some o =>
    if TPM_NR_PCRS ≤ pcr then some ⟨h.TPM_BAD_PARAMETER, out, s⟩
    else
      let b1 := memcpy s.cmd_buf CMD_HEAD_SIZE (_reverse_copy (le_bytes 4 pcr) 4)
      let s1 := { s with cmd_buf := b1 }
      match tpm_submit_cmd h t locality TPM_ORD_PCR_READ 4 (some TPM_DIGEST_SIZE) s1 with
      | none => none
      | some r =>
        if r.ret ≠ TPM_SUCCESS then
          some ⟨r.ret, out, { r.s with hw := printk Msg.pcr_read_failed r.s.hw }⟩
        else
          let out_size := r.out_size.getD TPM_DIGEST_SIZE
          let out_size1 := if TPM_DIGEST_SIZE < out_size then TPM_DIGEST_SIZE else out_size
          some ⟨r.ret, some (memcpy o 0 (readBytes r.s.rsp_buf RSP_HEAD_SIZE out_size1)), r.s⟩

/-- Source `tpm_pcr_extend(locality, pcr, in, out)`. -/
def tpm_pcr_extend {σ : Type} (h : TpmH) (t : Tpm σ) (locality pcr : Nat)
    (inp out : Option (List Nat)) (s : St σ) : Option (PcrRes σ) :=
  match inp with
  | none => some ⟨h.TPM_BAD_PARAMETER, out, s⟩
  | some i =>
    if TPM_NR_PCRS ≤ pcr then some ⟨h.TPM_BAD_PARAMETER, out, s⟩
    else
      let out_size := if out = none then 0 else TPM_DIGEST_SIZE
      let b1 := memcpy s.cmd_buf CMD_HEAD_SIZE (_reverse_copy (le_bytes 4 pcr) 4)
      let b2 := memcpy b1 (CMD_HEAD_SIZE + 4) (readBytes i 0 TPM_DIGEST_SIZE)
      let in_size := 4 + TPM_DIGEST_SIZE
      match tpm_submit_cmd h t locality TPM_ORD_PCR_EXTEND in_size (some out_size)
          { s with cmd_buf := b2 } with
      | none => none
      | some r =>
        if r.ret ≠ TPM_SUCCESS then
          some ⟨r.ret, out, { r.s with hw := printk Msg.pcr_extend_failed r.s.hw }⟩
        else
          let out_size1 := r.out_size.getD out_size
          match out with
          | some o =>
            if 0 < out_size1 then
              let out_size2 := if TPM_DIGEST_SIZE < out_size1 then TPM_DIGEST_SIZE else out_size1
              some ⟨r.ret, some (memcpy o 0 (readBytes r.s.rsp_buf RSP_HEAD_SIZE out_size2)),
                r.s⟩
            else some ⟨r.ret, out, r.s⟩
          | none => some ⟨r.ret, out, r.s⟩

/-- Source `tpm_pcr_reset(locality, pcr)`; `pcr_sel` starts as `{0,{0,}}`. -/
def tpm_pcr_reset {σ : Type} (h : TpmH) (t : Tpm σ) (locality pcr : Nat) (s : St σ) :
    Option (PcrRes σ) :=
  if TPM_NR_PCRS ≤ pcr ∨ pcr < h.TPM_PCR_RESETABLE_MIN then
    some ⟨h.TPM_BAD_PARAMETER, none, s⟩
  else
    let pcr_sel0 : List Nat := [0, 0, 0, 0, 0]
    let size_of_select := (pcr / 8 + 1) % 65536
    let pcr_sel1 := memcpy pcr_sel0 0 (_reverse_copy (le_bytes 2 size_of_select) 2)
    let pcr_sel2 := memcpy pcr_sel1 (2 + pcr / 8) [(1 <<< (pcr % 8)) % 256]
    let in_size := sizeof_pcr_selection
    let b1 := memcpy s.cmd_buf CMD_HEAD_SIZE (readBytes pcr_sel2 0 in_size)
    let s1 := { s with cmd_buf := b1 }
    match tpm_submit_cmd h t locality TPM_ORD_PCR_RESET in_size (some 0) s1 with
    | none => none
    | some r => some ⟨r.ret, none, { r.s with hw := printk Msg.pcr_reset_result r.s.hw }⟩

/-- What `tpm_nv_read_value` leaves behind: the returned code, the area behind
`data`, `*data_size` and the global state. -/
structure NvRes (σ : Type) where
  ret : Nat
  data : Option (List Nat)
  data_size : Option Nat
  s : St σ

/-- Source `tpm_nv_read_value(locality, index, offset, data, data_size)`;
`tpm_nv_index_t` is a 4-byte integer. -/
def tpm_nv_read_value {σ : Type} (h : TpmH) (t : Tpm σ) (locality index offset : Nat)
    (data : Option (List Nat)) (data_size : Option Nat) (s : St σ) : Option (NvRes σ) :=
  match data, data_size with
  | some dat, some dsz0 =>
    if dsz0 = 0 then some ⟨h.TPM_BAD_PARAMETER, data, data_size, s⟩
    else
      let dsz :=
        if h.TPM_NV_READ_VALUE_DATA_SIZE_MAX < dsz0 then h.TPM_NV_READ_VALUE_DATA_SIZE_MAX
        else dsz0
      let b1 := memcpy s.cmd_buf CMD_HEAD_SIZE (_reverse_copy (le_bytes 4 index) 4)
      let b2 := memcpy b1 (CMD_HEAD_SIZE + 4) (_reverse_copy (le_bytes 4 offset) 4)
      let b3 := memcpy b2 (CMD_HEAD_SIZE + 8) (_reverse_copy (le_bytes 4 dsz) 4)
      let in_size := 12
      let out_size := u32 (dsz + 4)
      match tpm_submit_cmd h t locality TPM_ORD_NV_READ_VALUE in_size (some out_size)
          { s with cmd_buf := b3 } with
      | none => none
      | some r =>
        if r.ret ≠ TPM_SUCCESS then
          some ⟨r.ret, data, some dsz, { r.s with hw := printk Msg.nv_read_failed r.s.hw }⟩
        else
          let out_size1 := r.out_size.getD out_size
          if out_size1 ≤ 4 then some ⟨r.ret, data, some 0, r.s⟩
          else
            let out_size2 := out_size1 - 4
            let dsz1 := be_at r.s.rsp_buf RSP_HEAD_SIZE 4
            let dsz2 := if out_size2 < dsz1 then out_size2 else dsz1
            let dat1 :=
              if 0 < dsz2 then memcpy dat 0 (readBytes r.s.rsp_buf (RSP_HEAD_SIZE + 4) dsz2)
              else dat
            some ⟨r.ret, some dat1, some dsz2, r.s⟩
  | _, _ => some ⟨h.TPM_BAD_PARAMETER, data, data_size, s⟩

/-- Source `TPM_ORD_NV_WRITE_VALUE`. -/
def TPM_ORD_NV_WRITE_VALUE : Nat := 0x000000CD

/-- What `tpm_nv_write_value` leaves behind: the returned code and the global
state. -/
structure NvWriteRes (σ : Type) where
  ret : Nat
  s : St σ

/-- Source `tpm_nv_write_value(locality, index, offset, data, data_size)`. -/
def tpm_nv_write_value {σ : Type} (h : TpmH) (t : Tpm σ) (locality index offset : Nat)
    (data : Option (List Nat)) (data_size : Nat) (s : St σ) : Option (NvWriteRes σ) :=
  match data with
  | none => some ⟨h.TPM_BAD_PARAMETER, s⟩
  | some dat =>
    if data_size = 0 ∨ h.TPM_NV_WRITE_VALUE_DATA_SIZE_MAX < data_size then
      some ⟨h.TPM_BAD_PARAMETER, s⟩
    else
      let b1 := memcpy s.cmd_buf CMD_HEAD_SIZE (_reverse_copy (le_bytes 4 index) 4)
      let b2 := memcpy b1 (CMD_HEAD_SIZE + 4) (_reverse_copy (le_bytes 4 offset) 4)
      let b3 := memcpy b2 (CMD_HEAD_SIZE + 8) (_reverse_copy (le_bytes 4 data_size) 4)
      let b4 := memcpy b3 (CMD_HEAD_SIZE + 12) (readBytes dat 0 data_size)
      let in_size := u32 (12 + data_size)
      match tpm_submit_cmd h t locality TPM_ORD_NV_WRITE_VALUE in_size (some 0)
          { s with cmd_buf := b4 } with
      | none => none
      | some r =>
        if r.ret ≠ TPM_SUCCESS then
          some ⟨r.ret, { r.s with hw := printk Msg.nv_write_failed r.s.hw }⟩
        else some ⟨r.ret, r.s⟩

/-! ## Reading the event list -/

/-- Events that are neither a `printk`, nor a write to the access register,
nor the "execute" write: register reads, FIFO writes and command-ready writes. -/
def Ev.quiet : Ev → Bool
  | Ev.rd _ _ _ => true
  | Ev.wr _ reg val => decide (reg ≠ TPM_REG_ACCESS ∧ ¬ (reg = TPM_REG_STS ∧ val = STS_TPM_GO))
  | Ev.msg _ => false

/-- The events of a list that are not quiet, in the same order. -/
def summary (log : List Ev) : List Ev := log.filter fun e => !e.quiet

/-- The events of `after` that were added to `before` (newest first). -/
def new_events (before after : List Ev) : List Ev := after.take (after.length - before.length)

/-- Number of register reads (`read_tpm_reg`) in an event list. -/
def rd_count (log : List Ev) : Nat :=
  (log.filter fun e => match e with
    | Ev.rd _ _ _ => true
    | _ => false).length

/-- The hardware state `s2` is `s1` with more events, whose non-quiet ones are `X`. -/
def ext_by {σ : Type} (X : List Ev) (s1 s2 : Hw σ) : Prop :=
  ∃ evs, s2.log = evs ++ s1.log ∧ summary evs = X

/-! ## Statement helpers for `tpm_get_random` -/

/-- The global state in which `tpm_get_random`, entered in state `s` for `n`
bytes, hands its command to `tpm_write_cmd_fifo`: `first_attempt` is set and
`cmd_buf` holds the big-endian `n` after the 10-byte header (tag 0x00C1, size
14, ordinal 0x46). -/
def random_cmd_state {σ : Type} (s : St σ) (n : Nat) : St σ :=
  { s with
    first_attempt := true,
    cmd_buf :=
      memcpy (memcpy (memcpy
        (memcpy s.cmd_buf (CMD_HEAD_SIZE + 0) (_reverse_copy (le_bytes 4 n) 4))
        0 (_reverse_copy (le_bytes 2 TPM_TAG_RQU_COMMAND) 2))
        CMD_SIZE_OFFSET (_reverse_copy (le_bytes 4 14) 4))
        CMD_ORD_OFFSET (_reverse_copy (le_bytes 4 TPM_ORD_GET_RANDOM) 4) }

/-- The global state in which `tpm_get_random` retries after the transfer `r`
brought `k` bytes: the response is in `rsp_buf` with its `k` random bytes
cleared, the two messages are printed and `first_attempt` is false. -/
def random_retry_state {σ : Type} (s1 : St σ) (r : FifoRes σ) (k : Nat) : St σ :=
  { s1 with
    hw := printk Msg.random_retry (printk Msg.random_short r.hw),
    rsp_buf := memset (r.out.getD s1.rsp_buf) (RSP_HEAD_SIZE + 4) 0 k,
    first_attempt := false }

/-- The global state in which `tpm_get_random` returns after the transfer `r`
brought all the `k` bytes asked for. -/
def random_done_state {σ : Type} (s1 : St σ) (r : FifoRes σ) (k : Nat) : St σ :=
  { s1 with
    hw := r.hw,
    rsp_buf := memset (r.out.getD s1.rsp_buf) (RSP_HEAD_SIZE + 4) 0 k }

/-! ## Statement helpers for the codec -/

/-- Number of bytes a stored-data record occupies in memory: the packed struct
(short or long, by `seal_info_size`) followed by `enc_data_size` payload bytes. -/
def stored_data12_size (hdr : List Nat) : Nat :=
  if hdr_seal_info_size hdr = 0 then sizeof_stored_data12_short + short_enc_data_size hdr
  else sizeof_stored_data12 + long_enc_data_size hdr

/-- Number of bytes of the big-endian stored-data blob that starts at position
`base` of `buf`: header, then either payload length and payload (short form) or
PCR-info-long with its two self-describing selections, payload length and
payload (long form). -/
def wire_size (buf : List Nat) (base : Nat) : Nat :=
  if be_at buf (base + 4) 4 = 0 then 12 + be_at buf (base + 8) 4
  else
    let s1 := be_at buf (base + 12) 2
    let s2 := be_at buf (base + (14 + s1)) 2
    60 + s1 + s2 + be_at buf (base + (56 + s1 + s2)) 4

/-- Number of bytes the record decoded from that blob occupies in memory. -/
def wire_record_size (buf : List Nat) (base : Nat) : Nat :=
  if be_at buf (base + 4) 4 = 0 then 12 + be_at buf (base + 8) 4
  else
    let s1 := be_at buf (base + 12) 2
    let s2 := be_at buf (base + (14 + s1)) 2
    66 + be_at buf (base + (56 + s1 + s2)) 4

/-! ## Invariants used in the codec proofs -/

/-- The first `p` bytes of `m` are those of `hdr`. -/
def agree (m hdr : List Nat) (p : Nat) : Prop := ∀ i, i < p → rd m i = rd hdr i

/-- The first `p` bytes after `base2` in `m` are the first `p` bytes after `base` in `r`. -/
def agreeAt (m r : List Nat) (base base2 p : Nat) : Prop :=
  ∀ j, j < p → rd m (base2 + j) = rd r (base + j)

/-- The cursor `c` is at offset `p`, its area has length `L`, and every piece
`(o, bs)` of `ps` lies below `p` and is stored at `base + o`. -/
def wrote (c : Cur) (base : Nat) (ps : List (Nat × List Nat)) (p L : Nat) : Prop :=
  c.offset = p ∧ c.mem.length = L ∧
    ∀ x ∈ ps, x.1 + x.2.length ≤ p ∧ readBytes c.mem (base + x.1) x.2.length = x.2

/-- The cursor `c` is at offset `p`, its area has length `L`, and every piece
`(o, bs)` of `ps` lies below `bound` and is stored at position `o`. -/
def loaded (c : Cur) (ps : List (Nat × List Nat)) (p bound L : Nat) : Prop :=
  c.offset = p ∧ c.mem.length = L ∧
    ∀ x ∈ ps, x.1 + x.2.length ≤ bound ∧ readBytes c.mem x.1 x.2.length = x.2

/-! ## Concrete inputs -/

/-- A 66-byte long-form area whose header declares `seal_info_size = 1`. -/
def blob_seal_info_size_1 : List Nat :=
  [0x16, 0, 0, 0, 1, 0, 0, 0] ++ List.replicate 58 0

/-- A 13-byte short-form blob with one payload byte. -/
def blob_short_1 : List Nat := [0x16, 0, 5, 0, 0, 0, 0, 0, 1, 0, 0, 0, 0xAA]

/-- A 67-byte long-form blob (`seal_info_size = 54`, both selections of size 3,
one payload byte) whose `digest_at_creation` is twenty bytes `7`. -/
def blob_long_1 : List Nat :=
  [0x16, 0, 5, 0, 54, 0, 0, 0, 6, 0, 1, 0x1F, 3, 0, 1, 1, 0x80, 3, 0, 0, 0, 0]
    ++ List.replicate 20 7 ++ List.replicate 20 0 ++ [1, 0, 0, 0, 0xAA]

/-- The 66 wire bytes of a long-form blob whose creation selection has size 2
and whose release selection has size 3, with one payload byte, placed at
position 10 of a buffer. -/
def wire_long_1 : List Nat :=
  List.replicate 10 0 ++
    [0, 0x16, 0, 5, 0, 0, 0, 0x36, 0, 6, 1, 0x1F, 0, 2, 1, 1, 0, 3, 0, 0, 0x80]
    ++ List.replicate 20 7 ++ List.replicate 20 0 ++ [0, 0, 0, 1, 0xAA]

/-- One admissible set of header constants (those of the upstream `tpm.h`). -/
def tpm_h : TpmH where
  TPM_NR_LOCALITIES := 5
  TPM_CMD_SIZE_MAX := 768
  TPM_RSP_SIZE_MAX := 768
  TPM_BAD_PARAMETER := 3
  TPM_FAIL := 9
  TPM_NOSPACE := 17
  TPM_LOC_RSVD := 0xE0
  TPM_LOC := [0x01, 0x02, 0x04, 0x08, 0x10]
  TPM_PCR_RESETABLE_MIN := 16
  TPM_NV_READ_VALUE_DATA_SIZE_MAX := 754
  TPM_NV_WRITE_VALUE_DATA_SIZE_MAX := 746

/-- State of a scripted module: the command bytes received, the response bytes
not yet read, and the responses it will give to the commands to come. -/
structure Sim where
  cmd : List Nat
  rsp : List Nat
  script : List (List Nat)
deriving DecidableEq, Repr

/-- A scripted module: its access register always reads valid and active, its
status register reads valid and command-ready, data-available while response
bytes remain, with a burst count of at most 8; an "execute" write loads the
next scripted response into the FIFO. -/
def sim : Tpm Sim where
  readb d _ reg i :=
    if reg = TPM_REG_ACCESS then (0xA0, d)
    else if reg = TPM_REG_STS then
      (if i = 0 then (if d.rsp = [] then 0xC0 else 0xD0)
       else if i = 1 then (if d.rsp = [] then 8 else min d.rsp.length 8)
       else 0, d)
    else if reg = TPM_REG_DATA_FIFO then (d.rsp.headD 0, { d with rsp := d.rsp.tail })
    else (0, d)
  writeb d _ reg i v :=
    if reg = TPM_REG_DATA_FIFO then { d with cmd := d.cmd ++ [v] }
    else if reg = TPM_REG_STS ∧ i = 0 ∧ v = 0x20 then
      { cmd := [], rsp := d.script.headD [], script := d.script.tail }
    else if reg = TPM_REG_STS ∧ i = 0 ∧ v = 0x40 then { d with cmd := [], rsp := [] }
    else d

/-- A successful GetRandom response carrying the given bytes. -/
def random_rsp (bytes : List Nat) : List Nat :=
  [0, 0xC4, 0, 0, 0, 14 + bytes.length, 0, 0, 0, 0, 0, 0, 0, bytes.length] ++ bytes

/-- Initial global state with 32-byte static buffers over the scripted module. -/
def sim_st (script : List (List Nat)) : St Sim :=
  ⟨⟨⟨[], [], script⟩, []⟩, List.replicate 32 0, List.replicate 32 0, false⟩

/-- A module whose registers always read 0. -/
def dead_tpm : Tpm Unit where
  readb _ _ _ _ := (0, ())
  writeb _ _ _ _ _ := ()

/-- A module whose access register always reads valid but never active. -/
def never_active_tpm : Tpm Unit where
  readb _ _ reg _ := (if reg = TPM_REG_ACCESS then 0x80 else 0, ())
  writeb _ _ _ _ _ := ()

/-- Initial hardware state over a stateless module: no events yet. -/
def hw0 : Hw Unit := ⟨(), []⟩

/-- Scripted module answering a first GetRandom with 1 byte and a second with 2. -/
def sim_s0 : St Sim := sim_st [random_rsp [0xAA], random_rsp [0xBB, 0xCC]]

/-- The first transfer of `tpm_get_random` for 3 bytes on `sim_s0`. -/
def sim_r1 : FifoRes Sim :=
  (tpm_write_cmd_fifo tpm_h sim 0 (some (random_cmd_state sim_s0 3).cmd_buf) 14
    (some sim_s0.rsp_buf) (some (3 + 14)) sim_s0.hw).getD ⟨0, none, none, sim_s0.hw⟩

/-- The second transfer of `tpm_get_random` for 3 bytes on `sim_s0`. -/
def sim_r2 : FifoRes Sim :=
  (tpm_write_cmd_fifo tpm_h sim 0
    (some (random_cmd_state (random_retry_state (random_cmd_state sim_s0 3) sim_r1 1)
      (3 - 1)).cmd_buf) 14
    (some (random_retry_state (random_cmd_state sim_s0 3) sim_r1 1).rsp_buf)
    (some (3 - 1 + 14))
    (random_retry_state (random_cmd_state sim_s0 3) sim_r1 1).hw).getD
      ⟨0, none, none, sim_s0.hw⟩

/-- Initial global state over the scripted module with the static buffers at
their declared sizes `TPM_CMD_SIZE_MAX` and `TPM_RSP_SIZE_MAX` of `tpm_h`. -/
def sim_st_full (script : List (List Nat)) : St Sim :=
  ⟨⟨⟨[], [], script⟩, []⟩, List.replicate 768 0, List.replicate 768 0, false⟩

/-- A response that consists of a header only, with the given return code. -/
def error_rsp (code : Nat) : List Nat := [0, 0xC4, 0, 0, 0, 10, 0, 0, 0, code]

/-- Stack contents for `tpm_seal`: all zero bytes. -/
def stack0 : SealStack := ⟨List.replicate 54 0, List.replicate 20 0, List.replicate 20 0⟩

/-- The command buffer that `_tpm_submit_cmd` hands to `tpm_write_cmd_fifo`:
`cmd_buf` with the tag, the total size and the ordinal stored in reversed byte
order at positions 0, 2 and 6. -/
def submit_cmd_buf (cmd_buf : List Nat) (tag cmd arg_size : Nat) : List Nat :=
  memcpy (memcpy (memcpy cmd_buf 0 (_reverse_copy (le_bytes 2 tag) 2))
    CMD_SIZE_OFFSET (_reverse_copy (le_bytes 4 (u32 (CMD_HEAD_SIZE + arg_size))) 4))
    CMD_ORD_OFFSET (_reverse_copy (le_bytes 4 cmd) 4)

/-- The response capacity that `_tpm_submit_cmd` hands to `tpm_write_cmd_fifo`. -/
def submit_rsp_size (h : TpmH) (out_size : Nat) : Nat :=
  if h.TPM_RSP_SIZE_MAX < u32 (RSP_HEAD_SIZE + out_size) then h.TPM_RSP_SIZE_MAX
  else u32 (RSP_HEAD_SIZE + out_size)

/-- A module whose access register reads valid (0x80) on the first read and 0
on every later read; every other register reads 0. -/
def flaky_tpm : Tpm Nat where
  readb d _ reg _ := (if reg = TPM_REG_ACCESS ∧ d = 0 then 0x80 else 0, d + 1)
  writeb d _ _ _ _ := d

/-- Number of reads of the data FIFO register in an event list. -/
def fifo_rd_count (log : List Ev) : Nat :=
  (log.filter fun e => match e with
    | Ev.rd _ reg _ => decide (reg = TPM_REG_DATA_FIFO)
    | _ => false).length

/-- A 12-byte response: the header declares the total size 12 and the return
code 0, and two payload bytes follow. -/
def rsp_12 : List Nat := [0, 0xC4, 0, 0, 0, 12, 0, 0, 0, 0, 0xAA, 0xBB]

/-- A 6-byte response that ends after its size field, which declares the total
size 6: it carries no return code. -/
def rsp_6 : List Nat := [0, 0xC4, 0, 0, 0, 6]

/-- A 10-byte buffer whose bytes 6..9 hold the code 0x21 of an earlier response. -/
def out_stale : List Nat := [0, 0xC4, 0, 0, 0, 10, 0, 0, 0, 0x21]

/-- The transfer of a 10-byte command on the scripted module answering with the
header-only response of code 0x21. -/
def sim_r3 : FifoRes Sim :=
  (tpm_write_cmd_fifo tpm_h sim 0 (some (List.replicate 10 0)) 10
    (some (List.replicate 10 0)) (some 10) (sim_st [error_rsp 0x21]).hw).getD
      ⟨0, none, none, (sim_st []).hw⟩

/-- The bytes written to the data FIFO register, oldest first. -/
def fifo_wr_bytes (log : List Ev) : List Nat :=
  log.reverse.filterMap fun e => match e with
    | Ev.wr _ reg val => if reg = TPM_REG_DATA_FIFO then some (rd val 0) else none
    | _ => none

/-- A successful OSAP response: handle 1, then `nonce_even` and `even_osap`, all
zero bytes. -/
def osap_rsp : List Nat :=
  [0, 0xC4, 0, 0, 0, 54, 0, 0, 0, 0] ++ [0, 0, 0, 1] ++ List.replicate 40 0

/-- A successful Seal response: a 12-byte short-form stored-data blob (no
payload), then `nonce_even`, `cont_session` and `res_auth`. -/
def seal_rsp : List Nat :=
  [0, 0xC4, 0, 0, 0, 63, 0, 0, 0, 0] ++ [0, 0x16, 0, 5, 0, 0, 0, 0, 0, 0, 0, 0] ++
    List.replicate 41 0

/-! ## Statement helper for `hmac` -/

/-- HMAC-SHA1 as RFC 2104 words it, for a key of at most 64 bytes:
`H((K xor opad) ‖ H((K xor ipad) ‖ msg))`, where `K` is the key padded with zero
bytes to the 64-byte block, `ipad` is 0x36 and `opad` is 0x5C repeated 64 times,
and `H` gives the 20-byte output of the primitive `sha1`. -/
def hmac_sha1_rfc2104 (sha1 : List Nat → List Nat) (key msg : List Nat) : List Nat :=
  let K := key ++ List.replicate (64 - key.length) 0
  let ipad := List.replicate 64 0x36
  let opad := List.replicate 64 0x5C
  sha1_buffer sha1 (List.zipWith (fun a b => a ^^^ b) K opad ++
    sha1_buffer sha1 (List.zipWith (fun a b => a ^^^ b) K ipad ++ msg))

/-! ## Statement helpers: what the `UNLOAD_*` macros append -/

/-- Big-endian image of an `n`-byte unsigned integer variable holding `v`: the
bytes `UNLOAD_INTEGER` (or `reverse_copy`) stores for it. -/
def be_bytes (n v : Nat) : List Nat := _reverse_copy (le_bytes n v) n

/-- The bytes `UNLOAD_PCR_SELECTION` appends for the selection at position `so`
of `hdr`: `size_of_select` big-endian, then that many selection bytes. -/
def wire_pcr_selection (hdr : List Nat) (so : Nat) : List Nat :=
  _reverse_copy (readBytes hdr so 2) 2 ++ readBytes hdr (so + 2) (u16_at hdr so)

/-- The bytes `UNLOAD_PCR_INFO_LONG` appends for the record at position `io` of
`hdr`: tag, the two localities, the two selections, the two digests. -/
def wire_pcr_info_long (hdr : List Nat) (io : Nat) : List Nat :=
  _reverse_copy (readBytes hdr io 2) 2 ++ readBytes hdr (io + 2) 1 ++ readBytes hdr (io + 3) 1 ++
    wire_pcr_selection hdr (io + 4) ++ wire_pcr_selection hdr (io + 9) ++
    readBytes hdr (io + 14) TPM_DIGEST_SIZE ++ readBytes hdr (io + 34) TPM_DIGEST_SIZE

/-- The bytes `UNLOAD_STORED_DATA12` appends for the stored-data record `hdr`. -/
def wire_stored_data12 (hdr : List Nat) : List Nat :=
  _reverse_copy (readBytes hdr 0 2) 2 ++ _reverse_copy (readBytes hdr 2 2) 2 ++
    _reverse_copy (readBytes hdr 4 4) 4 ++
    (if hdr_seal_info_size hdr = 0 then
      _reverse_copy (readBytes hdr 8 4) 4 ++ readBytes hdr 12 (short_enc_data_size hdr)
    else
      wire_pcr_info_long hdr 8 ++ _reverse_copy (readBytes hdr 62 4) 4 ++
        readBytes hdr 66 (long_enc_data_size hdr))

/-- The cursor `c` is at offset `|xs|`, its area has length `L`, and the bytes
written so far after `base` are `xs`. -/
def img (c : Cur) (base : Nat) (xs : List Nat) (L : Nat) : Prop :=
  c.offset = xs.length ∧ c.mem.length = L ∧ readBytes c.mem base xs.length = xs

/-- A stand-in for the hash primitive that keeps the last 20 bytes of its
input. -/
def last20 (m : List Nat) : List Nat := m.drop (m.length - 20)

/-- The values `values[0]`, ..., `values[n-1]` one after the other, in the
order of the array. -/
def values_in_order (vs : List (Option (List Nat))) (n : Nat) : List Nat :=
  (List.range n).foldl (fun acc i => acc ++ pcr_value vs i) []

/-! ## Statement helpers for the authorization sessions -/

/-- The shared secret that `_tpm_wrap_seal` and `_tpm_wrap_unseal` derive from
the OSAP nonces: `hmac(srk_authdata, even_osap ‖ odd_osap)`. -/
def osap_secret (sha1 : List Nat → List Nat) (even_osap odd_osap : List Nat) : List Nat :=
  (hmac sha1 srk_authdata
    (readBytes even_osap 0 sizeof_nonce ++ readBytes odd_osap 0 sizeof_nonce)).2

/-- The pad `blob_authdata[i] xor SHA1(secret ‖ nonce_even)[i]`, byte by byte. -/
def xor_auth (sha1 : List Nat → List Nat) (secret nonce_even : List Nat) : List Nat :=
  (List.range sizeof_nonce).map fun i =>
    (rd blob_authdata i ^^^
      rd (sha1_buffer sha1 (secret ++ readBytes nonce_even 0 sizeof_nonce)) i) % 256

/-- The argument bytes of a Seal command between the key handle and the
authorization block: encAuth, `pcr_info_size`, the PCR-info-long record,
`in_data_size`, `in_data`. -/
def seal_args (enc_auth pcr_info : List Nat) (in_data_size : Nat) (in_data : List Nat) :
    List Nat :=
  enc_auth ++ be_bytes 4 sizeof_pcr_info_long ++ wire_pcr_info_long pcr_info 0 ++
    be_bytes 4 in_data_size ++ readBytes in_data 0 in_data_size

/-- The value `hmac(key, SHA1(ordinal ‖ args) ‖ nonce_even ‖ nonce_odd ‖ 0x00)`. -/
def auth_code (sha1 : List Nat → List Nat) (key : List Nat) (ordinal : Nat)
    (args nonce_even nonce_odd : List Nat) : List Nat :=
  (hmac sha1 key (sha1_buffer sha1 (be_bytes 4 ordinal ++ args) ++
    readBytes nonce_even 0 sizeof_nonce ++ readBytes nonce_odd 0 sizeof_nonce ++ [0])).2

/-! ## Program points of `_tpm_wrap_seal` and `_tpm_wrap_unseal` -/

/-- The cursor `(WRAPPER_IN_BUF, offset)` in `_tpm_wrap_seal` and
`_tpm_wrap_unseal` after the statements `UNLOAD_BLOB_TYPE(.., &even_osap);
UNLOAD_BLOB_TYPE(.., &odd_osap);` that follow an OSAP which left `o`: the input
of the `hmac` call for the shared secret. -/
def osap_secret_cur {σ : Type} (o : OsapRes σ) (odd_osap : List Nat) : Cur :=
  (⟨o.s.cmd_buf, 0⟩ : Cur)
    |> UNLOAD_BLOB CMD_HEAD_SIZE (readBytes (o.even_osap.getD []) 0 sizeof_nonce)
    |> UNLOAD_BLOB CMD_HEAD_SIZE (readBytes odd_osap 0 sizeof_nonce)

/-! ## Concrete inputs for the session theorems -/

/-- A stand-in for the hash primitive: byte `i` of the result is (sum of the
input bytes + number of input bytes + `i`) mod 256. -/
def sum_hash (m : List Nat) : List Nat :=
  (List.range 20).map fun i => (m.sum + m.length + i) % 256

/-- A successful OSAP response: handle 1, `nonce_even` twenty bytes 0x11,
`even_osap` twenty bytes 0x22. -/
def osap_rsp_1 : List Nat :=
  [0, 0xC4, 0, 0, 0, 54, 0, 0, 0, 0] ++ [0, 0, 0, 1] ++ List.replicate 20 0x11 ++
    List.replicate 20 0x22

/-- A successful OIAP response: handle 2, `nonce_even` twenty bytes 0x33. -/
def oiap_rsp_1 : List Nat :=
  [0, 0xC4, 0, 0, 0, 34, 0, 0, 0, 0] ++ [0, 0, 0, 2] ++ List.replicate 20 0x33

/-- Stack contents for `_tpm_wrap_unseal` (and, for its first two fields,
`_tpm_wrap_seal`): `odd_osap` twenty bytes 0x44, `nonce_odd` twenty bytes 0x55,
`nonce_odd_d` twenty bytes 0x66. -/
def stack_1 : UnsealStack :=
  ⟨List.replicate 20 0x44, List.replicate 20 0x55, List.replicate 20 0x66⟩

/-- What the OSAP of `_tpm_wrap_seal` and `_tpm_wrap_unseal` leaves on the
scripted module that answers with `osap_rsp_1`, then `oiap_rsp_1`. -/
def sim_o : OsapRes Sim :=
  (tpm_osap tpm_h sim 0 TPM_ET_SRK TPM_KH_SRK (some stack_1.odd_osap)
    (some (List.replicate 4 0)) (some (List.replicate sizeof_nonce 0))
    (some (List.replicate sizeof_nonce 0)) (sim_st_full [osap_rsp_1, oiap_rsp_1])).getD
      ⟨1, none, none, none, sim_st_full []⟩

/-- What the OIAP of `_tpm_wrap_unseal` leaves after that OSAP. -/
def sim_p : OiapRes Sim :=
  (tpm_oiap tpm_h sim 0 (some (List.replicate 4 0)) (some (List.replicate sizeof_nonce 0))
    { sim_o.s with cmd_buf := (osap_secret_cur sim_o stack_1.odd_osap).mem }).getD
      ⟨1, none, none, sim_st_full []⟩

/-- Initial global state with static buffers of `n` bytes over the scripted module. -/
def sim_st_n (n : Nat) (script : List (List Nat)) : St Sim :=
  ⟨⟨⟨[], [], script⟩, []⟩, List.replicate n 0, List.replicate n 0, false⟩

/-- An Unseal response of 97 bytes (87 payload bytes, return code 0) whose length
prefix declares a 3-byte secret `AA BB CC`, followed by 80 zero bytes. -/
def unseal_rsp_len_3 : List Nat :=
  [0, 0xC6, 0, 0, 0, 97, 0, 0, 0, 0] ++ [0, 0, 0, 3, 0xAA, 0xBB, 0xCC] ++ List.replicate 80 0

/-! ## Policy actions (`policy.c`) -/

/-- Source `tb_policy_action_t`. -/
inductive tb_policy_action_t where
  | TB_POLACT_CONTINUE
  | TB_POLACT_UNMEASURED_LAUNCH
  | TB_POLACT_HALT
deriving DecidableEq, Repr

/-- The constants of the absent `tb_error.h` (`tb_error_t`) and `tb_policy.h`
(policy types, `TB_POLICY_INDEX`) that `policy.c` uses. -/
structure TbH where
  TB_ERR_NONE : Nat
  TB_ERR_FATAL : Nat
  TB_ERR_TPM_NOT_READY : Nat
  TB_ERR_SMX_NOT_SUPPORTED : Nat
  TB_ERR_VMX_NOT_SUPPORTED : Nat
  TB_ERR_TXT_NOT_SUPPORTED : Nat
  TB_ERR_SINIT_NOT_PRESENT : Nat
  TB_ERR_ACMOD_VERIFY_FAILED : Nat
  TB_ERR_MODULE_VERIFICATION_FAILED : Nat
  TB_ERR_POLICY_NOT_PRESENT : Nat
  TB_ERR_POLICY_INVALID : Nat
  TB_ERR_MAX : Nat
  TB_POLTYPE_CONT_NON_FATAL : Nat
  TB_POLTYPE_CONT_VERIFY_FAIL : Nat
  TB_POLTYPE_HALT : Nat
  TB_POLICY_INDEX : Nat
deriving DecidableEq, Repr

/-- Source `tb_policy_map_entry_t`. -/
structure tb_policy_map_entry_t where
  error : Nat
  action : tb_policy_action_t
deriving DecidableEq, Repr

/-- Source `tb_policy_map_t`; `exception_action_table` has `TB_ERR_MAX` entries. -/
structure tb_policy_map_t where
  policy_type : Nat
  default_action : tb_policy_action_t
  exception_action_table : List tb_policy_map_entry_t
deriving DecidableEq, Repr

/-- An array `exception_action_table[TB_ERR_MAX]` with the given initialisers:
the entries not listed are zero (`error` 0, the first enumerator as action). -/
def exception_table (H : TbH) (listed : List tb_policy_map_entry_t) :
    List tb_policy_map_entry_t :=
  listed ++ List.replicate (H.TB_ERR_MAX - listed.length)
    ⟨0, tb_policy_action_t.TB_POLACT_CONTINUE⟩

/-- Source `g_policy_map`. -/
def g_policy_map (H : TbH) : List tb_policy_map_t :=
  [ ⟨H.TB_POLTYPE_CONT_NON_FATAL, tb_policy_action_t.TB_POLACT_CONTINUE,
      exception_table H
        [ ⟨H.TB_ERR_FATAL, tb_policy_action_t.TB_POLACT_HALT⟩,
          ⟨H.TB_ERR_TPM_NOT_READY, tb_policy_action_t.TB_POLACT_UNMEASURED_LAUNCH⟩,
          ⟨H.TB_ERR_SMX_NOT_SUPPORTED, tb_policy_action_t.TB_POLACT_UNMEASURED_LAUNCH⟩,
          ⟨H.TB_ERR_VMX_NOT_SUPPORTED, tb_policy_action_t.TB_POLACT_UNMEASURED_LAUNCH⟩,
          ⟨H.TB_ERR_TXT_NOT_SUPPORTED, tb_policy_action_t.TB_POLACT_UNMEASURED_LAUNCH⟩,
          ⟨H.TB_ERR_SINIT_NOT_PRESENT, tb_policy_action_t.TB_POLACT_UNMEASURED_LAUNCH⟩,
          ⟨H.TB_ERR_ACMOD_VERIFY_FAILED, tb_policy_action_t.TB_POLACT_UNMEASURED_LAUNCH⟩,
          ⟨H.TB_ERR_NONE, tb_policy_action_t.TB_POLACT_CONTINUE⟩ ]⟩,
    ⟨H.TB_POLTYPE_CONT_VERIFY_FAIL, tb_policy_action_t.TB_POLACT_HALT,
      exception_table H
        [ ⟨H.TB_ERR_MODULE_VERIFICATION_FAILED, tb_policy_action_t.TB_POLACT_CONTINUE⟩,
          ⟨H.TB_ERR_POLICY_NOT_PRESENT, tb_policy_action_t.TB_POLACT_CONTINUE⟩,
          ⟨H.TB_ERR_POLICY_INVALID, tb_policy_action_t.TB_POLACT_CONTINUE⟩,
          ⟨H.TB_ERR_NONE, tb_policy_action_t.TB_POLACT_CONTINUE⟩ ]⟩,
    ⟨H.TB_POLTYPE_HALT, tb_policy_action_t.TB_POLACT_HALT,
      exception_table H
        [ ⟨H.TB_ERR_NONE, tb_policy_action_t.TB_POLACT_CONTINUE⟩ ]⟩ ]

/-- The inner `for` loop of `evaluate_error` over the entries from `j` on: a
matching entry sets `action`, the entry with `TB_ERR_NONE` ends the loop. -/
def exception_loop (H : TbH) (error : Nat) :
    List tb_policy_map_entry_t → tb_policy_action_t → tb_policy_action_t
  | [], action => action
  | e :: rest, action =>
    let action1 := if e.error = error then e.action else action
    if e.error = H.TB_ERR_NONE then action1 else exception_loop H error rest action1

/-- Source `evaluate_error(error)`; `policy_type` is `g_policy->policy_type`. -/
def evaluate_error (H : TbH) (policy_type error : Nat) : tb_policy_action_t :=
  if error = H.TB_ERR_NONE then tb_policy_action_t.TB_POLACT_CONTINUE
  else
    (g_policy_map H).foldl
      (fun action row =>
        if row.policy_type = policy_type then
          exception_loop H error row.exception_action_table row.default_action
        else action)
      tb_policy_action_t.TB_POLACT_HALT

/-- The entries of a table that come before its first `TB_ERR_NONE` entry. -/
def before_terminator (H : TbH) (table : List tb_policy_map_entry_t) :
    List tb_policy_map_entry_t :=
  table.takeWhile fun e => decide (e.error ≠ H.TB_ERR_NONE)

/-- The table lookup in words: `TB_ERR_NONE` continues; otherwise the row of the
policy type decides, by the action of the entry that lists the error before the
terminator, or by its default action when no entry does; without a row the
action is halt. -/
def evaluate_error_lookup (H : TbH) (policy_type error : Nat) : tb_policy_action_t :=
  if error = H.TB_ERR_NONE then tb_policy_action_t.TB_POLACT_CONTINUE
  else
    match (g_policy_map H).find? fun row => decide (row.policy_type = policy_type) with
    | none => tb_policy_action_t.TB_POLACT_HALT
    | some row =>
      match (before_terminator H row.exception_action_table).find?
          fun e => decide (e.error = error) with
      | some e => e.action
      | none => row.default_action

/-- One admissible set of constants (the enumerations of the upstream
`tb_error.h` and `tb_policy.h`). -/
def tb_h : TbH where
  TB_ERR_NONE := 0
  TB_ERR_TPM_NOT_READY := 3
  TB_ERR_SMX_NOT_SUPPORTED := 4
  TB_ERR_VMX_NOT_SUPPORTED := 5
  TB_ERR_TXT_NOT_SUPPORTED := 6
  TB_ERR_MODULE_VERIFICATION_FAILED := 7
  TB_ERR_POLICY_INVALID := 9
  TB_ERR_POLICY_NOT_PRESENT := 10
  TB_ERR_SINIT_NOT_PRESENT := 11
  TB_ERR_ACMOD_VERIFY_FAILED := 12
  TB_ERR_FATAL := 15
  TB_ERR_MAX := 17
  TB_POLTYPE_CONT_NON_FATAL := 0
  TB_POLTYPE_CONT_VERIFY_FAIL := 1
  TB_POLTYPE_HALT := 2
  TB_POLICY_INDEX := 0x20000001

/-! ## Policy lists (`lcptools/pollist.c`)

A policy list is the memory block behind `pollist`; positions are byte offsets
into it.  The `ERROR` and `DISPLAY` output of the tools is not modelled. -/

/-- The declarations of the absent `lcp2.h` and `lcp_hlp.h` that `pollist.c`
uses: `sizeof(lcp_policy_list_t)`, the offsets of the fields of
`lcp_policy_list_t` (`version` 2 bytes, `reserved` 1, `sig_alg` 1,
`policy_elements_size` 4, then `policy_elements`), of `lcp_policy_element_t`
(`size` 4 bytes, `type` 4) with the size of its header, `sizeof(lcp_signature_t)`,
the constants, the macro `MAJOR_VER`, the inline helpers `get_signature_size`
(of the signature at a position of the block) and `get_policy_list_size`, the
check `verify_pollist_sig` (its `verify_signature` is absent) and the number of
values of `size_t`. -/
structure LcpH where
  sizeof_lcp_policy_list_t : Nat
  off_version : Nat
  off_reserved : Nat
  off_sig_alg : Nat
  off_policy_elements_size : Nat
  off_policy_elements : Nat
  off_elt_size : Nat
  off_elt_type : Nat
  sizeof_lcp_policy_element_t : Nat
  sizeof_lcp_signature_t : Nat
  off_pubkey_size : Nat
  LCP_DEFAULT_POLICY_LIST_VERSION : Nat
  LCP_POLSALG_NONE : Nat
  LCP_POLSALG_RSA_PKCS_15 : Nat
  MAJOR_VER : Nat → Nat
  get_signature_size : List Nat → Nat → Nat
  get_policy_list_size : List Nat → Nat
  verify_pollist_sig : List Nat → Bool
  size_t_mod : Nat

/-- Difference `a - b` of two `size_t` values. -/
def size_t_sub (H : LcpH) (a b : Nat) : Nat := (a + (H.size_t_mod - b % H.size_t_mod)) % H.size_t_mod

/-- Sum `a + b` of two `size_t` values. -/
def size_t_add (H : LcpH) (a b : Nat) : Nat := (a + b) % H.size_t_mod

/-- C `memmove(m + dst, m + src, n)` inside one block. -/
def memmove (m : List Nat) (dst src n : Nat) : List Nat := memcpy m dst (readBytes m src n)

/-- Field `pollist->policy_elements_size`. -/
def policy_elements_size (H : LcpH) (pollist : List Nat) : Nat :=
  u32_at pollist H.off_policy_elements_size

/-- Field `elt->size` of the element at position `elt` of the block. -/
def elt_size (H : LcpH) (m : List Nat) (elt : Nat) : Nat := u32_at m (elt + H.off_elt_size)

/-- Field `elt->type` of the element at position `elt` of the block. -/
def elt_type (H : LcpH) (m : List Nat) (elt : Nat) : Nat := u32_at m (elt + H.off_elt_type)

/-- The loop `while ( elts_size < pollist->policy_elements_size )` of
`verify_policy_list` with `elts_size` (a `uint32_t`) and `elt` as they are on
entry to an iteration.  The result is `none` when `fuel` iterations do not end
the loop, `some none` when the loop body returns false, and `some (some n)` when
the loop ends with `elts_size = n`. -/
def verify_elts_loop (H : LcpH) (pollist : List Nat) : Nat → Nat → Nat → Option (Option Nat)
  | 0, _, _ => none
  | fuel + 1, elts_size, elt =>
    if elts_size < policy_elements_size H pollist then
      if policy_elements_size H pollist < u32 (elts_size + elt_size H pollist elt) then some none
      else
        verify_elts_loop H pollist fuel (u32 (elts_size + elt_size H pollist elt))
          (elt + elt_size H pollist elt)
    else some (some elts_size)

/-- What `verify_policy_list` leaves behind: the returned value and
`*no_sigblock` (`none` when the pointer is null or nothing was stored). -/
structure VerifyListRes where
  ret : Bool
  no_sigblock : Option Bool
deriving DecidableEq, Repr

/-- Source `verify_policy_list(pollist, size, no_sigblock, size_is_exact)`;
`no_sigblock_ptr` tells whether `no_sigblock` is non-null.  The result is `none`
when `fuel` iterations do not end the loop over the elements. -/
def verify_policy_list (H : LcpH) (fuel : Nat) (pollist : Option (List Nat)) (size : Nat)
    (no_sigblock_ptr : Bool) (size_is_exact : Bool) : Option VerifyListRes :=
  match pollist with
  | none => some ⟨false, none⟩
  | some p =>
    if size < H.sizeof_lcp_policy_list_t then some ⟨false, none⟩
    else if u16_at p H.off_version < H.LCP_DEFAULT_POLICY_LIST_VERSION ∨
        H.MAJOR_VER (u16_at p H.off_version) ≠ H.MAJOR_VER H.LCP_DEFAULT_POLICY_LIST_VERSION then
      some ⟨false, none⟩
    else if rd p H.off_reserved ≠ 0 then some ⟨false, none⟩
    else if rd p H.off_sig_alg ≠ H.LCP_POLSALG_NONE ∧
        rd p H.off_sig_alg ≠ H.LCP_POLSALG_RSA_PKCS_15 then
      some ⟨false, none⟩
    else
      let base_size := H.off_policy_elements
      let pes := policy_elements_size H p
      if rd p H.off_sig_alg = H.LCP_POLSALG_NONE ∧ size_is_exact = true ∧
          size_t_add H base_size pes ≠ size then some ⟨false, none⟩
      else if rd p H.off_sig_alg = H.LCP_POLSALG_NONE ∧ size_is_exact = false ∧
          size < size_t_add H base_size pes then some ⟨false, none⟩
      else if rd p H.off_sig_alg ≠ H.LCP_POLSALG_NONE ∧
          size < size_t_add H (size_t_add H base_size H.sizeof_lcp_signature_t) pes then
        some ⟨false, none⟩
      else
        match verify_elts_loop H p fuel 0 H.off_policy_elements with
        | none => none
        | some none => some ⟨false, none⟩
        | some (some elts_size) =>
          if elts_size ≠ pes then some ⟨false, none⟩
          else if rd p H.off_sig_alg = H.LCP_POLSALG_RSA_PKCS_15 then
            let sig := H.off_policy_elements + pes
            let pubkey_size := u16_at p (sig + H.off_pubkey_size)
            let with_sig := size_t_add H (size_t_add H base_size pes) (H.get_signature_size p sig)
            if size_is_exact = false ∧ size_t_add H size pubkey_size < with_sig then
              some ⟨false, none⟩
            else if size_is_exact = true ∧ with_sig ≠ size then
              if with_sig ≠ size_t_add H size pubkey_size then some ⟨false, none⟩
              else some ⟨true, if no_sigblock_ptr then some true else none⟩
            else if !H.verify_pollist_sig p then
              some ⟨false, if no_sigblock_ptr then some false else none⟩
            else some ⟨true, if no_sigblock_ptr then some false else none⟩
          else some ⟨true, none⟩

/-- C `realloc(p, n)`: `fresh` is `none` when the allocation fails; otherwise the
new block has `n` bytes, the old contents up to the smaller of the two sizes
and the bytes of `fresh` behind them. -/
def realloc (p : List Nat) (n : Nat) (fresh : Option (List Nat)) : Option (List Nat) :=
  fresh.map fun f => (List.range n).map fun i => if i < p.length then rd p i else rd f (i - p.length)

/-- Source `add_policy_element(pollist, elt)`: the block behind the returned
pointer, `none` for `NULL`.  `fresh` is what `realloc` finds. -/
def add_policy_element (H : LcpH) (pollist elt : Option (List Nat))
    (fresh : Option (List Nat)) : Option (List Nat) :=
  match pollist, elt with
  | some p, some e =>
    let old_size := H.get_policy_list_size p
    match realloc p (size_t_add H old_size (elt_size H e 0)) fresh with
    | none => none
    | some new_pollist =>
      let m1 := memmove new_pollist (H.off_policy_elements + elt_size H e 0)
        H.off_policy_elements (size_t_sub H old_size H.off_policy_elements)
      let m2 := memcpy m1 H.off_policy_elements (readBytes e 0 (elt_size H e 0))
      let m3 := memcpy m2 H.off_policy_elements_size
        (le_bytes 4 (u32 (policy_elements_size H m2 + elt_size H e 0)))
      some m3
  | _, _ => none

/-- The loop `while ( elts_size > 0 )` of `del_policy_element` with `elts_size`
(a `size_t`) and `elt` as they are on entry to an iteration; the result is
`none` when `fuel` iterations do not end it. -/
def del_policy_element_loop (H : LcpH) (type : Nat) :
    Nat → List Nat → Nat → Nat → Option (Bool × List Nat)
  | 0, _, _, _ => none
  | fuel + 1, p, elts_size, elt =>
    if 0 < elts_size then
      if elt_type H p elt = type then
        let tot_size := H.get_policy_list_size p
        let elt_size1 := elt_size H p elt
        let m1 := memmove p elt (elt + elt_size1)
          (size_t_sub H tot_size (elt + elt_size1))
        let m2 := memcpy m1 H.off_policy_elements_size
          (le_bytes 4 (u32 (policy_elements_size H m1 + (4294967296 - u32 elt_size1))))
        some (true, m2)
      else
        del_policy_element_loop H type fuel p (size_t_sub H elts_size (elt_size H p elt))
          (elt + elt_size H p elt)
    else some (false, p)

/-- Source `del_policy_element(pollist, type)`: the returned value and the block
afterwards. -/
def del_policy_element (H : LcpH) (fuel : Nat) (pollist : Option (List Nat)) (type : Nat) :
    Option (Bool × Option (List Nat)) :=
  match pollist with
  | none => some (false, none)
  | some p =>
    (del_policy_element_loop H type fuel p (policy_elements_size H p) H.off_policy_elements).map
      fun r => (r.1, some r.2)

/-- One admissible set of declarations (those of the upstream `lcp2.h` and
`lcp_hlp.h` on a 64-bit host); signatures are taken to verify. -/
def lcp_h : LcpH where
  sizeof_lcp_policy_list_t := 8
  off_version := 0
  off_reserved := 2
  off_sig_alg := 3
  off_policy_elements_size := 4
  off_policy_elements := 8
  off_elt_size := 0
  off_elt_type := 4
  sizeof_lcp_policy_element_t := 12
  sizeof_lcp_signature_t := 4
  off_pubkey_size := 2
  LCP_DEFAULT_POLICY_LIST_VERSION := 0x0100
  LCP_POLSALG_NONE := 0
  LCP_POLSALG_RSA_PKCS_15 := 1
  MAJOR_VER v := v / 256
  get_signature_size p sig := 4 + 2 * u16_at p (sig + 2)
  get_policy_list_size p :=
    8 + u32_at p 4 + (if rd p 3 = 1 then 4 + 2 * u16_at p (8 + u32_at p 4 + 2) else 0)
  verify_pollist_sig _ := true
  size_t_mod := 18446744073709551616

/-- A 20-byte policy list without signature: version 0x0100, 12 bytes of
elements, and an element whose `size` field is 0. -/
def pollist_zero_elt : List Nat :=
  [0, 1, 0, 0, 12, 0, 0, 0] ++ List.replicate 12 0

/-- A 20-byte policy list without signature that holds one 12-byte element of
type 2. -/
def pollist_one_elt : List Nat :=
  [0, 1, 0, 0, 12, 0, 0, 0] ++ [12, 0, 0, 0, 2, 0, 0, 0, 0, 0, 0, 0]

/-- A 13-byte policy element of type 1 with one data byte. -/
def elt_type_1 : List Nat := [13, 0, 0, 0, 1, 0, 0, 0, 0, 0, 0, 0, 0x5A]

/-! ## Reading the policy from NV (`tpm_get_capability`, `tpm_get_nvindex_size`,
`read_policy_from_tpm`) -/

/-- The state in which the request-use wait of `tpm_wait_cmd_ready` starts: after
a successful `tpm_validate_locality`, a read of the access register that shows
it valid, and the request-use write. -/
def at_request_use {σ : Type} (t : Tpm σ) (locality : Nat) (s : Hw σ) : Option (Hw σ) :=
  let v := tpm_validate_locality t locality s
  if v.1 = true then
    let r0 := read_tpm_reg t locality TPM_REG_ACCESS 1 v.2
    if acc_tpm_reg_valid_sts r0.1 = 0 then none
    else some (write_tpm_reg t locality TPM_REG_ACCESS ACC_REQUEST_USE r0.2)
  else none

/-- The state in which the command-ready wait of `tpm_wait_cmd_ready` starts:
after a request-use wait that has seen the locality active. -/
def at_cmd_ready {σ : Type} (t : Tpm σ) (locality : Nat) (s : Hw σ) : Option (Hw σ) :=
  match at_request_use t locality s with
  | none => none
  | some sa =>
    let r1 := poll (active_body t locality) TPM_ACTIVE_LOCALITY_TIME_OUT sa
    match r1.1 with
    | none => none
    | some _ => some r1.2

/-- The state in which the command write loop starts: after a command-ready wait
that has seen the module ready. -/
def at_write_loop {σ : Type} (t : Tpm σ) (locality : Nat) (s : Hw σ) : Option (Hw σ) :=
  match at_cmd_ready t locality s with
  | none => none
  | some sc =>
    let r2 := poll (cmd_ready_body t locality) TPM_CMD_READY_TIME_OUT sc
    match r2.1 with
    | none => none
    | some _ => some r2.2

/-- The variables `offset` and the hardware state on entry to pass `k` (counted
from 0) of the command write loop that starts with `offset` in `s`, when the
loop gets that far: `k` passes whose burst-count wait succeeded and which left
`offset < in_size`. -/
def fifo_write_pass {σ : Type} (t : Tpm σ) (locality : Nat) (inp : List Nat) (in_size : Nat) :
    Nat → Nat → Hw σ → Option (Nat × Hw σ)
  | 0, offset, s => some (offset, s)
  | k + 1, offset, s =>
    let r := poll (burst_body t locality) TPM_CMD_WRITE_TIME_OUT s
    match r.1 with
    | none => none
    | some row_size =>
      let w := fifo_write_row t locality inp in_size row_size offset r.2
      if w.1 < in_size then fifo_write_pass t locality inp in_size k w.1 w.2 else none

/-- The state in which the burst-count wait of pass `k` of the command write loop
starts. -/
def at_write_burst {σ : Type} (t : Tpm σ) (locality : Nat) (inp : List Nat) (in_size : Nat)
    (s : Hw σ) (k : Nat) : Option (Hw σ) :=
  match at_write_loop t locality s with
  | none => none
  | some sw => (fifo_write_pass t locality inp in_size k 0 sw).map fun p => p.2

/-- The state in which the data-available wait starts: after the command write
loop has written the whole command and after the "execute" write. -/
def at_data_avail {σ : Type} (t : Tpm σ) (locality : Nat) (inp : List Nat) (in_size : Nat)
    (s : Hw σ) : Option (Hw σ) :=
  match at_write_loop t locality s with
  | none => none
  | some sw =>
    match fifo_write_loop t locality inp in_size in_size 0 sw with
    | some (true, s1) => some (write_tpm_reg t locality TPM_REG_STS STS_TPM_GO s1)
    | _ => none

/-- The variables of the response read loop on entry to pass `k` (counted from 0)
of the loop that starts with `v`, when the loop gets that far. -/
def fifo_read_pass {σ : Type} (t : Tpm σ) (locality out_size : Nat) :
    Nat → RdVars σ → Option (RdVars σ)
  | 0, v => some v
  | k + 1, v =>
    let r := poll (burst_body t locality) TPM_RSP_READ_TIME_OUT v.s
    match r.1 with
    | none => none
    | some row_size =>
      let v1 := fifo_read_row t locality out_size row_size { v with s := r.2 }
      if v1.offset < RSP_RST_OFFSET ∨ (v1.offset < v1.rsp_size ∧ v1.offset < out_size) then
        fifo_read_pass t locality out_size k v1
      else none

/-- The state in which the burst-count wait of pass `k` of the response read loop
starts: after a data-available wait that has seen the response. -/
def at_read_burst {σ : Type} (t : Tpm σ) (locality : Nat) (inp : List Nat) (in_size : Nat)
    (outb : List Nat) (osz : Nat) (s : Hw σ) (k : Nat) : Option (Hw σ) :=
  match at_data_avail t locality inp in_size s with
  | none => none
  | some sg =>
    let d := poll (data_avail_body t locality) TPM_DATA_AVAIL_TIME_OUT sg
    match d.1 with
    | none => none
    | some _ => (fifo_read_pass t locality osz k ⟨0, 0, outb, d.2⟩).map fun v => v.s

/-- A stateless module whose access register always reads valid and active
(0xA0) and whose status register always reads `sts0` in byte 0 and the burst
count `burst` in byte 1. -/
def stuck_tpm (sts0 burst : Nat) : Tpm Unit where
  readb _ _ reg i :=
    (if reg = TPM_REG_ACCESS then 0xA0
      else if reg = TPM_REG_STS then (if i = 0 then sts0 else if i = 1 then burst else 0)
      else 0, ())
  writeb _ _ _ _ _ := ()

/-- A module that accepts a command and then never offers a response byte: the
access register reads valid and active, the status register reads valid,
command-ready and data-available (0xD0), and the burst count is 10 until the
"execute" write to the status register and 0 afterwards.  The state records
whether "execute" was written. -/
def silent_rsp_tpm : Tpm Bool where
  readb d _ reg i :=
    (if reg = TPM_REG_ACCESS then 0xA0
      else if reg = TPM_REG_STS then
        (if i = 0 then 0xD0 else if i = 1 then (if d then 0 else 10) else 0)
      else 0, d)
  writeb d _ reg i b := if reg = TPM_REG_STS ∧ i = 0 ∧ b = 0x20 then true else d

/-! ## Event shapes of the waits and transfer loops of `tpm_write_cmd_fifo`

Event lists are newest first, as in the log. -/

/-- The events of the command-ready wait of `tpm_wait_cmd_ready` whose status
reads returned the values `vs`: each iteration writes `command_ready` and then
reads the status register. -/
def cmd_ready_events (locality : Nat) : List (List Nat) → List Ev
  | [] => []
  | v :: vs =>
    Ev.rd locality TPM_REG_STS v :: Ev.wr locality TPM_REG_STS STS_COMMAND_READY
      :: cmd_ready_events locality vs

/-- The events of one pass of the command write loop: a burst-count wait of at
most `budget` status reads, then writes of single bytes to the data FIFO, at
least one unless the wait has used its whole budget. -/
def write_pass_events (locality budget : Nat) (p : List Ev) : Prop :=
  ∃ (bs : List Nat) (vs : List (List Nat)),
    p = bs.map (fun b => Ev.wr locality TPM_REG_DATA_FIFO [b])
        ++ vs.map (Ev.rd locality TPM_REG_STS) ∧
      vs.length ≤ budget ∧ (bs = [] → vs.length = budget)

/-- The events of one pass of the response read loop: a burst-count wait of at
most `budget` status reads, then reads of single bytes of the data FIFO, at
least one unless the wait has used its whole budget. -/
def read_pass_events (locality budget : Nat) (p : List Ev) : Prop :=
  ∃ (rs vs : List (List Nat)),
    p = rs.map (Ev.rd locality TPM_REG_DATA_FIFO) ++ vs.map (Ev.rd locality TPM_REG_STS) ∧
      vs.length ≤ budget ∧ (rs = [] → vs.length = budget)

/-- The bytes read from the data FIFO register, oldest first: the response as
the module delivered it. -/
def fifo_rd_bytes (log : List Ev) : List Nat :=
  log.reverse.filterMap fun e => match e with
    | Ev.rd _ reg val => if reg = TPM_REG_DATA_FIFO then some (rd val 0) else none
    | _ => none

/-! ## The statements of `_tpm_wrap_seal` and `_tpm_wrap_unseal`

The bodies of the two functions statement by statement, so that the contents
of `cmd_buf` between two statements can be spoken of.  The calls of
`tpm_osap`, `tpm_oiap`, `_tpm_seal` and `_tpm_unseal` are not statements of
these lists; the lists are the statements between the calls, in source order. -/

/-- The variables the statements between the calls write: the global `cmd_buf`
and the locals `offset`, `shared_secret`, `digest`, `enc_auth`, `pub_auth` and
`pub_auth_d`. -/
structure WrapVars where
  cmd_buf : List Nat
  offset : Nat
  shared_secret : List Nat
  digest : List Nat
  enc_auth : List Nat
  pub_auth : List Nat
  pub_auth_d : List Nat
deriving DecidableEq, Repr

/-- The variables on entry: `cmd_buf` as the preceding call left it; the locals
are written before they are read and start as zero bytes here. -/
def wrap_vars0 (cmd_buf : List Nat) : WrapVars :=
  ⟨cmd_buf, 0, List.replicate sizeof_nonce 0, List.replicate sizeof_nonce 0,
    List.replicate sizeof_nonce 0, List.replicate sizeof_nonce 0, List.replicate sizeof_nonce 0⟩

/-- Statement `offset = 0;`. -/
def stmt_offset_0 (v : WrapVars) : WrapVars := { v with offset := 0 }

/-- A statement `UNLOAD_...(WRAPPER_IN_BUF, offset, ...);`: the macro `f` applied
to the cursor `(cmd_buf, offset)`. -/
def stmt_unload (f : Cur → Cur) (v : WrapVars) : WrapVars :=
  { v with cmd_buf := (f ⟨v.cmd_buf, v.offset⟩).mem, offset := (f ⟨v.cmd_buf, v.offset⟩).offset }

/-- The statements of `_tpm_wrap_seal` and of `_tpm_wrap_unseal` that follow the
call of `tpm_osap` ("calculate the shared secret"):
`offset = 0; UNLOAD_BLOB_TYPE(WRAPPER_IN_BUF, offset, &even_osap);
UNLOAD_BLOB_TYPE(WRAPPER_IN_BUF, offset, &odd_osap); hmac((uint8_t *)&srk_authdata,
WRAPPER_IN_BUF, offset, (uint8_t *)&shared_secret);`. -/
def wrap_secret_stmts (sha1 : List Nat → List Nat) (odd_osap even_osap : List Nat) :
    List (WrapVars → WrapVars) :=
  [stmt_offset_0,
   stmt_unload (UNLOAD_BLOB CMD_HEAD_SIZE (readBytes even_osap 0 sizeof_nonce)),
   stmt_unload (UNLOAD_BLOB CMD_HEAD_SIZE (readBytes odd_osap 0 sizeof_nonce)),
   fun v => { v with shared_secret :=
     (hmac sha1 srk_authdata (readBytes v.cmd_buf CMD_HEAD_SIZE v.offset)).2 }]

/-- The statements of `_tpm_wrap_seal` between the call of `tpm_osap` and the
call of `_tpm_seal`, in source order: the four statements that calculate the
shared secret, then
`offset = 0; UNLOAD_BLOB_TYPE(.., &shared_secret); UNLOAD_BLOB_TYPE(.., &nonce_even);
sha1_buffer(WRAPPER_IN_BUF, offset, (uint8_t *)&digest);
memcpy(&enc_auth, &blob_authdata, sizeof(blob_authdata)); XOR_BLOB_TYPE(&enc_auth, &digest);
offset = 0; UNLOAD_INTEGER(.., ordinal); UNLOAD_BLOB_TYPE(.., &enc_auth);
UNLOAD_INTEGER(.., pcr_info_size); UNLOAD_PCR_INFO_LONG(.., pcr_info);
UNLOAD_INTEGER(.., in_data_size); UNLOAD_BLOB(.., in_data, in_data_size);
sha1_buffer(WRAPPER_IN_BUF, offset, (uint8_t *)&digest);
offset = 0; UNLOAD_BLOB_TYPE(.., &digest); UNLOAD_BLOB_TYPE(.., &nonce_even);
UNLOAD_BLOB_TYPE(.., &nonce_odd); UNLOAD_INTEGER(.., cont_session);
hmac((uint8_t *)&shared_secret, WRAPPER_IN_BUF, offset, (uint8_t *)&pub_auth);`. -/
def wrap_seal_stmts (sha1 : List Nat → List Nat) (odd_osap nonce_odd even_osap nonce_even
    pcr_info : List Nat) (in_data_size : Nat) (in_data : List Nat) :
    List (WrapVars → WrapVars) :=
  wrap_secret_stmts sha1 odd_osap even_osap ++
  [stmt_offset_0,
   fun v => stmt_unload (UNLOAD_BLOB CMD_HEAD_SIZE (readBytes v.shared_secret 0 sizeof_nonce)) v,
   stmt_unload (UNLOAD_BLOB CMD_HEAD_SIZE (readBytes nonce_even 0 sizeof_nonce)),
   fun v => { v with digest := sha1_buffer sha1 (readBytes v.cmd_buf CMD_HEAD_SIZE v.offset) },
   fun v => { v with enc_auth := memcpy v.enc_auth 0 (readBytes blob_authdata 0 sizeof_nonce) },
   fun v => { v with enc_auth := XOR_BLOB_TYPE v.enc_auth v.digest sizeof_nonce TPM_DIGEST_SIZE },
   stmt_offset_0,
   stmt_unload (UNLOAD_INTEGER CMD_HEAD_SIZE (le_bytes 4 TPM_ORD_SEAL)),
   fun v => stmt_unload (UNLOAD_BLOB CMD_HEAD_SIZE (readBytes v.enc_auth 0 sizeof_nonce)) v,
   stmt_unload (UNLOAD_INTEGER CMD_HEAD_SIZE (le_bytes 4 sizeof_pcr_info_long)),
   stmt_unload (UNLOAD_PCR_INFO_LONG CMD_HEAD_SIZE pcr_info 0),
   stmt_unload (UNLOAD_INTEGER CMD_HEAD_SIZE (le_bytes 4 in_data_size)),
   stmt_unload (UNLOAD_BLOB CMD_HEAD_SIZE (readBytes in_data 0 in_data_size)),
   fun v => { v with digest := sha1_buffer sha1 (readBytes v.cmd_buf CMD_HEAD_SIZE v.offset) },
   stmt_offset_0,
   fun v => stmt_unload (UNLOAD_BLOB CMD_HEAD_SIZE (readBytes v.digest 0 TPM_DIGEST_SIZE)) v,
   stmt_unload (UNLOAD_BLOB CMD_HEAD_SIZE (readBytes nonce_even 0 sizeof_nonce)),
   stmt_unload (UNLOAD_BLOB CMD_HEAD_SIZE (readBytes nonce_odd 0 sizeof_nonce)),
   stmt_unload (UNLOAD_INTEGER CMD_HEAD_SIZE (readBytes [0] 0 1)),
   fun v => { v with pub_auth :=
     (hmac sha1 v.shared_secret (readBytes v.cmd_buf CMD_HEAD_SIZE v.offset)).2 }]

/-- The statements of `_tpm_wrap_unseal` between the call of `tpm_oiap` and the
call of `_tpm_unseal`, in source order:
`offset = 0; UNLOAD_INTEGER(.., ordinal); UNLOAD_STORED_DATA12(.., in_data);
sha1_buffer(WRAPPER_IN_BUF, offset, (uint8_t *)&digest);
offset = 0; UNLOAD_BLOB_TYPE(.., &digest); UNLOAD_BLOB_TYPE(.., &nonce_even);
UNLOAD_BLOB_TYPE(.., &nonce_odd); UNLOAD_INTEGER(.., cont_session);
hmac((uint8_t *)&shared_secret, WRAPPER_IN_BUF, offset, (uint8_t *)&pub_auth);
offset = 0; UNLOAD_BLOB_TYPE(.., &digest); UNLOAD_BLOB_TYPE(.., &nonce_even_d);
UNLOAD_BLOB_TYPE(.., &nonce_odd_d); UNLOAD_INTEGER(.., cont_session_d);
hmac((uint8_t *)&blob_authdata, WRAPPER_IN_BUF, offset, (uint8_t *)&pub_auth_d);`. -/
def wrap_unseal_stmts (sha1 : List Nat → List Nat) (nonce_odd nonce_odd_d nonce_even
    nonce_even_d in_data : List Nat) : List (WrapVars → WrapVars) :=
  [stmt_offset_0,
   stmt_unload (UNLOAD_INTEGER CMD_HEAD_SIZE (le_bytes 4 TPM_ORD_UNSEAL)),
   stmt_unload (UNLOAD_STORED_DATA12 CMD_HEAD_SIZE in_data),
   fun v => { v with digest := sha1_buffer sha1 (readBytes v.cmd_buf CMD_HEAD_SIZE v.offset) },
   stmt_offset_0,
   fun v => stmt_unload (UNLOAD_BLOB CMD_HEAD_SIZE (readBytes v.digest 0 TPM_DIGEST_SIZE)) v,
   stmt_unload (UNLOAD_BLOB CMD_HEAD_SIZE (readBytes nonce_even 0 sizeof_nonce)),
   stmt_unload (UNLOAD_BLOB CMD_HEAD_SIZE (readBytes nonce_odd 0 sizeof_nonce)),
   stmt_unload (UNLOAD_INTEGER CMD_HEAD_SIZE (readBytes [0] 0 1)),
   fun v => { v with pub_auth :=
     (hmac sha1 v.shared_secret (readBytes v.cmd_buf CMD_HEAD_SIZE v.offset)).2 },
   stmt_offset_0,
   fun v => stmt_unload (UNLOAD_BLOB CMD_HEAD_SIZE (readBytes v.digest 0 TPM_DIGEST_SIZE)) v,
   stmt_unload (UNLOAD_BLOB CMD_HEAD_SIZE (readBytes nonce_even_d 0 sizeof_nonce)),
   stmt_unload (UNLOAD_BLOB CMD_HEAD_SIZE (readBytes nonce_odd_d 0 sizeof_nonce)),
   stmt_unload (UNLOAD_INTEGER CMD_HEAD_SIZE (readBytes [0] 0 1)),
   fun v => { v with pub_auth_d :=
     (hmac sha1 blob_authdata (readBytes v.cmd_buf CMD_HEAD_SIZE v.offset)).2 }]

/-- The variables at the program point after the first `k` statements of the
list `stmts`, entered with the variables `v`. -/
def wrap_point (stmts : List (WrapVars → WrapVars)) (v : WrapVars) (k : Nat) : WrapVars :=
  (stmts.take k).foldl (fun w f => f w) v

/-- The end of `_tpm_wrap_seal`: the call of `_tpm_seal` with the variables `v`
that the statements have left after the OSAP result `o`, and the return. -/
def wrap_seal_call {σ : Type} (h : TpmH) (t : Tpm σ) (nonce_odd : List Nat) (locality : Nat)
    (pcr_info : List Nat) (in_data_size : Nat) (in_data : List Nat)
    (sealed_data_size : Option Nat) (sealed_data : Option (List Nat)) (o : OsapRes σ)
    (v : WrapVars) : Option (SealOut σ) :=
  match _tpm_seal h t locality TPM_KH_SRK (some v.enc_auth) sizeof_pcr_info_long (some pcr_info)
      in_data_size (some in_data) (le_val (readBytes (o.hauth.getD []) 0 4)) (some nonce_odd)
      (some [0]) (some v.pub_auth) sealed_data_size sealed_data (some (o.nonce_even.getD []))
      (some (List.replicate sizeof_nonce 0)) { o.s with cmd_buf := v.cmd_buf } with
  | none => none
  | some r => some ⟨r.ret, r.sealed_data_size, r.sealed_data, r.s⟩

/-- The end of `_tpm_wrap_unseal`: the call of `_tpm_unseal` with the variables
`v` that the statements have left after the OSAP result `o` and the OIAP result
`p`, and the return. -/
def wrap_unseal_call {σ : Type} (h : TpmH) (t : Tpm σ) (stack : UnsealStack) (locality : Nat)
    (in_data : List Nat) (secret_size : Option Nat) (secret : Option (List Nat))
    (o : OsapRes σ) (p : OiapRes σ) (v : WrapVars) : Option (UnsealOut σ) :=
  match _tpm_unseal h t locality TPM_KH_SRK (some in_data)
      (le_val (readBytes (o.hauth.getD []) 0 4)) (some stack.nonce_odd) (some [0])
      (some v.pub_auth) (le_val (readBytes (p.hauth.getD []) 0 4)) (some stack.nonce_odd_d)
      (some [0]) (some v.pub_auth_d) secret_size secret (some (o.nonce_even.getD []))
      (some (List.replicate sizeof_nonce 0)) (some (p.nonce_even.getD []))
      (some (List.replicate sizeof_nonce 0)) { p.s with cmd_buf := v.cmd_buf } with
  | none => none
  | some r => some ⟨r.ret, r.secret_size, r.secret, r.s⟩

/-- The variables `v` and `w` agree except possibly in `shared_secret` and in
`pub_auth`. -/
def same_but_secret (v w : WrapVars) : Prop :=
  v.cmd_buf = w.cmd_buf ∧ v.offset = w.offset ∧ v.digest = w.digest ∧
    v.enc_auth = w.enc_auth ∧ v.pub_auth_d = w.pub_auth_d

/-! ## Theorems -/

theorem le_val_lt (l : List Nat) : le_val l < 256 ^ l.length := by
  induction l with
  | nil => simp [le_val]
  | cons b bs ih =>
    have hb : b % 256 < 256 := Nat.mod_lt _ (by decide)
    simp only [le_val, List.length_cons, pow_succ]
    omega

theorem length_readBytes (m : List Nat) (off n : Nat) : (readBytes m off n).length = n := by
  simp [readBytes]

theorem u32_at_lt (m : List Nat) (off : Nat) : u32_at m off < 2 ^ 32 := by
  have h := le_val_lt (readBytes m off 4)
  rw [length_readBytes] at h
  exact h

/-! ### Memory lemmas -/

theorem rd_map_range (n : Nat) (f : Nat → Nat) (i : Nat) :
    rd ((List.range n).map f) i = if i < n then f i else 0 := by
  unfold rd
  by_cases h : i < n
  · rw [List.getD_eq_getElem _ _ (by simpa using h)]
    simp [h]
  · rw [List.getD_eq_default _ _ (by simpa using Nat.le_of_not_lt h)]
    simp [h]

theorem rd_of_length_le (m : List Nat) (i : Nat) (h : m.length ≤ i) : rd m i = 0 := by
  unfold rd
  exact List.getD_eq_default _ _ h

theorem list_ext_rd (a b : List Nat) (hl : a.length = b.length)
    (h : ∀ i, i < a.length → rd a i = rd b i) : a = b := by
  apply List.ext_getElem hl
  intro i h1 h2
  have := h i h1
  unfold rd at this
  rwa [List.getD_eq_getElem _ _ h1, List.getD_eq_getElem _ _ h2] at this

@[simp] theorem length_memcpy (dst : List Nat) (off : Nat) (src : List Nat) :
    (memcpy dst off src).length = dst.length := by
  simp [memcpy]

@[simp] theorem length_reverse_copy (inp : List Nat) (n : Nat) :
    (_reverse_copy inp n).length = n := by
  simp [_reverse_copy]

theorem rd_readBytes (m : List Nat) (off n i : Nat) :
    rd (readBytes m off n) i = if i < n then rd m (off + i) else 0 := by
  unfold readBytes
  rw [rd_map_range]

theorem rd_reverse_copy (inp : List Nat) (n i : Nat) :
    rd (_reverse_copy inp n) i = if i < n then rd inp (n - i - 1) else 0 := by
  unfold _reverse_copy
  rw [rd_map_range]

theorem rd_memcpy (dst : List Nat) (off : Nat) (src : List Nat) (i : Nat) :
    rd (memcpy dst off src) i =
      if off ≤ i ∧ i < off + src.length ∧ i < dst.length then rd src (i - off) else rd dst i := by
  unfold memcpy
  rw [rd_map_range]
  by_cases h : i < dst.length
  · by_cases h2 : off ≤ i ∧ i < off + src.length
    · have h3 : off ≤ i ∧ i < off + src.length ∧ i < dst.length := ⟨h2.1, h2.2, h⟩
      rw [if_pos h, if_pos h2, if_pos h3]
    · have h3 : ¬ (off ≤ i ∧ i < off + src.length ∧ i < dst.length) := fun hh => h2 ⟨hh.1, hh.2.1⟩
      rw [if_pos h, if_neg h2, if_neg h3]
  · have h3 : ¬ (off ≤ i ∧ i < off + src.length ∧ i < dst.length) := fun hh => h hh.2.2
    rw [if_neg h, if_neg h3, rd_of_length_le _ _ (Nat.le_of_not_lt h)]

theorem readBytes_ext (m1 m2 : List Nat) (a b n : Nat)
    (h : ∀ j, j < n → rd m1 (a + j) = rd m2 (b + j)) :
    readBytes m1 a n = readBytes m2 b n := by
  apply list_ext_rd
  · simp [readBytes]
  · intro i hi
    rw [length_readBytes] at hi
    rw [rd_readBytes, rd_readBytes, if_pos hi, if_pos hi]
    exact h i hi

/-- Bytes outside the written range are kept by `memcpy`. -/
theorem readBytes_memcpy_frame (m : List Nat) (o : Nat) (s : List Nat) (a k : Nat)
    (h : a + k ≤ o ∨ o + s.length ≤ a) :
    readBytes (memcpy m o s) a k = readBytes m a k := by
  apply readBytes_ext
  intro j hj
  rw [rd_memcpy, if_neg]
  omega

/-- The bytes written by `memcpy` are read back when they fit in the area. -/
theorem readBytes_memcpy_hit (m : List Nat) (o : Nat) (s : List Nat) (k n : Nat)
    (h : o + k + n ≤ m.length) (hs : k + n ≤ s.length) :
    readBytes (memcpy m o s) (o + k) n = readBytes s k n := by
  apply readBytes_ext
  intro j hj
  rw [rd_memcpy, if_pos (by omega)]
  congr 1
  omega

theorem readBytes_self (m : List Nat) : readBytes m 0 m.length = m := by
  apply list_ext_rd
  · simp [readBytes]
  · intro i hi
    rw [length_readBytes] at hi
    rw [rd_readBytes, if_pos hi, Nat.zero_add]

theorem reverse_copy_reverse_copy (v : List Nat) (n : Nat) (h : v.length = n) :
    _reverse_copy (_reverse_copy v n) n = v := by
  apply list_ext_rd
  · simp [h]
  · intro i hi
    rw [length_reverse_copy] at hi
    rw [rd_reverse_copy, if_pos hi, rd_reverse_copy, if_pos (by omega)]
    congr 1
    omega

theorem u32_of_lt (n : Nat) (h : n < 2 ^ 32) : u32 n = n := Nat.mod_eq_of_lt h

/-! ### `check_sealed_data` and `tpm_cmp_creation_pcrs` -/

theorem u32_add_eq_of_ge (k e size : Nat) (hk : k ≤ size) (he : e < 2 ^ 32)
    (h : size = u32 (k + e)) : size = k + e := by
  unfold u32 at h
  omega

/-- C1, as stated, fails: the 66-byte long-form area with declared
`seal_info_size = 1` and `enc_data_size = 0` is accepted by `check_sealed_data`
although 66 is not 8 + 1 + 4 + 0. -/
theorem check_sealed_data_declared_sum_counterexample :
    check_sealed_data 66 blob_seal_info_size_1 = true ∧
      hdr_seal_info_size blob_seal_info_size_1 = 1 ∧
      long_enc_data_size blob_seal_info_size_1 = 0 ∧
      short_enc_data_size blob_seal_info_size_1 = 0 ∧
      66 ≠ 8 + hdr_seal_info_size blob_seal_info_size_1 + 4
            + long_enc_data_size blob_seal_info_size_1 := by
  decide

/-- C1 (amended): `check_sealed_data(size, data)` returns true exactly when the
tag is 0x0016 and either `seal_info_size` is 0 and `size` is 12 plus the short
form's `enc_data_size`, or `seal_info_size` is non-zero (whatever its value) and
`size` is 66, the fixed size of the long struct, plus the long form's
`enc_data_size`. -/
theorem check_sealed_data_iff (size : Nat) (data : List Nat) (hsize : size < 2 ^ 32) :
    check_sealed_data size data = true ↔
      hdr_tag data = 0x0016 ∧
        ((hdr_seal_info_size data = 0 ∧ size = 8 + 4 + short_enc_data_size data) ∨
         (hdr_seal_info_size data ≠ 0 ∧ size = 8 + 54 + 4 + long_enc_data_size data)) := by
  have hs := u32_at_lt data 8
  have hl := u32_at_lt data 62
  unfold check_sealed_data sizeof_stored_data12 sizeof_stored_data12_short sizeof_pcr_info_long
    sizeof_stored_data12_header sizeof_pcr_selection TPM_DIGEST_SIZE TPM_TAG_STORED_DATA12
    short_enc_data_size long_enc_data_size u32
  unfold short_enc_data_size at hs
  unfold long_enc_data_size at hl
  by_cases htag : hdr_tag data = 22 <;> by_cases hz : hdr_seal_info_size data = 0 <;>
    simp [htag, hz] <;> omega

theorem check_sealed_data_iff_witness :
    check_sealed_data 13 blob_short_1 = true ↔
      hdr_tag blob_short_1 = 0x0016 ∧
        ((hdr_seal_info_size blob_short_1 = 0 ∧ 13 = 8 + 4 + short_enc_data_size blob_short_1) ∨
         (hdr_seal_info_size blob_short_1 ≠ 0 ∧
            13 = 8 + 54 + 4 + long_enc_data_size blob_short_1)) :=
  check_sealed_data_iff 13 blob_short_1 (by decide)

/-- C3: for every sealed blob whose header has `seal_info_size = 0` (short
form) and every list of register indices and values, `tpm_cmp_creation_pcrs`
returns false. -/
theorem tpm_cmp_creation_pcrs_short_form (sha1 : List Nat → List Nat) (cmd_buf : List Nat)
    (pcr_nr_create : Nat) (pcr_indcs_create : Option (List Nat))
    (pcr_values_create : Option (List (Option (List Nat))))
    (sealed_data_size : Nat) (sealed_data : List Nat)
    (hshort : hdr_seal_info_size sealed_data = 0) :
    (tpm_cmp_creation_pcrs sha1 cmd_buf pcr_nr_create pcr_indcs_create pcr_values_create
      sealed_data_size sealed_data).1 = false := by
  unfold tpm_cmp_creation_pcrs get_cre_pcr_composite
  simp only [hshort, if_true]
  split_ifs <;> rfl

theorem tpm_cmp_creation_pcrs_short_form_witness :
    hdr_seal_info_size blob_short_1 = 0 ∧
      (tpm_cmp_creation_pcrs (fun m => m) (List.replicate 64 0) 1 (some [3])
        (some [some (List.replicate 20 0)]) 13 blob_short_1).1 = false :=
  ⟨by decide, tpm_cmp_creation_pcrs_short_form _ _ _ _ _ _ _ (by decide)⟩

theorem any_index_out_of_range_false (nr : Nat) (ix : List Nat)
    (h : ∀ i, i < nr → rd ix i < TPM_NR_PCRS) :
    (List.range nr).any (fun i => decide (TPM_NR_PCRS ≤ rd ix i)) = false := by
  rw [Bool.eq_false_iff]
  intro hany
  rw [List.any_eq_true] at hany
  obtain ⟨i, hi, hd⟩ := hany
  have := h i (List.mem_range.mp hi)
  simp at hd
  omega

/-- C4: for every long-form blob accepted by `check_sealed_data` and every
non-empty list of register indices all below 24 with non-null values,
`tpm_cmp_creation_pcrs` returns true if and only if the digest that
`calc_pcr_composition` computes from the supplied indices and values (into a
zeroed digest) equals, byte for byte, the 20 bytes of `digest_at_creation`
stored at position 22 of the blob. -/
theorem tpm_cmp_creation_pcrs_long_form (sha1 : List Nat → List Nat) (cmd_buf : List Nat)
    (nr : Nat) (ix : List Nat) (vs : List (Option (List Nat)))
    (size : Nat) (data : List Nat)
    (hacc : check_sealed_data size data = true)
    (hlong : hdr_seal_info_size data ≠ 0)
    (hnr : 0 < nr)
    (hix : ∀ i, i < nr → rd ix i < TPM_NR_PCRS)
    (_hvs : ∀ i, i < nr → vs.getD i none ≠ none) :
    (tpm_cmp_creation_pcrs sha1 cmd_buf nr (some ix) (some vs) size data).1 = true ↔
      (calc_pcr_composition sha1 cmd_buf nr (some ix) (some vs)
          (some (List.replicate 20 0))).2.getD []
        = readBytes data 22 20 := by
  have hlen : ((calc_pcr_composition sha1 cmd_buf nr (some ix) (some vs)
      (some (List.replicate 20 0))).2.getD []).length = 20 := by
    unfold calc_pcr_composition
    have : nr ≠ 0 := by omega
    simp [this, memcpy]
  have hrb : ∀ l : List Nat, l.length = 20 → readBytes l 0 20 = l := by
    intro l hl
    apply List.ext_getElem
    · simp [readBytes, hl]
    · intro i h1 h2
      simp [readBytes, rd, List.getD_eq_getElem, h2]
  unfold tpm_cmp_creation_pcrs get_cre_pcr_composite
  simp only [any_index_out_of_range_false nr ix hix, hacc, hlong, hnr, if_true, if_false,
    Option.getD, reduceCtorEq, Bool.not_true, Bool.false_eq_true, TPM_DIGEST_SIZE,
    off_digest_at_creation, sizeof_pcr_selection]
  rw [show (8 + 2 + 1 + 1 + 5 + 5) = 22 from rfl]
  have hrb2 := hrb _ hlen
  simp only [Option.getD, TPM_DIGEST_SIZE] at hrb2
  split_ifs with h
  · simp only [Bool.false_eq_true, false_iff]
    rw [← hrb2]
    exact h
  · simp only [true_iff]
    rw [← hrb2]
    exact not_not.mp h

theorem tpm_cmp_creation_pcrs_long_form_witness :
    (check_sealed_data 67 blob_long_1 = true ∧ hdr_seal_info_size blob_long_1 ≠ 0) ∧
      ((tpm_cmp_creation_pcrs (fun _ => List.replicate 20 7) (List.replicate 64 0) 1 (some [3])
          (some [some (List.replicate 20 1)]) 67 blob_long_1).1 = true ↔
        (calc_pcr_composition (fun _ => List.replicate 20 7) (List.replicate 64 0) 1 (some [3])
          (some [some (List.replicate 20 1)]) (some (List.replicate 20 0))).2.getD []
          = readBytes blob_long_1 22 20) :=
  ⟨by decide, tpm_cmp_creation_pcrs_long_form _ _ 1 [3] [some (List.replicate 20 1)] 67
    blob_long_1 (by decide) (by decide) (by decide) (by decide) (by decide)⟩

/-! ### Structure codec round trips -/

theorem reverse_copy_readBytes_twice (m : List Nat) (a n : Nat) :
    _reverse_copy (_reverse_copy (readBytes m a n) n) n = readBytes m a n :=
  reverse_copy_reverse_copy _ _ (length_readBytes _ _ _)

theorem readBytes_memcpy_hit0 (m : List Nat) (o : Nat) (s : List Nat) (n : Nat)
    (h : o + n ≤ m.length) (hs : n ≤ s.length) :
    readBytes (memcpy m o s) o n = readBytes s 0 n := by
  have := readBytes_memcpy_hit m o s 0 n (by omega) (by omega)
  simpa using this

theorem readBytes_readBytes0 (m : List Nat) (a n : Nat) :
    readBytes (readBytes m a n) 0 n = readBytes m a n := by
  have := readBytes_self (readBytes m a n)
  rwa [length_readBytes] at this

theorem readBytes_reverse_copy0 (v : List Nat) (n : Nat) :
    readBytes (_reverse_copy v n) 0 n = _reverse_copy v n := by
  have := readBytes_self (_reverse_copy v n)
  rwa [length_reverse_copy] at this

theorem frame_rb (m : List Nat) (o : Nat) (s : List Nat) (so n a k : Nat)
    (h : a + k ≤ o ∨ o + n ≤ a) :
    readBytes (memcpy m o (readBytes s so n)) a k = readBytes m a k :=
  readBytes_memcpy_frame _ _ _ _ _ (by rw [length_readBytes]; exact h)

theorem frame_rc (m : List Nat) (o : Nat) (v : List Nat) (n a k : Nat)
    (h : a + k ≤ o ∨ o + n ≤ a) :
    readBytes (memcpy m o (_reverse_copy v n)) a k = readBytes m a k :=
  readBytes_memcpy_frame _ _ _ _ _ (by rw [length_reverse_copy]; exact h)

theorem hit_rb (m : List Nat) (o : Nat) (s : List Nat) (so n : Nat) (h : o + n ≤ m.length) :
    readBytes (memcpy m o (readBytes s so n)) o n = readBytes s so n := by
  rw [readBytes_memcpy_hit0 _ _ _ _ h (by rw [length_readBytes]), readBytes_readBytes0]

theorem hit_rc (m : List Nat) (o : Nat) (v : List Nat) (n : Nat) (h : o + n ≤ m.length) :
    readBytes (memcpy m o (_reverse_copy v n)) o n = _reverse_copy v n := by
  rw [readBytes_memcpy_hit0 _ _ _ _ h (by rw [length_reverse_copy]), readBytes_reverse_copy0]

theorem agree_memcpy (m hdr : List Nat) (p n : Nat) (h : agree m hdr p) (hl : p + n ≤ m.length) :
    agree (memcpy m p (readBytes hdr p n)) hdr (p + n) := by
  intro i hi
  rw [rd_memcpy, length_readBytes]
  split_ifs with hc
  · rw [rd_readBytes, if_pos (by omega)]
    congr 1
    omega
  · exact h i (by omega)

theorem readBytes_of_agree (m hdr : List Nat) (p a k : Nat) (h : agree m hdr p) (hk : a + k ≤ p) :
    readBytes m a k = readBytes hdr a k :=
  readBytes_ext _ _ _ _ _ (fun j hj => h (a + j) (by omega))

theorem LOAD_INTEGER_step (W hdr : List Nat) (base p n : Nat) (c : Cur)
    (ho : c.offset = p) (ha : agree c.mem hdr p)
    (hp : readBytes W (base + p) n = _reverse_copy (readBytes hdr p n) n)
    (L : Nat) (hL : c.mem.length = L) (hl : p + n ≤ L) (h32 : p + n < 2 ^ 32) :
    (LOAD_INTEGER W base p n c).offset = p + n ∧ agree (LOAD_INTEGER W base p n c).mem hdr (p + n) ∧
      (LOAD_INTEGER W base p n c).mem.length = L := by
  unfold LOAD_INTEGER
  simp only [ho, hp, reverse_copy_readBytes_twice, length_memcpy]
  exact ⟨u32_of_lt _ h32, agree_memcpy _ _ _ _ ha (by omega), hL⟩

theorem LOAD_BLOB_step (W hdr : List Nat) (base p n : Nat) (c : Cur)
    (ho : c.offset = p) (ha : agree c.mem hdr p)
    (hp : readBytes W (base + p) n = readBytes hdr p n)
    (L : Nat) (hL : c.mem.length = L) (hl : p + n ≤ L) (h32 : p + n < 2 ^ 32) :
    (LOAD_BLOB W base p n c).offset = p + n ∧ agree (LOAD_BLOB W base p n c).mem hdr (p + n) ∧
      (LOAD_BLOB W base p n c).mem.length = L := by
  unfold LOAD_BLOB
  simp only [ho, hp, length_memcpy]
  exact ⟨u32_of_lt _ h32, agree_memcpy _ _ _ _ ha (by omega), hL⟩

theorem wrote_nil (c : Cur) (base : Nat) : wrote c base [] c.offset c.mem.length :=
  ⟨rfl, rfl, fun _ hx => absurd hx (List.not_mem_nil _)⟩

theorem wrote_UNLOAD_BLOB (base : Nat) (hdr : List Nat) (fo n : Nat) (c : Cur)
    (ps : List (Nat × List Nat)) (p L : Nat) (h : wrote c base ps p L)
    (hl : base + p + n ≤ L) (h32 : p + n < 2 ^ 32) :
    wrote (UNLOAD_BLOB base (readBytes hdr fo n) c) base ((p, readBytes hdr fo n) :: ps) (p + n) L := by
  obtain ⟨ho, hL, hp⟩ := h
  unfold UNLOAD_BLOB
  refine ⟨?_, ?_, ?_⟩
  · simp only [length_readBytes, ho]
    exact u32_of_lt _ h32
  · simp only [length_memcpy, hL]
  · intro x hx
    simp only [ho]
    rcases List.mem_cons.mp hx with rfl | hx
    · simp only [length_readBytes]
      exact ⟨Nat.le_refl _, hit_rb _ _ _ _ _ (by omega)⟩
    · obtain ⟨h1, h2⟩ := hp x hx
      refine ⟨by omega, ?_⟩
      rw [frame_rb _ _ _ _ _ _ _ (by omega)]
      exact h2

theorem wrote_UNLOAD_INTEGER (base : Nat) (hdr : List Nat) (fo n : Nat) (c : Cur)
    (ps : List (Nat × List Nat)) (p L : Nat) (h : wrote c base ps p L)
    (hl : base + p + n ≤ L) (h32 : p + n < 2 ^ 32) :
    wrote (UNLOAD_INTEGER base (readBytes hdr fo n) c) base
      ((p, _reverse_copy (readBytes hdr fo n) n) :: ps) (p + n) L := by
  obtain ⟨ho, hL, hp⟩ := h
  unfold UNLOAD_INTEGER
  refine ⟨?_, ?_, ?_⟩
  · simp only [length_readBytes, ho]
    exact u32_of_lt _ h32
  · simp only [length_memcpy, hL]
  · intro x hx
    simp only [ho, length_readBytes]
    rcases List.mem_cons.mp hx with rfl | hx
    · simp only [length_reverse_copy]
      exact ⟨Nat.le_refl _, hit_rc _ _ _ _ (by omega)⟩
    · obtain ⟨h1, h2⟩ := hp x hx
      refine ⟨by omega, ?_⟩
      rw [frame_rc _ _ _ _ _ _ (by omega)]
      exact h2

theorem UNLOAD_STORED_DATA12_short_wrote (base : Nat) (hdr buf0 : List Nat) (n : Nat)
    (hz : hdr_seal_info_size hdr = 0)
    (hn : short_enc_data_size hdr = n)
    (hbuf : base + 12 + n ≤ buf0.length) (hcap : buf0.length < 2 ^ 32) :
    wrote (UNLOAD_STORED_DATA12 base hdr ⟨buf0, 0⟩) base
      [(12, readBytes hdr 12 n), (8, _reverse_copy (readBytes hdr 8 4) 4), (4, _reverse_copy (readBytes hdr 4 4) 4), (2, _reverse_copy (readBytes hdr 2 2) 2), (0, _reverse_copy (readBytes hdr 0 2) 2)]
      (12 + n) buf0.length := by
  have hE : UNLOAD_STORED_DATA12 base hdr ⟨buf0, 0⟩ = (UNLOAD_BLOB base (readBytes hdr 12 n) (UNLOAD_INTEGER base (readBytes hdr 8 4) (UNLOAD_INTEGER base (readBytes hdr 4 4) (UNLOAD_INTEGER base (readBytes hdr 2 2) (UNLOAD_INTEGER base (readBytes hdr 0 2) ⟨buf0, 0⟩))))) := by
    unfold UNLOAD_STORED_DATA12
    rw [if_pos hz, hn]
  rw [hE]
  clear hE hz hn
  have q0 : wrote (⟨buf0, 0⟩ : Cur) base [] 0 buf0.length := wrote_nil _ _
  have q1 := wrote_UNLOAD_INTEGER base hdr 0 2 _ _ 0 _ q0 (by omega) (by omega)
  have q2 := wrote_UNLOAD_INTEGER base hdr 2 2 _ _ 2 _ q1 (by omega) (by omega)
  have q3 := wrote_UNLOAD_INTEGER base hdr 4 4 _ _ 4 _ q2 (by omega) (by omega)
  have q4 := wrote_UNLOAD_INTEGER base hdr 8 4 _ _ 8 _ q3 (by omega) (by omega)
  have q5 := wrote_UNLOAD_BLOB base hdr 12 n _ _ 12 _ q4 (by omega) (by omega)
  exact q5

theorem LOAD_STORED_DATA12_short_agree (base : Nat) (hdr W dst0 : List Nat) (n : Nat)
    (hz : hdr_seal_info_size hdr = 0)
    (hn : short_enc_data_size hdr = n)
    (hP : ∀ x ∈ [(12, readBytes hdr 12 n), (8, _reverse_copy (readBytes hdr 8 4) 4), (4, _reverse_copy (readBytes hdr 4 4) 4), (2, _reverse_copy (readBytes hdr 2 2) 2), (0, _reverse_copy (readBytes hdr 0 2) 2)],
      readBytes W (base + x.1) x.2.length = x.2)
    (hdst : 12 + n ≤ dst0.length) (hcap : 12 + n < 2 ^ 32) :
    (LOAD_STORED_DATA12 W base ⟨dst0, 0⟩).offset = 12 + n ∧
      agree (LOAD_STORED_DATA12 W base ⟨dst0, 0⟩).mem hdr (12 + n) := by
  have p0 : readBytes W (base + 0) 2 = _reverse_copy (readBytes hdr 0 2) 2 := by
    have h := hP (0, _reverse_copy (readBytes hdr 0 2) 2) (by simp)
    simpa only [length_readBytes, length_reverse_copy] using h
  have p1 : readBytes W (base + 2) 2 = _reverse_copy (readBytes hdr 2 2) 2 := by
    have h := hP (2, _reverse_copy (readBytes hdr 2 2) 2) (by simp)
    simpa only [length_readBytes, length_reverse_copy] using h
  have p2 : readBytes W (base + 4) 4 = _reverse_copy (readBytes hdr 4 4) 4 := by
    have h := hP (4, _reverse_copy (readBytes hdr 4 4) 4) (by simp)
    simpa only [length_readBytes, length_reverse_copy] using h
  have p3 : readBytes W (base + 8) 4 = _reverse_copy (readBytes hdr 8 4) 4 := by
    have h := hP (8, _reverse_copy (readBytes hdr 8 4) 4) (by simp)
    simpa only [length_readBytes, length_reverse_copy] using h
  have p4 : readBytes W (base + 12) n = readBytes hdr 12 n := by
    have h := hP (12, readBytes hdr 12 n) (by simp)
    simpa only [length_readBytes, length_reverse_copy] using h
  clear hP
  unfold LOAD_STORED_DATA12
  simp only
  have a0 : agree (⟨dst0, 0⟩ : Cur).mem hdr 0 := fun i hi => absurd hi (Nat.not_lt_zero i)
  have l0 : (⟨dst0, 0⟩ : Cur).mem.length = dst0.length := rfl
  have o0 : (⟨dst0, 0⟩ : Cur).offset = 0 := rfl
  generalize (⟨dst0, 0⟩ : Cur) = c0 at a0 l0 o0 ⊢
  obtain ⟨o1, a1, l1⟩ := LOAD_INTEGER_step W hdr base 0 2 c0 o0 a0 p0 _ l0 (by omega) (by omega)
  generalize LOAD_INTEGER W base 0 2 c0 = c1 at o1 a1 l1 ⊢
  clear o0 a0 l0 p0 c0
  obtain ⟨o2, a2, l2⟩ := LOAD_INTEGER_step W hdr base 2 2 c1 o1 a1 p1 _ l1 (by omega) (by omega)
  generalize LOAD_INTEGER W base 2 2 c1 = c2 at o2 a2 l2 ⊢
  clear o1 a1 l1 p1 c1
  obtain ⟨o3, a3, l3⟩ := LOAD_INTEGER_step W hdr base 4 4 c2 o2 a2 p2 _ l2 (by omega) (by omega)
  generalize LOAD_INTEGER W base 4 4 c2 = c3 at o3 a3 l3 ⊢
  clear o2 a2 l2 p2 c2
  have hf : hdr_seal_info_size c3.mem = hdr_seal_info_size hdr := by
    have h := readBytes_of_agree _ hdr _ 4 4 a3 (by omega)
    unfold hdr_seal_info_size u32_at
    rw [h]
  rw [if_pos (by rw [hf]; exact hz)]
  clear hf
  obtain ⟨o4, a4, l4⟩ := LOAD_INTEGER_step W hdr base 8 4 c3 o3 a3 p3 _ l3 (by omega) (by omega)
  generalize LOAD_INTEGER W base 8 4 c3 = c4 at o4 a4 l4 ⊢
  clear o3 a3 l3 p3 c3
  have hf : short_enc_data_size c4.mem = short_enc_data_size hdr := by
    have h := readBytes_of_agree _ hdr _ 8 4 a4 (by omega)
    unfold short_enc_data_size u32_at
    rw [h]
  rw [hf, hn]
  clear hf
  obtain ⟨o5, a5, l5⟩ := LOAD_BLOB_step W hdr base 12 n c4 o4 a4 p4 _ l4 (by omega) (by omega)
  generalize LOAD_BLOB W base 12 n c4 = c5 at o5 a5 l5 ⊢
  clear o4 a4 l4 p4 c4
  exact ⟨o5, a5⟩

theorem stored_data12_short_unload_load (base : Nat) (hdr buf0 dst0 : List Nat)
    (hz : hdr_seal_info_size hdr = 0)
    (hrec : hdr.length = 12 + short_enc_data_size hdr)
    (hbuf : base + hdr.length ≤ buf0.length) (hcap : buf0.length < 2 ^ 32)
    (hdst : hdr.length ≤ dst0.length) :
    readBytes (LOAD_STORED_DATA12 (UNLOAD_STORED_DATA12 base hdr ⟨buf0, 0⟩).mem base ⟨dst0, 0⟩).mem
        0 hdr.length = hdr ∧
      (LOAD_STORED_DATA12 (UNLOAD_STORED_DATA12 base hdr ⟨buf0, 0⟩).mem base ⟨dst0, 0⟩).offset
        = (UNLOAD_STORED_DATA12 base hdr ⟨buf0, 0⟩).offset ∧
      (UNLOAD_STORED_DATA12 base hdr ⟨buf0, 0⟩).offset = hdr.length := by
  generalize hn : short_enc_data_size hdr = n at hrec
  obtain ⟨oE, lE, hP⟩ := UNLOAD_STORED_DATA12_short_wrote base hdr buf0 n hz hn (by omega) hcap
  obtain ⟨oD, aD⟩ := LOAD_STORED_DATA12_short_agree base hdr (UNLOAD_STORED_DATA12 base hdr ⟨buf0, 0⟩).mem dst0 n hz hn
    (fun x hx => (hP x hx).2) (by omega) (by omega)
  refine ⟨?_, by omega, by omega⟩
  have h := readBytes_of_agree _ hdr _ 0 hdr.length aD (by omega)
  rw [h, readBytes_self]

theorem UNLOAD_STORED_DATA12_long_wrote (base : Nat) (hdr buf0 : List Nat) (n : Nat)
    (hz : hdr_seal_info_size hdr ≠ 0)
    (hs1 : u16_at hdr 12 = 3) (hs2 : u16_at hdr 17 = 3)
    (hn : long_enc_data_size hdr = n)
    (hbuf : base + 66 + n ≤ buf0.length) (hcap : buf0.length < 2 ^ 32) :
    wrote (UNLOAD_STORED_DATA12 base hdr ⟨buf0, 0⟩) base
      [(66, readBytes hdr 66 n), (62, _reverse_copy (readBytes hdr 62 4) 4), (42, readBytes hdr 42 20), (22, readBytes hdr 22 20), (19, readBytes hdr 19 3), (17, _reverse_copy (readBytes hdr 17 2) 2), (14, readBytes hdr 14 3), (12, _reverse_copy (readBytes hdr 12 2) 2), (11, readBytes hdr 11 1), (10, readBytes hdr 10 1), (8, _reverse_copy (readBytes hdr 8 2) 2), (4, _reverse_copy (readBytes hdr 4 4) 4), (2, _reverse_copy (readBytes hdr 2 2) 2), (0, _reverse_copy (readBytes hdr 0 2) 2)]
      (66 + n) buf0.length := by
  have hE : UNLOAD_STORED_DATA12 base hdr ⟨buf0, 0⟩ = (UNLOAD_BLOB base (readBytes hdr 66 n) (UNLOAD_INTEGER base (readBytes hdr 62 4) (UNLOAD_BLOB base (readBytes hdr 42 20) (UNLOAD_BLOB base (readBytes hdr 22 20) (UNLOAD_BLOB base (readBytes hdr 19 3) (UNLOAD_INTEGER base (readBytes hdr 17 2) (UNLOAD_BLOB base (readBytes hdr 14 3) (UNLOAD_INTEGER base (readBytes hdr 12 2) (UNLOAD_BLOB base (readBytes hdr 11 1) (UNLOAD_BLOB base (readBytes hdr 10 1) (UNLOAD_INTEGER base (readBytes hdr 8 2) (UNLOAD_INTEGER base (readBytes hdr 4 4) (UNLOAD_INTEGER base (readBytes hdr 2 2) (UNLOAD_INTEGER base (readBytes hdr 0 2) ⟨buf0, 0⟩)))))))))))))) := by
    unfold UNLOAD_STORED_DATA12 UNLOAD_PCR_INFO_LONG UNLOAD_PCR_SELECTION
    rw [if_neg hz]
    simp only [Nat.reduceAdd, TPM_DIGEST_SIZE, hs1, hs2, hn]
  rw [hE]
  clear hE hz hn hs1 hs2
  have q0 : wrote (⟨buf0, 0⟩ : Cur) base [] 0 buf0.length := wrote_nil _ _
  have q1 := wrote_UNLOAD_INTEGER base hdr 0 2 _ _ 0 _ q0 (by omega) (by omega)
  have q2 := wrote_UNLOAD_INTEGER base hdr 2 2 _ _ 2 _ q1 (by omega) (by omega)
  have q3 := wrote_UNLOAD_INTEGER base hdr 4 4 _ _ 4 _ q2 (by omega) (by omega)
  have q4 := wrote_UNLOAD_INTEGER base hdr 8 2 _ _ 8 _ q3 (by omega) (by omega)
  have q5 := wrote_UNLOAD_BLOB base hdr 10 1 _ _ 10 _ q4 (by omega) (by omega)
  have q6 := wrote_UNLOAD_BLOB base hdr 11 1 _ _ 11 _ q5 (by omega) (by omega)
  have q7 := wrote_UNLOAD_INTEGER base hdr 12 2 _ _ 12 _ q6 (by omega) (by omega)
  have q8 := wrote_UNLOAD_BLOB base hdr 14 3 _ _ 14 _ q7 (by omega) (by omega)
  have q9 := wrote_UNLOAD_INTEGER base hdr 17 2 _ _ 17 _ q8 (by omega) (by omega)
  have q10 := wrote_UNLOAD_BLOB base hdr 19 3 _ _ 19 _ q9 (by omega) (by omega)
  have q11 := wrote_UNLOAD_BLOB base hdr 22 20 _ _ 22 _ q10 (by omega) (by omega)
  have q12 := wrote_UNLOAD_BLOB base hdr 42 20 _ _ 42 _ q11 (by omega) (by omega)
  have q13 := wrote_UNLOAD_INTEGER base hdr 62 4 _ _ 62 _ q12 (by omega) (by omega)
  have q14 := wrote_UNLOAD_BLOB base hdr 66 n _ _ 66 _ q13 (by omega) (by omega)
  exact q14

theorem LOAD_STORED_DATA12_long_agree (base : Nat) (hdr W dst0 : List Nat) (n : Nat)
    (hz : hdr_seal_info_size hdr ≠ 0)
    (hs1 : u16_at hdr 12 = 3) (hs2 : u16_at hdr 17 = 3)
    (hn : long_enc_data_size hdr = n)
    (hP : ∀ x ∈ [(66, readBytes hdr 66 n), (62, _reverse_copy (readBytes hdr 62 4) 4), (42, readBytes hdr 42 20), (22, readBytes hdr 22 20), (19, readBytes hdr 19 3), (17, _reverse_copy (readBytes hdr 17 2) 2), (14, readBytes hdr 14 3), (12, _reverse_copy (readBytes hdr 12 2) 2), (11, readBytes hdr 11 1), (10, readBytes hdr 10 1), (8, _reverse_copy (readBytes hdr 8 2) 2), (4, _reverse_copy (readBytes hdr 4 4) 4), (2, _reverse_copy (readBytes hdr 2 2) 2), (0, _reverse_copy (readBytes hdr 0 2) 2)],
      readBytes W (base + x.1) x.2.length = x.2)
    (hdst : 66 + n ≤ dst0.length) (hcap : 66 + n < 2 ^ 32) :
    (LOAD_STORED_DATA12 W base ⟨dst0, 0⟩).offset = 66 + n ∧
      agree (LOAD_STORED_DATA12 W base ⟨dst0, 0⟩).mem hdr (66 + n) := by
  have p0 : readBytes W (base + 0) 2 = _reverse_copy (readBytes hdr 0 2) 2 := by
    have h := hP (0, _reverse_copy (readBytes hdr 0 2) 2) (by simp)
    simpa only [length_readBytes, length_reverse_copy] using h
  have p1 : readBytes W (base + 2) 2 = _reverse_copy (readBytes hdr 2 2) 2 := by
    have h := hP (2, _reverse_copy (readBytes hdr 2 2) 2) (by simp)
    simpa only [length_readBytes, length_reverse_copy] using h
  have p2 : readBytes W (base + 4) 4 = _reverse_copy (readBytes hdr 4 4) 4 := by
    have h := hP (4, _reverse_copy (readBytes hdr 4 4) 4) (by simp)
    simpa only [length_readBytes, length_reverse_copy] using h
  have p3 : readBytes W (base + 8) 2 = _reverse_copy (readBytes hdr 8 2) 2 := by
    have h := hP (8, _reverse_copy (readBytes hdr 8 2) 2) (by simp)
    simpa only [length_readBytes, length_reverse_copy] using h
  have p4 : readBytes W (base + 10) 1 = readBytes hdr 10 1 := by
    have h := hP (10, readBytes hdr 10 1) (by simp)
    simpa only [length_readBytes, length_reverse_copy] using h
  have p5 : readBytes W (base + 11) 1 = readBytes hdr 11 1 := by
    have h := hP (11, readBytes hdr 11 1) (by simp)
    simpa only [length_readBytes, length_reverse_copy] using h
  have p6 : readBytes W (base + 12) 2 = _reverse_copy (readBytes hdr 12 2) 2 := by
    have h := hP (12, _reverse_copy (readBytes hdr 12 2) 2) (by simp)
    simpa only [length_readBytes, length_reverse_copy] using h
  have p7 : readBytes W (base + 14) 3 = readBytes hdr 14 3 := by
    have h := hP (14, readBytes hdr 14 3) (by simp)
    simpa only [length_readBytes, length_reverse_copy] using h
  have p8 : readBytes W (base + 17) 2 = _reverse_copy (readBytes hdr 17 2) 2 := by
    have h := hP (17, _reverse_copy (readBytes hdr 17 2) 2) (by simp)
    simpa only [length_readBytes, length_reverse_copy] using h
  have p9 : readBytes W (base + 19) 3 = readBytes hdr 19 3 := by
    have h := hP (19, readBytes hdr 19 3) (by simp)
    simpa only [length_readBytes, length_reverse_copy] using h
  have p10 : readBytes W (base + 22) 20 = readBytes hdr 22 20 := by
    have h := hP (22, readBytes hdr 22 20) (by simp)
    simpa only [length_readBytes, length_reverse_copy] using h
  have p11 : readBytes W (base + 42) 20 = readBytes hdr 42 20 := by
    have h := hP (42, readBytes hdr 42 20) (by simp)
    simpa only [length_readBytes, length_reverse_copy] using h
  have p12 : readBytes W (base + 62) 4 = _reverse_copy (readBytes hdr 62 4) 4 := by
    have h := hP (62, _reverse_copy (readBytes hdr 62 4) 4) (by simp)
    simpa only [length_readBytes, length_reverse_copy] using h
  have p13 : readBytes W (base + 66) n = readBytes hdr 66 n := by
    have h := hP (66, readBytes hdr 66 n) (by simp)
    simpa only [length_readBytes, length_reverse_copy] using h
  clear hP
  unfold LOAD_STORED_DATA12 LOAD_PCR_INFO_LONG LOAD_PCR_SELECTION
  simp only [Nat.reduceAdd, TPM_DIGEST_SIZE]
  have a0 : agree (⟨dst0, 0⟩ : Cur).mem hdr 0 := fun i hi => absurd hi (Nat.not_lt_zero i)
  have l0 : (⟨dst0, 0⟩ : Cur).mem.length = dst0.length := rfl
  have o0 : (⟨dst0, 0⟩ : Cur).offset = 0 := rfl
  generalize (⟨dst0, 0⟩ : Cur) = c0 at a0 l0 o0 ⊢
  obtain ⟨o1, a1, l1⟩ := LOAD_INTEGER_step W hdr base 0 2 c0 o0 a0 p0 _ l0 (by omega) (by omega)
  generalize LOAD_INTEGER W base 0 2 c0 = c1 at o1 a1 l1 ⊢
  clear o0 a0 l0 p0 c0
  obtain ⟨o2, a2, l2⟩ := LOAD_INTEGER_step W hdr base 2 2 c1 o1 a1 p1 _ l1 (by omega) (by omega)
  generalize LOAD_INTEGER W base 2 2 c1 = c2 at o2 a2 l2 ⊢
  clear o1 a1 l1 p1 c1
  obtain ⟨o3, a3, l3⟩ := LOAD_INTEGER_step W hdr base 4 4 c2 o2 a2 p2 _ l2 (by omega) (by omega)
  generalize LOAD_INTEGER W base 4 4 c2 = c3 at o3 a3 l3 ⊢
  clear o2 a2 l2 p2 c2
  have hf : hdr_seal_info_size c3.mem = hdr_seal_info_size hdr := by
    have h := readBytes_of_agree _ hdr _ 4 4 a3 (by omega)
    unfold hdr_seal_info_size u32_at
    rw [h]
  rw [if_neg (by rw [hf]; exact hz)]
  clear hf
  obtain ⟨o4, a4, l4⟩ := LOAD_INTEGER_step W hdr base 8 2 c3 o3 a3 p3 _ l3 (by omega) (by omega)
  generalize LOAD_INTEGER W base 8 2 c3 = c4 at o4 a4 l4 ⊢
  clear o3 a3 l3 p3 c3
  obtain ⟨o5, a5, l5⟩ := LOAD_BLOB_step W hdr base 10 1 c4 o4 a4 p4 _ l4 (by omega) (by omega)
  generalize LOAD_BLOB W base 10 1 c4 = c5 at o5 a5 l5 ⊢
  clear o4 a4 l4 p4 c4
  obtain ⟨o6, a6, l6⟩ := LOAD_BLOB_step W hdr base 11 1 c5 o5 a5 p5 _ l5 (by omega) (by omega)
  generalize LOAD_BLOB W base 11 1 c5 = c6 at o6 a6 l6 ⊢
  clear o5 a5 l5 p5 c5
  obtain ⟨o7, a7, l7⟩ := LOAD_INTEGER_step W hdr base 12 2 c6 o6 a6 p6 _ l6 (by omega) (by omega)
  generalize LOAD_INTEGER W base 12 2 c6 = c7 at o7 a7 l7 ⊢
  clear o6 a6 l6 p6 c6
  have hf : u16_at c7.mem 12 = u16_at hdr 12 := by
    have h := readBytes_of_agree _ hdr _ 12 2 a7 (by omega)
    unfold u16_at 
    rw [h]
  rw [hf, hs1]
  clear hf
  obtain ⟨o8, a8, l8⟩ := LOAD_BLOB_step W hdr base 14 3 c7 o7 a7 p7 _ l7 (by omega) (by omega)
  generalize LOAD_BLOB W base 14 3 c7 = c8 at o8 a8 l8 ⊢
  clear o7 a7 l7 p7 c7
  obtain ⟨o9, a9, l9⟩ := LOAD_INTEGER_step W hdr base 17 2 c8 o8 a8 p8 _ l8 (by omega) (by omega)
  generalize LOAD_INTEGER W base 17 2 c8 = c9 at o9 a9 l9 ⊢
  clear o8 a8 l8 p8 c8
  have hf : u16_at c9.mem 17 = u16_at hdr 17 := by
    have h := readBytes_of_agree _ hdr _ 17 2 a9 (by omega)
    unfold u16_at 
    rw [h]
  rw [hf, hs2]
  clear hf
  obtain ⟨o10, a10, l10⟩ := LOAD_BLOB_step W hdr base 19 3 c9 o9 a9 p9 _ l9 (by omega) (by omega)
  generalize LOAD_BLOB W base 19 3 c9 = c10 at o10 a10 l10 ⊢
  clear o9 a9 l9 p9 c9
  obtain ⟨o11, a11, l11⟩ := LOAD_BLOB_step W hdr base 22 20 c10 o10 a10 p10 _ l10 (by omega) (by omega)
  generalize LOAD_BLOB W base 22 20 c10 = c11 at o11 a11 l11 ⊢
  clear o10 a10 l10 p10 c10
  obtain ⟨o12, a12, l12⟩ := LOAD_BLOB_step W hdr base 42 20 c11 o11 a11 p11 _ l11 (by omega) (by omega)
  generalize LOAD_BLOB W base 42 20 c11 = c12 at o12 a12 l12 ⊢
  clear o11 a11 l11 p11 c11
  obtain ⟨o13, a13, l13⟩ := LOAD_INTEGER_step W hdr base 62 4 c12 o12 a12 p12 _ l12 (by omega) (by omega)
  generalize LOAD_INTEGER W base 62 4 c12 = c13 at o13 a13 l13 ⊢
  clear o12 a12 l12 p12 c12
  have hf : long_enc_data_size c13.mem = long_enc_data_size hdr := by
    have h := readBytes_of_agree _ hdr _ 62 4 a13 (by omega)
    unfold long_enc_data_size u32_at
    rw [h]
  rw [hf, hn]
  clear hf
  obtain ⟨o14, a14, l14⟩ := LOAD_BLOB_step W hdr base 66 n c13 o13 a13 p13 _ l13 (by omega) (by omega)
  generalize LOAD_BLOB W base 66 n c13 = c14 at o14 a14 l14 ⊢
  clear o13 a13 l13 p13 c13
  exact ⟨o14, a14⟩

theorem stored_data12_long_unload_load (base : Nat) (hdr buf0 dst0 : List Nat)
    (hz : hdr_seal_info_size hdr ≠ 0)
    (hs1 : u16_at hdr 12 = 3) (hs2 : u16_at hdr 17 = 3)
    (hrec : hdr.length = 66 + long_enc_data_size hdr)
    (hbuf : base + hdr.length ≤ buf0.length) (hcap : buf0.length < 2 ^ 32)
    (hdst : hdr.length ≤ dst0.length) :
    readBytes (LOAD_STORED_DATA12 (UNLOAD_STORED_DATA12 base hdr ⟨buf0, 0⟩).mem base ⟨dst0, 0⟩).mem
        0 hdr.length = hdr ∧
      (LOAD_STORED_DATA12 (UNLOAD_STORED_DATA12 base hdr ⟨buf0, 0⟩).mem base ⟨dst0, 0⟩).offset
        = (UNLOAD_STORED_DATA12 base hdr ⟨buf0, 0⟩).offset ∧
      (UNLOAD_STORED_DATA12 base hdr ⟨buf0, 0⟩).offset = hdr.length := by
  generalize hn : long_enc_data_size hdr = n at hrec
  obtain ⟨oE, lE, hP⟩ := UNLOAD_STORED_DATA12_long_wrote base hdr buf0 n hz hs1 hs2 hn (by omega) hcap
  obtain ⟨oD, aD⟩ := LOAD_STORED_DATA12_long_agree base hdr (UNLOAD_STORED_DATA12 base hdr ⟨buf0, 0⟩).mem dst0 n hz hs1 hs2 hn
    (fun x hx => (hP x hx).2) (by omega) (by omega)
  refine ⟨?_, by omega, by omega⟩
  have h := readBytes_of_agree _ hdr _ 0 hdr.length aD (by omega)
  rw [h, readBytes_self]

theorem loaded_nil (c : Cur) (b : Nat) : loaded c [] c.offset b c.mem.length :=
  ⟨rfl, rfl, fun _ hx => absurd hx (List.not_mem_nil _)⟩

theorem hit_rb0 (m : List Nat) (o : Nat) (s : List Nat) (so n : Nat) (h : o + n ≤ m.length) :
    readBytes (memcpy m o (readBytes s so n)) o n = readBytes s so n := hit_rb m o s so n h

theorem loaded_LOAD_BLOB (W : List Nat) (base fo n : Nat) (c : Cur)
    (ps : List (Nat × List Nat)) (p bound L q b2 : Nat) (h : loaded c ps p bound L)
    (hb : bound ≤ fo) (hl : fo + n ≤ L) (hq : q = p + n) (h32 : q < 2 ^ 32) (hb2 : b2 = fo + n) :
    loaded (LOAD_BLOB W base fo n c) ((fo, readBytes W (base + p) n) :: ps) q b2 L := by
  obtain ⟨ho, hL, hp⟩ := h
  subst hq hb2
  unfold LOAD_BLOB
  refine ⟨?_, ?_, ?_⟩
  · simp only [ho]
    exact u32_of_lt _ h32
  · simp only [length_memcpy, hL]
  · intro x hx
    simp only [ho]
    rcases List.mem_cons.mp hx with rfl | hx
    · simp only [length_readBytes]
      exact ⟨Nat.le_refl _, hit_rb _ _ _ _ _ (by omega)⟩
    · obtain ⟨h1, h2⟩ := hp x hx
      refine ⟨by omega, ?_⟩
      rw [frame_rb _ _ _ _ _ _ _ (by omega)]
      exact h2

theorem loaded_LOAD_INTEGER (W : List Nat) (base fo n : Nat) (c : Cur)
    (ps : List (Nat × List Nat)) (p bound L q b2 : Nat) (h : loaded c ps p bound L)
    (hb : bound ≤ fo) (hl : fo + n ≤ L) (hq : q = p + n) (h32 : q < 2 ^ 32) (hb2 : b2 = fo + n) :
    loaded (LOAD_INTEGER W base fo n c)
      ((fo, _reverse_copy (readBytes W (base + p) n) n) :: ps) q b2 L := by
  obtain ⟨ho, hL, hp⟩ := h
  subst hq hb2
  unfold LOAD_INTEGER
  refine ⟨?_, ?_, ?_⟩
  · simp only [ho]
    exact u32_of_lt _ h32
  · simp only [length_memcpy, hL]
  · intro x hx
    simp only [ho]
    rcases List.mem_cons.mp hx with rfl | hx
    · simp only [length_reverse_copy]
      exact ⟨Nat.le_refl _, hit_rc _ _ _ _ (by omega)⟩
    · obtain ⟨h1, h2⟩ := hp x hx
      refine ⟨by omega, ?_⟩
      rw [frame_rc _ _ _ _ _ _ (by omega)]
      exact h2

theorem agreeAt_memcpy (m W : List Nat) (base base2 p n : Nat) (h : agreeAt m W base base2 p)
    (hl : base2 + p + n ≤ m.length) :
    agreeAt (memcpy m (base2 + p) (readBytes W (base + p) n)) W base base2 (p + n) := by
  intro i hi
  rw [rd_memcpy, length_readBytes]
  split_ifs with hc
  · rw [rd_readBytes, if_pos (by omega)]
    congr 1
    omega
  · exact h i (by omega)

theorem agreeAt_UNLOAD_BLOB (base base2 : Nat) (W D : List Nat) (fo n : Nat) (c : Cur)
    (p q L : Nat) (ho : c.offset = p) (ha : agreeAt c.mem W base base2 p)
    (hp : readBytes D fo n = readBytes W (base + p) n)
    (hL : c.mem.length = L) (hl : base2 + p + n ≤ L) (hq : q = p + n) (h32 : q < 2 ^ 32) :
    (UNLOAD_BLOB base2 (readBytes D fo n) c).offset = q ∧
      agreeAt (UNLOAD_BLOB base2 (readBytes D fo n) c).mem W base base2 q ∧
      (UNLOAD_BLOB base2 (readBytes D fo n) c).mem.length = L := by
  subst hq
  unfold UNLOAD_BLOB
  simp only [ho, hp, length_readBytes, length_memcpy]
  exact ⟨u32_of_lt _ h32, agreeAt_memcpy _ _ _ _ _ _ ha (by omega), hL⟩

theorem agreeAt_UNLOAD_INTEGER (base base2 : Nat) (W D : List Nat) (fo n : Nat) (c : Cur)
    (p q L : Nat) (ho : c.offset = p) (ha : agreeAt c.mem W base base2 p)
    (hp : readBytes D fo n = _reverse_copy (readBytes W (base + p) n) n)
    (hL : c.mem.length = L) (hl : base2 + p + n ≤ L) (hq : q = p + n) (h32 : q < 2 ^ 32) :
    (UNLOAD_INTEGER base2 (readBytes D fo n) c).offset = q ∧
      agreeAt (UNLOAD_INTEGER base2 (readBytes D fo n) c).mem W base base2 q ∧
      (UNLOAD_INTEGER base2 (readBytes D fo n) c).mem.length = L := by
  subst hq
  unfold UNLOAD_INTEGER
  simp only [ho, hp, length_readBytes, length_memcpy, length_reverse_copy,
    reverse_copy_readBytes_twice]
  exact ⟨u32_of_lt _ h32, agreeAt_memcpy _ _ _ _ _ _ ha (by omega), hL⟩

theorem LOAD_STORED_DATA12_short_loaded (base : Nat) (W dst0 : List Nat) (n : Nat)
    (hz : be_at W (base + 4) 4 = 0)
    (hn : be_at W (base + 8) 4 = n)
    (hdst : 12 + n ≤ dst0.length) (hcap : (12 + n) < 2 ^ 32) :
    loaded (LOAD_STORED_DATA12 W base ⟨dst0, 0⟩)
      [(12, readBytes W (base + 12) n), (8, _reverse_copy (readBytes W (base + 8) 4) 4), (4, _reverse_copy (readBytes W (base + 4) 4) 4), (2, _reverse_copy (readBytes W (base + 2) 2) 2), (0, _reverse_copy (readBytes W (base + 0) 2) 2)]
      (12 + n) (12 + n) dst0.length := by
  unfold LOAD_STORED_DATA12
  simp only
  have q0 : loaded (⟨dst0, 0⟩ : Cur) [] 0 0 dst0.length := loaded_nil _ _
  generalize (⟨dst0, 0⟩ : Cur) = c0 at q0 ⊢
  have q1 := loaded_LOAD_INTEGER W base 0 2 c0 _ 0 _ _ 2 (0 + 2) q0 (by omega) (by omega) (by omega) (by omega) (by omega)
  generalize LOAD_INTEGER W base 0 2 c0 = c1 at q1 ⊢
  clear q0 c0
  have q2 := loaded_LOAD_INTEGER W base 2 2 c1 _ 2 _ _ 4 (2 + 2) q1 (by omega) (by omega) (by omega) (by omega) (by omega)
  generalize LOAD_INTEGER W base 2 2 c1 = c2 at q2 ⊢
  clear q1 c1
  have q3 := loaded_LOAD_INTEGER W base 4 4 c2 _ 4 _ _ 8 (4 + 4) q2 (by omega) (by omega) (by omega) (by omega) (by omega)
  generalize LOAD_INTEGER W base 4 4 c2 = c3 at q3 ⊢
  clear q2 c2
  have hf : hdr_seal_info_size c3.mem = be_at W (base + 4) 4 := by
    have h := (q3.2.2 (4, _reverse_copy (readBytes W (base + 4) 4) 4) (by simp)).2
    simp only [length_reverse_copy] at h
    unfold hdr_seal_info_size u32_at be_at
    rw [h]
  rw [if_pos (by rw [hf]; exact hz)]
  clear hf
  have q4 := loaded_LOAD_INTEGER W base 8 4 c3 _ 8 _ _ 12 (8 + 4) q3 (by omega) (by omega) (by omega) (by omega) (by omega)
  generalize LOAD_INTEGER W base 8 4 c3 = c4 at q4 ⊢
  clear q3 c3
  have hf : short_enc_data_size c4.mem = be_at W (base + 8) 4 := by
    have h := (q4.2.2 (8, _reverse_copy (readBytes W (base + 8) 4) 4) (by simp)).2
    simp only [length_reverse_copy] at h
    unfold short_enc_data_size u32_at be_at
    rw [h]
  rw [hf, hn]
  clear hf
  have q5 := loaded_LOAD_BLOB W base 12 n c4 _ 12 _ _ (12 + n) (12 + n) q4 (by omega) (by omega) (by omega) (by omega) (by omega)
  generalize LOAD_BLOB W base 12 n c4 = c5 at q5 ⊢
  clear q4 c4
  have e : 12 + n = 12 + n := by omega
  rw [e] at q5
  exact q5

theorem UNLOAD_STORED_DATA12_short_agreeAt (base base2 : Nat) (W D out0 : List Nat) (n : Nat)
    (hz : hdr_seal_info_size D = 0)
    (hn : short_enc_data_size D = n)
    (hP : ∀ x ∈ [(12, readBytes W (base + 12) n), (8, _reverse_copy (readBytes W (base + 8) 4) 4), (4, _reverse_copy (readBytes W (base + 4) 4) 4), (2, _reverse_copy (readBytes W (base + 2) 2) 2), (0, _reverse_copy (readBytes W (base + 0) 2) 2)],
      readBytes D x.1 x.2.length = x.2)
    (hout : base2 + (12 + n) ≤ out0.length) (hcap : (12 + n) < 2 ^ 32) :
    (UNLOAD_STORED_DATA12 base2 D ⟨out0, 0⟩).offset = (12 + n) ∧
      agreeAt (UNLOAD_STORED_DATA12 base2 D ⟨out0, 0⟩).mem W base base2 (12 + n) := by
  have p0 : readBytes D 0 2 = _reverse_copy (readBytes W (base + 0) 2) 2 := by
    have h := hP (0, _reverse_copy (readBytes W (base + 0) 2) 2) (by simp)
    simpa only [length_readBytes, length_reverse_copy] using h
  have p1 : readBytes D 2 2 = _reverse_copy (readBytes W (base + 2) 2) 2 := by
    have h := hP (2, _reverse_copy (readBytes W (base + 2) 2) 2) (by simp)
    simpa only [length_readBytes, length_reverse_copy] using h
  have p2 : readBytes D 4 4 = _reverse_copy (readBytes W (base + 4) 4) 4 := by
    have h := hP (4, _reverse_copy (readBytes W (base + 4) 4) 4) (by simp)
    simpa only [length_readBytes, length_reverse_copy] using h
  have p3 : readBytes D 8 4 = _reverse_copy (readBytes W (base + 8) 4) 4 := by
    have h := hP (8, _reverse_copy (readBytes W (base + 8) 4) 4) (by simp)
    simpa only [length_readBytes, length_reverse_copy] using h
  have p4 : readBytes D 12 n = readBytes W (base + 12) n := by
    have h := hP (12, readBytes W (base + 12) n) (by simp)
    simpa only [length_readBytes, length_reverse_copy] using h
  clear hP
  unfold UNLOAD_STORED_DATA12
  rw [if_pos hz, hn]
  have a0 : agreeAt (⟨out0, 0⟩ : Cur).mem W base base2 0 := fun i hi => absurd hi (Nat.not_lt_zero i)
  have l0 : (⟨out0, 0⟩ : Cur).mem.length = out0.length := rfl
  have o0 : (⟨out0, 0⟩ : Cur).offset = 0 := rfl
  generalize (⟨out0, 0⟩ : Cur) = c0 at a0 l0 o0 ⊢
  obtain ⟨o1, a1, l1⟩ := agreeAt_UNLOAD_INTEGER base base2 W D 0 2 c0 0 2 _ o0 a0 p0 l0 (by omega) (by omega) (by omega)
  generalize UNLOAD_INTEGER base2 (readBytes D 0 2) c0 = c1 at o1 a1 l1 ⊢
  clear o0 a0 l0 p0 c0
  obtain ⟨o2, a2, l2⟩ := agreeAt_UNLOAD_INTEGER base base2 W D 2 2 c1 2 4 _ o1 a1 p1 l1 (by omega) (by omega) (by omega)
  generalize UNLOAD_INTEGER base2 (readBytes D 2 2) c1 = c2 at o2 a2 l2 ⊢
  clear o1 a1 l1 p1 c1
  obtain ⟨o3, a3, l3⟩ := agreeAt_UNLOAD_INTEGER base base2 W D 4 4 c2 4 8 _ o2 a2 p2 l2 (by omega) (by omega) (by omega)
  generalize UNLOAD_INTEGER base2 (readBytes D 4 4) c2 = c3 at o3 a3 l3 ⊢
  clear o2 a2 l2 p2 c2
  obtain ⟨o4, a4, l4⟩ := agreeAt_UNLOAD_INTEGER base base2 W D 8 4 c3 8 12 _ o3 a3 p3 l3 (by omega) (by omega) (by omega)
  generalize UNLOAD_INTEGER base2 (readBytes D 8 4) c3 = c4 at o4 a4 l4 ⊢
  clear o3 a3 l3 p3 c3
  obtain ⟨o5, a5, l5⟩ := agreeAt_UNLOAD_BLOB base base2 W D 12 n c4 12 (12 + n) _ o4 a4 p4 l4 (by omega) (by omega) (by omega)
  generalize UNLOAD_BLOB base2 (readBytes D 12 n) c4 = c5 at o5 a5 l5 ⊢
  clear o4 a4 l4 p4 c4
  exact ⟨o5, a5⟩

theorem stored_data12_short_load_unload (base base2 : Nat) (W dst0 out0 : List Nat) (n : Nat)
    (hz : be_at W (base + 4) 4 = 0)
    (hn : be_at W (base + 8) 4 = n)
    (hdst : 12 + n ≤ dst0.length) (hout : base2 + (12 + n) ≤ out0.length) (hcap : (12 + n) < 2 ^ 32) :
    (LOAD_STORED_DATA12 W base ⟨dst0, 0⟩).offset = (12 + n) ∧
      (UNLOAD_STORED_DATA12 base2 (LOAD_STORED_DATA12 W base ⟨dst0, 0⟩).mem ⟨out0, 0⟩).offset = (12 + n) ∧
      readBytes (UNLOAD_STORED_DATA12 base2 (LOAD_STORED_DATA12 W base ⟨dst0, 0⟩).mem ⟨out0, 0⟩).mem base2 (12 + n)
        = readBytes W base (12 + n) := by
  obtain ⟨oD, lD, hP⟩ := LOAD_STORED_DATA12_short_loaded base W dst0 n hz hn hdst hcap
  generalize (LOAD_STORED_DATA12 W base ⟨dst0, 0⟩) = Dc at oD lD hP ⊢
  have hP2 := fun x hx => (hP x hx).2
  have hf2 : hdr_seal_info_size Dc.mem = be_at W (base + 4) 4 := by
    have h := hP2 (4, _reverse_copy (readBytes W (base + 4) 4) 4) (by simp)
    simp only [length_reverse_copy] at h
    unfold hdr_seal_info_size u32_at be_at
    rw [h]
  have hf3 : short_enc_data_size Dc.mem = be_at W (base + 8) 4 := by
    have h := hP2 (8, _reverse_copy (readBytes W (base + 8) 4) 4) (by simp)
    simp only [length_reverse_copy] at h
    unfold short_enc_data_size u32_at be_at
    rw [h]
  obtain ⟨oE, aE⟩ := UNLOAD_STORED_DATA12_short_agreeAt base base2 W Dc.mem out0 n (by rw [hf2]; exact hz) (by rw [hf3, hn]) hP2 hout hcap
  exact ⟨oD, oE, readBytes_ext _ _ _ _ _ aE⟩

theorem LOAD_STORED_DATA12_long_loaded (base : Nat) (W dst0 : List Nat) (s1 s2 n : Nat)
    (hz : be_at W (base + 4) 4 ≠ 0)
    (hs1 : be_at W (base + 12) 2 = s1) (hs2 : be_at W (base + (14 + s1)) 2 = s2)
    (hn : be_at W (base + (56 + s1 + s2)) 4 = n)
    (h1 : s1 ≤ 3) (h2 : s2 ≤ 3)
    (hdst : 66 + n ≤ dst0.length) (hcap : (60 + s1 + s2 + n) < 2 ^ 32) :
    loaded (LOAD_STORED_DATA12 W base ⟨dst0, 0⟩)
      [(66, readBytes W (base + (60 + s1 + s2)) n), (62, _reverse_copy (readBytes W (base + (56 + s1 + s2)) 4) 4), (42, readBytes W (base + (36 + s1 + s2)) 20), (22, readBytes W (base + (16 + s1 + s2)) 20), (19, readBytes W (base + (16 + s1)) s2), (17, _reverse_copy (readBytes W (base + (14 + s1)) 2) 2), (14, readBytes W (base + 14) s1), (12, _reverse_copy (readBytes W (base + 12) 2) 2), (11, readBytes W (base + 11) 1), (10, readBytes W (base + 10) 1), (8, _reverse_copy (readBytes W (base + 8) 2) 2), (4, _reverse_copy (readBytes W (base + 4) 4) 4), (2, _reverse_copy (readBytes W (base + 2) 2) 2), (0, _reverse_copy (readBytes W (base + 0) 2) 2)]
      (60 + s1 + s2 + n) (66 + n) dst0.length := by
  unfold LOAD_STORED_DATA12 LOAD_PCR_INFO_LONG LOAD_PCR_SELECTION
  simp only [Nat.reduceAdd, TPM_DIGEST_SIZE]
  have q0 : loaded (⟨dst0, 0⟩ : Cur) [] 0 0 dst0.length := loaded_nil _ _
  generalize (⟨dst0, 0⟩ : Cur) = c0 at q0 ⊢
  have q1 := loaded_LOAD_INTEGER W base 0 2 c0 _ 0 _ _ 2 (0 + 2) q0 (by omega) (by omega) (by omega) (by omega) (by omega)
  generalize LOAD_INTEGER W base 0 2 c0 = c1 at q1 ⊢
  clear q0 c0
  have q2 := loaded_LOAD_INTEGER W base 2 2 c1 _ 2 _ _ 4 (2 + 2) q1 (by omega) (by omega) (by omega) (by omega) (by omega)
  generalize LOAD_INTEGER W base 2 2 c1 = c2 at q2 ⊢
  clear q1 c1
  have q3 := loaded_LOAD_INTEGER W base 4 4 c2 _ 4 _ _ 8 (4 + 4) q2 (by omega) (by omega) (by omega) (by omega) (by omega)
  generalize LOAD_INTEGER W base 4 4 c2 = c3 at q3 ⊢
  clear q2 c2
  have hf : hdr_seal_info_size c3.mem = be_at W (base + 4) 4 := by
    have h := (q3.2.2 (4, _reverse_copy (readBytes W (base + 4) 4) 4) (by simp)).2
    simp only [length_reverse_copy] at h
    unfold hdr_seal_info_size u32_at be_at
    rw [h]
  rw [if_neg (by rw [hf]; exact hz)]
  clear hf
  have q4 := loaded_LOAD_INTEGER W base 8 2 c3 _ 8 _ _ 10 (8 + 2) q3 (by omega) (by omega) (by omega) (by omega) (by omega)
  generalize LOAD_INTEGER W base 8 2 c3 = c4 at q4 ⊢
  clear q3 c3
  have q5 := loaded_LOAD_BLOB W base 10 1 c4 _ 10 _ _ 11 (10 + 1) q4 (by omega) (by omega) (by omega) (by omega) (by omega)
  generalize LOAD_BLOB W base 10 1 c4 = c5 at q5 ⊢
  clear q4 c4
  have q6 := loaded_LOAD_BLOB W base 11 1 c5 _ 11 _ _ 12 (11 + 1) q5 (by omega) (by omega) (by omega) (by omega) (by omega)
  generalize LOAD_BLOB W base 11 1 c5 = c6 at q6 ⊢
  clear q5 c5
  have q7 := loaded_LOAD_INTEGER W base 12 2 c6 _ 12 _ _ 14 (12 + 2) q6 (by omega) (by omega) (by omega) (by omega) (by omega)
  generalize LOAD_INTEGER W base 12 2 c6 = c7 at q7 ⊢
  clear q6 c6
  have hf : u16_at c7.mem 12 = be_at W (base + 12) 2 := by
    have h := (q7.2.2 (12, _reverse_copy (readBytes W (base + 12) 2) 2) (by simp)).2
    simp only [length_reverse_copy] at h
    unfold u16_at  be_at
    rw [h]
  rw [hf, hs1]
  clear hf
  have q8 := loaded_LOAD_BLOB W base 14 s1 c7 _ 14 _ _ (14 + s1) (14 + s1) q7 (by omega) (by omega) (by omega) (by omega) (by omega)
  generalize LOAD_BLOB W base 14 s1 c7 = c8 at q8 ⊢
  clear q7 c7
  have q9 := loaded_LOAD_INTEGER W base 17 2 c8 _ (14 + s1) _ _ (16 + s1) (17 + 2) q8 (by omega) (by omega) (by omega) (by omega) (by omega)
  generalize LOAD_INTEGER W base 17 2 c8 = c9 at q9 ⊢
  clear q8 c8
  have hf : u16_at c9.mem 17 = be_at W (base + (14 + s1)) 2 := by
    have h := (q9.2.2 (17, _reverse_copy (readBytes W (base + (14 + s1)) 2) 2) (by simp)).2
    simp only [length_reverse_copy] at h
    unfold u16_at  be_at
    rw [h]
  rw [hf, hs2]
  clear hf
  have q10 := loaded_LOAD_BLOB W base 19 s2 c9 _ (16 + s1) _ _ (16 + s1 + s2) (19 + s2) q9 (by omega) (by omega) (by omega) (by omega) (by omega)
  generalize LOAD_BLOB W base 19 s2 c9 = c10 at q10 ⊢
  clear q9 c9
  have q11 := loaded_LOAD_BLOB W base 22 20 c10 _ (16 + s1 + s2) _ _ (36 + s1 + s2) (22 + 20) q10 (by omega) (by omega) (by omega) (by omega) (by omega)
  generalize LOAD_BLOB W base 22 20 c10 = c11 at q11 ⊢
  clear q10 c10
  have q12 := loaded_LOAD_BLOB W base 42 20 c11 _ (36 + s1 + s2) _ _ (56 + s1 + s2) (42 + 20) q11 (by omega) (by omega) (by omega) (by omega) (by omega)
  generalize LOAD_BLOB W base 42 20 c11 = c12 at q12 ⊢
  clear q11 c11
  have q13 := loaded_LOAD_INTEGER W base 62 4 c12 _ (56 + s1 + s2) _ _ (60 + s1 + s2) (62 + 4) q12 (by omega) (by omega) (by omega) (by omega) (by omega)
  generalize LOAD_INTEGER W base 62 4 c12 = c13 at q13 ⊢
  clear q12 c12
  have hf : long_enc_data_size c13.mem = be_at W (base + (56 + s1 + s2)) 4 := by
    have h := (q13.2.2 (62, _reverse_copy (readBytes W (base + (56 + s1 + s2)) 4) 4) (by simp)).2
    simp only [length_reverse_copy] at h
    unfold long_enc_data_size u32_at be_at
    rw [h]
  rw [hf, hn]
  clear hf
  have q14 := loaded_LOAD_BLOB W base 66 n c13 _ (60 + s1 + s2) _ _ (60 + s1 + s2 + n) (66 + n) q13 (by omega) (by omega) (by omega) (by omega) (by omega)
  generalize LOAD_BLOB W base 66 n c13 = c14 at q14 ⊢
  clear q13 c13
  have e : 66 + n = 66 + n := by omega
  rw [e] at q14
  exact q14

theorem UNLOAD_STORED_DATA12_long_agreeAt (base base2 : Nat) (W D out0 : List Nat) (s1 s2 n : Nat)
    (hz : hdr_seal_info_size D ≠ 0)
    (hs1 : u16_at D 12 = s1) (hs2 : u16_at D 17 = s2)
    (hn : long_enc_data_size D = n)
    (hP : ∀ x ∈ [(66, readBytes W (base + (60 + s1 + s2)) n), (62, _reverse_copy (readBytes W (base + (56 + s1 + s2)) 4) 4), (42, readBytes W (base + (36 + s1 + s2)) 20), (22, readBytes W (base + (16 + s1 + s2)) 20), (19, readBytes W (base + (16 + s1)) s2), (17, _reverse_copy (readBytes W (base + (14 + s1)) 2) 2), (14, readBytes W (base + 14) s1), (12, _reverse_copy (readBytes W (base + 12) 2) 2), (11, readBytes W (base + 11) 1), (10, readBytes W (base + 10) 1), (8, _reverse_copy (readBytes W (base + 8) 2) 2), (4, _reverse_copy (readBytes W (base + 4) 4) 4), (2, _reverse_copy (readBytes W (base + 2) 2) 2), (0, _reverse_copy (readBytes W (base + 0) 2) 2)],
      readBytes D x.1 x.2.length = x.2)
    (hout : base2 + (60 + s1 + s2 + n) ≤ out0.length) (hcap : (60 + s1 + s2 + n) < 2 ^ 32) :
    (UNLOAD_STORED_DATA12 base2 D ⟨out0, 0⟩).offset = (60 + s1 + s2 + n) ∧
      agreeAt (UNLOAD_STORED_DATA12 base2 D ⟨out0, 0⟩).mem W base base2 (60 + s1 + s2 + n) := by
  have p0 : readBytes D 0 2 = _reverse_copy (readBytes W (base + 0) 2) 2 := by
    have h := hP (0, _reverse_copy (readBytes W (base + 0) 2) 2) (by simp)
    simpa only [length_readBytes, length_reverse_copy] using h
  have p1 : readBytes D 2 2 = _reverse_copy (readBytes W (base + 2) 2) 2 := by
    have h := hP (2, _reverse_copy (readBytes W (base + 2) 2) 2) (by simp)
    simpa only [length_readBytes, length_reverse_copy] using h
  have p2 : readBytes D 4 4 = _reverse_copy (readBytes W (base + 4) 4) 4 := by
    have h := hP (4, _reverse_copy (readBytes W (base + 4) 4) 4) (by simp)
    simpa only [length_readBytes, length_reverse_copy] using h
  have p3 : readBytes D 8 2 = _reverse_copy (readBytes W (base + 8) 2) 2 := by
    have h := hP (8, _reverse_copy (readBytes W (base + 8) 2) 2) (by simp)
    simpa only [length_readBytes, length_reverse_copy] using h
  have p4 : readBytes D 10 1 = readBytes W (base + 10) 1 := by
    have h := hP (10, readBytes W (base + 10) 1) (by simp)
    simpa only [length_readBytes, length_reverse_copy] using h
  have p5 : readBytes D 11 1 = readBytes W (base + 11) 1 := by
    have h := hP (11, readBytes W (base + 11) 1) (by simp)
    simpa only [length_readBytes, length_reverse_copy] using h
  have p6 : readBytes D 12 2 = _reverse_copy (readBytes W (base + 12) 2) 2 := by
    have h := hP (12, _reverse_copy (readBytes W (base + 12) 2) 2) (by simp)
    simpa only [length_readBytes, length_reverse_copy] using h
  have p7 : readBytes D 14 s1 = readBytes W (base + 14) s1 := by
    have h := hP (14, readBytes W (base + 14) s1) (by simp)
    simpa only [length_readBytes, length_reverse_copy] using h
  have p8 : readBytes D 17 2 = _reverse_copy (readBytes W (base + (14 + s1)) 2) 2 := by
    have h := hP (17, _reverse_copy (readBytes W (base + (14 + s1)) 2) 2) (by simp)
    simpa only [length_readBytes, length_reverse_copy] using h
  have p9 : readBytes D 19 s2 = readBytes W (base + (16 + s1)) s2 := by
    have h := hP (19, readBytes W (base + (16 + s1)) s2) (by simp)
    simpa only [length_readBytes, length_reverse_copy] using h
  have p10 : readBytes D 22 20 = readBytes W (base + (16 + s1 + s2)) 20 := by
    have h := hP (22, readBytes W (base + (16 + s1 + s2)) 20) (by simp)
    simpa only [length_readBytes, length_reverse_copy] using h
  have p11 : readBytes D 42 20 = readBytes W (base + (36 + s1 + s2)) 20 := by
    have h := hP (42, readBytes W (base + (36 + s1 + s2)) 20) (by simp)
    simpa only [length_readBytes, length_reverse_copy] using h
  have p12 : readBytes D 62 4 = _reverse_copy (readBytes W (base + (56 + s1 + s2)) 4) 4 := by
    have h := hP (62, _reverse_copy (readBytes W (base + (56 + s1 + s2)) 4) 4) (by simp)
    simpa only [length_readBytes, length_reverse_copy] using h
  have p13 : readBytes D 66 n = readBytes W (base + (60 + s1 + s2)) n := by
    have h := hP (66, readBytes W (base + (60 + s1 + s2)) n) (by simp)
    simpa only [length_readBytes, length_reverse_copy] using h
  clear hP
  unfold UNLOAD_STORED_DATA12 UNLOAD_PCR_INFO_LONG UNLOAD_PCR_SELECTION
  rw [if_neg hz]
  simp only [Nat.reduceAdd, TPM_DIGEST_SIZE, hs1, hs2, hn]
  have a0 : agreeAt (⟨out0, 0⟩ : Cur).mem W base base2 0 := fun i hi => absurd hi (Nat.not_lt_zero i)
  have l0 : (⟨out0, 0⟩ : Cur).mem.length = out0.length := rfl
  have o0 : (⟨out0, 0⟩ : Cur).offset = 0 := rfl
  generalize (⟨out0, 0⟩ : Cur) = c0 at a0 l0 o0 ⊢
  obtain ⟨o1, a1, l1⟩ := agreeAt_UNLOAD_INTEGER base base2 W D 0 2 c0 0 2 _ o0 a0 p0 l0 (by omega) (by omega) (by omega)
  generalize UNLOAD_INTEGER base2 (readBytes D 0 2) c0 = c1 at o1 a1 l1 ⊢
  clear o0 a0 l0 p0 c0
  obtain ⟨o2, a2, l2⟩ := agreeAt_UNLOAD_INTEGER base base2 W D 2 2 c1 2 4 _ o1 a1 p1 l1 (by omega) (by omega) (by omega)
  generalize UNLOAD_INTEGER base2 (readBytes D 2 2) c1 = c2 at o2 a2 l2 ⊢
  clear o1 a1 l1 p1 c1
  obtain ⟨o3, a3, l3⟩ := agreeAt_UNLOAD_INTEGER base base2 W D 4 4 c2 4 8 _ o2 a2 p2 l2 (by omega) (by omega) (by omega)
  generalize UNLOAD_INTEGER base2 (readBytes D 4 4) c2 = c3 at o3 a3 l3 ⊢
  clear o2 a2 l2 p2 c2
  obtain ⟨o4, a4, l4⟩ := agreeAt_UNLOAD_INTEGER base base2 W D 8 2 c3 8 10 _ o3 a3 p3 l3 (by omega) (by omega) (by omega)
  generalize UNLOAD_INTEGER base2 (readBytes D 8 2) c3 = c4 at o4 a4 l4 ⊢
  clear o3 a3 l3 p3 c3
  obtain ⟨o5, a5, l5⟩ := agreeAt_UNLOAD_BLOB base base2 W D 10 1 c4 10 11 _ o4 a4 p4 l4 (by omega) (by omega) (by omega)
  generalize UNLOAD_BLOB base2 (readBytes D 10 1) c4 = c5 at o5 a5 l5 ⊢
  clear o4 a4 l4 p4 c4
  obtain ⟨o6, a6, l6⟩ := agreeAt_UNLOAD_BLOB base base2 W D 11 1 c5 11 12 _ o5 a5 p5 l5 (by omega) (by omega) (by omega)
  generalize UNLOAD_BLOB base2 (readBytes D 11 1) c5 = c6 at o6 a6 l6 ⊢
  clear o5 a5 l5 p5 c5
  obtain ⟨o7, a7, l7⟩ := agreeAt_UNLOAD_INTEGER base base2 W D 12 2 c6 12 14 _ o6 a6 p6 l6 (by omega) (by omega) (by omega)
  generalize UNLOAD_INTEGER base2 (readBytes D 12 2) c6 = c7 at o7 a7 l7 ⊢
  clear o6 a6 l6 p6 c6
  obtain ⟨o8, a8, l8⟩ := agreeAt_UNLOAD_BLOB base base2 W D 14 s1 c7 14 (14 + s1) _ o7 a7 p7 l7 (by omega) (by omega) (by omega)
  generalize UNLOAD_BLOB base2 (readBytes D 14 s1) c7 = c8 at o8 a8 l8 ⊢
  clear o7 a7 l7 p7 c7
  obtain ⟨o9, a9, l9⟩ := agreeAt_UNLOAD_INTEGER base base2 W D 17 2 c8 (14 + s1) (16 + s1) _ o8 a8 p8 l8 (by omega) (by omega) (by omega)
  generalize UNLOAD_INTEGER base2 (readBytes D 17 2) c8 = c9 at o9 a9 l9 ⊢
  clear o8 a8 l8 p8 c8
  obtain ⟨o10, a10, l10⟩ := agreeAt_UNLOAD_BLOB base base2 W D 19 s2 c9 (16 + s1) (16 + s1 + s2) _ o9 a9 p9 l9 (by omega) (by omega) (by omega)
  generalize UNLOAD_BLOB base2 (readBytes D 19 s2) c9 = c10 at o10 a10 l10 ⊢
  clear o9 a9 l9 p9 c9
  obtain ⟨o11, a11, l11⟩ := agreeAt_UNLOAD_BLOB base base2 W D 22 20 c10 (16 + s1 + s2) (36 + s1 + s2) _ o10 a10 p10 l10 (by omega) (by omega) (by omega)
  generalize UNLOAD_BLOB base2 (readBytes D 22 20) c10 = c11 at o11 a11 l11 ⊢
  clear o10 a10 l10 p10 c10
  obtain ⟨o12, a12, l12⟩ := agreeAt_UNLOAD_BLOB base base2 W D 42 20 c11 (36 + s1 + s2) (56 + s1 + s2) _ o11 a11 p11 l11 (by omega) (by omega) (by omega)
  generalize UNLOAD_BLOB base2 (readBytes D 42 20) c11 = c12 at o12 a12 l12 ⊢
  clear o11 a11 l11 p11 c11
  obtain ⟨o13, a13, l13⟩ := agreeAt_UNLOAD_INTEGER base base2 W D 62 4 c12 (56 + s1 + s2) (60 + s1 + s2) _ o12 a12 p12 l12 (by omega) (by omega) (by omega)
  generalize UNLOAD_INTEGER base2 (readBytes D 62 4) c12 = c13 at o13 a13 l13 ⊢
  clear o12 a12 l12 p12 c12
  obtain ⟨o14, a14, l14⟩ := agreeAt_UNLOAD_BLOB base base2 W D 66 n c13 (60 + s1 + s2) (60 + s1 + s2 + n) _ o13 a13 p13 l13 (by omega) (by omega) (by omega)
  generalize UNLOAD_BLOB base2 (readBytes D 66 n) c13 = c14 at o14 a14 l14 ⊢
  clear o13 a13 l13 p13 c13
  exact ⟨o14, a14⟩

theorem stored_data12_long_load_unload (base base2 : Nat) (W dst0 out0 : List Nat) (s1 s2 n : Nat)
    (hz : be_at W (base + 4) 4 ≠ 0)
    (hs1 : be_at W (base + 12) 2 = s1) (hs2 : be_at W (base + (14 + s1)) 2 = s2)
    (hn : be_at W (base + (56 + s1 + s2)) 4 = n)
    (h1 : s1 ≤ 3) (h2 : s2 ≤ 3)
    (hdst : 66 + n ≤ dst0.length) (hout : base2 + (60 + s1 + s2 + n) ≤ out0.length) (hcap : (60 + s1 + s2 + n) < 2 ^ 32) :
    (LOAD_STORED_DATA12 W base ⟨dst0, 0⟩).offset = (60 + s1 + s2 + n) ∧
      (UNLOAD_STORED_DATA12 base2 (LOAD_STORED_DATA12 W base ⟨dst0, 0⟩).mem ⟨out0, 0⟩).offset = (60 + s1 + s2 + n) ∧
      readBytes (UNLOAD_STORED_DATA12 base2 (LOAD_STORED_DATA12 W base ⟨dst0, 0⟩).mem ⟨out0, 0⟩).mem base2 (60 + s1 + s2 + n)
        = readBytes W base (60 + s1 + s2 + n) := by
  obtain ⟨oD, lD, hP⟩ := LOAD_STORED_DATA12_long_loaded base W dst0 s1 s2 n hz hs1 hs2 hn h1 h2 hdst hcap
  generalize (LOAD_STORED_DATA12 W base ⟨dst0, 0⟩) = Dc at oD lD hP ⊢
  have hP2 := fun x hx => (hP x hx).2
  have hf2 : hdr_seal_info_size Dc.mem = be_at W (base + 4) 4 := by
    have h := hP2 (4, _reverse_copy (readBytes W (base + 4) 4) 4) (by simp)
    simp only [length_reverse_copy] at h
    unfold hdr_seal_info_size u32_at be_at
    rw [h]
  have hf6 : u16_at Dc.mem 12 = be_at W (base + 12) 2 := by
    have h := hP2 (12, _reverse_copy (readBytes W (base + 12) 2) 2) (by simp)
    simp only [length_reverse_copy] at h
    unfold u16_at  be_at
    rw [h]
  have hf8 : u16_at Dc.mem 17 = be_at W (base + (14 + s1)) 2 := by
    have h := hP2 (17, _reverse_copy (readBytes W (base + (14 + s1)) 2) 2) (by simp)
    simp only [length_reverse_copy] at h
    unfold u16_at  be_at
    rw [h]
  have hf12 : long_enc_data_size Dc.mem = be_at W (base + (56 + s1 + s2)) 4 := by
    have h := hP2 (62, _reverse_copy (readBytes W (base + (56 + s1 + s2)) 4) 4) (by simp)
    simp only [length_reverse_copy] at h
    unfold long_enc_data_size u32_at be_at
    rw [h]
  obtain ⟨oE, aE⟩ := UNLOAD_STORED_DATA12_long_agreeAt base base2 W Dc.mem out0 s1 s2 n (by rw [hf2]; exact hz) (by rw [hf6, hs1]) (by rw [hf8, hs2])
    (by rw [hf12, hn]) hP2 hout hcap
  exact ⟨oD, oE, readBytes_ext _ _ _ _ _ aE⟩

/-- C5: encode then decode is the identity on sealed-blob records.  For every
record `hdr` in memory (short form, or long form whose two selections have
`size_of_select = 3`) with its payload, any wire buffer with room for it at
`base` and any destination with room for the record: `LOAD_STORED_DATA12` applied
to the bytes written by `UNLOAD_STORED_DATA12` reproduces every byte of the
record (all fields and the payload), and consumes exactly the number of bytes
the encoder produced, which is the record's size. -/
theorem stored_data12_unload_load (base : Nat) (hdr buf0 dst0 : List Nat)
    (hsel : hdr_seal_info_size hdr ≠ 0 → u16_at hdr 12 = 3 ∧ u16_at hdr 17 = 3)
    (hrec : hdr.length = stored_data12_size hdr)
    (hbuf : base + hdr.length ≤ buf0.length) (hcap : buf0.length < 2 ^ 32)
    (hdst : hdr.length ≤ dst0.length) :
    readBytes (LOAD_STORED_DATA12 (UNLOAD_STORED_DATA12 base hdr ⟨buf0, 0⟩).mem base ⟨dst0, 0⟩).mem
        0 hdr.length = hdr ∧
      (LOAD_STORED_DATA12 (UNLOAD_STORED_DATA12 base hdr ⟨buf0, 0⟩).mem base ⟨dst0, 0⟩).offset
        = (UNLOAD_STORED_DATA12 base hdr ⟨buf0, 0⟩).offset ∧
      (UNLOAD_STORED_DATA12 base hdr ⟨buf0, 0⟩).offset = hdr.length := by
  by_cases hz : hdr_seal_info_size hdr = 0
  · have hrec2 : hdr.length = 12 + short_enc_data_size hdr := by
      rw [hrec, stored_data12_size, if_pos hz]
      rfl
    exact stored_data12_short_unload_load base hdr buf0 dst0 hz hrec2 hbuf hcap hdst
  · have hrec2 : hdr.length = 66 + long_enc_data_size hdr := by
      rw [hrec, stored_data12_size, if_neg hz]
      rfl
    exact stored_data12_long_unload_load base hdr buf0 dst0 hz (hsel hz).1 (hsel hz).2 hrec2
      hbuf hcap hdst

theorem stored_data12_unload_load_witness :
    (hdr_seal_info_size blob_long_1 ≠ 0 → u16_at blob_long_1 12 = 3 ∧ u16_at blob_long_1 17 = 3) ∧
      blob_long_1.length = stored_data12_size blob_long_1 ∧
      (readBytes (LOAD_STORED_DATA12 (UNLOAD_STORED_DATA12 10 blob_long_1
          ⟨List.replicate 80 0, 0⟩).mem 10 ⟨List.replicate 67 255, 0⟩).mem
          0 blob_long_1.length = blob_long_1 ∧
        (LOAD_STORED_DATA12 (UNLOAD_STORED_DATA12 10 blob_long_1
          ⟨List.replicate 80 0, 0⟩).mem 10 ⟨List.replicate 67 255, 0⟩).offset
          = (UNLOAD_STORED_DATA12 10 blob_long_1 ⟨List.replicate 80 0, 0⟩).offset ∧
        (UNLOAD_STORED_DATA12 10 blob_long_1 ⟨List.replicate 80 0, 0⟩).offset
          = blob_long_1.length) :=
  ⟨by decide, by decide,
    stored_data12_unload_load 10 blob_long_1 (List.replicate 80 0) (List.replicate 67 255)
      (by decide) (by decide) (by decide) (by decide) (by decide)⟩

/-- C6: decode then encode is the identity on wire bytes.  For every big-endian
sealed-blob byte string at `base` of `buf` (short form, or long form whose two
selection-size fields are at most 3), decoding it with `LOAD_STORED_DATA12` into
a destination with room for the record and re-encoding the decoded record with
`UNLOAD_STORED_DATA12` at `base2` of `out0` yields exactly the original bytes;
decoder and encoder both advance by the length of the byte string. -/
theorem stored_data12_load_unload (base base2 : Nat) (buf dst0 out0 : List Nat)
    (hsel : be_at buf (base + 4) 4 ≠ 0 →
      be_at buf (base + 12) 2 ≤ 3 ∧ be_at buf (base + (14 + be_at buf (base + 12) 2)) 2 ≤ 3)
    (hdst : wire_record_size buf base ≤ dst0.length)
    (hout : base2 + wire_size buf base ≤ out0.length)
    (hcap : wire_size buf base < 2 ^ 32) :
    (LOAD_STORED_DATA12 buf base ⟨dst0, 0⟩).offset = wire_size buf base ∧
      (UNLOAD_STORED_DATA12 base2 (LOAD_STORED_DATA12 buf base ⟨dst0, 0⟩).mem ⟨out0, 0⟩).offset
        = wire_size buf base ∧
      readBytes (UNLOAD_STORED_DATA12 base2 (LOAD_STORED_DATA12 buf base ⟨dst0, 0⟩).mem
          ⟨out0, 0⟩).mem base2 (wire_size buf base)
        = readBytes buf base (wire_size buf base) := by
  by_cases hz : be_at buf (base + 4) 4 = 0
  · simp only [wire_size, wire_record_size, if_pos hz] at hdst hout hcap ⊢
    exact stored_data12_short_load_unload base base2 buf dst0 out0 _ hz rfl hdst hout hcap
  · simp only [wire_size, wire_record_size, if_neg hz] at hdst hout hcap ⊢
    exact stored_data12_long_load_unload base base2 buf dst0 out0 _ _ _ hz rfl rfl rfl
      (hsel hz).1 (hsel hz).2 hdst hout hcap

theorem stored_data12_load_unload_witness :
    (be_at wire_long_1 (10 + 4) 4 ≠ 0 ∧ be_at wire_long_1 (10 + 12) 2 = 2 ∧
      wire_size wire_long_1 10 = 66) ∧
      ((LOAD_STORED_DATA12 wire_long_1 10 ⟨List.replicate 67 255, 0⟩).offset
          = wire_size wire_long_1 10 ∧
        (UNLOAD_STORED_DATA12 14 (LOAD_STORED_DATA12 wire_long_1 10
          ⟨List.replicate 67 255, 0⟩).mem ⟨List.replicate 80 0, 0⟩).offset
          = wire_size wire_long_1 10 ∧
        readBytes (UNLOAD_STORED_DATA12 14 (LOAD_STORED_DATA12 wire_long_1 10
          ⟨List.replicate 67 255, 0⟩).mem ⟨List.replicate 80 0, 0⟩).mem 14
            (wire_size wire_long_1 10)
          = readBytes wire_long_1 10 (wire_size wire_long_1 10)) :=
  ⟨by decide, stored_data12_load_unload 10 14 wire_long_1 (List.replicate 67 255)
    (List.replicate 80 0) (by decide) (by decide) (by decide) (by decide)⟩

/-! ### Events of the transport layer -/

theorem summary_append (a b : List Ev) : summary (a ++ b) = summary a ++ summary b := by
  simp [summary]

theorem ext_by_refl {σ : Type} (s : Hw σ) : ext_by [] s s := ⟨[], rfl, rfl⟩

theorem ext_by_trans {σ : Type} {X Y : List Ev} {s1 s2 s3 : Hw σ}
    (h1 : ext_by X s1 s2) (h2 : ext_by Y s2 s3) : ext_by (Y ++ X) s1 s3 := by
  obtain ⟨e1, hl1, hs1⟩ := h1
  obtain ⟨e2, hl2, hs2⟩ := h2
  refine ⟨e2 ++ e1, ?_, ?_⟩
  · rw [hl2, hl1, List.append_assoc]
  · rw [summary_append, hs1, hs2]

theorem ext_by_quiet_trans {σ : Type} {X : List Ev} {s1 s2 s3 : Hw σ}
    (h1 : ext_by X s1 s2) (h2 : ext_by [] s2 s3) : ext_by X s1 s3 := by
  have := ext_by_trans h1 h2
  simpa using this

theorem ext_by_trans_quiet {σ : Type} {X : List Ev} {s1 s2 s3 : Hw σ}
    (h1 : ext_by [] s1 s2) (h2 : ext_by X s2 s3) : ext_by X s1 s3 := by
  have := ext_by_trans h1 h2
  simpa using this

theorem ext_by_read_tpm_reg {σ : Type} (t : Tpm σ) (locality reg size : Nat) (s : Hw σ) :
    ext_by [] s (read_tpm_reg t locality reg size s).2 :=
  ⟨[Ev.rd locality reg (readb_loop t locality reg size 0 s.dev).1], rfl, rfl⟩

theorem ext_by_write_tpm_reg {σ : Type} (t : Tpm σ) (locality reg : Nat) (raw : List Nat)
    (s : Hw σ) :
    ext_by (summary [Ev.wr locality reg raw]) s (write_tpm_reg t locality reg raw s) :=
  ⟨[Ev.wr locality reg raw], rfl, rfl⟩

theorem ext_by_printk {σ : Type} (m : Msg) (s : Hw σ) : ext_by [Ev.msg m] s (printk m s) :=
  ⟨[Ev.msg m], rfl, rfl⟩

theorem ext_by_poll {σ α : Type} (body : Hw σ → Option α × Hw σ)
    (hb : ∀ s, ext_by [] s (body s).2) (n : Nat) (s : Hw σ) :
    ext_by [] s (poll body n s).2 := by
  induction n generalizing s with
  | zero => exact ext_by_refl s
  | succ n ih =>
    unfold poll
    cases hr : (body s).1 with
    | some v => simpa [hr] using hb s
    | none =>
      simp only [hr]
      exact ext_by_quiet_trans (hb s) (ih _)

theorem poll_some {σ α : Type} (body : Hw σ → Option α × Hw σ) (P : α → Prop)
    (hb : ∀ s v, (body s).1 = some v → P v) (n : Nat) (s : Hw σ) (v : α)
    (h : (poll body n s).1 = some v) : P v := by
  induction n generalizing s with
  | zero => simp [poll] at h
  | succ n ih =>
    unfold poll at h
    cases hr : (body s).1 with
    | some w =>
      simp only [hr] at h
      have : w = v := by simpa using h
      exact this ▸ hb s w hr
    | none =>
      simp only [hr] at h
      exact ih _ h

theorem ext_by_validate_body {σ : Type} (t : Tpm σ) (locality : Nat) (s : Hw σ) :
    ext_by [] s (validate_body t locality s).2 := by
  unfold validate_body
  dsimp only
  split_ifs <;> exact ext_by_read_tpm_reg t locality TPM_REG_ACCESS 1 s

theorem ext_by_active_body {σ : Type} (t : Tpm σ) (locality : Nat) (s : Hw σ) :
    ext_by [] s (active_body t locality s).2 := by
  unfold active_body
  dsimp only
  split_ifs <;> exact ext_by_read_tpm_reg t locality TPM_REG_ACCESS 1 s

theorem ext_by_burst_body {σ : Type} (t : Tpm σ) (locality : Nat) (s : Hw σ) :
    ext_by [] s (burst_body t locality s).2 := by
  unfold burst_body
  dsimp only
  split_ifs <;> exact ext_by_read_tpm_reg t locality TPM_REG_STS 3 s

theorem ext_by_data_avail_body {σ : Type} (t : Tpm σ) (locality : Nat) (s : Hw σ) :
    ext_by [] s (data_avail_body t locality s).2 := by
  unfold data_avail_body
  dsimp only
  split_ifs <;> exact ext_by_read_tpm_reg t locality TPM_REG_STS 3 s

theorem ext_by_cmd_ready_body {σ : Type} (t : Tpm σ) (locality : Nat) (s : Hw σ) :
    ext_by [] s (cmd_ready_body t locality s).2 := by
  have h1 : ext_by [] s (write_tpm_reg t locality TPM_REG_STS STS_COMMAND_READY s) :=
    ext_by_write_tpm_reg t locality TPM_REG_STS STS_COMMAND_READY s
  have h2 := ext_by_read_tpm_reg t locality TPM_REG_STS 3
    (write_tpm_reg t locality TPM_REG_STS STS_COMMAND_READY s)
  unfold cmd_ready_body
  dsimp only
  split_ifs <;> exact ext_by_quiet_trans h1 h2

theorem ext_by_fifo_write_row {σ : Type} (t : Tpm σ) (locality : Nat) (inp : List Nat)
    (in_size row_size offset : Nat) (s : Hw σ) :
    ext_by [] s (fifo_write_row t locality inp in_size row_size offset s).2 := by
  induction row_size generalizing offset s with
  | zero => exact ext_by_refl s
  | succ n ih =>
    unfold fifo_write_row
    split_ifs
    · have h1 : ext_by [] s (write_tpm_reg t locality TPM_REG_DATA_FIFO [rd inp offset] s) :=
        ext_by_write_tpm_reg t locality TPM_REG_DATA_FIFO _ s
      exact ext_by_quiet_trans h1 (ih _ _)
    · exact ext_by_refl s

theorem ext_by_fifo_read_row {σ : Type} (t : Tpm σ) (locality out_size row_size : Nat)
    (v : RdVars σ) :
    ext_by [] v.s (fifo_read_row t locality out_size row_size v).s := by
  induction row_size generalizing v with
  | zero => exact ext_by_refl v.s
  | succ n ih =>
    unfold fifo_read_row
    dsimp only
    split_ifs
    all_goals first
      | exact ext_by_refl v.s
      | exact ext_by_quiet_trans (ext_by_read_tpm_reg t locality TPM_REG_DATA_FIFO 1 v.s) (ih _)

theorem ext_by_write_access {σ : Type} (t : Tpm σ) (locality : Nat) (raw : List Nat) (s : Hw σ) :
    ext_by [Ev.wr locality TPM_REG_ACCESS raw] s (write_tpm_reg t locality TPM_REG_ACCESS raw s) :=
  ⟨[Ev.wr locality TPM_REG_ACCESS raw], rfl, by simp [summary, Ev.quiet]⟩

theorem ext_by_write_go {σ : Type} (t : Tpm σ) (locality : Nat) (s : Hw σ) :
    ext_by [Ev.wr locality TPM_REG_STS STS_TPM_GO] s
      (write_tpm_reg t locality TPM_REG_STS STS_TPM_GO s) :=
  ⟨[Ev.wr locality TPM_REG_STS STS_TPM_GO], rfl, by simp [summary, Ev.quiet]⟩

theorem fifo_write_row_offset {σ : Type} (t : Tpm σ) (locality : Nat) (inp : List Nat)
    (in_size row_size offset : Nat) (s : Hw σ) :
    (fifo_write_row t locality inp in_size row_size offset s).1
      = offset + min row_size (in_size - offset) := by
  induction row_size generalizing offset s with
  | zero => simp [fifo_write_row]
  | succ n ih =>
    unfold fifo_write_row
    split_ifs with hlt
    · rw [ih]
      omega
    · omega

theorem fifo_read_row_offset {σ : Type} (t : Tpm σ) (locality out_size row_size : Nat)
    (v : RdVars σ) :
    (fifo_read_row t locality out_size row_size v).offset
      = v.offset + min row_size (out_size - v.offset) := by
  induction row_size generalizing v with
  | zero => simp [fifo_read_row]
  | succ n ih =>
    unfold fifo_read_row
    by_cases hlt : v.offset < out_size
    · simp only [if_pos hlt]
      rw [ih]
      simp only
      omega
    · simp only [if_neg hlt]
      omega

theorem burst_body_pos {σ : Type} (t : Tpm σ) (locality : Nat) (s : Hw σ) (v : Nat)
    (h : (burst_body t locality s).1 = some v) : 0 < v := by
  unfold burst_body at h
  dsimp only at h
  split_ifs at h with hc
  have : sts_burst_count (read_tpm_reg t locality TPM_REG_STS 3 s).1 = v := by simpa using h
  omega

theorem fifo_write_loop_ext {σ : Type} (t : Tpm σ) (locality : Nat) (inp : List Nat)
    (in_size fuel offset : Nat) (s : Hw σ) (b : Bool) (s2 : Hw σ)
    (h : fifo_write_loop t locality inp in_size fuel offset s = some (b, s2)) :
    ext_by (if b then [] else [Ev.msg Msg.write_cmd_timeout]) s s2 := by
  induction fuel generalizing offset s with
  | zero => simp [fifo_write_loop] at h
  | succ n ih =>
    unfold fifo_write_loop at h
    have hp := ext_by_poll (burst_body t locality) (ext_by_burst_body t locality)
      TPM_CMD_WRITE_TIME_OUT s
    cases hr : (poll (burst_body t locality) TPM_CMD_WRITE_TIME_OUT s).1 with
    | none =>
      simp only [hr] at h
      have hb : b = false := by
        have := congrArg (fun o => Option.map Prod.fst o) h
        simpa using this.symm
      have hs : s2 = printk Msg.write_cmd_timeout
          (poll (burst_body t locality) TPM_CMD_WRITE_TIME_OUT s).2 := by
        have := congrArg (fun o => Option.map Prod.snd o) h
        simpa using this.symm
      subst hb hs
      simpa using ext_by_trans hp (ext_by_printk Msg.write_cmd_timeout _)
    | some row_size =>
      simp only [hr] at h
      have hw := ext_by_fifo_write_row t locality inp in_size row_size offset
        (poll (burst_body t locality) TPM_CMD_WRITE_TIME_OUT s).2
      split_ifs at h with hlt
      · exact ext_by_trans_quiet (ext_by_quiet_trans hp hw) (ih _ _ h)
      · have hb : b = true := by
          have := congrArg (fun o => Option.map Prod.fst o) h
          simpa using this.symm
        have hs : s2 = (fifo_write_row t locality inp in_size row_size offset
            (poll (burst_body t locality) TPM_CMD_WRITE_TIME_OUT s).2).2 := by
          have := congrArg (fun o => Option.map Prod.snd o) h
          simpa using this.symm
        subst hb hs
        simpa using ext_by_quiet_trans hp hw

theorem fifo_write_loop_isSome {σ : Type} (t : Tpm σ) (locality : Nat) (inp : List Nat)
    (in_size fuel offset : Nat) (s : Hw σ) (ho : offset < in_size)
    (hf : in_size - offset ≤ fuel) :
    (fifo_write_loop t locality inp in_size fuel offset s).isSome = true := by
  induction fuel generalizing offset s with
  | zero => omega
  | succ n ih =>
    unfold fifo_write_loop
    cases hr : (poll (burst_body t locality) TPM_CMD_WRITE_TIME_OUT s).1 with
    | none => simp [hr]
    | some row_size =>
      have hpos : 0 < row_size :=
        poll_some (burst_body t locality) (fun v => 0 < v) (burst_body_pos t locality) _ _ _ hr
      simp only [hr]
      split_ifs with hlt
      · rw [fifo_write_row_offset] at hlt
        apply ih
        · rw [fifo_write_row_offset]
          exact hlt
        · rw [fifo_write_row_offset]
          omega
      · simp

theorem fifo_read_loop_ext {σ : Type} (t : Tpm σ) (locality out_size fuel : Nat)
    (v : RdVars σ) (b : Bool) (v2 : RdVars σ)
    (h : fifo_read_loop t locality out_size fuel v = some (b, v2)) :
    ext_by (if b then [] else [Ev.msg Msg.read_rsp_timeout]) v.s v2.s := by
  induction fuel generalizing v with
  | zero => simp [fifo_read_loop] at h
  | succ n ih =>
    unfold fifo_read_loop at h
    have hp := ext_by_poll (burst_body t locality) (ext_by_burst_body t locality)
      TPM_RSP_READ_TIME_OUT v.s
    cases hr : (poll (burst_body t locality) TPM_RSP_READ_TIME_OUT v.s).1 with
    | none =>
      simp only [hr] at h
      have hb : b = false := by
        have := congrArg (fun o => Option.map Prod.fst o) h
        simpa using this.symm
      have hs : v2 = { v with s := (printk Msg.read_rsp_timeout
          (poll (burst_body t locality) TPM_RSP_READ_TIME_OUT v.s).2) } := by
        have := congrArg (fun o => Option.map Prod.snd o) h
        simpa using this.symm
      subst hb hs
      simpa using ext_by_trans hp (ext_by_printk Msg.read_rsp_timeout _)
    | some row_size =>
      simp only [hr] at h
      have hw := ext_by_fifo_read_row t locality out_size row_size
        { v with s := (poll (burst_body t locality) TPM_RSP_READ_TIME_OUT v.s).2 }
      split_ifs at h with hlt
      · exact ext_by_trans_quiet (ext_by_quiet_trans hp hw) (ih _ h)
      · have hb : b = true := by
          have := congrArg (fun o => Option.map Prod.fst o) h
          simpa using this.symm
        have hs : v2 = fifo_read_row t locality out_size row_size
            { v with s := (poll (burst_body t locality) TPM_RSP_READ_TIME_OUT v.s).2 } := by
          have := congrArg (fun o => Option.map Prod.snd o) h
          simpa using this.symm
        subst hb hs
        simpa using ext_by_quiet_trans hp hw

theorem fifo_read_loop_isSome {σ : Type} (t : Tpm σ) (locality out_size fuel : Nat)
    (v : RdVars σ) (ho : v.offset < out_size) (hsz : RSP_RST_OFFSET ≤ out_size)
    (hf : out_size - v.offset ≤ fuel) :
    (fifo_read_loop t locality out_size fuel v).isSome = true := by
  induction fuel generalizing v with
  | zero => omega
  | succ n ih =>
    unfold fifo_read_loop
    cases hr : (poll (burst_body t locality) TPM_RSP_READ_TIME_OUT v.s).1 with
    | none => simp [hr]
    | some row_size =>
      have hpos : 0 < row_size :=
        poll_some (burst_body t locality) (fun v => 0 < v) (burst_body_pos t locality) _ _ _ hr
      have hoff := fifo_read_row_offset t locality out_size row_size
        { v with s := (poll (burst_body t locality) TPM_RSP_READ_TIME_OUT v.s).2 }
      simp only [hr] at hoff ⊢
      split_ifs with hlt
      · apply ih
        · rcases hlt with h1 | h2
          · omega
          · exact h2.2
        · omega
      · simp

theorem tpm_validate_locality_ext {σ : Type} (t : Tpm σ) (locality : Nat) (s : Hw σ) :
    ext_by (if (tpm_validate_locality t locality s).1 then []
      else [Ev.msg Msg.validate_locality_timeout]) s (tpm_validate_locality t locality s).2 := by
  have hp := ext_by_poll (validate_body t locality) (ext_by_validate_body t locality)
    TPM_VALIDATE_LOCALITY_TIME_OUT s
  unfold tpm_validate_locality
  cases hr : (poll (validate_body t locality) TPM_VALIDATE_LOCALITY_TIME_OUT s).1 with
  | some v => simpa [hr] using hp
  | none => simpa [hr] using ext_by_trans hp (ext_by_printk Msg.validate_locality_timeout _)

theorem tpm_wait_cmd_ready_cases {σ : Type} (h : TpmH) (t : Tpm σ) (locality : Nat) (s : Hw σ) :
    ((tpm_wait_cmd_ready h t locality s).1 = h.TPM_FAIL ∧
        ext_by [Ev.msg Msg.access_reg_not_valid] s (tpm_wait_cmd_ready h t locality s).2) ∨
    ((tpm_wait_cmd_ready h t locality s).1 = h.TPM_FAIL ∧
        ext_by [Ev.msg Msg.request_use_timeout, Ev.wr locality TPM_REG_ACCESS ACC_REQUEST_USE] s
          (tpm_wait_cmd_ready h t locality s).2) ∨
    ((tpm_wait_cmd_ready h t locality s).1 = h.TPM_FAIL ∧
        ext_by [Ev.wr locality TPM_REG_ACCESS ACC_ACTIVE_LOCALITY,
          Ev.msg Msg.command_ready_timeout, Ev.msg Msg.status_reg_content,
          Ev.wr locality TPM_REG_ACCESS ACC_REQUEST_USE] s (tpm_wait_cmd_ready h t locality s).2 ∧
        (tpm_wait_cmd_ready h t locality s).2.log.head?
          = some (Ev.wr locality TPM_REG_ACCESS ACC_ACTIVE_LOCALITY)) ∨
    ((tpm_wait_cmd_ready h t locality s).1 = TPM_SUCCESS ∧
        ext_by [Ev.wr locality TPM_REG_ACCESS ACC_REQUEST_USE] s
          (tpm_wait_cmd_ready h t locality s).2) := by
  have h0 := ext_by_read_tpm_reg t locality TPM_REG_ACCESS 1 s
  generalize hr0 : read_tpm_reg t locality TPM_REG_ACCESS 1 s = r0 at h0
  have h1 := ext_by_write_access t locality ACC_REQUEST_USE r0.2
  generalize hs1 : write_tpm_reg t locality TPM_REG_ACCESS ACC_REQUEST_USE r0.2 = s1 at h1
  have h2 := ext_by_poll (active_body t locality) (ext_by_active_body t locality)
    TPM_ACTIVE_LOCALITY_TIME_OUT s1
  generalize hr1 : poll (active_body t locality) TPM_ACTIVE_LOCALITY_TIME_OUT s1 = r1 at h2
  have h3 := ext_by_poll (cmd_ready_body t locality) (ext_by_cmd_ready_body t locality)
    TPM_CMD_READY_TIME_OUT r1.2
  generalize hr2 : poll (cmd_ready_body t locality) TPM_CMD_READY_TIME_OUT r1.2 = r2 at h3
  have hreq : ext_by [Ev.wr locality TPM_REG_ACCESS ACC_REQUEST_USE] s r1.2 :=
    ext_by_quiet_trans (ext_by_trans_quiet h0 h1) h2
  unfold tpm_wait_cmd_ready
  simp only [hr0, hs1, hr1, hr2]
  by_cases hv : acc_tpm_reg_valid_sts r0.1 = 0
  · left
    simp only [if_pos hv, true_and]
    simpa using ext_by_trans h0 (ext_by_printk Msg.access_reg_not_valid r0.2)
  · simp only [if_neg hv]
    cases ha : r1.1 with
    | none =>
      right
      left
      simp only [true_and]
      simpa using ext_by_trans hreq (ext_by_printk Msg.request_use_timeout r1.2)
    | some _ =>
      cases hc : r2.1 with
      | none =>
        right
        right
        left
        simp only [true_and]
        refine ⟨?_, rfl⟩
        have e1 := ext_by_trans (ext_by_quiet_trans hreq h3)
          (ext_by_printk Msg.status_reg_content r2.2)
        have e2 := ext_by_trans e1 (ext_by_printk Msg.command_ready_timeout _)
        have e3 := ext_by_trans e2 (ext_by_write_access t locality ACC_ACTIVE_LOCALITY _)
        simpa using e3
      | some _ =>
        right
        right
        right
        simp only [true_and]
        exact ext_by_quiet_trans hreq h3

/-- The ways `tpm_write_cmd_fifo` can end on valid parameters, each with the
returned code and the non-quiet events of the call (newest first). -/
theorem tpm_write_cmd_fifo_cases {σ : Type} (h : TpmH) (t : Tpm σ) (locality : Nat)
    (inb : List Nat) (in_size : Nat) (outb : List Nat) (osz : Nat) (s : Hw σ) (r : FifoRes σ)
    (hfail : h.TPM_FAIL ≠ TPM_SUCCESS)
    (hloc : locality < h.TPM_NR_LOCALITIES) (hin : CMD_HEAD_SIZE ≤ in_size)
    (hout : RSP_HEAD_SIZE ≤ osz)
    (hr : tpm_write_cmd_fifo h t locality (some inb) in_size (some outb) (some osz) s = some r) :
    (r.ret = h.TPM_FAIL ∧
      ext_by [Ev.msg Msg.locality_not_open, Ev.msg Msg.validate_locality_timeout] s r.hw) ∨
    (r.ret = h.TPM_FAIL ∧ ext_by [Ev.msg Msg.access_reg_not_valid] s r.hw) ∨
    (r.ret = h.TPM_FAIL ∧
      ext_by [Ev.msg Msg.request_use_timeout, Ev.wr locality TPM_REG_ACCESS ACC_REQUEST_USE]
        s r.hw) ∨
    (r.hw.log.head? = some (Ev.wr locality TPM_REG_ACCESS ACC_ACTIVE_LOCALITY) ∧
      ((r.ret = h.TPM_FAIL ∧
          ext_by [Ev.wr locality TPM_REG_ACCESS ACC_ACTIVE_LOCALITY,
            Ev.msg Msg.command_ready_timeout, Ev.msg Msg.status_reg_content,
            Ev.wr locality TPM_REG_ACCESS ACC_REQUEST_USE] s r.hw) ∨
       (r.ret = h.TPM_FAIL ∧
          ext_by [Ev.wr locality TPM_REG_ACCESS ACC_ACTIVE_LOCALITY,
            Ev.msg Msg.write_cmd_timeout,
            Ev.wr locality TPM_REG_ACCESS ACC_REQUEST_USE] s r.hw) ∨
       (r.ret = h.TPM_FAIL ∧
          ext_by [Ev.wr locality TPM_REG_ACCESS ACC_ACTIVE_LOCALITY,
            Ev.msg Msg.data_avail_timeout, Ev.wr locality TPM_REG_STS STS_TPM_GO,
            Ev.wr locality TPM_REG_ACCESS ACC_REQUEST_USE] s r.hw) ∨
       (r.ret = h.TPM_FAIL ∧
          ext_by [Ev.wr locality TPM_REG_ACCESS ACC_ACTIVE_LOCALITY,
            Ev.msg Msg.read_rsp_timeout, Ev.wr locality TPM_REG_STS STS_TPM_GO,
            Ev.wr locality TPM_REG_ACCESS ACC_REQUEST_USE] s r.hw) ∨
       (r.ret = be_at (r.out.getD []) RSP_RST_OFFSET 4 ∧
          ext_by [Ev.wr locality TPM_REG_ACCESS ACC_ACTIVE_LOCALITY,
            Ev.wr locality TPM_REG_STS STS_TPM_GO,
            Ev.wr locality TPM_REG_ACCESS ACC_REQUEST_USE] s r.hw))) := by
  unfold tpm_write_cmd_fifo at hr
  rw [if_neg (by omega)] at hr
  simp only at hr
  rw [if_neg (by omega)] at hr
  have hv := tpm_validate_locality_ext t locality s
  generalize tpm_validate_locality t locality s = v at hv hr
  cases hv1 : v.1 with
  | false =>
    left
    simp only [hv1, Bool.not_false, if_true, Option.some.injEq] at hr
    subst hr
    simp only [hv1] at hv
    exact ⟨rfl, by simpa using ext_by_trans hv (ext_by_printk Msg.locality_not_open v.2)⟩
  | true =>
    right
    simp only [hv1, Bool.not_true, Bool.false_eq_true, if_false] at hr
    simp only [hv1, if_true] at hv
    have hw := tpm_wait_cmd_ready_cases h t locality v.2
    generalize tpm_wait_cmd_ready h t locality v.2 = w at hw hr
    rcases hw with ⟨hw1, hw2⟩ | ⟨hw1, hw2⟩ | ⟨hw1, hw2, hw3⟩ | ⟨hw1, hw2⟩
    · left
      rw [if_pos (by rw [hw1]; exact hfail)] at hr
      simp only [Option.some.injEq] at hr
      subst hr
      exact ⟨hw1, ext_by_trans_quiet hv hw2⟩
    · right
      left
      rw [if_pos (by rw [hw1]; exact hfail)] at hr
      simp only [Option.some.injEq] at hr
      subst hr
      exact ⟨hw1, ext_by_trans_quiet hv hw2⟩
    · right
      right
      rw [if_pos (by rw [hw1]; exact hfail)] at hr
      simp only [Option.some.injEq] at hr
      subst hr
      exact ⟨hw3, Or.inl ⟨hw1, ext_by_trans_quiet hv hw2⟩⟩
    · right
      right
      rw [if_neg (by rw [hw1]; exact fun hh => hh rfl)] at hr
      have hreq := ext_by_trans_quiet hv hw2
      cases hwl : fifo_write_loop t locality inb in_size in_size 0 w.2 with
      | none => simp [hwl] at hr
      | some p =>
        obtain ⟨b, s1⟩ := p
        have hwe := fifo_write_loop_ext t locality inb in_size in_size 0 w.2 b s1 hwl
        cases b with
        | false =>
          simp only [hwl, Option.some.injEq] at hr
          subst hr
          refine ⟨rfl, Or.inr (Or.inl ⟨rfl, ?_⟩)⟩
          have e1 := ext_by_trans hreq hwe
          simpa [relinquish_control] using
            ext_by_trans e1 (ext_by_write_access t locality ACC_ACTIVE_LOCALITY s1)
        | true =>
          simp only [hwl] at hr
          have e1 : ext_by [Ev.wr locality TPM_REG_ACCESS ACC_REQUEST_USE] s s1 := by
            simpa using ext_by_trans hreq hwe
          have e2 := ext_by_trans e1 (ext_by_write_go t locality s1)
          generalize write_tpm_reg t locality TPM_REG_STS STS_TPM_GO s1 = s2 at e2 hr
          have hd := ext_by_poll (data_avail_body t locality) (ext_by_data_avail_body t locality)
            TPM_DATA_AVAIL_TIME_OUT s2
          generalize poll (data_avail_body t locality) TPM_DATA_AVAIL_TIME_OUT s2 = d at hd hr
          have e3 := ext_by_quiet_trans e2 hd
          cases hd1 : d.1 with
          | none =>
            simp only [hd1, Option.some.injEq] at hr
            subst hr
            refine ⟨rfl, Or.inr (Or.inr (Or.inl ⟨rfl, ?_⟩))⟩
            have e4 := ext_by_trans e3 (ext_by_printk Msg.data_avail_timeout d.2)
            simpa [relinquish_control] using
              ext_by_trans e4 (ext_by_write_access t locality ACC_ACTIVE_LOCALITY _)
          | some _ =>
            simp only [hd1] at hr
            cases hrl : fifo_read_loop t locality osz osz ⟨0, 0, outb, d.2⟩ with
            | none => simp [hrl] at hr
            | some q =>
              obtain ⟨b2, v1⟩ := q
              have hre := fifo_read_loop_ext t locality osz osz ⟨0, 0, outb, d.2⟩ b2 v1 hrl
              cases b2 with
              | false =>
                simp only [hrl, Option.some.injEq] at hr
                subst hr
                refine ⟨rfl, Or.inr (Or.inr (Or.inr (Or.inl ⟨rfl, ?_⟩)))⟩
                have e4 := ext_by_trans e3 hre
                simpa [relinquish_control] using
                  ext_by_trans e4 (ext_by_write_access t locality ACC_ACTIVE_LOCALITY _)
              | true =>
                simp only [hrl, Option.some.injEq] at hr
                subst hr
                refine ⟨rfl, Or.inr (Or.inr (Or.inr (Or.inr ⟨rfl, ?_⟩)))⟩
                have e4 : ext_by _ s v1.s := ext_by_trans e3 hre
                have e5 : ext_by [] v1.s
                    (write_tpm_reg t locality TPM_REG_STS STS_COMMAND_READY v1.s) :=
                  ext_by_write_tpm_reg t locality TPM_REG_STS STS_COMMAND_READY v1.s
                have e6 := ext_by_quiet_trans e4 e5
                simpa [relinquish_control] using
                  ext_by_trans e6 (ext_by_write_access t locality ACC_ACTIVE_LOCALITY _)

/-! ### Termination and budgets of `tpm_write_cmd_fifo` -/

theorem rd_count_cons_le (e : Ev) (l : List Ev) : rd_count (e :: l) ≤ rd_count l + 1 := by
  unfold rd_count
  rw [List.filter_cons]
  split_ifs <;> simp

theorem rd_count_wr (a b : Nat) (v : List Nat) (l : List Ev) :
    rd_count (Ev.wr a b v :: l) = rd_count l := by
  simp [rd_count]

theorem poll_rd_count {σ α : Type} (body : Hw σ → Option α × Hw σ)
    (hb : ∀ s, rd_count (body s).2.log ≤ rd_count s.log + 1) (n : Nat) (s : Hw σ) :
    rd_count (poll body n s).2.log ≤ rd_count s.log + n := by
  induction n generalizing s with
  | zero => simp [poll]
  | succ n ih =>
    unfold poll
    have h1 := hb s
    cases hr : (body s).1 with
    | some v =>
      simp only [hr]
      omega
    | none =>
      simp only [hr]
      have h2 := ih (body s).2
      omega

theorem read_tpm_reg_rd_count {σ : Type} (t : Tpm σ) (locality reg size : Nat) (s : Hw σ) :
    rd_count (read_tpm_reg t locality reg size s).2.log ≤ rd_count s.log + 1 :=
  rd_count_cons_le _ _

theorem validate_body_rd_count {σ : Type} (t : Tpm σ) (locality : Nat) (s : Hw σ) :
    rd_count (validate_body t locality s).2.log ≤ rd_count s.log + 1 := by
  unfold validate_body
  dsimp only
  split_ifs <;> exact read_tpm_reg_rd_count t locality TPM_REG_ACCESS 1 s

theorem active_body_rd_count {σ : Type} (t : Tpm σ) (locality : Nat) (s : Hw σ) :
    rd_count (active_body t locality s).2.log ≤ rd_count s.log + 1 := by
  unfold active_body
  dsimp only
  split_ifs <;> exact read_tpm_reg_rd_count t locality TPM_REG_ACCESS 1 s

theorem burst_body_rd_count {σ : Type} (t : Tpm σ) (locality : Nat) (s : Hw σ) :
    rd_count (burst_body t locality s).2.log ≤ rd_count s.log + 1 := by
  unfold burst_body
  dsimp only
  split_ifs <;> exact read_tpm_reg_rd_count t locality TPM_REG_STS 3 s

theorem data_avail_body_rd_count {σ : Type} (t : Tpm σ) (locality : Nat) (s : Hw σ) :
    rd_count (data_avail_body t locality s).2.log ≤ rd_count s.log + 1 := by
  unfold data_avail_body
  dsimp only
  split_ifs <;> exact read_tpm_reg_rd_count t locality TPM_REG_STS 3 s

theorem cmd_ready_body_rd_count {σ : Type} (t : Tpm σ) (locality : Nat) (s : Hw σ) :
    rd_count (cmd_ready_body t locality s).2.log ≤ rd_count s.log + 1 := by
  have h1 := read_tpm_reg_rd_count t locality TPM_REG_STS 3
    (write_tpm_reg t locality TPM_REG_STS STS_COMMAND_READY s)
  have h2 : rd_count (write_tpm_reg t locality TPM_REG_STS STS_COMMAND_READY s).log
      = rd_count s.log := rd_count_wr _ _ _ _
  unfold cmd_ready_body
  dsimp only
  split_ifs <;> (dsimp only; omega)

theorem tpm_write_cmd_fifo_isSome {σ : Type} (h : TpmH) (t : Tpm σ) (locality : Nat)
    (inp : Option (List Nat)) (in_size : Nat) (out : Option (List Nat))
    (out_size : Option Nat) (s : Hw σ) :
    (tpm_write_cmd_fifo h t locality inp in_size out out_size s).isSome = true := by
  unfold tpm_write_cmd_fifo
  by_cases h1 : h.TPM_NR_LOCALITIES ≤ locality
  · rw [if_pos h1]
    rfl
  · rw [if_neg h1]
    cases inp with
    | none => rfl
    | some inb =>
      cases out with
      | none => rfl
      | some outb =>
        cases out_size with
        | none => rfl
        | some osz =>
          dsimp only
          by_cases h2 : in_size < CMD_HEAD_SIZE ∨ osz < RSP_HEAD_SIZE
          · rw [if_pos h2]
            rfl
          · rw [if_neg h2]
            have hin : 0 < in_size := by
              unfold CMD_HEAD_SIZE at h2
              omega
            have hout : RSP_RST_OFFSET ≤ osz := by
              unfold RSP_HEAD_SIZE at h2
              unfold RSP_RST_OFFSET
              omega
            generalize tpm_validate_locality t locality s = v
            cases hv1 : v.1 with
            | false => simp
            | true =>
              simp only [Bool.not_true, Bool.false_eq_true, if_false]
              generalize tpm_wait_cmd_ready h t locality v.2 = w
              by_cases h3 : w.1 ≠ TPM_SUCCESS
              · rw [if_pos h3]
                rfl
              · rw [if_neg h3]
                have hw := fifo_write_loop_isSome t locality inb in_size in_size 0 w.2 hin
                  (by omega)
                cases hwl : fifo_write_loop t locality inb in_size in_size 0 w.2 with
                | none => simp [hwl] at hw
                | some p =>
                  obtain ⟨b, s1⟩ := p
                  cases b with
                  | false => rfl
                  | true =>
                    dsimp only
                    generalize poll (data_avail_body t locality) TPM_DATA_AVAIL_TIME_OUT
                      (write_tpm_reg t locality TPM_REG_STS STS_TPM_GO s1) = d
                    cases hd1 : d.1 with
                    | none => rfl
                    | some _ =>
                      dsimp only
                      have hrd := fifo_read_loop_isSome t locality osz osz ⟨0, 0, outb, d.2⟩
                        (by unfold RSP_RST_OFFSET at hout; simp only; omega) hout
                        (by simp only; omega)
                      cases hrl : fifo_read_loop t locality osz osz ⟨0, 0, outb, d.2⟩ with
                      | none => simp [hrl] at hrd
                      | some q =>
                        obtain ⟨b2, v1⟩ := q
                        cases b2 <;> rfl

/-! ### Timeouts and deactivation -/

theorem new_events_append (evs l : List Ev) : new_events l (evs ++ l) = evs := by
  unfold new_events
  simp

theorem mem_summary (e : Ev) (evs : List Ev) (hq : e.quiet = false) :
    e ∈ summary evs ↔ e ∈ evs := by
  unfold summary
  simp [List.mem_filter, hq]

theorem ext_by_mem {σ : Type} {X : List Ev} {s r : Hw σ} (hx : ext_by X s r) (e : Ev)
    (hq : e.quiet = false) : e ∈ new_events s.log r.log ↔ e ∈ X := by
  obtain ⟨evs, hl, hs⟩ := hx
  rw [hl, new_events_append, ← hs, mem_summary e evs hq]

theorem ext_by_new_head {σ : Type} {X : List Ev} {s r : Hw σ} (hx : ext_by X s r) (e : Ev)
    (hX : X ≠ []) (hh : r.log.head? = some e) :
    ∃ rest, new_events s.log r.log = e :: rest := by
  obtain ⟨evs, hl, hs⟩ := hx
  rw [hl, new_events_append]
  cases evs with
  | nil =>
    exfalso
    apply hX
    rw [← hs]
    rfl
  | cons a rest =>
    rw [hl] at hh
    simp only [List.cons_append, List.head?_cons, Option.some.injEq] at hh
    exact ⟨rest, by rw [hh]⟩

theorem poll_none {σ α : Type} (body : Hw σ → Option α × Hw σ)
    (hb : ∀ s, (body s).1 = none) (n : Nat) (s : Hw σ) : (poll body n s).1 = none := by
  induction n generalizing s with
  | zero => rfl
  | succ n ih =>
    unfold poll
    simp only [hb s]
    exact ih _

theorem new_events_nil (l : List Ev) : new_events [] l = l := by
  unfold new_events
  simp

theorem tpm_write_cmd_fifo_of_validate_false {σ : Type} (h : TpmH) (t : Tpm σ) (locality : Nat)
    (inb : List Nat) (in_size : Nat) (outb : List Nat) (osz : Nat) (s : Hw σ)
    (hloc : locality < h.TPM_NR_LOCALITIES) (hin : CMD_HEAD_SIZE ≤ in_size)
    (hout : RSP_HEAD_SIZE ≤ osz) (hv : (tpm_validate_locality t locality s).1 = false) :
    tpm_write_cmd_fifo h t locality (some inb) in_size (some outb) (some osz) s
      = some ⟨h.TPM_FAIL, some outb, some osz,
          printk Msg.locality_not_open (tpm_validate_locality t locality s).2⟩ := by
  unfold tpm_write_cmd_fifo
  rw [if_neg (by omega)]
  dsimp only
  rw [if_neg (by omega)]
  generalize tpm_validate_locality t locality s = v at hv
  rw [hv]
  rfl

theorem tpm_write_cmd_fifo_of_wait_fail {σ : Type} (h : TpmH) (t : Tpm σ) (locality : Nat)
    (inb : List Nat) (in_size : Nat) (outb : List Nat) (osz : Nat) (s : Hw σ)
    (hloc : locality < h.TPM_NR_LOCALITIES) (hin : CMD_HEAD_SIZE ≤ in_size)
    (hout : RSP_HEAD_SIZE ≤ osz) (hv : (tpm_validate_locality t locality s).1 = true)
    (hw : (tpm_wait_cmd_ready h t locality (tpm_validate_locality t locality s).2).1
      ≠ TPM_SUCCESS) :
    tpm_write_cmd_fifo h t locality (some inb) in_size (some outb) (some osz) s
      = some ⟨(tpm_wait_cmd_ready h t locality (tpm_validate_locality t locality s).2).1,
          some outb, some osz,
          (tpm_wait_cmd_ready h t locality (tpm_validate_locality t locality s).2).2⟩ := by
  unfold tpm_write_cmd_fifo
  rw [if_neg (by omega)]
  dsimp only
  rw [if_neg (by omega)]
  generalize tpm_validate_locality t locality s = v at hv hw
  rw [hv]
  generalize tpm_wait_cmd_ready h t locality v.2 = w at hw
  rw [if_neg (by decide), if_pos hw]

theorem tpm_validate_locality_of_none {σ : Type} (t : Tpm σ) (locality : Nat) (s : Hw σ)
    (hp : (poll (validate_body t locality) TPM_VALIDATE_LOCALITY_TIME_OUT s).1 = none) :
    tpm_validate_locality t locality s
      = (false, printk Msg.validate_locality_timeout
          (poll (validate_body t locality) TPM_VALIDATE_LOCALITY_TIME_OUT s).2) := by
  unfold tpm_validate_locality
  generalize poll (validate_body t locality) TPM_VALIDATE_LOCALITY_TIME_OUT s = p at hp
  dsimp only
  rw [hp]

theorem poll_first {σ α : Type} (body : Hw σ → Option α × Hw σ) (n : Nat) (s : Hw σ) (v : α)
    (hb : (body s).1 = some v) : poll body (n + 1) s = (some v, (body s).2) := by
  unfold poll
  generalize body s = r at hb
  dsimp only
  rw [hb]

theorem tpm_validate_locality_of_first {σ : Type} (t : Tpm σ) (locality : Nat) (s : Hw σ)
    (hb : (validate_body t locality s).1 = some ()) :
    tpm_validate_locality t locality s = (true, (validate_body t locality s).2) := by
  unfold tpm_validate_locality
  have hp : poll (validate_body t locality) TPM_VALIDATE_LOCALITY_TIME_OUT s
      = (some (), (validate_body t locality s).2) :=
    poll_first (validate_body t locality) 255 s () hb
  rw [hp]

theorem tpm_wait_cmd_ready_of_active_none {σ : Type} (h : TpmH) (t : Tpm σ) (locality : Nat)
    (s : Hw σ)
    (hv : acc_tpm_reg_valid_sts (read_tpm_reg t locality TPM_REG_ACCESS 1 s).1 ≠ 0)
    (hp : (poll (active_body t locality) TPM_ACTIVE_LOCALITY_TIME_OUT
      (write_tpm_reg t locality TPM_REG_ACCESS ACC_REQUEST_USE
        (read_tpm_reg t locality TPM_REG_ACCESS 1 s).2)).1 = none) :
    tpm_wait_cmd_ready h t locality s
      = (h.TPM_FAIL, printk Msg.request_use_timeout
          (poll (active_body t locality) TPM_ACTIVE_LOCALITY_TIME_OUT
            (write_tpm_reg t locality TPM_REG_ACCESS ACC_REQUEST_USE
              (read_tpm_reg t locality TPM_REG_ACCESS 1 s).2)).2) := by
  unfold tpm_wait_cmd_ready
  dsimp only
  rw [if_neg hv]
  generalize poll (active_body t locality) TPM_ACTIVE_LOCALITY_TIME_OUT
      (write_tpm_reg t locality TPM_REG_ACCESS ACC_REQUEST_USE
        (read_tpm_reg t locality TPM_REG_ACCESS 1 s).2) = p at hp
  rw [hp]

theorem tpm_wait_cmd_ready_of_active_none_ext {σ : Type} (h : TpmH) (t : Tpm σ)
    (locality : Nat) (s : Hw σ)
    (hv : acc_tpm_reg_valid_sts (read_tpm_reg t locality TPM_REG_ACCESS 1 s).1 ≠ 0)
    (hp : (poll (active_body t locality) TPM_ACTIVE_LOCALITY_TIME_OUT
      (write_tpm_reg t locality TPM_REG_ACCESS ACC_REQUEST_USE
        (read_tpm_reg t locality TPM_REG_ACCESS 1 s).2)).1 = none) :
    (tpm_wait_cmd_ready h t locality s).1 = h.TPM_FAIL ∧
      ext_by [Ev.msg Msg.request_use_timeout, Ev.wr locality TPM_REG_ACCESS ACC_REQUEST_USE] s
        (tpm_wait_cmd_ready h t locality s).2 := by
  rw [tpm_wait_cmd_ready_of_active_none h t locality s hv hp]
  refine ⟨rfl, ?_⟩
  have e0 := ext_by_read_tpm_reg t locality TPM_REG_ACCESS 1 s
  have e1 := ext_by_write_access t locality ACC_REQUEST_USE
    (read_tpm_reg t locality TPM_REG_ACCESS 1 s).2
  have e2 := ext_by_poll (active_body t locality) (ext_by_active_body t locality)
    TPM_ACTIVE_LOCALITY_TIME_OUT
    (write_tpm_reg t locality TPM_REG_ACCESS ACC_REQUEST_USE
      (read_tpm_reg t locality TPM_REG_ACCESS 1 s).2)
  have e3 := ext_by_printk Msg.request_use_timeout
    (poll (active_body t locality) TPM_ACTIVE_LOCALITY_TIME_OUT
      (write_tpm_reg t locality TPM_REG_ACCESS ACC_REQUEST_USE
        (read_tpm_reg t locality TPM_REG_ACCESS 1 s).2)).2
  exact ext_by_trans (ext_by_quiet_trans (ext_by_trans_quiet e0 e1) e2) e3

theorem validation_timeout_run {σ : Type} (h : TpmH) (t : Tpm σ) (locality : Nat)
    (inb : List Nat) (in_size : Nat) (outb : List Nat) (osz : Nat) (s : Hw σ)
    (hloc : locality < h.TPM_NR_LOCALITIES) (hin : CMD_HEAD_SIZE ≤ in_size)
    (hout : RSP_HEAD_SIZE ≤ osz)
    (hvb : ∀ s1, (validate_body t locality s1).1 = none) :
    ∃ r, tpm_write_cmd_fifo h t locality (some inb) in_size (some outb) (some osz) s = some r ∧
      r.ret = h.TPM_FAIL ∧
      Ev.msg Msg.validate_locality_timeout ∈ new_events s.log r.hw.log ∧
      Ev.wr locality TPM_REG_ACCESS ACC_ACTIVE_LOCALITY ∉ new_events s.log r.hw.log := by
  have hp := poll_none (validate_body t locality) hvb TPM_VALIDATE_LOCALITY_TIME_OUT s
  have hv := tpm_validate_locality_of_none t locality s hp
  have hrun := tpm_write_cmd_fifo_of_validate_false h t locality inb in_size outb osz s hloc hin
    hout (by rw [hv])
  have he := tpm_validate_locality_ext t locality s
  generalize tpm_validate_locality t locality s = v at hv hrun he
  have hv1 : v.1 = false := by rw [hv]
  rw [hv1] at he
  have he2 : ext_by [Ev.msg Msg.locality_not_open, Ev.msg Msg.validate_locality_timeout] s
      (printk Msg.locality_not_open v.2) := by
    simpa using ext_by_trans he (ext_by_printk Msg.locality_not_open v.2)
  refine ⟨_, hrun, rfl, ?_, ?_⟩
  · rw [ext_by_mem he2 _ (by decide)]
    decide
  · rw [ext_by_mem he2 _ (by simp [Ev.quiet])]
    simp

theorem request_use_timeout_run {σ : Type} (h : TpmH) (t : Tpm σ) (locality : Nat)
    (inb : List Nat) (in_size : Nat) (outb : List Nat) (osz : Nat) (s : Hw σ)
    (hfail : h.TPM_FAIL ≠ TPM_SUCCESS)
    (hloc : locality < h.TPM_NR_LOCALITIES) (hin : CMD_HEAD_SIZE ≤ in_size)
    (hout : RSP_HEAD_SIZE ≤ osz)
    (hvb : (validate_body t locality s).1 = some ())
    (hval : ∀ s1, acc_tpm_reg_valid_sts (read_tpm_reg t locality TPM_REG_ACCESS 1 s1).1 ≠ 0)
    (hact : ∀ s1, (active_body t locality s1).1 = none) :
    ∃ r, tpm_write_cmd_fifo h t locality (some inb) in_size (some outb) (some osz) s = some r ∧
      r.ret = h.TPM_FAIL ∧
      Ev.msg Msg.request_use_timeout ∈ new_events s.log r.hw.log ∧
      Ev.wr locality TPM_REG_ACCESS ACC_ACTIVE_LOCALITY ∉ new_events s.log r.hw.log := by
  have hv := tpm_validate_locality_of_first t locality s hvb
  have he := tpm_validate_locality_ext t locality s
  have hp := poll_none (active_body t locality) hact TPM_ACTIVE_LOCALITY_TIME_OUT
    (write_tpm_reg t locality TPM_REG_ACCESS ACC_REQUEST_USE
      (read_tpm_reg t locality TPM_REG_ACCESS 1 (tpm_validate_locality t locality s).2).2)
  obtain ⟨hw1, hw2⟩ := tpm_wait_cmd_ready_of_active_none_ext h t locality
    (tpm_validate_locality t locality s).2 (hval _) hp
  have hv1 : (tpm_validate_locality t locality s).1 = true := by rw [hv]
  have hrun := tpm_write_cmd_fifo_of_wait_fail h t locality inb in_size outb osz s hloc hin hout
    hv1 (by rw [hw1]; exact hfail)
  rw [hv1] at he
  have he2 := ext_by_trans_quiet he hw2
  generalize tpm_wait_cmd_ready h t locality (tpm_validate_locality t locality s).2 = w
    at hw1 hrun he2
  refine ⟨_, hrun, hw1, ?_, ?_⟩
  · rw [ext_by_mem he2 _ (by decide)]
    simp
  · rw [ext_by_mem he2 _ (by simp [Ev.quiet])]
    simp [ACC_ACTIVE_LOCALITY, ACC_REQUEST_USE]

theorem dead_read (reg : Nat) (s : Hw Unit) :
    (read_tpm_reg dead_tpm 0 reg 1 s).1 = [0] := by
  simp [read_tpm_reg, readb_loop, dead_tpm]

theorem dead_validate_body (s : Hw Unit) : (validate_body dead_tpm 0 s).1 = none := by
  unfold validate_body
  dsimp only
  rw [dead_read TPM_REG_ACCESS]
  rw [if_neg (by decide)]

theorem na_read (s : Hw Unit) :
    (read_tpm_reg never_active_tpm 0 TPM_REG_ACCESS 1 s).1 = [0x80] := by
  simp [read_tpm_reg, readb_loop, never_active_tpm, TPM_REG_ACCESS]

theorem never_active_body (s : Hw Unit) : (active_body never_active_tpm 0 s).1 = none := by
  unfold active_body
  dsimp only
  rw [na_read]
  rw [if_neg (by decide)]

theorem never_active_validate_body (s : Hw Unit) :
    (validate_body never_active_tpm 0 s).1 = some () := by
  unfold validate_body
  dsimp only
  rw [na_read]
  rw [if_pos (by decide)]

theorem never_active_valid (s : Hw Unit) :
    acc_tpm_reg_valid_sts (read_tpm_reg never_active_tpm 0 TPM_REG_ACCESS 1 s).1 ≠ 0 := by
  rw [na_read]
  decide

/-- C9, as stated, fails for two of the six waits.  On a module whose registers
always read 0 the validation wait exhausts its budget, and on a module whose
access register reads valid but never active the request-use wait exhausts its
budget; in both runs `tpm_write_cmd_fifo` (valid parameters, locality 0) returns
`TPM_FAIL` and the deactivation value is not written to the access register. -/
theorem timeout_without_deactivation_counterexample :
    (∃ r, tpm_write_cmd_fifo tpm_h dead_tpm 0 (some (List.replicate 10 0)) 10
          (some (List.replicate 10 0)) (some 10) hw0 = some r ∧
        r.ret = tpm_h.TPM_FAIL ∧
        Ev.msg Msg.validate_locality_timeout ∈ new_events hw0.log r.hw.log ∧
        Ev.wr 0 TPM_REG_ACCESS ACC_ACTIVE_LOCALITY ∉ new_events hw0.log r.hw.log) ∧
    (∃ r, tpm_write_cmd_fifo tpm_h never_active_tpm 0 (some (List.replicate 10 0)) 10
          (some (List.replicate 10 0)) (some 10) hw0 = some r ∧
        r.ret = tpm_h.TPM_FAIL ∧
        Ev.msg Msg.request_use_timeout ∈ new_events hw0.log r.hw.log ∧
        Ev.wr 0 TPM_REG_ACCESS ACC_ACTIVE_LOCALITY ∉ new_events hw0.log r.hw.log) :=
  ⟨validation_timeout_run tpm_h dead_tpm 0 (List.replicate 10 0) 10 (List.replicate 10 0) 10 hw0
      (by decide) (by decide) (by decide) dead_validate_body,
    request_use_timeout_run tpm_h never_active_tpm 0 (List.replicate 10 0) 10
      (List.replicate 10 0) 10 hw0 (by decide) (by decide) (by decide) (by decide)
      (never_active_validate_body hw0) never_active_valid never_active_body⟩

/-! ### `tpm_get_random` -/

theorem tpm_get_random_step {σ : Type} (h : TpmH) (t : Tpm σ) (fuel locality : Nat)
    (rdat : List Nat) (pos n : Nat) (s : St σ) (r : FifoRes σ) (k : Nat)
    (hcmd : 14 ≤ h.TPM_CMD_SIZE_MAX) (hn : n + 14 ≤ h.TPM_RSP_SIZE_MAX)
    (h32 : h.TPM_RSP_SIZE_MAX < 2 ^ 32) (hn0 : 0 < n)
    (hr : tpm_write_cmd_fifo h t locality (some (random_cmd_state s n).cmd_buf) 14
      (some s.rsp_buf) (some (n + 14)) s.hw = some r)
    (hret : r.ret = TPM_SUCCESS) (hsize : r.out_size = some (k + 14))
    (hlen : be_at (r.out.getD s.rsp_buf) RSP_HEAD_SIZE 4 = k) (hk : 0 < k) (hkn : k ≤ n) :
    tpm_get_random h t (fuel + 1) locality (some rdat) pos (some n) s =
      if k < n then
        match tpm_get_random h t fuel locality
            (some (memcpy rdat pos (readBytes (r.out.getD s.rsp_buf) (RSP_HEAD_SIZE + 4) k)))
            (pos + k) (some (n - k)) (random_retry_state (random_cmd_state s n) r k) with
        | none => none
        | some r2 =>
          some ⟨r2.ret, r2.random_data, some (u32 (k + r2.data_size.getD (n - k))), r2.s⟩
      else
        some ⟨TPM_SUCCESS,
          some (memcpy rdat pos (readBytes (r.out.getD s.rsp_buf) (RSP_HEAD_SIZE + 4) k)),
          some k, random_done_state (random_cmd_state s n) r k⟩ := by
  have e1 : u32 (CMD_HEAD_SIZE + 4) = 14 := by decide
  have e2 : u32 (n + 4) = n + 4 := u32_of_lt _ (by omega)
  have e3 : u32 (RSP_HEAD_SIZE + (n + 4)) = n + 14 := by
    rw [u32_of_lt _ (by unfold RSP_HEAD_SIZE; omega)]
    unfold RSP_HEAD_SIZE
    omega
  conv_lhs => unfold tpm_get_random
  dsimp only
  rw [if_neg (by omega)]
  unfold tpm_submit_cmd _tpm_submit_cmd
  dsimp only
  rw [e1, e2, e3, if_neg (by omega), if_neg (by omega)]
  have hr2 := hr
  unfold random_cmd_state at hr2
  dsimp only at hr2
  rw [hr2]
  dsimp only
  rw [hsize, hret]
  have a1 : (k + 14 - if RSP_HEAD_SIZE < k + 14 then RSP_HEAD_SIZE else k + 14) = k + 4 := by
    unfold RSP_HEAD_SIZE
    split_ifs <;> omega
  have a2 : ¬ (n + 4 = 0 ∨ k + 4 = 0) := by omega
  have a3 : (if k + 4 < n + 4 then k + 4 else n + 4) = k + 4 := by
    split_ifs <;> omega
  have a4 : ¬ (k + 4 ≤ 4) := by omega
  simp only [Option.getD_some, a1, a3, ne_eq, not_true_eq_false, if_false, if_neg a2, hlen,
    if_neg a4, if_pos hk, if_true]
  rfl

theorem go_count_append (a b : List Ev) : go_count (a ++ b) = go_count a + go_count b := by
  simp [go_count]

theorem go_count_summary (evs : List Ev) : go_count (summary evs) = go_count evs := by
  induction evs with
  | nil => rfl
  | cons e l ih =>
    cases e with
    | rd a b c => simpa [go_count, summary, Ev.quiet] using ih
    | msg m => simpa [go_count, summary, Ev.quiet] using ih
    | wr a b c =>
      by_cases hq : (Ev.wr a b c).quiet = true
      · have hng : ¬ (b = TPM_REG_STS ∧ c = STS_TPM_GO) := by
          simp only [Ev.quiet, decide_eq_true_eq] at hq
          exact hq.2
        have e1 : summary (Ev.wr a b c :: l) = summary l := by
          simp [summary, hq]
        have e2 : go_count (Ev.wr a b c :: l) = go_count l := by
          simp [go_count, hng]
        rw [e1, e2, ih]
      · have e1 : summary (Ev.wr a b c :: l) = Ev.wr a b c :: summary l := by
          simp [summary, hq]
        rw [e1]
        have e2 : ∀ l2, go_count (Ev.wr a b c :: l2)
            = go_count [Ev.wr a b c] + go_count l2 := fun l2 =>
          go_count_append [Ev.wr a b c] l2
        rw [e2, e2 l, ih]

theorem ext_by_go_count {σ : Type} {X : List Ev} {s r : Hw σ} (hx : ext_by X s r) :
    go_count r.log = go_count X + go_count s.log := by
  obtain ⟨evs, hl, hs⟩ := hx
  rw [hl, go_count_append, ← hs, go_count_summary]

/-- A transfer that returns `TPM_SUCCESS` executed exactly one command. -/
theorem tpm_write_cmd_fifo_go_count {σ : Type} (h : TpmH) (t : Tpm σ) (locality : Nat)
    (inb : List Nat) (in_size : Nat) (outb : List Nat) (osz : Nat) (s : Hw σ) (r : FifoRes σ)
    (hfail : h.TPM_FAIL ≠ TPM_SUCCESS)
    (hloc : locality < h.TPM_NR_LOCALITIES) (hin : CMD_HEAD_SIZE ≤ in_size)
    (hout : RSP_HEAD_SIZE ≤ osz)
    (hr : tpm_write_cmd_fifo h t locality (some inb) in_size (some outb) (some osz) s = some r)
    (hret : r.ret = TPM_SUCCESS) :
    go_count r.hw.log = go_count s.log + 1 := by
  have hc := tpm_write_cmd_fifo_cases h t locality inb in_size outb osz s r hfail hloc hin hout hr
  have hne : r.ret ≠ h.TPM_FAIL := by
    rw [hret]
    exact fun hh => hfail hh.symm
  rcases hc with ⟨h1, _⟩ | ⟨h1, _⟩ | ⟨h1, _⟩ | ⟨_, ⟨h1, _⟩ | ⟨h1, _⟩ | ⟨h1, _⟩ |
    ⟨h1, _⟩ | ⟨_, h2⟩⟩
  · exact absurd h1 hne
  · exact absurd h1 hne
  · exact absurd h1 hne
  · exact absurd h1 hne
  · exact absurd h1 hne
  · exact absurd h1 hne
  · exact absurd h1 hne
  · rw [ext_by_go_count h2]
    have : go_count [Ev.wr locality TPM_REG_ACCESS ACC_ACTIVE_LOCALITY,
        Ev.wr locality TPM_REG_STS STS_TPM_GO,
        Ev.wr locality TPM_REG_ACCESS ACC_REQUEST_USE] = 1 := by
      simp [go_count, TPM_REG_ACCESS, TPM_REG_STS]
    omega

theorem go_count_msg (m : Msg) (l : List Ev) : go_count (Ev.msg m :: l) = go_count l := by
  simp [go_count]

theorem readBytes_memcpy_two (rdat a b : List Nat) (hcap : a.length + b.length ≤ rdat.length) :
    readBytes (memcpy (memcpy rdat 0 a) a.length b) 0 (a.length + b.length) = a ++ b := by
  apply list_ext_rd
  · simp [readBytes]
  · intro i hi
    rw [length_readBytes] at hi
    rw [rd_readBytes, if_pos hi, Nat.zero_add, rd_memcpy, length_memcpy]
    by_cases hlt : i < a.length
    · rw [if_neg (by omega), rd_memcpy, if_pos (by omega)]
      unfold rd
      rw [List.getD_append _ _ _ _ hlt]
      simp
    · rw [if_pos (by omega)]
      unfold rd
      rw [List.getD_append_right _ _ _ _ (by omega)]

theorem le_val_le_bytes_4 (n : Nat) (hn : n < 2 ^ 32) : le_val (le_bytes 4 n) = n := by
  have e : le_bytes 4 n
      = [n / 256 ^ 0 % 256, n / 256 ^ 1 % 256, n / 256 ^ 2 % 256, n / 256 ^ 3 % 256] := rfl
  rw [e]
  simp only [le_val]
  norm_num at hn ⊢
  omega

/-- The command that `tpm_get_random` hands over for `n` bytes carries `n` as
the big-endian parameter after the 10-byte header. -/
theorem random_cmd_state_requests {σ : Type} (s : St σ) (n : Nat)
    (hbuf : 14 ≤ s.cmd_buf.length) (hn : n < 2 ^ 32) :
    be_at (random_cmd_state s n).cmd_buf CMD_HEAD_SIZE 4 = n := by
  unfold be_at random_cmd_state CMD_HEAD_SIZE CMD_SIZE_OFFSET CMD_ORD_OFFSET
  dsimp only
  rw [frame_rc _ _ _ _ _ _ (by omega), frame_rc _ _ _ _ _ _ (by omega),
    frame_rc _ _ _ _ _ _ (by omega), hit_rc _ _ _ _ (by omega),
    reverse_copy_reverse_copy _ _ (by simp [le_bytes]), le_val_le_bytes_4 n hn]

/-- C7: for every requested size `K` (with `K + 4` within the response payload
capacity) and `k1` with `0 < k1 < K`: if the module answers the first GetRandom
command with `k1` bytes and the second with `K - k1` bytes, then
`tpm_get_random` makes exactly these two transfers (two commands are executed,
the second requesting exactly `K - k1` bytes), returns `TPM_SUCCESS` with
`*data_size = K`, and `random_data` holds the `k1` bytes followed by the
`K - k1` bytes. -/
theorem tpm_get_random_two_attempts {σ : Type} (h : TpmH) (t : Tpm σ) (fuel locality : Nat)
    (rdat : List Nat) (K k1 : Nat) (s : St σ) (r1 r2 : FifoRes σ)
    (hfail : h.TPM_FAIL ≠ TPM_SUCCESS) (hloc : locality < h.TPM_NR_LOCALITIES)
    (hcmd : 14 ≤ h.TPM_CMD_SIZE_MAX) (hK : K + 4 ≤ h.TPM_RSP_SIZE_MAX - RSP_HEAD_SIZE)
    (h32 : h.TPM_RSP_SIZE_MAX < 2 ^ 32) (hk1 : 0 < k1) (hk1K : k1 < K)
    (hcap : K ≤ rdat.length) (hbuf : 14 ≤ s.cmd_buf.length)
    (hr1 : tpm_write_cmd_fifo h t locality (some (random_cmd_state s K).cmd_buf) 14
      (some s.rsp_buf) (some (K + 14)) s.hw = some r1)
    (h1ret : r1.ret = TPM_SUCCESS) (h1size : r1.out_size = some (k1 + 14))
    (h1len : be_at (r1.out.getD s.rsp_buf) RSP_HEAD_SIZE 4 = k1)
    (hr2 : tpm_write_cmd_fifo h t locality
      (some (random_cmd_state (random_retry_state (random_cmd_state s K) r1 k1)
        (K - k1)).cmd_buf) 14
      (some (random_retry_state (random_cmd_state s K) r1 k1).rsp_buf)
      (some (K - k1 + 14))
      (random_retry_state (random_cmd_state s K) r1 k1).hw = some r2)
    (h2ret : r2.ret = TPM_SUCCESS) (h2size : r2.out_size = some (K - k1 + 14))
    (h2len : be_at (r2.out.getD (random_retry_state (random_cmd_state s K) r1 k1).rsp_buf)
      RSP_HEAD_SIZE 4 = K - k1) :
    ∃ res, tpm_get_random h t (fuel + 2) locality (some rdat) 0 (some K) s = some res ∧
      res.ret = TPM_SUCCESS ∧ res.data_size = some K ∧
      readBytes (res.random_data.getD []) 0 K
        = readBytes (r1.out.getD s.rsp_buf) (RSP_HEAD_SIZE + 4) k1 ++
          readBytes (r2.out.getD (random_retry_state (random_cmd_state s K) r1 k1).rsp_buf)
            (RSP_HEAD_SIZE + 4) (K - k1) ∧
      go_count res.s.hw.log = go_count s.hw.log + 2 ∧
      be_at res.s.cmd_buf CMD_HEAD_SIZE 4 = K - k1 ∧
      res.s = random_done_state
        (random_cmd_state (random_retry_state (random_cmd_state s K) r1 k1) (K - k1))
        r2 (K - k1) := by
  have hK2 : K + 14 ≤ h.TPM_RSP_SIZE_MAX := by
    unfold RSP_HEAD_SIZE at hK
    omega
  have hstep1 := tpm_get_random_step h t (fuel + 1) locality rdat 0 K s r1 k1 hcmd hK2 h32
    (by omega) hr1 h1ret h1size h1len hk1 (by omega)
  have hstep2 := tpm_get_random_step h t fuel locality
    (memcpy rdat 0 (readBytes (r1.out.getD s.rsp_buf) (RSP_HEAD_SIZE + 4) k1)) (0 + k1) (K - k1)
    (random_retry_state (random_cmd_state s K) r1 k1) r2 (K - k1) hcmd (by omega) h32
    (by omega) hr2 h2ret h2size h2len (by omega) (Nat.le_refl _)
  rw [if_neg (Nat.lt_irrefl _)] at hstep2
  rw [if_pos hk1K, hstep2] at hstep1
  dsimp only at hstep1
  have hg1 := tpm_write_cmd_fifo_go_count h t locality _ 14 _ (K + 14) s.hw r1 hfail hloc
    (by decide) (by unfold RSP_HEAD_SIZE; omega) hr1 h1ret
  have hg2 := tpm_write_cmd_fifo_go_count h t locality _ 14 _ (K - k1 + 14) _ r2 hfail hloc
    (by decide) (by unfold RSP_HEAD_SIZE; omega) hr2 h2ret
  refine ⟨_, hstep1, rfl, ?_, ?_, ?_, ?_, rfl⟩
  · dsimp only
    rw [Option.getD_some, u32_of_lt _ (by omega)]
    congr 1
    omega
  · dsimp only
    rw [Option.getD_some]
    have e := readBytes_memcpy_two rdat (readBytes (r1.out.getD s.rsp_buf) (RSP_HEAD_SIZE + 4) k1)
      (readBytes (r2.out.getD (random_retry_state (random_cmd_state s K) r1 k1).rsp_buf)
        (RSP_HEAD_SIZE + 4) (K - k1))
      (by rw [length_readBytes, length_readBytes]; omega)
    rw [length_readBytes, length_readBytes] at e
    rw [show k1 + (K - k1) = K by omega] at e
    rw [Nat.zero_add]
    exact e
  · have e1 : (random_retry_state (random_cmd_state s K) r1 k1).hw.log
        = Ev.msg Msg.random_retry :: Ev.msg Msg.random_short :: r1.hw.log := rfl
    rw [e1, go_count_msg, go_count_msg] at hg2
    show go_count r2.hw.log = go_count s.hw.log + 2
    omega
  · have hl : 14 ≤ (random_retry_state (random_cmd_state s K) r1 k1).cmd_buf.length := by
      show 14 ≤ (random_cmd_state s K).cmd_buf.length
      unfold random_cmd_state
      dsimp only
      rw [length_memcpy, length_memcpy, length_memcpy, length_memcpy]
      exact hbuf
    have hlt : K - k1 < 2 ^ 32 := by omega
    have hq := random_cmd_state_requests (random_retry_state (random_cmd_state s K) r1 k1)
      (K - k1) hl hlt
    dsimp only
    unfold random_done_state
    dsimp only
    exact hq

theorem tpm_get_random_two_attempts_witness :
    (sim_r1.ret = TPM_SUCCESS ∧ sim_r1.out_size = some (1 + 14) ∧
      sim_r2.ret = TPM_SUCCESS ∧ sim_r2.out_size = some (3 - 1 + 14)) ∧
    ∃ res, tpm_get_random tpm_h sim (0 + 2) 0 (some [0, 0, 0]) 0 (some 3) sim_s0 = some res ∧
      res.ret = TPM_SUCCESS ∧ res.data_size = some 3 ∧
      readBytes (res.random_data.getD []) 0 3
        = readBytes (sim_r1.out.getD sim_s0.rsp_buf) (RSP_HEAD_SIZE + 4) 1 ++
          readBytes (sim_r2.out.getD
            (random_retry_state (random_cmd_state sim_s0 3) sim_r1 1).rsp_buf)
            (RSP_HEAD_SIZE + 4) (3 - 1) ∧
      go_count res.s.hw.log = go_count sim_s0.hw.log + 2 ∧
      be_at res.s.cmd_buf CMD_HEAD_SIZE 4 = 3 - 1 ∧
      res.s = random_done_state
        (random_cmd_state (random_retry_state (random_cmd_state sim_s0 3) sim_r1 1) (3 - 1))
        sim_r2 (3 - 1) :=
  ⟨by decide,
    tpm_get_random_two_attempts tpm_h sim 0 0 [0, 0, 0] 3 1 sim_s0 sim_r1 sim_r2
      (by decide) (by decide) (by decide) (by decide) (by decide) (by decide) (by decide)
      (by decide) (by decide) rfl (by decide) (by decide) (by decide) rfl (by decide)
      (by decide) (by decide)⟩

/-- C8 does not hold for the code: asked for 3 bytes from a module that returns
one byte per GetRandom command, `tpm_get_random` executes three commands (a
third attempt) and returns all 3 bytes, because the static `first_attempt` is
set to true again on entry to the recursive call. -/
theorem tpm_get_random_third_attempt :
    (tpm_get_random tpm_h sim 4 0 (some [0, 0, 0]) 0 (some 3)
        (sim_st [random_rsp [0xAA], random_rsp [0xBB], random_rsp [0xCC]])).map
      (fun res => (res.ret, res.random_data, res.data_size, go_count res.s.hw.log))
      = some (TPM_SUCCESS, some [0xAA, 0xBB, 0xCC], some 3, 3) := by
  decide

/-! ### `init_pcr_info` and `tpm_seal` -/

/-- Every `return` of `init_pcr_info` yields true when `TPM_BAD_PARAMETER` is a
non-zero code: the rejections are `return TPM_BAD_PARAMETER;` in a function
declared `bool`. -/
theorem init_pcr_info_true (h : TpmH) (sha1 : List Nat → List Nat) (cmd_buf : List Nat)
    (locality release_locs nr_create : Nat) (indcs_create : Option (List Nat))
    (nr_release : Nat) (indcs_release : Option (List Nat))
    (values_release : Option (List (Option (List Nat)))) (pcr_info : Option (List Nat))
    (hbad : h.TPM_BAD_PARAMETER ≠ 0) :
    (init_pcr_info h sha1 cmd_buf locality release_locs nr_create indcs_create nr_release
      indcs_release values_release pcr_info).1 = true := by
  have hb : c_bool h.TPM_BAD_PARAMETER = true := by
    unfold c_bool
    exact decide_eq_true hbad
  unfold init_pcr_info
  dsimp only
  cases pcr_info with
  | none => split_ifs <;> exact hb
  | some info0 =>
    dsimp only
    split_ifs <;> first | exact hb | rfl

/-- Past its own parameter check `tpm_seal` always goes on to `_tpm_wrap_seal`:
the test `!init_pcr_info(...)` never holds. -/
theorem tpm_seal_eq_wrap_seal {σ : Type} (h : TpmH) (t : Tpm σ) (sha1 : List Nat → List Nat)
    (stack : SealStack) (locality release_locs pcr_nr_create : Nat)
    (pcr_indcs_create : Option (List Nat)) (pcr_nr_release : Nat)
    (pcr_indcs_release : Option (List Nat))
    (pcr_values_release : Option (List (Option (List Nat)))) (in_data_size : Nat)
    (in_data sealed_data : List Nat) (sealed_data_size : Nat) (s : St σ)
    (hbad : h.TPM_BAD_PARAMETER ≠ 0) (hloc : locality < h.TPM_NR_LOCALITIES)
    (hin : in_data_size ≠ 0) (hout : sealed_data_size ≠ 0) :
    tpm_seal h t sha1 stack locality release_locs pcr_nr_create pcr_indcs_create
        pcr_nr_release pcr_indcs_release pcr_values_release in_data_size (some in_data)
        (some sealed_data_size) (some sealed_data) s
      = _tpm_wrap_seal h t sha1 stack.odd_osap stack.nonce_odd locality
          ((init_pcr_info h sha1 s.cmd_buf locality release_locs pcr_nr_create
            pcr_indcs_create pcr_nr_release pcr_indcs_release pcr_values_release
            (some stack.pcr_info)).2.1.getD stack.pcr_info)
          in_data_size in_data (some sealed_data_size) (some sealed_data)
          { s with cmd_buf := (init_pcr_info h sha1 s.cmd_buf locality release_locs
            pcr_nr_create pcr_indcs_create pcr_nr_release pcr_indcs_release
            pcr_values_release (some stack.pcr_info)).2.2 } := by
  unfold tpm_seal
  have hg : ¬ (h.TPM_NR_LOCALITIES ≤ locality ∨ in_data_size = 0 ∨ some in_data = none ∨
      some sealed_data_size = none ∨ some sealed_data = none ∨
      some sealed_data_size = some 0) := by
    intro hh
    rcases hh with hh | hh | hh | hh | hh | hh
    · omega
    · exact hin hh
    · cases hh
    · cases hh
    · cases hh
    · exact hout (Option.some.inj hh)
  rw [if_neg hg]
  have e := init_pcr_info_true h sha1 s.cmd_buf locality release_locs pcr_nr_create
    pcr_indcs_create pcr_nr_release pcr_indcs_release pcr_values_release
    (some stack.pcr_info) hbad
  generalize init_pcr_info h sha1 s.cmd_buf locality release_locs pcr_nr_create
    pcr_indcs_create pcr_nr_release pcr_indcs_release pcr_values_release
    (some stack.pcr_info) = r at e ⊢
  dsimp only
  rw [e, Option.getD_some]
  simp only [Bool.not_true, Bool.false_eq_true, if_false]

set_option maxRecDepth 100000 in
/-- C2 does not hold for the code: `tpm_seal` called at locality 0 with the one
creation index 24 (= `TPM_NR_PCRS`), no release indices, a 1-byte payload and a
64-byte output buffer does not return `TPM_BAD_PARAMETER` (3): it submits the
OSAP command, here to a module that answers it with the error code 0x21, and
returns 0x21 after 22 register reads and one "execute" write.  The
`return TPM_BAD_PARAMETER;` of `init_pcr_info` is converted to the `bool` true. -/
theorem tpm_seal_index_out_of_range_submits :
    (tpm_seal tpm_h sim (fun _ => []) stack0 0 0 1 (some [24]) 0 none none 1 (some [0x5A])
        (some 64) (some (List.replicate 64 0)) (sim_st_full [error_rsp 0x21])).map
      (fun r => (r.ret, go_count r.s.hw.log, rd_count r.s.hw.log))
      = some (0x21, 1, 22) := by
  decide

/-! ### Parameter checks -/

/-- What `tpm_write_cmd_fifo` does when one of its three parameter checks fails. -/
theorem tpm_write_cmd_fifo_reject {σ : Type} (h : TpmH) (t : Tpm σ) (locality : Nat)
    (inp : Option (List Nat)) (in_size : Nat) (out : Option (List Nat))
    (out_size : Option Nat) (s : Hw σ)
    (hbad : h.TPM_NR_LOCALITIES ≤ locality ∨ inp = none ∨ out = none ∨ out_size = none ∨
      in_size < CMD_HEAD_SIZE ∨ ∃ n, out_size = some n ∧ n < RSP_HEAD_SIZE) :
    ∃ r m, tpm_write_cmd_fifo h t locality inp in_size out out_size s = some r ∧
      r.ret = h.TPM_BAD_PARAMETER ∧ r.out = out ∧ r.out_size = out_size ∧
      r.hw.dev = s.dev ∧ r.hw.log = Ev.msg m :: s.log := by
  unfold tpm_write_cmd_fifo
  by_cases hl : h.TPM_NR_LOCALITIES ≤ locality
  · rw [if_pos hl]
    exact ⟨_, Msg.invalid_locality, rfl, rfl, rfl, rfl, rfl, rfl⟩
  · rw [if_neg hl]
    cases inp with
    | none => exact ⟨_, Msg.invalid_parameter, rfl, rfl, rfl, rfl, rfl, rfl⟩
    | some inb =>
      cases out with
      | none => exact ⟨_, Msg.invalid_parameter, rfl, rfl, rfl, rfl, rfl, rfl⟩
      | some outb =>
        cases out_size with
        | none => exact ⟨_, Msg.invalid_parameter, rfl, rfl, rfl, rfl, rfl, rfl⟩
        | some osz =>
          have hsz : in_size < CMD_HEAD_SIZE ∨ osz < RSP_HEAD_SIZE := by
            rcases hbad with hh | hh | hh | hh | hh | ⟨n, hn, hh⟩
            · exact absurd hh hl
            · cases hh
            · cases hh
            · cases hh
            · exact Or.inl hh
            · cases hn
              exact Or.inr hh
          simp only
          rw [if_pos hsz]
          exact ⟨_, Msg.buf_size_too_small, rfl, rfl, rfl, rfl, rfl, rfl⟩

/-- C18: for every call of `tpm_write_cmd_fifo` with `locality >=
TPM_NR_LOCALITIES`, or a null `in`, `out` or `out_size`, or `in_size < 10`, or
`*out_size < 10`, the function returns `TPM_BAD_PARAMETER`, performs no register
read or write (the module is untouched and the only new event is one `printk`)
and leaves `out` and `*out_size` unchanged. -/
theorem tpm_write_cmd_fifo_bad_parameter {σ : Type} (h : TpmH) (t : Tpm σ) (locality : Nat)
    (inp : Option (List Nat)) (in_size : Nat) (out : Option (List Nat))
    (out_size : Option Nat) (s : Hw σ)
    (hbad : h.TPM_NR_LOCALITIES ≤ locality ∨ inp = none ∨ out = none ∨ out_size = none ∨
      in_size < CMD_HEAD_SIZE ∨ ∃ n, out_size = some n ∧ n < RSP_HEAD_SIZE) :
    ∃ r m, tpm_write_cmd_fifo h t locality inp in_size out out_size s = some r ∧
      r.ret = h.TPM_BAD_PARAMETER ∧ r.out = out ∧ r.out_size = out_size ∧
      r.hw.dev = s.dev ∧ r.hw.log = Ev.msg m :: s.log :=
  tpm_write_cmd_fifo_reject h t locality inp in_size out out_size s hbad

theorem tpm_write_cmd_fifo_bad_parameter_witness :
    ∃ r m, tpm_write_cmd_fifo tpm_h dead_tpm 0 (some (List.replicate 10 0)) 9
        (some (List.replicate 10 0)) (some 10) hw0 = some r ∧
      r.ret = tpm_h.TPM_BAD_PARAMETER ∧ r.out = some (List.replicate 10 0) ∧
      r.out_size = some 10 ∧ r.hw.dev = hw0.dev ∧ r.hw.log = Ev.msg m :: hw0.log :=
  tpm_write_cmd_fifo_bad_parameter tpm_h dead_tpm 0 (some (List.replicate 10 0)) 9
    (some (List.replicate 10 0)) (some 10) hw0
    (Or.inr (Or.inr (Or.inr (Or.inr (Or.inl (by decide))))))

/-- C19: `tpm_pcr_read` and `tpm_pcr_extend` return `TPM_BAD_PARAMETER` for every
`pcr >= TPM_NR_PCRS` (24), and `tpm_pcr_reset` returns `TPM_BAD_PARAMETER` for
every `pcr` outside `TPM_PCR_RESETABLE_MIN <= pcr < 24`; in each case the
global state (module, events, buffers) and `out` are unchanged, so no command is
submitted. -/
theorem tpm_pcr_index_validation {σ : Type} (h : TpmH) (t : Tpm σ) (locality pcr : Nat)
    (s : St σ) :
    (TPM_NR_PCRS ≤ pcr →
      ∀ out, tpm_pcr_read h t locality pcr out s = some ⟨h.TPM_BAD_PARAMETER, out, s⟩) ∧
    (TPM_NR_PCRS ≤ pcr →
      ∀ inp out,
        tpm_pcr_extend h t locality pcr inp out s = some ⟨h.TPM_BAD_PARAMETER, out, s⟩) ∧
    (¬ (h.TPM_PCR_RESETABLE_MIN ≤ pcr ∧ pcr < TPM_NR_PCRS) →
      tpm_pcr_reset h t locality pcr s = some ⟨h.TPM_BAD_PARAMETER, none, s⟩) := by
  refine ⟨?_, ?_, ?_⟩
  · intro hp out
    unfold tpm_pcr_read
    cases out with
    | none => rfl
    | some o =>
      simp only
      rw [if_pos hp]
  · intro hp inp out
    unfold tpm_pcr_extend
    cases inp with
    | none => rfl
    | some i =>
      simp only
      rw [if_pos hp]
  · intro hp
    unfold tpm_pcr_reset
    rw [if_pos (by omega)]

theorem tpm_pcr_index_validation_witness :
    tpm_pcr_read tpm_h sim 0 24 (some (List.replicate 20 0)) (sim_st [])
        = some ⟨tpm_h.TPM_BAD_PARAMETER, some (List.replicate 20 0), sim_st []⟩ ∧
      tpm_pcr_extend tpm_h sim 0 24 (some (List.replicate 20 0)) none (sim_st [])
        = some ⟨tpm_h.TPM_BAD_PARAMETER, none, sim_st []⟩ ∧
      tpm_pcr_reset tpm_h sim 0 15 (sim_st [])
        = some ⟨tpm_h.TPM_BAD_PARAMETER, none, sim_st []⟩ :=
  ⟨(tpm_pcr_index_validation tpm_h sim 0 24 (sim_st [])).1 (by decide) _,
    (tpm_pcr_index_validation tpm_h sim 0 24 (sim_st [])).2.1 (by decide) _ _,
    (tpm_pcr_index_validation tpm_h sim 0 15 (sim_st [])).2.2 (by decide)⟩

/-- C12: for every call of `tpm_unseal` whose `sealed_data`, `secret_size` or
`secret` is null, or whose blob is rejected by
`check_sealed_data(sealed_data_size, sealed_data)`, `tpm_unseal` returns
`TPM_BAD_PARAMETER`, performs no register access (the module and the two static
buffers are untouched and the only new event is one `printk`) and leaves
`*secret_size` and `secret` unchanged. -/
theorem tpm_unseal_bad_parameter {σ : Type} (h : TpmH) (t : Tpm σ)
    (sha1 : List Nat → List Nat) (stack : UnsealStack) (locality sealed_data_size : Nat)
    (sealed_data : Option (List Nat)) (secret_size : Option Nat)
    (secret : Option (List Nat)) (s : St σ)
    (hbad : sealed_data = none ∨ secret_size = none ∨ secret = none ∨
      ∃ sd, sealed_data = some sd ∧ check_sealed_data sealed_data_size sd = false) :
    ∃ r m, tpm_unseal h t sha1 stack locality sealed_data_size sealed_data secret_size
        secret s = some r ∧
      r.ret = h.TPM_BAD_PARAMETER ∧ r.secret_size = secret_size ∧ r.secret = secret ∧
      r.s.hw.dev = s.hw.dev ∧ r.s.hw.log = Ev.msg m :: s.hw.log ∧
      r.s.cmd_buf = s.cmd_buf ∧ r.s.rsp_buf = s.rsp_buf := by
  unfold tpm_unseal
  cases sealed_data with
  | none => exact ⟨_, Msg.tpm_unseal_bad_parameter, rfl, rfl, rfl, rfl, rfl, rfl, rfl, rfl⟩
  | some sd =>
    cases secret_size with
    | none => exact ⟨_, Msg.tpm_unseal_bad_parameter, rfl, rfl, rfl, rfl, rfl, rfl, rfl, rfl⟩
    | some ssz =>
      cases secret with
      | none => exact ⟨_, Msg.tpm_unseal_bad_parameter, rfl, rfl, rfl, rfl, rfl, rfl, rfl, rfl⟩
      | some sec =>
        have hc : check_sealed_data sealed_data_size sd = false := by
          rcases hbad with hh | hh | hh | ⟨sd2, h1, h2⟩
          · cases hh
          · cases hh
          · cases hh
          · cases h1
            exact h2
        simp only
        rw [hc]
        exact ⟨_, Msg.tpm_unseal_blob_invalid, rfl, rfl, rfl, rfl, rfl, rfl, rfl, rfl⟩

theorem tpm_unseal_bad_parameter_witness :
    ∃ r m, tpm_unseal tpm_h sim (fun _ => []) ⟨[], [], []⟩ 0 12 (some blob_seal_info_size_1)
        (some 16) (some (List.replicate 16 0)) (sim_st []) = some r ∧
      r.ret = tpm_h.TPM_BAD_PARAMETER ∧ r.secret_size = some 16 ∧
      r.secret = some (List.replicate 16 0) ∧
      r.s.hw.dev = (sim_st []).hw.dev ∧ r.s.hw.log = Ev.msg m :: (sim_st []).hw.log ∧
      r.s.cmd_buf = (sim_st []).cmd_buf ∧ r.s.rsp_buf = (sim_st []).rsp_buf :=
  tpm_unseal_bad_parameter tpm_h sim (fun _ => []) ⟨[], [], []⟩ 0 12
    (some blob_seal_info_size_1) (some 16) (some (List.replicate 16 0)) (sim_st [])
    (Or.inr (Or.inr (Or.inr ⟨_, rfl, by decide⟩)))

/-! ### The returned code -/

/-- The one FIFO transfer of `_tpm_submit_cmd` and what the function returns
after it. -/
theorem _tpm_submit_cmd_transfer {σ : Type} (h : TpmH) (t : Tpm σ)
    (locality tag cmd arg_size osz0 : Nat) (st : St σ)
    (hsz : u32 (CMD_HEAD_SIZE + arg_size) ≤ h.TPM_CMD_SIZE_MAX) :
    ∃ r1 osz1, tpm_write_cmd_fifo h t locality
        (some (submit_cmd_buf st.cmd_buf tag cmd arg_size)) (u32 (CMD_HEAD_SIZE + arg_size))
        (some st.rsp_buf) (some (submit_rsp_size h osz0)) st.hw = some r1 ∧
      _tpm_submit_cmd h t locality tag cmd arg_size (some osz0) st
        = some ⟨r1.ret, some osz1, ⟨r1.hw, submit_cmd_buf st.cmd_buf tag cmd arg_size,
            r1.out.getD st.rsp_buf, st.first_attempt⟩⟩ ∧
      (r1.ret ≠ TPM_SUCCESS → osz1 = osz0) := by
  unfold _tpm_submit_cmd submit_cmd_buf submit_rsp_size
  simp only
  rw [if_neg (show ¬ h.TPM_CMD_SIZE_MAX < u32 (CMD_HEAD_SIZE + arg_size) by omega)]
  generalize (if h.TPM_RSP_SIZE_MAX < u32 (RSP_HEAD_SIZE + osz0) then h.TPM_RSP_SIZE_MAX
    else u32 (RSP_HEAD_SIZE + osz0)) = rsz
  generalize memcpy (memcpy (memcpy st.cmd_buf 0 (_reverse_copy (le_bytes 2 tag) 2))
    CMD_SIZE_OFFSET (_reverse_copy (le_bytes 4 (u32 (CMD_HEAD_SIZE + arg_size))) 4))
    CMD_ORD_OFFSET (_reverse_copy (le_bytes 4 cmd) 4) = cb
  have hsome := tpm_write_cmd_fifo_isSome h t locality (some cb)
    (u32 (CMD_HEAD_SIZE + arg_size)) (some st.rsp_buf) (some rsz) st.hw
  obtain ⟨r1, hr1⟩ := Option.isSome_iff_exists.mp hsome
  rw [hr1]
  simp only
  by_cases hret : r1.ret ≠ TPM_SUCCESS
  · rw [if_pos hret]
    exact ⟨r1, osz0, rfl, rfl, fun _ => rfl⟩
  · rw [if_neg hret]
    split_ifs <;> exact ⟨r1, _, rfl, rfl, fun hh => absurd hh hret⟩

/-! ### The command handed to the transfer -/

theorem le_val_le_bytes_2 (n : Nat) (hn : n < 2 ^ 16) : le_val (le_bytes 2 n) = n := by
  have e : le_bytes 2 n = [n / 256 ^ 0 % 256, n / 256 ^ 1 % 256] := rfl
  rw [e]
  simp only [le_val]
  norm_num at hn ⊢
  omega

theorem be_at_memcpy_frame (m : List Nat) (o : Nat) (src : List Nat) (a n : Nat)
    (h : a + n ≤ o ∨ o + src.length ≤ a) : be_at (memcpy m o src) a n = be_at m a n := by
  unfold be_at
  rw [readBytes_memcpy_frame _ _ _ _ _ h]

theorem be_at_memcpy_rc4 (m : List Nat) (o v : Nat) (h : o + 4 ≤ m.length) (hv : v < 2 ^ 32) :
    be_at (memcpy m o (_reverse_copy (le_bytes 4 v) 4)) o 4 = v := by
  unfold be_at
  rw [hit_rc _ _ _ _ h, reverse_copy_reverse_copy _ _ (by simp [le_bytes]),
    le_val_le_bytes_4 v hv]

theorem be_at_memcpy_rc2 (m : List Nat) (o v : Nat) (h : o + 2 ≤ m.length) (hv : v < 2 ^ 16) :
    be_at (memcpy m o (_reverse_copy (le_bytes 2 v) 2)) o 2 = v := by
  unfold be_at
  rw [hit_rc _ _ _ _ h, reverse_copy_reverse_copy _ _ (by simp [le_bytes]),
    le_val_le_bytes_2 v hv]

/-- The header that `_tpm_submit_cmd` writes and the bytes it keeps. -/
theorem submit_cmd_buf_spec (cb : List Nat) (tag cmd arg_size : Nat)
    (hsz : CMD_HEAD_SIZE + arg_size < 2 ^ 32) (htag : tag < 2 ^ 16) (hcmd : cmd < 2 ^ 32)
    (hbuf : CMD_HEAD_SIZE ≤ cb.length) :
    be_at (submit_cmd_buf cb tag cmd arg_size) 0 2 = tag ∧
    be_at (submit_cmd_buf cb tag cmd arg_size) CMD_SIZE_OFFSET 4 = CMD_HEAD_SIZE + arg_size ∧
    be_at (submit_cmd_buf cb tag cmd arg_size) CMD_ORD_OFFSET 4 = cmd ∧
    (∀ a n, CMD_HEAD_SIZE ≤ a →
      readBytes (submit_cmd_buf cb tag cmd arg_size) a n = readBytes cb a n) ∧
    (submit_cmd_buf cb tag cmd arg_size).length = cb.length := by
  unfold CMD_HEAD_SIZE at hsz hbuf
  have e : u32 (CMD_HEAD_SIZE + arg_size) = CMD_HEAD_SIZE + arg_size := u32_of_lt _ hsz
  unfold submit_cmd_buf
  rw [e]
  unfold CMD_HEAD_SIZE CMD_SIZE_OFFSET CMD_ORD_OFFSET
  refine ⟨?_, ?_, ?_, ?_, ?_⟩
  · rw [be_at_memcpy_frame _ _ _ _ _ (by rw [length_reverse_copy]; omega),
      be_at_memcpy_frame _ _ _ _ _ (by rw [length_reverse_copy]; omega),
      be_at_memcpy_rc2 _ _ _ (by omega) htag]
  · rw [be_at_memcpy_frame _ _ _ _ _ (by rw [length_reverse_copy]; omega),
      be_at_memcpy_rc4 _ _ _ (by rw [length_memcpy]; omega) hsz]
  · rw [be_at_memcpy_rc4 _ _ _ (by rw [length_memcpy, length_memcpy]; omega) hcmd]
  · intro a n ha
    rw [frame_rc _ _ _ _ _ _ (by omega), frame_rc _ _ _ _ _ _ (by omega),
      frame_rc _ _ _ _ _ _ (by omega)]
  · rw [length_memcpy, length_memcpy, length_memcpy]

/-- C14: for every tag, ordinal and `arg_size` with `10 + arg_size <=
TPM_CMD_SIZE_MAX`, `_tpm_submit_cmd` makes one FIFO transfer, of the command
`cmd_buf` with `in_size = 10 + arg_size`, whose first 10 bytes are the tag as 2
big-endian bytes, the total size `10 + arg_size` as 4 big-endian bytes and the
ordinal as 4 big-endian bytes, followed by the pre-filled argument bytes
unchanged; `tpm_submit_cmd`, `tpm_submit_cmd_auth1` and `tpm_submit_cmd_auth2`
are `_tpm_submit_cmd` with the tags 0x00C1, 0x00C2 and 0x00C3. -/
theorem _tpm_submit_cmd_command {σ : Type} (h : TpmH) (t : Tpm σ)
    (locality tag cmd arg_size osz0 : Nat) (st : St σ)
    (hsz : CMD_HEAD_SIZE + arg_size ≤ h.TPM_CMD_SIZE_MAX) (h32 : h.TPM_CMD_SIZE_MAX < 2 ^ 32)
    (htag : tag < 2 ^ 16) (hcmd : cmd < 2 ^ 32)
    (hbuf : CMD_HEAD_SIZE + arg_size ≤ st.cmd_buf.length) :
    (∃ c r1 osz1,
      tpm_write_cmd_fifo h t locality (some c) (CMD_HEAD_SIZE + arg_size) (some st.rsp_buf)
        (some (submit_rsp_size h osz0)) st.hw = some r1 ∧
      _tpm_submit_cmd h t locality tag cmd arg_size (some osz0) st
        = some ⟨r1.ret, some osz1, ⟨r1.hw, c, r1.out.getD st.rsp_buf, st.first_attempt⟩⟩ ∧
      be_at c 0 2 = tag ∧ be_at c 2 4 = CMD_HEAD_SIZE + arg_size ∧ be_at c 6 4 = cmd ∧
      readBytes c CMD_HEAD_SIZE arg_size = readBytes st.cmd_buf CMD_HEAD_SIZE arg_size) ∧
    tpm_submit_cmd h t locality cmd arg_size (some osz0) st
      = _tpm_submit_cmd h t locality 0x00C1 cmd arg_size (some osz0) st ∧
    tpm_submit_cmd_auth1 h t locality cmd arg_size (some osz0) st
      = _tpm_submit_cmd h t locality 0x00C2 cmd arg_size (some osz0) st ∧
    tpm_submit_cmd_auth2 h t locality cmd arg_size (some osz0) st
      = _tpm_submit_cmd h t locality 0x00C3 cmd arg_size (some osz0) st := by
  have hlt : CMD_HEAD_SIZE + arg_size < 2 ^ 32 := by omega
  have e : u32 (CMD_HEAD_SIZE + arg_size) = CMD_HEAD_SIZE + arg_size := u32_of_lt _ hlt
  obtain ⟨r1, osz1, h1, h2, _⟩ := _tpm_submit_cmd_transfer h t locality tag cmd arg_size osz0
    st (by rw [e]; exact hsz)
  rw [e] at h1
  obtain ⟨s1, s2, s3, s4, _⟩ := submit_cmd_buf_spec st.cmd_buf tag cmd arg_size hlt htag hcmd
    (by omega)
  exact ⟨⟨_, r1, osz1, h1, h2, s1, s2, s3, s4 _ _ (Nat.le_refl _)⟩, rfl, rfl, rfl⟩

theorem _tpm_submit_cmd_command_witness :
    (∃ c r1 osz1,
      tpm_write_cmd_fifo tpm_h sim 0 (some c) (CMD_HEAD_SIZE + 4) (some (sim_st []).rsp_buf)
        (some (submit_rsp_size tpm_h 20)) (sim_st []).hw = some r1 ∧
      _tpm_submit_cmd tpm_h sim 0 0x00C1 0x15 4 (some 20) (sim_st [])
        = some ⟨r1.ret, some osz1,
            ⟨r1.hw, c, r1.out.getD (sim_st []).rsp_buf, (sim_st []).first_attempt⟩⟩ ∧
      be_at c 0 2 = 0x00C1 ∧ be_at c 2 4 = CMD_HEAD_SIZE + 4 ∧ be_at c 6 4 = 0x15 ∧
      readBytes c CMD_HEAD_SIZE 4 = readBytes (sim_st []).cmd_buf CMD_HEAD_SIZE 4) ∧
    tpm_submit_cmd tpm_h sim 0 0x15 4 (some 20) (sim_st [])
      = _tpm_submit_cmd tpm_h sim 0 0x00C1 0x15 4 (some 20) (sim_st []) ∧
    tpm_submit_cmd_auth1 tpm_h sim 0 0x15 4 (some 20) (sim_st [])
      = _tpm_submit_cmd tpm_h sim 0 0x00C2 0x15 4 (some 20) (sim_st []) ∧
    tpm_submit_cmd_auth2 tpm_h sim 0 0x15 4 (some 20) (sim_st [])
      = _tpm_submit_cmd tpm_h sim 0 0x00C3 0x15 4 (some 20) (sim_st []) :=
  _tpm_submit_cmd_command tpm_h sim 0 0x00C1 0x15 4 20 (sim_st []) (by decide) (by decide)
    (by decide) (by decide) (by decide)

/-! ### The response read loop -/

/-- C16 does not hold for the code: with a 10-byte buffer (`*out_size = 10`) and
a module whose response declares the total size 12, `tpm_write_cmd_fifo` reads
the data FIFO 10 times, not 12: the inner loop stops at `offset = *out_size`, so
the branch that discards excess bytes is never taken and the two excess bytes
are not read. -/
theorem tpm_write_cmd_fifo_excess_not_read :
    (tpm_write_cmd_fifo tpm_h sim 0 (some (List.replicate 10 0)) 10
        (some (List.replicate 10 0)) (some 10) (sim_st [rsp_12]).hw).map
      (fun r => (r.ret, r.out, r.out_size, fifo_rd_count r.hw.log))
      = some (0, some [0, 0xC4, 0, 0, 0, 12, 0, 0, 0, 0], some 10, 10) := by
  decide

/-- C17 does not hold for the code: when the module's response declares the
total size 6 and the burst count is 6, the read loop ends after 6 FIFO reads
(`offset = RSP_RST_OFFSET`, `rsp_size = 6`), bytes 6..9 of `out` are not written
and the returned code 0x21 is the stale content of `out`. -/
theorem tpm_write_cmd_fifo_short_header :
    (tpm_write_cmd_fifo tpm_h sim 0 (some (List.replicate 10 0)) 10
        (some out_stale) (some 10) (sim_st [rsp_6]).hw).map
      (fun r => (r.ret, r.out, r.out_size, fifo_rd_count r.hw.log))
      = some (0x21, some [0, 0xC4, 0, 0, 0, 6, 0, 0, 0, 0x21], some 6, 6) := by
  decide

/-! ### `tpm_nv_read_value` -/

/-- C20: for every call of `tpm_nv_read_value` with non-null arguments and
`*data_size > TPM_NV_READ_VALUE_DATA_SIZE_MAX`, the request is capped: the
call makes exactly one FIFO transfer (the hardware state it leaves is the one
left by that transfer, apart from a `printk`), of a 22-byte NV-read command
(tag 0x00C1, size 22, ordinal 0xCF) whose 12 argument bytes are the index, the
offset and the size `TPM_NV_READ_VALUE_DATA_SIZE_MAX`, each as 4 big-endian
bytes. -/
theorem tpm_nv_read_value_capped {σ : Type} (h : TpmH) (t : Tpm σ)
    (locality index offset : Nat) (dat : List Nat) (dsz0 : Nat) (st : St σ)
    (hbig : h.TPM_NV_READ_VALUE_DATA_SIZE_MAX < dsz0)
    (hsz : CMD_HEAD_SIZE + 12 ≤ h.TPM_CMD_SIZE_MAX) (h32 : h.TPM_CMD_SIZE_MAX < 2 ^ 32)
    (hidx : index < 2 ^ 32) (hoff : offset < 2 ^ 32)
    (hmax : h.TPM_NV_READ_VALUE_DATA_SIZE_MAX < 2 ^ 32)
    (hbuf : CMD_HEAD_SIZE + 12 ≤ st.cmd_buf.length) :
    ∃ c r1 res,
      tpm_write_cmd_fifo h t locality (some c) (CMD_HEAD_SIZE + 12) (some st.rsp_buf)
        (some (submit_rsp_size h (u32 (h.TPM_NV_READ_VALUE_DATA_SIZE_MAX + 4)))) st.hw
        = some r1 ∧
      tpm_nv_read_value h t locality index offset (some dat) (some dsz0) st = some res ∧
      res.ret = r1.ret ∧ res.s.cmd_buf = c ∧
      (res.s.hw = r1.hw ∨ res.s.hw = printk Msg.nv_read_failed r1.hw) ∧
      be_at c 0 2 = TPM_TAG_RQU_COMMAND ∧ be_at c 2 4 = CMD_HEAD_SIZE + 12 ∧
      be_at c 6 4 = TPM_ORD_NV_READ_VALUE ∧
      be_at c 10 4 = index ∧ be_at c 14 4 = offset ∧
      be_at c 18 4 = h.TPM_NV_READ_VALUE_DATA_SIZE_MAX := by
  have hlt : CMD_HEAD_SIZE + 12 < 2 ^ 32 := by omega
  have e : u32 (CMD_HEAD_SIZE + 12) = CMD_HEAD_SIZE + 12 := u32_of_lt _ hlt
  have hb : ∃ b3, b3 = memcpy (memcpy (memcpy st.cmd_buf CMD_HEAD_SIZE
      (_reverse_copy (le_bytes 4 index) 4)) (CMD_HEAD_SIZE + 4)
      (_reverse_copy (le_bytes 4 offset) 4)) (CMD_HEAD_SIZE + 8)
      (_reverse_copy (le_bytes 4 h.TPM_NV_READ_VALUE_DATA_SIZE_MAX) 4) := ⟨_, rfl⟩
  obtain ⟨b3, hb3⟩ := hb
  have hlen : b3.length = st.cmd_buf.length := by
    rw [hb3, length_memcpy, length_memcpy, length_memcpy]
  unfold CMD_HEAD_SIZE at hbuf hb3
  have a1 : be_at b3 10 4 = index := by
    rw [hb3, be_at_memcpy_frame _ _ _ _ _ (by rw [length_reverse_copy]; omega),
      be_at_memcpy_frame _ _ _ _ _ (by rw [length_reverse_copy]; omega),
      be_at_memcpy_rc4 _ _ _ (by omega) hidx]
  have a2 : be_at b3 14 4 = offset := by
    rw [hb3, be_at_memcpy_frame _ _ _ _ _ (by rw [length_reverse_copy]; omega),
      be_at_memcpy_rc4 _ _ _ (by rw [length_memcpy]; omega) hoff]
  have a3 : be_at b3 18 4 = h.TPM_NV_READ_VALUE_DATA_SIZE_MAX := by
    rw [hb3, be_at_memcpy_rc4 _ _ _ (by rw [length_memcpy, length_memcpy]; omega) hmax]
  obtain ⟨r1, osz1, h1, h2, _⟩ := _tpm_submit_cmd_transfer h t locality TPM_TAG_RQU_COMMAND
    TPM_ORD_NV_READ_VALUE 12 (u32 (h.TPM_NV_READ_VALUE_DATA_SIZE_MAX + 4))
    { st with cmd_buf := b3 } (by rw [e]; exact hsz)
  rw [e] at h1
  obtain ⟨s1, s2, s3, s4, _⟩ := submit_cmd_buf_spec b3 TPM_TAG_RQU_COMMAND
    TPM_ORD_NV_READ_VALUE 12 hlt (by decide) (by decide) (by unfold CMD_HEAD_SIZE; omega)
  have hres : ∃ res, tpm_nv_read_value h t locality index offset (some dat) (some dsz0) st
      = some res ∧ res.ret = r1.ret ∧
      res.s.cmd_buf = submit_cmd_buf b3 TPM_TAG_RQU_COMMAND TPM_ORD_NV_READ_VALUE 12 ∧
      (res.s.hw = r1.hw ∨ res.s.hw = printk Msg.nv_read_failed r1.hw) := by
    unfold tpm_nv_read_value
    simp only
    rw [if_neg (show ¬ dsz0 = 0 by omega), if_pos hbig]
    unfold tpm_submit_cmd
    unfold CMD_HEAD_SIZE
    rw [← hb3, h2]
    simp only
    by_cases hret : r1.ret ≠ TPM_SUCCESS
    · rw [if_pos hret]
      exact ⟨_, rfl, rfl, rfl, Or.inr rfl⟩
    · rw [if_neg hret]
      split_ifs <;> exact ⟨_, rfl, rfl, rfl, Or.inl rfl⟩
  obtain ⟨res, g1, g2, g3, g4⟩ := hres
  refine ⟨_, r1, res, h1, g1, g2, g3, g4, s1, s2, s3, ?_, ?_, ?_⟩
  · unfold be_at
    rw [s4 _ _ (by decide)]
    exact a1
  · unfold be_at
    rw [s4 _ _ (by decide)]
    exact a2
  · unfold be_at
    rw [s4 _ _ (by decide)]
    exact a3

theorem tpm_nv_read_value_capped_witness :
    ∃ c r1 res,
      tpm_write_cmd_fifo tpm_h sim 0 (some c) (CMD_HEAD_SIZE + 12) (some (sim_st []).rsp_buf)
        (some (submit_rsp_size tpm_h (u32 (tpm_h.TPM_NV_READ_VALUE_DATA_SIZE_MAX + 4))))
        (sim_st []).hw = some r1 ∧
      tpm_nv_read_value tpm_h sim 0 0x20000001 0 (some (List.replicate 1024 0)) (some 1024)
        (sim_st []) = some res ∧
      res.ret = r1.ret ∧ res.s.cmd_buf = c ∧
      (res.s.hw = r1.hw ∨ res.s.hw = printk Msg.nv_read_failed r1.hw) ∧
      be_at c 0 2 = TPM_TAG_RQU_COMMAND ∧ be_at c 2 4 = CMD_HEAD_SIZE + 12 ∧
      be_at c 6 4 = TPM_ORD_NV_READ_VALUE ∧
      be_at c 10 4 = 0x20000001 ∧ be_at c 14 4 = 0 ∧
      be_at c 18 4 = tpm_h.TPM_NV_READ_VALUE_DATA_SIZE_MAX :=
  tpm_nv_read_value_capped tpm_h sim 0 0x20000001 0 (List.replicate 1024 0) 1024 (sim_st [])
    (by decide) (by decide) (by decide) (by decide) (by decide) (by decide) (by decide)

/-! ### The selection bits -/

theorem bit_eq_one_iff (b k : Nat) : bit b k = 1 ↔ b.testBit k = true := by
  unfold bit
  rw [Nat.testBit_to_div_mod]
  simp

/-- Bit `p` of a byte after `byte |= 1 << k`. -/
theorem bit_or_shift (a k p : Nat) (hp : p < 8) :
    bit ((a ||| 1 <<< k) % 256) p = 1 ↔ (bit a p = 1 ∨ p = k) := by
  rw [bit_eq_one_iff, bit_eq_one_iff, show (256 : Nat) = 2 ^ 8 by norm_num,
    Nat.testBit_mod_two_pow, Nat.testBit_or, Nat.one_shiftLeft, Nat.testBit_two_pow]
  simp only [hp, decide_True, Bool.true_and, Bool.or_eq_true, decide_eq_true_eq]
  constructor
  · rintro (h | h)
    · exact Or.inl h
    · exact Or.inr h.symm
  · rintro (h | h)
    · exact Or.inl h
    · exact Or.inr h.symm

theorem length_pcr_select_or (m : List Nat) (so idx : Nat) :
    (pcr_select_or m so idx).length = m.length := by
  unfold pcr_select_or
  rw [length_memcpy]

theorem rd_pcr_select_or (m : List Nat) (so idx j : Nat) (hidx : idx < 24)
    (hlen : so + 5 ≤ m.length) :
    rd (pcr_select_or m so idx) j
      = if j = so + 2 + idx / 8 then (rd m j ||| 1 <<< (idx % 8)) % 256 else rd m j := by
  unfold pcr_select_or
  rw [rd_memcpy]
  by_cases hj : j = so + 2 + idx / 8
  · subst hj
    rw [if_pos (by simp only [List.length_singleton]; omega), if_pos rfl, Nat.sub_self]
    rfl
  · rw [if_neg (by simp only [List.length_singleton]; omega), if_neg hj]

/-- The selection bytes after the loop `for ( i = 0; i < nr; i++ )
sel.pcr_select[indcs[i]/8] |= 1 << (indcs[i] % 8)`. -/
theorem pcr_select_fold (ix : List Nat) (so : Nat) (nr : Nat) (m0 : List Nat)
    (hix : ∀ i, i < nr → rd ix i < 24) (hlen : so + 5 ≤ m0.length) :
    ((List.range nr).foldl (fun m i => pcr_select_or m so (rd ix i)) m0).length = m0.length ∧
    (∀ j, (j < so + 2 ∨ so + 5 ≤ j) →
      rd ((List.range nr).foldl (fun m i => pcr_select_or m so (rd ix i)) m0) j = rd m0 j) ∧
    (∀ r, r < 24 →
      (bit (rd ((List.range nr).foldl (fun m i => pcr_select_or m so (rd ix i)) m0)
          (so + 2 + r / 8)) (r % 8) = 1 ↔
        (bit (rd m0 (so + 2 + r / 8)) (r % 8) = 1 ∨ ∃ i, i < nr ∧ rd ix i = r))) := by
  induction nr with
  | zero =>
    refine ⟨rfl, fun _ _ => rfl, fun r _ => ?_⟩
    simp
  | succ n ih =>
    obtain ⟨i1, i2, i3⟩ := ih (fun i hi => hix i (by omega))
    have hn := hix n (by omega)
    rw [List.range_succ, List.foldl_append]
    simp only [List.foldl_cons, List.foldl_nil]
    generalize (List.range n).foldl (fun m i => pcr_select_or m so (rd ix i)) m0 = m at i1 i2 i3
    refine ⟨?_, ?_, ?_⟩
    · rw [length_pcr_select_or, i1]
    · intro j hj
      rw [rd_pcr_select_or _ _ _ _ hn (by omega), if_neg (by omega), i2 j hj]
    · intro r hr
      rw [rd_pcr_select_or _ _ _ _ hn (by omega)]
      by_cases hb : so + 2 + r / 8 = so + 2 + rd ix n / 8
      · rw [if_pos hb, bit_or_shift _ _ _ (Nat.mod_lt _ (by norm_num)), i3 r hr]
        constructor
        · rintro ((h | ⟨i, hi, he⟩) | h)
          · exact Or.inl h
          · exact Or.inr ⟨i, by omega, he⟩
          · refine Or.inr ⟨n, by omega, ?_⟩
            omega
        · rintro (h | ⟨i, hi, he⟩)
          · exact Or.inl (Or.inl h)
          · by_cases hin : i = n
            · subst hin
              right
              rw [he]
            · exact Or.inl (Or.inr ⟨i, by omega, he⟩)
      · rw [if_neg hb, i3 r hr]
        constructor
        · rintro (h | ⟨i, hi, he⟩)
          · exact Or.inl h
          · exact Or.inr ⟨i, by omega, he⟩
        · rintro (h | ⟨i, hi, he⟩)
          · exact Or.inl h
          · by_cases hin : i = n
            · subst hin
              exfalso
              apply hb
              rw [he]
            · exact Or.inr ⟨i, by omega, he⟩

theorem any_release_invalid_false (nr : Nat) (ix : List Nat) (vs : List (Option (List Nat)))
    (h : ∀ i, i < nr → rd ix i < TPM_NR_PCRS ∧ vs.getD i none ≠ none) :
    (List.range nr).any
      (fun i => decide (TPM_NR_PCRS ≤ rd ix i) || (vs.getD i none).isNone) = false := by
  rw [Bool.eq_false_iff]
  intro hany
  rw [List.any_eq_true] at hany
  obtain ⟨i, hi, hd⟩ := hany
  have := h i (List.mem_range.mp hi)
  rcases Bool.or_eq_true _ _ ▸ hd with hd | hd
  · simp at hd
    omega
  · apply this.2
    cases hv : vs.getD i none with
    | none => rfl
    | some v => rw [hv] at hd; cases hd

theorem rd_replicate_zero (n i : Nat) : rd (List.replicate n 0) i = 0 := by
  unfold rd
  by_cases h : i < n
  · rw [List.getD_eq_getElem _ _ (by simpa using h)]
    simp
  · rw [List.getD_eq_default _ _ (by simpa using h)]

theorem u16_at_eq (m : List Nat) (o : Nat) :
    u16_at m o = rd m o % 256 + 256 * (rd m (o + 1) % 256) := by
  unfold u16_at
  have e : readBytes m o 2 = [rd m (o + 0), rd m (o + 1)] := rfl
  rw [e]
  simp [le_val]

/-- The record that `init_pcr_info` builds, before the release digest is stored:
both selections have `size_of_select = 3` and their bits are the indices. -/
theorem init_pcr_info_fields (info0 : List Nat) (loc rl nrc nrr : Nat) (ixc ixr : List Nat)
    (hlen : sizeof_pcr_info_long ≤ info0.length)
    (hc : ∀ i, i < nrc → rd ixc i < 24) (hr : ∀ i, i < nrr → rd ixr i < 24) :
    ∀ m7, m7 = (List.range nrr).foldl (fun m i => pcr_select_or m 9 (rd ixr i))
        (memcpy ((List.range nrc).foldl (fun m i => pcr_select_or m 4 (rd ixc i))
          (memcpy (memcpy (memcpy (memcpy (memset info0 0 0 sizeof_pcr_info_long) 0
            (le_bytes 2 TPM_TAG_PCR_INFO_LONG)) 2 [loc]) 3 [rl]) 4 (le_bytes 2 3)))
          9 (le_bytes 2 3)) →
      m7.length = info0.length ∧ rd m7 4 = 3 ∧ rd m7 5 = 0 ∧ rd m7 9 = 3 ∧ rd m7 10 = 0 ∧
      ∀ r, r < 24 →
        (bit (rd m7 (6 + r / 8)) (r % 8) = 1 ↔ ∃ i, i < nrc ∧ rd ixc i = r) ∧
        (bit (rd m7 (11 + r / 8)) (r % 8) = 1 ↔ ∃ i, i < nrr ∧ rd ixr i = r) := by
  intro m7 hm7
  have hs : sizeof_pcr_info_long = 54 := rfl
  rw [hs] at hlen
  have l2 : (le_bytes 2 TPM_TAG_PCR_INFO_LONG).length = 2 := by simp [le_bytes]
  have l3 : (le_bytes 2 3).length = 2 := by simp [le_bytes]
  -- the record before the creation loop
  obtain ⟨m4, hm4⟩ : ∃ m4, m4 = memcpy (memcpy (memcpy (memcpy
      (memset info0 0 0 sizeof_pcr_info_long) 0 (le_bytes 2 TPM_TAG_PCR_INFO_LONG)) 2 [loc])
      3 [rl]) 4 (le_bytes 2 3) := ⟨_, rfl⟩
  have m4len : m4.length = info0.length := by
    rw [hm4, length_memcpy, length_memcpy, length_memcpy, length_memcpy]
    unfold memset
    rw [length_memcpy]
  have m4z : ∀ j, 6 ≤ j → j < 54 → rd m4 j = 0 := by
    intro j h1 h2
    rw [hm4, rd_memcpy, if_neg (by rw [l3]; omega), rd_memcpy,
      if_neg (by simp only [List.length_singleton]; omega), rd_memcpy,
      if_neg (by simp only [List.length_singleton]; omega), rd_memcpy,
      if_neg (by rw [l2]; omega)]
    unfold memset
    rw [rd_memcpy, hs, if_pos (by simp only [List.length_replicate]; omega), rd_replicate_zero]
  have m44 : rd m4 4 = 3 ∧ rd m4 5 = 0 := by
    have hl : (memcpy (memcpy (memcpy (memset info0 0 0 sizeof_pcr_info_long) 0
        (le_bytes 2 TPM_TAG_PCR_INFO_LONG)) 2 [loc]) 3 [rl]).length = info0.length := by
      rw [length_memcpy, length_memcpy, length_memcpy]
      unfold memset
      rw [length_memcpy]
    constructor
    · rw [hm4, rd_memcpy, if_pos (by rw [l3, hl]; omega)]
      rfl
    · rw [hm4, rd_memcpy, if_pos (by rw [l3, hl]; omega)]
      rfl
  rw [← hm4] at hm7
  obtain ⟨c1, c2, c3⟩ := pcr_select_fold ixc 4 nrc m4 hc (by omega)
  generalize (List.range nrc).foldl (fun m i => pcr_select_or m 4 (rd ixc i)) m4 = m5
    at hm7 c1 c2 c3
  obtain ⟨m6, hm6⟩ : ∃ m6, m6 = memcpy m5 9 (le_bytes 2 3) := ⟨_, rfl⟩
  rw [← hm6] at hm7
  have m6len : m6.length = info0.length := by rw [hm6, length_memcpy, c1, m4len]
  have m6lo : ∀ j, j < 9 → rd m6 j = rd m5 j := by
    intro j hj
    rw [hm6, rd_memcpy, if_neg (by omega)]
  have m6hi : ∀ j, 11 ≤ j → rd m6 j = rd m5 j := by
    intro j hj
    rw [hm6, rd_memcpy, if_neg (by rw [l3]; omega)]
  have m69 : rd m6 9 = 3 ∧ rd m6 10 = 0 := by
    constructor
    · rw [hm6, rd_memcpy, if_pos (by rw [l3, c1, m4len]; omega)]
      rfl
    · rw [hm6, rd_memcpy, if_pos (by rw [l3, c1, m4len]; omega)]
      rfl
  obtain ⟨d1, d2, d3⟩ := pcr_select_fold ixr 9 nrr m6 hr (by omega)
  rw [← hm7] at d1 d2 d3
  refine ⟨by rw [d1, m6len], ?_, ?_, ?_, ?_, ?_⟩
  · rw [d2 4 (by omega), m6lo 4 (by omega), c2 4 (by omega)]
    exact m44.1
  · rw [d2 5 (by omega), m6lo 5 (by omega), c2 5 (by omega)]
    exact m44.2
  · rw [d2 9 (by omega)]
    exact m69.1
  · rw [d2 10 (by omega)]
    exact m69.2
  · intro r hr24
    constructor
    · rw [d2 _ (by omega), m6lo _ (by omega)]
      have := c3 r hr24
      rw [show 4 + 2 + r / 8 = 6 + r / 8 by omega] at this
      rw [this, m4z _ (by omega) (by omega)]
      simp [bit]
    · have := d3 r hr24
      rw [show 9 + 2 + r / 8 = 11 + r / 8 by omega] at this
      rw [this, m6hi _ (by omega), c2 _ (by omega), m4z _ (by omega) (by omega)]
      simp [bit]

/-- The selections in the record `init_pcr_info` returns. -/
theorem init_pcr_info_selection (h : TpmH) (sha1 : List Nat → List Nat) (cmd_buf : List Nat)
    (locality release_locs nrc : Nat) (ixc : List Nat) (nrr : Nat) (ixr : List Nat)
    (vs : List (Option (List Nat))) (info0 : List Nat)
    (hrl : release_locs &&& h.TPM_LOC_RSVD = 0) (hloc : locality < h.TPM_NR_LOCALITIES)
    (hlen : sizeof_pcr_info_long ≤ info0.length)
    (hc : ∀ i, i < nrc → rd ixc i < 24)
    (hr : ∀ i, i < nrr → rd ixr i < 24 ∧ vs.getD i none ≠ none) :
    ∃ info cmd, init_pcr_info h sha1 cmd_buf locality release_locs nrc (some ixc) nrr
        (some ixr) (some vs) (some info0) = (true, some info, cmd) ∧
      u16_at info 4 = 3 ∧ u16_at info 9 = 3 ∧
      ∀ r, r < 24 →
        (bit (rd info (6 + r / 8)) (r % 8) = 1 ↔ ∃ i, i < nrc ∧ rd ixc i = r) ∧
        (bit (rd info (11 + r / 8)) (r % 8) = 1 ↔ ∃ i, i < nrr ∧ rd ixr i = r) := by
  obtain ⟨f1, f2, f3, f4, f5, f6⟩ := init_pcr_info_fields info0 (rd h.TPM_LOC locality)
    (release_locs % 256) nrc nrr ixc ixr hlen hc (fun i hi => (hr i hi).1) _ rfl
  unfold init_pcr_info
  rw [if_neg (by rw [hrl]; exact fun hh => hh rfl)]
  simp only
  rw [if_neg (by omega)]
  simp only [reduceCtorEq, if_false, or_self, Option.getD_some]
  rw [any_index_out_of_range_false nrc ixc hc, any_release_invalid_false nrr ixr vs hr]
  simp only [Bool.false_eq_true, if_false]
  generalize (List.range nrr).foldl (fun m i => pcr_select_or m 9 (rd ixr i))
        (memcpy ((List.range nrc).foldl (fun m i => pcr_select_or m 4 (rd ixc i))
          (memcpy (memcpy (memcpy (memcpy (memset info0 0 0 sizeof_pcr_info_long) 0
            (le_bytes 2 TPM_TAG_PCR_INFO_LONG)) 2 [rd h.TPM_LOC locality]) 3
            [release_locs % 256]) 4 (le_bytes 2 3)))
          9 (le_bytes 2 3)) = m7 at f1 f2 f3 f4 f5 f6
  by_cases hn : 0 < nrr
  · rw [if_pos hn]
    refine ⟨_, _, rfl, ?_, ?_, ?_⟩
    · rw [u16_at_eq, rd_memcpy, if_neg (by omega), rd_memcpy, if_neg (by omega), f2, f3]
    · rw [u16_at_eq, rd_memcpy, if_neg (by omega), rd_memcpy, if_neg (by omega), f4, f5]
    · intro r hr24
      rw [rd_memcpy, if_neg (by omega), rd_memcpy, if_neg (by omega)]
      exact f6 r hr24
  · rw [if_neg hn]
    refine ⟨_, _, rfl, ?_, ?_, f6⟩
    · rw [u16_at_eq, f2, f3]
    · rw [u16_at_eq, f4, f5]

theorem length_pcr_value (vs : List (Option (List Nat))) (i : Nat) :
    (pcr_value vs i).length = 20 := by
  unfold pcr_value
  rw [length_readBytes]
  rfl

/-- The loop of `UNLOAD_BLOB_TYPE` over the values keeps the bytes before its
starting position. -/
theorem unload_values_fold (vs : List (Option (List Nat))) (n : Nat) (c2 : Cur)
    (hoff : c2.offset + 20 * n < 2 ^ 32) :
    ((List.range n).foldl (fun c i => UNLOAD_BLOB CMD_HEAD_SIZE (pcr_value vs i) c) c2).offset
        = c2.offset + 20 * n ∧
    ∀ j, j < CMD_HEAD_SIZE + c2.offset →
      rd ((List.range n).foldl
        (fun c i => UNLOAD_BLOB CMD_HEAD_SIZE (pcr_value vs i) c) c2).mem j = rd c2.mem j := by
  induction n with
  | zero => exact ⟨rfl, fun _ _ => rfl⟩
  | succ k ih =>
    obtain ⟨i1, i2⟩ := ih (by omega)
    rw [List.range_succ, List.foldl_append]
    simp only [List.foldl_cons, List.foldl_nil]
    generalize (List.range k).foldl
      (fun c i => UNLOAD_BLOB CMD_HEAD_SIZE (pcr_value vs i) c) c2 = c at i1 i2
    unfold UNLOAD_BLOB
    simp only
    rw [length_pcr_value]
    constructor
    · rw [i1, u32_of_lt _ (by omega)]
      omega
    · intro j hj
      rw [rd_memcpy, if_neg (by omega), i2 j hj]

/-- The selection that `calc_pcr_composition` serialises at `WRAPPER_IN_BUF`. -/
theorem calc_pcr_composition_selection (sha1 : List Nat → List Nat) (cmd_buf : List Nat)
    (nr : Nat) (ix : List Nat) (vs : List (Option (List Nat))) (comp : List Nat)
    (hnr : 0 < nr) (hbig : 20 * nr + 9 < 2 ^ 32) (hbuf : CMD_HEAD_SIZE + 5 ≤ cmd_buf.length)
    (hix : ∀ i, i < nr → rd ix i < 24) :
    be_at (calc_pcr_composition sha1 cmd_buf nr (some ix) (some vs) (some comp)).1
      CMD_HEAD_SIZE 2 = 3 ∧
    ∀ r, r < 24 →
      (bit (rd (calc_pcr_composition sha1 cmd_buf nr (some ix) (some vs) (some comp)).1
        (CMD_HEAD_SIZE + 2 + r / 8)) (r % 8) = 1 ↔ ∃ i, i < nr ∧ rd ix i = r) := by
  obtain ⟨g1, g2, g3⟩ := pcr_select_fold ix 0 nr (le_bytes 2 3 ++ [0, 0, 0]) hix
    (by simp [le_bytes])
  have e0 : (le_bytes 2 3 ++ [0, 0, 0] : List Nat) = [3, 0, 0, 0, 0] := rfl
  rw [e0] at g1 g2 g3
  unfold calc_pcr_composition
  simp only
  rw [if_neg (by omega), e0]
  generalize (List.range nr).foldl (fun s i => pcr_select_or s 0 (rd ix i)) [3, 0, 0, 0, 0] = sel
    at g1 g2 g3
  have s0 : rd sel 0 = 3 := g2 0 (by omega)
  have s1 : rd sel 1 = 0 := g2 1 (by omega)
  have hu : u16_at sel 0 = 3 := by rw [u16_at_eq, s0, s1]
  unfold CMD_HEAD_SIZE at hbuf
  -- the cursor after the selection and the length of the values
  obtain ⟨c2, hc2⟩ : ∃ c2, c2 = UNLOAD_INTEGER CMD_HEAD_SIZE (le_bytes 4 (u32 (TPM_DIGEST_SIZE * nr)))
      (UNLOAD_PCR_SELECTION CMD_HEAD_SIZE sel 0 ⟨cmd_buf, 0⟩) := ⟨_, rfl⟩
  have hc2o : c2.offset = 9 := by
    rw [hc2]
    unfold UNLOAD_INTEGER UNLOAD_PCR_SELECTION UNLOAD_INTEGER UNLOAD_BLOB
    simp only [length_readBytes, hu]
    simp [le_bytes, u32]
  have hc2m : ∀ j, j < 5 →
      rd c2.mem (10 + j) = if j = 0 then 0 else if j = 1 then 3 else rd sel j := by
    intro j hj
    rw [hc2]
    unfold UNLOAD_INTEGER UNLOAD_PCR_SELECTION UNLOAD_INTEGER UNLOAD_BLOB CMD_HEAD_SIZE
    simp only [length_readBytes, hu]
    have u2 : u32 (0 + 2) = 2 := rfl
    have u5 : u32 (2 + 3) = 5 := rfl
    rw [u2, u5, rd_memcpy, if_neg (by omega), rd_memcpy, length_readBytes, length_memcpy]
    by_cases h2 : 2 ≤ j
    · rw [if_pos (by omega), rd_readBytes, if_pos (by omega), if_neg (by omega),
        if_neg (by omega)]
      congr 1
      omega
    · rw [if_neg (by omega), rd_memcpy, length_reverse_copy,
        if_pos (by omega), rd_reverse_copy, if_pos (by omega), rd_readBytes, if_pos (by omega)]
      by_cases h0 : j = 0
      · subst h0
        rw [if_pos rfl]
        simpa using s1
      · have h1 : j = 1 := by omega
        subst h1
        rw [if_neg (by omega), if_pos rfl]
        simpa using s0
  rw [← hc2]
  obtain ⟨_, k2⟩ := unload_values_fold vs nr c2 (by rw [hc2o]; omega)
  generalize (List.range nr).foldl (fun c i => UNLOAD_BLOB CMD_HEAD_SIZE (pcr_value vs i) c) c2
    = c3 at k2
  rw [hc2o] at k2
  unfold CMD_HEAD_SIZE at k2 ⊢
  constructor
  · unfold be_at
    have e : readBytes c3.mem 10 2 = [rd c3.mem (10 + 0), rd c3.mem (10 + 1)] := rfl
    have v0 := hc2m 0 (by omega)
    have v1 := hc2m 1 (by omega)
    rw [if_pos rfl] at v0
    rw [if_neg (by omega), if_pos rfl] at v1
    rw [e, k2 _ (by omega), k2 _ (by omega), v0, v1]
    rfl
  · intro r hr
    have := g3 r hr
    rw [show 10 + 2 + r / 8 = 10 + (2 + r / 8) by omega, k2 _ (by omega),
      hc2m _ (by omega), if_neg (by omega), if_neg (by omega)]
    rw [show 0 + 2 + r / 8 = 2 + r / 8 by omega] at this
    rw [this]
    have hz : rd [3, 0, 0, 0, 0] (2 + r / 8) = 0 := by
      have : r / 8 < 3 := by omega
      interval_cases (r / 8) <;> rfl
    rw [hz]
    simp [bit]

set_option maxRecDepth 100000 in
/-- C11: for every list of register indices all below 24, the creation and the
release selection that `init_pcr_info` stores in the PCR-info record, and the
selection that `calc_pcr_composition` serialises at the start of
`WRAPPER_IN_BUF`, have `size_of_select = 3` and, for every register `r` in
0..23, bit `r mod 8` of selection byte `r div 8` is 1 if and only if `r` occurs
in the list; the indices {0, 8, 23} give the bytes {0x01, 0x01, 0x80}. -/
theorem pcr_selection_bits (h : TpmH) (sha1 : List Nat → List Nat) (cmd_buf : List Nat)
    (locality release_locs nrc : Nat) (ixc : List Nat) (nrr : Nat) (ixr : List Nat)
    (vs : List (Option (List Nat))) (info0 : List Nat)
    (nr : Nat) (ix : List Nat) (vsc : List (Option (List Nat))) (comp : List Nat)
    (hrl : release_locs &&& h.TPM_LOC_RSVD = 0) (hloc : locality < h.TPM_NR_LOCALITIES)
    (hlen : sizeof_pcr_info_long ≤ info0.length)
    (hc : ∀ i, i < nrc → rd ixc i < 24)
    (hr : ∀ i, i < nrr → rd ixr i < 24 ∧ vs.getD i none ≠ none)
    (hnr : 0 < nr) (hbig : 20 * nr + 9 < 2 ^ 32) (hbuf : CMD_HEAD_SIZE + 5 ≤ cmd_buf.length)
    (hix : ∀ i, i < nr → rd ix i < 24) :
    (∃ info cmd, init_pcr_info h sha1 cmd_buf locality release_locs nrc (some ixc) nrr
        (some ixr) (some vs) (some info0) = (true, some info, cmd) ∧
      u16_at info 4 = 3 ∧ u16_at info 9 = 3 ∧
      ∀ r, r < 24 →
        (bit (rd info (6 + r / 8)) (r % 8) = 1 ↔ ∃ i, i < nrc ∧ rd ixc i = r) ∧
        (bit (rd info (11 + r / 8)) (r % 8) = 1 ↔ ∃ i, i < nrr ∧ rd ixr i = r)) ∧
    (be_at (calc_pcr_composition sha1 cmd_buf nr (some ix) (some vsc) (some comp)).1
        CMD_HEAD_SIZE 2 = 3 ∧
      ∀ r, r < 24 →
        (bit (rd (calc_pcr_composition sha1 cmd_buf nr (some ix) (some vsc) (some comp)).1
          (CMD_HEAD_SIZE + 2 + r / 8)) (r % 8) = 1 ↔ ∃ i, i < nr ∧ rd ix i = r)) ∧
    readBytes ((init_pcr_info tpm_h (fun _ => []) (List.replicate 128 0) 0 0 3
        (some [0, 8, 23]) 3 (some [0, 8, 23]) (some (List.replicate 3 (some [])))
        (some (List.replicate 54 0))).2.1.getD []) 4 10
      = [3, 0, 0x01, 0x01, 0x80, 3, 0, 0x01, 0x01, 0x80] ∧
    readBytes (calc_pcr_composition (fun _ => []) (List.replicate 128 0) 3 (some [0, 8, 23])
        (some (List.replicate 3 (some []))) (some (List.replicate 20 0))).1 CMD_HEAD_SIZE 5
      = [0, 3, 0x01, 0x01, 0x80] :=
  ⟨init_pcr_info_selection h sha1 cmd_buf locality release_locs nrc ixc nrr ixr vs info0 hrl
      hloc hlen hc hr,
    calc_pcr_composition_selection sha1 cmd_buf nr ix vsc comp hnr hbig hbuf hix,
    by decide, by decide⟩

theorem pcr_selection_bits_witness :
    (∃ info cmd, init_pcr_info tpm_h (fun _ => []) (List.replicate 128 0) 0 0 3
        (some [0, 8, 23]) 3 (some [0, 8, 23]) (some (List.replicate 3 (some [])))
        (some (List.replicate 54 0)) = (true, some info, cmd) ∧
      u16_at info 4 = 3 ∧ u16_at info 9 = 3 ∧
      ∀ r, r < 24 →
        (bit (rd info (6 + r / 8)) (r % 8) = 1 ↔ ∃ i, i < 3 ∧ rd [0, 8, 23] i = r) ∧
        (bit (rd info (11 + r / 8)) (r % 8) = 1 ↔ ∃ i, i < 3 ∧ rd [0, 8, 23] i = r)) ∧
    (be_at (calc_pcr_composition (fun _ => []) (List.replicate 128 0) 3 (some [0, 8, 23])
        (some (List.replicate 3 (some []))) (some (List.replicate 20 0))).1
        CMD_HEAD_SIZE 2 = 3 ∧
      ∀ r, r < 24 →
        (bit (rd (calc_pcr_composition (fun _ => []) (List.replicate 128 0) 3
            (some [0, 8, 23]) (some (List.replicate 3 (some [])))
            (some (List.replicate 20 0))).1
          (CMD_HEAD_SIZE + 2 + r / 8)) (r % 8) = 1 ↔ ∃ i, i < 3 ∧ rd [0, 8, 23] i = r)) ∧
    readBytes ((init_pcr_info tpm_h (fun _ => []) (List.replicate 128 0) 0 0 3
        (some [0, 8, 23]) 3 (some [0, 8, 23]) (some (List.replicate 3 (some [])))
        (some (List.replicate 54 0))).2.1.getD []) 4 10
      = [3, 0, 0x01, 0x01, 0x80, 3, 0, 0x01, 0x01, 0x80] ∧
    readBytes (calc_pcr_composition (fun _ => []) (List.replicate 128 0) 3 (some [0, 8, 23])
        (some (List.replicate 3 (some []))) (some (List.replicate 20 0))).1 CMD_HEAD_SIZE 5
      = [0, 3, 0x01, 0x01, 0x80] :=
  pcr_selection_bits tpm_h (fun _ => []) (List.replicate 128 0) 0 0 3 [0, 8, 23] 3 [0, 8, 23]
    (List.replicate 3 (some [])) (List.replicate 54 0) 3 [0, 8, 23]
    (List.replicate 3 (some [])) (List.replicate 20 0)
    (by decide) (by decide) (by decide) (by decide) (by decide) (by decide) (by norm_num)
    (by decide) (by decide)

/-! ### The output-space check of `_tpm_seal` and `_tpm_unseal` -/

/-- A call of `_tpm_submit_cmd` that returns `TPM_SUCCESS` executed exactly one
command, and its last event is the deactivation write. -/
theorem _tpm_submit_cmd_success {σ : Type} (h : TpmH) (t : Tpm σ)
    (locality tag cmd arg_size : Nat) (out_size : Option Nat) (st : St σ) (q : SubmitRes σ)
    (hbad : h.TPM_BAD_PARAMETER ≠ TPM_SUCCESS) (hfail : h.TPM_FAIL ≠ TPM_SUCCESS)
    (hq : _tpm_submit_cmd h t locality tag cmd arg_size out_size st = some q)
    (hret : q.ret = TPM_SUCCESS) :
    go_count q.s.hw.log = go_count st.hw.log + 1 ∧
    q.s.hw.log.head? = some (Ev.wr locality TPM_REG_ACCESS ACC_ACTIVE_LOCALITY) := by
  cases out_size with
  | none =>
    unfold _tpm_submit_cmd at hq
    cases hq
    exact absurd hret hbad
  | some osz0 =>
    by_cases hsz : u32 (CMD_HEAD_SIZE + arg_size) ≤ h.TPM_CMD_SIZE_MAX
    · obtain ⟨r1, osz1, h1, h2, _⟩ := _tpm_submit_cmd_transfer h t locality tag cmd arg_size
        osz0 st hsz
      rw [h2] at hq
      cases hq
      have hr1 : r1.ret = TPM_SUCCESS := hret
      show go_count r1.hw.log = go_count st.hw.log + 1 ∧
        r1.hw.log.head? = some (Ev.wr locality TPM_REG_ACCESS ACC_ACTIVE_LOCALITY)
      by_cases hv : locality < h.TPM_NR_LOCALITIES ∧
          CMD_HEAD_SIZE ≤ u32 (CMD_HEAD_SIZE + arg_size) ∧ RSP_HEAD_SIZE ≤ submit_rsp_size h osz0
      · obtain ⟨v1, v2, v3⟩ := hv
        refine ⟨tpm_write_cmd_fifo_go_count h t locality _ _ _ _ _ r1 hfail v1 v2 v3 h1 hr1, ?_⟩
        have hc := tpm_write_cmd_fifo_cases h t locality _ _ _ _ _ r1 hfail v1 v2 v3 h1
        have hne : r1.ret ≠ h.TPM_FAIL := by
          rw [hr1]
          exact fun hh => hfail hh.symm
        rcases hc with ⟨c1, _⟩ | ⟨c1, _⟩ | ⟨c1, _⟩ | ⟨c0, _⟩
        · exact absurd c1 hne
        · exact absurd c1 hne
        · exact absurd c1 hne
        · exact c0
      · exfalso
        obtain ⟨r2, m, b1, b2, _⟩ := tpm_write_cmd_fifo_reject h t locality
          (some (submit_cmd_buf st.cmd_buf tag cmd arg_size)) (u32 (CMD_HEAD_SIZE + arg_size))
          (some st.rsp_buf) (some (submit_rsp_size h osz0)) st.hw (by
            by_cases g1 : locality < h.TPM_NR_LOCALITIES
            · by_cases g2 : CMD_HEAD_SIZE ≤ u32 (CMD_HEAD_SIZE + arg_size)
              · right; right; right; right; right
                exact ⟨_, rfl, by
                  have := fun g3 => hv ⟨g1, g2, g3⟩
                  omega⟩
              · right; right; right; right; left
                omega
            · left
              omega)
        rw [h1] at b1
        cases b1
        rw [b2] at hr1
        exact hbad hr1
    · unfold _tpm_submit_cmd at hq
      simp only at hq
      rw [if_pos (by omega)] at hq
      cases hq
      exact absurd hret hbad

/-- How `tpm_osap` ends when its pointers are not null. -/
theorem tpm_osap_cases {σ : Type} (h : TpmH) (t : Tpm σ) (locality ent_type ent_value : Nat)
    (odd ha ne eo : List Nat) (s : St σ) (o : OsapRes σ)
    (hbad : h.TPM_BAD_PARAMETER ≠ TPM_SUCCESS) (hfail : h.TPM_FAIL ≠ TPM_SUCCESS)
    (ho : tpm_osap h t locality ent_type ent_value (some odd) (some ha) (some ne) (some eo) s
      = some o) :
    (o.ret ≠ TPM_SUCCESS ∧ o.s.hw.log.head? = some (Ev.msg Msg.osap_failed)) ∨
    (o.ret = TPM_SUCCESS ∧ go_count o.s.hw.log = go_count s.hw.log + 1) := by
  unfold tpm_osap at ho
  simp only at ho
  split at ho
  · cases ho
  · rename_i r hsub
    unfold tpm_submit_cmd at hsub
    by_cases hret : r.ret ≠ TPM_SUCCESS
    · rw [if_pos hret] at ho
      cases ho
      exact Or.inl ⟨hret, rfl⟩
    · rw [if_neg hret] at ho
      cases ho
      have hr0 : r.ret = TPM_SUCCESS := not_not.mp hret
      exact Or.inr ⟨hr0, (_tpm_submit_cmd_success h t locality _ _ _ _ _ r hbad hfail hsub hr0).1⟩

/-- How `_tpm_seal` ends when its pointers are not null, by its last event. -/
theorem _tpm_seal_cases {σ : Type} (h : TpmH) (t : Tpm σ) (locality hkey : Nat)
    (ea : List Nat) (pcr_info_size : Nat) (info : List Nat) (in_data_size : Nat)
    (ind : List Nat) (hauth : Nat) (no cs pa : List Nat) (sds : Nat) (sd ne ra : List Nat)
    (s : St σ) (r : SealRes σ)
    (hbad : h.TPM_BAD_PARAMETER ≠ TPM_SUCCESS) (hfail : h.TPM_FAIL ≠ TPM_SUCCESS)
    (hr : _tpm_seal h t locality hkey (some ea) pcr_info_size (some info) in_data_size
      (some ind) hauth (some no) (some cs) (some pa) (some sds) (some sd) (some ne) (some ra) s
      = some r) :
    r.s.hw.log.head? = some (Ev.msg Msg.seal_failed) ∨
    (r.s.hw.log.head? = some (Ev.msg Msg.sealed_blob_too_small) ∧ r.ret = h.TPM_NOSPACE ∧
      go_count r.s.hw.log = go_count s.hw.log + 1 ∧
      r.sealed_data_size = some sds ∧ r.sealed_data = some sd) ∨
    r.s.hw.log.head? = some (Ev.wr locality TPM_REG_ACCESS ACC_ACTIVE_LOCALITY) := by
  unfold _tpm_seal at hr
  simp only at hr
  split at hr
  · cases hr
  · rename_i q hsub
    unfold tpm_submit_cmd_auth1 at hsub
    by_cases hret : q.ret ≠ TPM_SUCCESS
    · rw [if_pos hret] at hr
      cases hr
      exact Or.inl rfl
    · rw [if_neg hret] at hr
      have hq0 : q.ret = TPM_SUCCESS := not_not.mp hret
      obtain ⟨g1, g2⟩ := _tpm_submit_cmd_success h t locality _ _ _ _ _ q hbad hfail hsub hq0
      split_ifs at hr
      · cases hr
        exact Or.inr (Or.inl ⟨rfl, rfl, g1, rfl, rfl⟩)
      · cases hr
        exact Or.inr (Or.inr g2)

/-- How `_tpm_wrap_seal` ends when the output pointers are not null: either not
with the message of the output-space check, or with `TPM_NOSPACE` after two
executed commands and with the outputs as they were. -/
theorem _tpm_wrap_seal_cases {σ : Type} (h : TpmH) (t : Tpm σ) (sha1 : List Nat → List Nat)
    (odd_osap nonce_odd : List Nat) (locality : Nat) (pcr_info : List Nat)
    (in_data_size : Nat) (in_data : List Nat) (sds : Nat) (sd : List Nat) (s : St σ)
    (r : SealOut σ)
    (hbad : h.TPM_BAD_PARAMETER ≠ TPM_SUCCESS) (hfail : h.TPM_FAIL ≠ TPM_SUCCESS)
    (hr : _tpm_wrap_seal h t sha1 odd_osap nonce_odd locality pcr_info in_data_size in_data
      (some sds) (some sd) s = some r) :
    r.s.hw.log.head? ≠ some (Ev.msg Msg.sealed_blob_too_small) ∨
    (r.ret = h.TPM_NOSPACE ∧ go_count r.s.hw.log = go_count s.hw.log + 2 ∧
      r.sealed_data_size = some sds ∧ r.sealed_data = some sd) := by
  unfold _tpm_wrap_seal at hr
  dsimp only at hr
  split at hr
  · cases hr
  · rename_i o ho
    rcases tpm_osap_cases h t locality _ _ _ _ _ _ s o hbad hfail ho with ⟨o1, o2⟩ | ⟨o1, o2⟩
    · rw [if_pos o1] at hr
      cases hr
      left
      rw [o2]
      exact fun hh => by cases hh
    · rw [if_neg (not_not.mpr o1)] at hr
      split at hr
      · cases hr
      · rename_i q hq
        cases hr
        rcases _tpm_seal_cases h t locality _ _ _ _ _ _ _ _ _ _ _ _ _ _ _ q hbad hfail hq
          with c1 | ⟨_, c2, c3, c4, c5⟩ | c1
        · left
          rw [c1]
          exact fun hh => by cases hh
        · right
          refine ⟨c2, ?_, c4, c5⟩
          rw [c3]
          show go_count o.s.hw.log + 1 = go_count s.hw.log + 2
          omega
        · left
          rw [c1]
          exact fun hh => by cases hh

/-- How `tpm_oiap` ends when its pointers are not null. -/
theorem tpm_oiap_cases {σ : Type} (h : TpmH) (t : Tpm σ) (locality : Nat)
    (ha ne : List Nat) (s : St σ) (o : OiapRes σ)
    (hbad : h.TPM_BAD_PARAMETER ≠ TPM_SUCCESS) (hfail : h.TPM_FAIL ≠ TPM_SUCCESS)
    (ho : tpm_oiap h t locality (some ha) (some ne) s = some o) :
    (o.ret ≠ TPM_SUCCESS ∧ o.s.hw.log.head? = some (Ev.msg Msg.oiap_failed)) ∨
    (o.ret = TPM_SUCCESS ∧ go_count o.s.hw.log = go_count s.hw.log + 1) := by
  unfold tpm_oiap at ho
  simp only at ho
  split at ho
  · cases ho
  · rename_i r hsub
    unfold tpm_submit_cmd at hsub
    by_cases hret : r.ret ≠ TPM_SUCCESS
    · rw [if_pos hret] at ho
      cases ho
      exact Or.inl ⟨hret, rfl⟩
    · rw [if_neg hret] at ho
      cases ho
      have hr0 : r.ret = TPM_SUCCESS := not_not.mp hret
      exact Or.inr ⟨hr0, (_tpm_submit_cmd_success h t locality _ _ _ _ _ r hbad hfail hsub hr0).1⟩

/-- How `_tpm_unseal` ends when its pointers are not null, by its last event. -/
theorem _tpm_unseal_cases {σ : Type} (h : TpmH) (t : Tpm σ) (locality hkey : Nat)
    (ind : List Nat) (hauth : Nat) (no cs au : List Nat) (hauth_d : Nat)
    (nod csd aud : List Nat) (ssz : Nat) (sec ne ra ned rad : List Nat)
    (s : St σ) (r : UnsealRes σ)
    (hbad : h.TPM_BAD_PARAMETER ≠ TPM_SUCCESS) (hfail : h.TPM_FAIL ≠ TPM_SUCCESS)
    (hr : _tpm_unseal h t locality hkey (some ind) hauth (some no) (some cs) (some au) hauth_d
      (some nod) (some csd) (some aud) (some ssz) (some sec) (some ne) (some ra) (some ned)
      (some rad) s = some r) :
    r.s.hw.log.head? = some (Ev.msg Msg.unseal_failed) ∨
    (r.s.hw.log.head? = some (Ev.msg Msg.unsealed_data_too_small) ∧ r.ret = h.TPM_NOSPACE ∧
      go_count r.s.hw.log = go_count s.hw.log + 1 ∧
      r.secret_size = some ssz ∧ r.secret = some sec) ∨
    r.s.hw.log.head? = some (Ev.wr locality TPM_REG_ACCESS ACC_ACTIVE_LOCALITY) := by
  unfold _tpm_unseal at hr
  dsimp only at hr
  split at hr
  · cases hr
  · rename_i q hsub
    unfold tpm_submit_cmd_auth2 at hsub
    by_cases hret : q.ret ≠ TPM_SUCCESS
    · rw [if_pos hret] at hr
      cases hr
      exact Or.inl rfl
    · rw [if_neg hret] at hr
      have hq0 : q.ret = TPM_SUCCESS := not_not.mp hret
      obtain ⟨g1, g2⟩ := _tpm_submit_cmd_success h t locality _ _ _ _ _ q hbad hfail hsub hq0
      split_ifs at hr
      · cases hr
        exact Or.inr (Or.inl ⟨rfl, rfl, g1, rfl, rfl⟩)
      · cases hr
        exact Or.inr (Or.inr g2)

/-- How `_tpm_wrap_unseal` ends when the output pointers are not null: either
not with the message of the output-space check, or with `TPM_NOSPACE` after
three executed commands and with the outputs as they were. -/
theorem _tpm_wrap_unseal_cases {σ : Type} (h : TpmH) (t : Tpm σ)
    (sha1 : List Nat → List Nat) (stack : UnsealStack) (locality : Nat) (in_data : List Nat)
    (ssz : Nat) (sec : List Nat) (s : St σ) (r : UnsealOut σ)
    (hbad : h.TPM_BAD_PARAMETER ≠ TPM_SUCCESS) (hfail : h.TPM_FAIL ≠ TPM_SUCCESS)
    (hr : _tpm_wrap_unseal h t sha1 stack locality in_data (some ssz) (some sec) s = some r) :
    r.s.hw.log.head? ≠ some (Ev.msg Msg.unsealed_data_too_small) ∨
    (r.ret = h.TPM_NOSPACE ∧ go_count r.s.hw.log = go_count s.hw.log + 3 ∧
      r.secret_size = some ssz ∧ r.secret = some sec) := by
  unfold _tpm_wrap_unseal at hr
  dsimp only at hr
  split at hr
  · cases hr
  · rename_i o ho
    rcases tpm_osap_cases h t locality _ _ _ _ _ _ s o hbad hfail ho with ⟨o1, o2⟩ | ⟨o1, o2⟩
    · rw [if_pos o1] at hr
      cases hr
      left
      rw [o2]
      exact fun hh => by cases hh
    · rw [if_neg (not_not.mpr o1)] at hr
      split at hr
      · cases hr
      · rename_i p hp
        rcases tpm_oiap_cases h t locality _ _ _ p hbad hfail hp with ⟨p1, p2⟩ | ⟨p1, p2⟩
        · rw [if_pos p1] at hr
          cases hr
          left
          rw [p2]
          exact fun hh => by cases hh
        · rw [if_neg (not_not.mpr p1)] at hr
          split at hr
          · cases hr
          · rename_i q hq
            cases hr
            rcases _tpm_unseal_cases h t locality _ _ _ _ _ _ _ _ _ _ _ _ _ _ _ _ _ q hbad hfail
              hq with c1 | ⟨_, c2, c3, c4, c5⟩ | c1
            · left
              rw [c1]
              exact fun hh => by cases hh
            · right
              refine ⟨c2, ?_, c4, c5⟩
              rw [c3]
              show go_count p.s.hw.log + 1 = go_count s.hw.log + 3
              have p3 : go_count p.s.hw.log = go_count o.s.hw.log + 1 := p2
              omega
            · left
              rw [c1]
              exact fun hh => by cases hh

/-- When `tpm_seal` ends with the message of the output-space check, it returns
`TPM_NOSPACE` after two executed commands and leaves the outputs as they were. -/
theorem tpm_seal_nospace {σ : Type} (h : TpmH) (t : Tpm σ) (sha1 : List Nat → List Nat)
    (stack : SealStack) (locality release_locs pcr_nr_create : Nat)
    (pcr_indcs_create : Option (List Nat)) (pcr_nr_release : Nat)
    (pcr_indcs_release : Option (List Nat))
    (pcr_values_release : Option (List (Option (List Nat)))) (in_data_size : Nat)
    (in_data : Option (List Nat)) (sealed_data_size : Option Nat)
    (sealed_data : Option (List Nat)) (s : St σ) (r : SealOut σ)
    (hbad : h.TPM_BAD_PARAMETER ≠ TPM_SUCCESS) (hfail : h.TPM_FAIL ≠ TPM_SUCCESS)
    (hr : tpm_seal h t sha1 stack locality release_locs pcr_nr_create pcr_indcs_create
      pcr_nr_release pcr_indcs_release pcr_values_release in_data_size in_data
      sealed_data_size sealed_data s = some r)
    (hhead : r.s.hw.log.head? = some (Ev.msg Msg.sealed_blob_too_small)) :
    r.ret = h.TPM_NOSPACE ∧ go_count r.s.hw.log = go_count s.hw.log + 2 ∧
    r.sealed_data_size = sealed_data_size ∧ r.sealed_data = sealed_data := by
  unfold tpm_seal at hr
  dsimp only at hr
  split_ifs at hr with g1 g2
  · cases hr
    cases hhead
  · cases hr
    cases hhead
  · cases sealed_data_size with
    | none => exact absurd (Or.inr (Or.inr (Or.inr (Or.inl rfl)))) g1
    | some sds =>
      cases sealed_data with
      | none => exact absurd (Or.inr (Or.inr (Or.inr (Or.inr (Or.inl rfl))))) g1
      | some sd =>
        rcases _tpm_wrap_seal_cases h t sha1 _ _ locality _ _ _ sds sd _ r hbad hfail hr
          with c | c
        · exact absurd hhead c
        · exact c

/-- When `tpm_unseal` ends with the message of the output-space check, it
returns `TPM_NOSPACE` after three executed commands and leaves the outputs as
they were. -/
theorem tpm_unseal_nospace {σ : Type} (h : TpmH) (t : Tpm σ) (sha1 : List Nat → List Nat)
    (stack : UnsealStack) (locality sealed_data_size : Nat) (sealed_data : Option (List Nat))
    (secret_size : Option Nat) (secret : Option (List Nat)) (s : St σ) (r : UnsealOut σ)
    (hbad : h.TPM_BAD_PARAMETER ≠ TPM_SUCCESS) (hfail : h.TPM_FAIL ≠ TPM_SUCCESS)
    (hr : tpm_unseal h t sha1 stack locality sealed_data_size sealed_data secret_size secret s
      = some r)
    (hhead : r.s.hw.log.head? = some (Ev.msg Msg.unsealed_data_too_small)) :
    r.ret = h.TPM_NOSPACE ∧ go_count r.s.hw.log = go_count s.hw.log + 3 ∧
    r.secret_size = secret_size ∧ r.secret = secret := by
  unfold tpm_unseal at hr
  split at hr
  · rename_i sd ssz sec
    split_ifs at hr
    · cases hr
      cases hhead
    · rcases _tpm_wrap_unseal_cases h t sha1 stack locality sd _ _ s r hbad hfail hr with c | c
      · exact absurd hhead c
      · exact c
  · cases hr
    cases hhead

set_option maxRecDepth 100000 in
/-- A run of `tpm_seal` on the scripted module: one payload byte, a 1-byte
output buffer, OSAP and Seal both answered with `TPM_SUCCESS`, the sealed blob
being 12 bytes long. -/
theorem sim_seal_run :
    (tpm_seal tpm_h sim (fun _ => []) stack0 0 0 0 none 0 none none 1 (some [0x5A])
        (some 1) (some [0]) (sim_st_full [osap_rsp, seal_rsp])).map
      (fun r => decide (r.ret = tpm_h.TPM_NOSPACE ∧
        r.s.hw.log.head? = some (Ev.msg Msg.sealed_blob_too_small) ∧
        go_count r.s.hw.log = 2 ∧
        (fifo_wr_bytes r.s.hw.log).length = 36 + 142 ∧
        ((fifo_wr_bytes r.s.hw.log).drop 36).take 10 = [0, 0xC2, 0, 0, 0, 142, 0, 0, 0, 0x17]))
      = some true := by
  decide

theorem sim_seal_run_facts :
    ∃ r, tpm_seal tpm_h sim (fun _ => []) stack0 0 0 0 none 0 none none 1 (some [0x5A])
        (some 1) (some [0]) (sim_st_full [osap_rsp, seal_rsp]) = some r ∧
      r.ret = tpm_h.TPM_NOSPACE ∧
      r.s.hw.log.head? = some (Ev.msg Msg.sealed_blob_too_small) ∧
      go_count r.s.hw.log = 2 ∧
      (fifo_wr_bytes r.s.hw.log).length = 36 + 142 ∧
      ((fifo_wr_bytes r.s.hw.log).drop 36).take 10 = [0, 0xC2, 0, 0, 0, 142, 0, 0, 0, 0x17] := by
  have hrun := sim_seal_run
  generalize tpm_seal tpm_h sim (fun _ => []) stack0 0 0 0 none 0 none none 1 (some [0x5A])
    (some 1) (some [0]) (sim_st_full [osap_rsp, seal_rsp]) = run at hrun
  cases run with
  | none => cases hrun
  | some r => exact ⟨r, rfl, of_decide_eq_true (Option.some.inj hrun)⟩

/-- C13, as stated, fails: `tpm_seal` with a 1-byte output buffer on a module
that answers OSAP and Seal with `TPM_SUCCESS` (sealed blob of 12 bytes) returns
`TPM_NOSPACE` after both commands were executed; the 142 bytes of the Seal
command (tag 0x00C2, ordinal 0x17) were written to the data FIFO after the 36
bytes of the OSAP command. -/
theorem tpm_seal_nospace_after_submit_counterexample :
    ∃ r, tpm_seal tpm_h sim (fun _ => []) stack0 0 0 0 none 0 none none 1 (some [0x5A])
        (some 1) (some [0]) (sim_st_full [osap_rsp, seal_rsp]) = some r ∧
      r.ret = tpm_h.TPM_NOSPACE ∧
      r.s.hw.log.head? = some (Ev.msg Msg.sealed_blob_too_small) ∧
      go_count r.s.hw.log = 2 ∧
      (fifo_wr_bytes r.s.hw.log).length = 36 + 142 ∧
      ((fifo_wr_bytes r.s.hw.log).drop 36).take 10 = [0, 0xC2, 0, 0, 0, 142, 0, 0, 0, 0x17] :=
  sim_seal_run_facts

/-- C13 (amended): the output-space check comes after the authenticated command.
For every call of `tpm_seal` that ends with the failed check of `_tpm_seal`
("sealed blob is too small" is its last event), the result is `TPM_NOSPACE`,
exactly two commands (OSAP and Seal) have been executed by the module, and
`*sealed_data_size` and `sealed_data` are unchanged; for every call of
`tpm_unseal` that ends with the failed check of `_tpm_unseal` ("unsealed data
too small"), the result is `TPM_NOSPACE`, exactly three commands (OSAP, OIAP and
Unseal) have been executed, and `*secret_size` and `secret` are unchanged. -/
theorem nospace_after_submit {σ : Type} (h : TpmH) (t : Tpm σ) (sha1 : List Nat → List Nat)
    (hbad : h.TPM_BAD_PARAMETER ≠ TPM_SUCCESS) (hfail : h.TPM_FAIL ≠ TPM_SUCCESS) :
    (∀ (stack : SealStack) (locality release_locs pcr_nr_create : Nat)
        (pcr_indcs_create : Option (List Nat)) (pcr_nr_release : Nat)
        (pcr_indcs_release : Option (List Nat))
        (pcr_values_release : Option (List (Option (List Nat)))) (in_data_size : Nat)
        (in_data : Option (List Nat)) (sealed_data_size : Option Nat)
        (sealed_data : Option (List Nat)) (s : St σ) (r : SealOut σ),
      tpm_seal h t sha1 stack locality release_locs pcr_nr_create pcr_indcs_create
        pcr_nr_release pcr_indcs_release pcr_values_release in_data_size in_data
        sealed_data_size sealed_data s = some r →
      r.s.hw.log.head? = some (Ev.msg Msg.sealed_blob_too_small) →
      r.ret = h.TPM_NOSPACE ∧ go_count r.s.hw.log = go_count s.hw.log + 2 ∧
        r.sealed_data_size = sealed_data_size ∧ r.sealed_data = sealed_data) ∧
    (∀ (stack : UnsealStack) (locality sealed_data_size : Nat)
        (sealed_data : Option (List Nat)) (secret_size : Option Nat)
        (secret : Option (List Nat)) (s : St σ) (r : UnsealOut σ),
      tpm_unseal h t sha1 stack locality sealed_data_size sealed_data secret_size secret s
        = some r →
      r.s.hw.log.head? = some (Ev.msg Msg.unsealed_data_too_small) →
      r.ret = h.TPM_NOSPACE ∧ go_count r.s.hw.log = go_count s.hw.log + 3 ∧
        r.secret_size = secret_size ∧ r.secret = secret) :=
  ⟨fun stack locality release_locs pcr_nr_create pcr_indcs_create pcr_nr_release
      pcr_indcs_release pcr_values_release in_data_size in_data sealed_data_size sealed_data
      s r hr hhead =>
    tpm_seal_nospace h t sha1 stack locality release_locs pcr_nr_create pcr_indcs_create
      pcr_nr_release pcr_indcs_release pcr_values_release in_data_size in_data
      sealed_data_size sealed_data s r hbad hfail hr hhead,
   fun stack locality sealed_data_size sealed_data secret_size secret s r hr hhead =>
    tpm_unseal_nospace h t sha1 stack locality sealed_data_size sealed_data secret_size secret
      s r hbad hfail hr hhead⟩

theorem nospace_after_submit_witness :
    ∃ r, tpm_seal tpm_h sim (fun _ => []) stack0 0 0 0 none 0 none none 1 (some [0x5A])
        (some 1) (some [0]) (sim_st_full [osap_rsp, seal_rsp]) = some r ∧
      r.s.hw.log.head? = some (Ev.msg Msg.sealed_blob_too_small) ∧
      r.ret = tpm_h.TPM_NOSPACE ∧
      go_count r.s.hw.log = go_count (sim_st_full [osap_rsp, seal_rsp]).hw.log + 2 ∧
      r.sealed_data_size = some 1 ∧ r.sealed_data = some [0] :=
  match sim_seal_run_facts with
  | ⟨r, hr, _, hhead, _⟩ =>
    ⟨r, hr, hhead,
      (nospace_after_submit tpm_h sim (fun _ => []) (by decide) (by decide)).1 stack0 0 0 0
        none 0 none none 1 (some [0x5A]) (some 1) (some [0]) (sim_st_full [osap_rsp, seal_rsp])
        r hr hhead⟩

/-! ### `hmac` -/

theorem hmac_pad_eq (key : List Nat) (c : Nat) (hc : c < 256) (hk : key.length = 20)
    (hb : ∀ b ∈ key, b < 256) :
    ((List.range HMAC_BLOCK_SIZE).map fun i =>
      if i < HMAC_OUTPUT_SIZE then (c ^^^ rd key i) % 256 else c)
    = List.zipWith (fun a b => a ^^^ b) (key ++ List.replicate (64 - key.length) 0)
        (List.replicate 64 c) := by
  apply List.ext_getElem
  · simp [HMAC_BLOCK_SIZE, hk]
  · intro i h1 h2
    simp only [List.length_map, List.length_range, HMAC_BLOCK_SIZE] at h1
    simp only [List.getElem_map, List.getElem_range, List.getElem_zipWith,
      List.getElem_replicate, HMAC_OUTPUT_SIZE]
    by_cases hi : i < 20
    · rw [if_pos hi, List.getElem_append_left (by omega)]
      have e : rd key i = key[i] := by
        unfold rd
        exact List.getD_eq_getElem _ _ (by omega)
      rw [e, Nat.xor_comm]
      have hlt : key[i] < 256 := hb _ (List.getElem_mem _)
      have : key[i] ^^^ c < 2 ^ 8 := Nat.xor_lt_two_pow (by simpa using hlt) (by simpa using hc)
      exact Nat.mod_eq_of_lt (by simpa using this)
    · rw [if_neg hi, List.getElem_append_right (by omega)]
      simp

/-- C29: for every 20-byte key (bytes below 256) and every message, `hmac`
returns true and stores through `md` the value of HMAC-SHA1 as RFC 2104 defines
it: SHA1((K xor opad) ‖ SHA1((K xor ipad) ‖ msg)) with the key zero-padded to the
64-byte block, ipad 0x36 and opad 0x5C repeated 64 times. -/
theorem hmac_is_rfc2104 (sha1 : List Nat → List Nat) (key msg : List Nat)
    (hk : key.length = 20) (hb : ∀ b ∈ key, b < 256) :
    hmac sha1 key msg = (true, hmac_sha1_rfc2104 sha1 key msg) := by
  unfold hmac hmac_sha1_rfc2104 sha1_buffer
  simp only
  rw [hmac_pad_eq key 0x36 (by norm_num) hk hb, hmac_pad_eq key 0x5C (by norm_num) hk hb]
  have e : HMAC_OUTPUT_SIZE = TPM_DIGEST_SIZE := rfl
  rw [e, readBytes_readBytes0]

theorem hmac_is_rfc2104_witness :
    hmac (fun m => m) srk_authdata [1, 2, 3]
      = (true, hmac_sha1_rfc2104 (fun m => m) srk_authdata [1, 2, 3]) :=
  hmac_is_rfc2104 (fun m => m) srk_authdata [1, 2, 3] (by decide) (by decide)

/-! ### `tpm_nv_write_value` and `release_locality` -/

/-- C21, as stated, fails: a call of `tpm_nv_write_value` with 747 bytes, one
more than `TPM_NV_WRITE_VALUE_DATA_SIZE_MAX`, returns `TPM_BAD_PARAMETER` and
leaves the state as it was: no register is accessed, no command is submitted
and `cmd_buf` is unchanged. -/
theorem tpm_nv_write_value_capped_counterexample :
    ∃ r, tpm_nv_write_value tpm_h sim 0 0x20000001 0 (some (List.replicate 747 0xAB)) 747
        (sim_st_full []) = some r ∧
      r.ret = tpm_h.TPM_BAD_PARAMETER ∧ r.s.hw.log = [] ∧
      r.s.cmd_buf = (sim_st_full []).cmd_buf :=
  ⟨_, rfl, rfl, rfl, rfl⟩

/-- C21 (amended): a request larger than the advertised maximum is rejected,
not capped.  For every call of `tpm_nv_write_value` with non-null data and
`data_size > TPM_NV_WRITE_VALUE_DATA_SIZE_MAX` the result is
`TPM_BAD_PARAMETER` and the global state (registers, event list, buffers) is
unchanged. -/
theorem tpm_nv_write_value_oversize {σ : Type} (h : TpmH) (t : Tpm σ)
    (locality index offset : Nat) (dat : List Nat) (data_size : Nat) (s : St σ)
    (hbig : h.TPM_NV_WRITE_VALUE_DATA_SIZE_MAX < data_size) :
    tpm_nv_write_value h t locality index offset (some dat) data_size s
      = some ⟨h.TPM_BAD_PARAMETER, s⟩ := by
  unfold tpm_nv_write_value
  simp only
  rw [if_pos (Or.inr hbig)]

theorem tpm_nv_write_value_oversize_witness :
    tpm_h.TPM_NV_WRITE_VALUE_DATA_SIZE_MAX < 1000 ∧
    tpm_nv_write_value tpm_h sim 0 0x20000001 0 (some (List.replicate 1000 0xAB)) 1000
        (sim_st_full []) = some ⟨tpm_h.TPM_BAD_PARAMETER, sim_st_full []⟩ :=
  ⟨by decide, tpm_nv_write_value_oversize tpm_h sim 0 0x20000001 0 (List.replicate 1000 0xAB)
    1000 (sim_st_full []) (by decide)⟩

/-- The events of the wait of `release_locality`: reads of the access register
only, at most one per iteration; the wait succeeds exactly when one of them shows
`active_locality` clear, and then that read is the newest event; when it fails
every iteration has made its read. -/
theorem poll_release_body {σ : Type} (t : Tpm σ) (locality : Nat) (n : Nat) (s : Hw σ) :
    ∃ evs, (poll (release_body t locality) n s).2.log = evs ++ s.log ∧
      evs.length ≤ n ∧
      (∀ e ∈ evs, ∃ v, e = Ev.rd locality TPM_REG_ACCESS v) ∧
      ((poll (release_body t locality) n s).1.isSome ↔
        ∃ v, Ev.rd locality TPM_REG_ACCESS v ∈ evs ∧ acc_active_locality v = 0) ∧
      ((poll (release_body t locality) n s).1 = none → evs.length = n) := by
  induction n generalizing s with
  | zero =>
    refine ⟨[], rfl, Nat.le_refl _, fun e he => absurd he (List.not_mem_nil _), ?_, fun _ => rfl⟩
    simp [poll]
  | succ n ih =>
    unfold poll
    by_cases hb : acc_active_locality (read_tpm_reg t locality TPM_REG_ACCESS 1 s).1 = 0
    · have e1 : release_body t locality s
          = (some (), (read_tpm_reg t locality TPM_REG_ACCESS 1 s).2) := by
        unfold release_body
        simp only
        rw [if_pos hb]
      rw [e1]
      dsimp only
      refine ⟨[Ev.rd locality TPM_REG_ACCESS (read_tpm_reg t locality TPM_REG_ACCESS 1 s).1],
        rfl, by simp, ?_, ?_, fun hn => by cases hn⟩
      · intro e he
        exact ⟨_, List.mem_singleton.mp he⟩
      · constructor
        · intro _
          exact ⟨_, List.mem_singleton.mpr rfl, hb⟩
        · intro _
          rfl
    · have e1 : release_body t locality s
          = (none, (read_tpm_reg t locality TPM_REG_ACCESS 1 s).2) := by
        unfold release_body
        simp only
        rw [if_neg hb]
      rw [e1]
      dsimp only
      obtain ⟨evs, h1, h2, h3, h4, h5⟩ := ih (read_tpm_reg t locality TPM_REG_ACCESS 1 s).2
      refine ⟨evs ++ [Ev.rd locality TPM_REG_ACCESS
        (read_tpm_reg t locality TPM_REG_ACCESS 1 s).1], ?_, ?_, ?_, ?_, ?_⟩
      · rw [h1]
        simp [read_tpm_reg]
      · simp only [List.length_append, List.length_singleton]
        omega
      · intro e he
        rcases List.mem_append.mp he with he | he
        · exact h3 e he
        · exact ⟨_, List.mem_singleton.mp he⟩
      · rw [h4]
        constructor
        · rintro ⟨v, hv, hz⟩
          exact ⟨v, List.mem_append_left _ hv, hz⟩
        · rintro ⟨v, hv, hz⟩
          rcases List.mem_append.mp hv with hv | hv
          · exact ⟨v, hv, hz⟩
          · have := List.mem_singleton.mp hv
            injection this with _ _ hval
            rw [hval] at hz
            exact absurd hz hb
      · intro hn
        simp only [List.length_append, List.length_singleton]
        rw [h5 hn]

/-- C26: `release_locality` first reads the access register.  When that read
shows `active_locality` clear, the function returns true and the read is its
only register access (no write).  When the bit is set, the function writes the
deactivation value once, then makes reads of the access register only, at most
`TPM_ACTIVE_LOCALITY_TIME_OUT` of them, and returns true if and only if one of
these reads shows the bit clear; it returns false, after
`TPM_ACTIVE_LOCALITY_TIME_OUT` reads and the timeout message, otherwise. -/
theorem release_locality_spec {σ : Type} (t : Tpm σ) (locality : Nat) (s : Hw σ) :
    (acc_active_locality (read_tpm_reg t locality TPM_REG_ACCESS 1 s).1 = 0 →
      (release_locality t locality s).1 = true ∧
      (release_locality t locality s).2.log
        = Ev.rd locality TPM_REG_ACCESS (read_tpm_reg t locality TPM_REG_ACCESS 1 s).1 :: s.log) ∧
    (acc_active_locality (read_tpm_reg t locality TPM_REG_ACCESS 1 s).1 ≠ 0 →
      ∃ evs msgs, (release_locality t locality s).2.log
          = msgs ++ evs ++ [Ev.wr locality TPM_REG_ACCESS ACC_ACTIVE_LOCALITY,
              Ev.rd locality TPM_REG_ACCESS (read_tpm_reg t locality TPM_REG_ACCESS 1 s).1]
            ++ s.log ∧
        evs.length ≤ TPM_ACTIVE_LOCALITY_TIME_OUT ∧
        (∀ e ∈ evs, ∃ v, e = Ev.rd locality TPM_REG_ACCESS v) ∧
        ((release_locality t locality s).1 = true ↔
          ∃ v, Ev.rd locality TPM_REG_ACCESS v ∈ evs ∧ acc_active_locality v = 0) ∧
        ((release_locality t locality s).1 = true → msgs = []) ∧
        ((release_locality t locality s).1 = false →
          msgs = [Ev.msg Msg.release_locality_timeout] ∧
          evs.length = TPM_ACTIVE_LOCALITY_TIME_OUT)) := by
  constructor
  · intro h0
    unfold release_locality
    simp only
    rw [if_pos h0]
    exact ⟨rfl, rfl⟩
  · intro h1
    unfold release_locality
    simp only
    rw [if_neg h1]
    obtain ⟨evs, e1, e2, e3, e4, e5⟩ := poll_release_body t locality TPM_ACTIVE_LOCALITY_TIME_OUT
      (write_tpm_reg t locality TPM_REG_ACCESS ACC_ACTIVE_LOCALITY
        (read_tpm_reg t locality TPM_REG_ACCESS 1 s).2)
    generalize poll (release_body t locality) TPM_ACTIVE_LOCALITY_TIME_OUT
      (write_tpm_reg t locality TPM_REG_ACCESS ACC_ACTIVE_LOCALITY
        (read_tpm_reg t locality TPM_REG_ACCESS 1 s).2) = r at e1 e4 e5
    have hlog : (write_tpm_reg t locality TPM_REG_ACCESS ACC_ACTIVE_LOCALITY
        (read_tpm_reg t locality TPM_REG_ACCESS 1 s).2).log
        = [Ev.wr locality TPM_REG_ACCESS ACC_ACTIVE_LOCALITY,
            Ev.rd locality TPM_REG_ACCESS (read_tpm_reg t locality TPM_REG_ACCESS 1 s).1]
          ++ s.log := rfl
    rw [hlog] at e1
    cases hr : r.1 with
    | some v =>
      dsimp only
      refine ⟨evs, [], ?_, e2, e3, ?_, fun _ => rfl, fun hf => by cases hf⟩
      · rw [e1]
        simp
      · rw [← e4, hr]
        simp
    | none =>
      dsimp only
      refine ⟨evs, [Ev.msg Msg.release_locality_timeout], ?_, e2, e3, ?_,
        (fun ht => by cases ht), fun _ => ⟨rfl, e5 hr⟩⟩
      · show Ev.msg Msg.release_locality_timeout :: r.2.log = _
        rw [e1]
        simp
      · rw [← e4, hr]
        simp

/-! ### Serialised images -/

theorem rd_append (xs ys : List Nat) (i : Nat) :
    rd (xs ++ ys) i = if i < xs.length then rd xs i else rd ys (i - xs.length) := by
  unfold rd
  by_cases h : i < xs.length
  · rw [if_pos h, List.getD_append _ _ _ _ h]
  · rw [if_neg h, List.getD_append_right _ _ _ _ (Nat.le_of_not_lt h)]

theorem length_le_bytes (n v : Nat) : (le_bytes n v).length = n := by
  simp [le_bytes]

theorem length_be_bytes (n v : Nat) : (be_bytes n v).length = n := by
  simp [be_bytes]

theorem readBytes_append_memcpy (m : List Nat) (base : Nat) (xs blob : List Nat)
    (hx : readBytes m base xs.length = xs) (hl : base + xs.length + blob.length ≤ m.length) :
    readBytes (memcpy m (base + xs.length) blob) base (xs ++ blob).length = xs ++ blob := by
  apply list_ext_rd
  · simp [length_readBytes]
  · intro i hi
    rw [length_readBytes, List.length_append] at hi
    rw [rd_readBytes, List.length_append, if_pos hi, rd_memcpy, rd_append]
    by_cases h : i < xs.length
    · rw [if_neg (by omega), if_pos h]
      have e := congrArg (fun l => rd l i) hx
      dsimp only at e
      rw [rd_readBytes, if_pos h] at e
      exact e
    · rw [if_pos (by omega), if_neg h]
      congr 1
      omega

theorem img_nil (m : List Nat) (base : Nat) : img ⟨m, 0⟩ base [] m.length :=
  ⟨rfl, rfl, rfl⟩

theorem img_read (c : Cur) (base : Nat) (xs : List Nat) (L : Nat) (h : img c base xs L) :
    readBytes c.mem base c.offset = xs := by
  rw [h.1]
  exact h.2.2

theorem img_UNLOAD_BLOB (base : Nat) (blob : List Nat) (c : Cur) (xs : List Nat) (L : Nat)
    (h : img c base xs L) (hl : base + xs.length + blob.length ≤ L)
    (h32 : xs.length + blob.length < 2 ^ 32) :
    img (UNLOAD_BLOB base blob c) base (xs ++ blob) L := by
  obtain ⟨ho, hL, hx⟩ := h
  unfold UNLOAD_BLOB
  refine ⟨?_, ?_, ?_⟩
  · simp only [ho, List.length_append]
    exact u32_of_lt _ h32
  · simp only [length_memcpy, hL]
  · simp only [ho]
    exact readBytes_append_memcpy _ _ _ _ hx (by omega)

theorem img_UNLOAD_INTEGER (base : Nat) (var : List Nat) (c : Cur) (xs : List Nat) (L : Nat)
    (h : img c base xs L) (hl : base + xs.length + var.length ≤ L)
    (h32 : xs.length + var.length < 2 ^ 32) :
    img (UNLOAD_INTEGER base var c) base (xs ++ _reverse_copy var var.length) L := by
  obtain ⟨ho, hL, hx⟩ := h
  unfold UNLOAD_INTEGER
  refine ⟨?_, ?_, ?_⟩
  · simp only [ho, List.length_append, length_reverse_copy]
    exact u32_of_lt _ h32
  · simp only [length_memcpy, hL]
  · simp only [ho]
    exact readBytes_append_memcpy _ _ _ _ hx (by rw [length_reverse_copy]; omega)

theorem img_UNLOAD_INTEGER_le (base n v : Nat) (c : Cur) (xs : List Nat) (L : Nat)
    (h : img c base xs L) (hl : base + xs.length + n ≤ L) (h32 : xs.length + n < 2 ^ 32) :
    img (UNLOAD_INTEGER base (le_bytes n v) c) base (xs ++ be_bytes n v) L := by
  have := img_UNLOAD_INTEGER base (le_bytes n v) c xs L h (by rw [length_le_bytes]; exact hl)
    (by rw [length_le_bytes]; exact h32)
  rw [length_le_bytes] at this
  exact this

theorem img_UNLOAD_INTEGER_rb (base : Nat) (hdr : List Nat) (fo n : Nat) (c : Cur)
    (xs : List Nat) (L : Nat)
    (h : img c base xs L) (hl : base + xs.length + n ≤ L) (h32 : xs.length + n < 2 ^ 32) :
    img (UNLOAD_INTEGER base (readBytes hdr fo n) c) base
      (xs ++ _reverse_copy (readBytes hdr fo n) n) L := by
  have := img_UNLOAD_INTEGER base (readBytes hdr fo n) c xs L h
    (by rw [length_readBytes]; exact hl) (by rw [length_readBytes]; exact h32)
  rw [length_readBytes] at this
  exact this

theorem img_UNLOAD_BLOB_rb (base : Nat) (hdr : List Nat) (fo n : Nat) (c : Cur)
    (xs : List Nat) (L : Nat)
    (h : img c base xs L) (hl : base + xs.length + n ≤ L) (h32 : xs.length + n < 2 ^ 32) :
    img (UNLOAD_BLOB base (readBytes hdr fo n) c) base (xs ++ readBytes hdr fo n) L :=
  img_UNLOAD_BLOB base (readBytes hdr fo n) c xs L h
    (by rw [length_readBytes]; exact hl) (by rw [length_readBytes]; exact h32)

theorem length_wire_pcr_selection (hdr : List Nat) (so : Nat) :
    (wire_pcr_selection hdr so).length = 2 + u16_at hdr so := by
  simp [wire_pcr_selection, length_readBytes]

theorem length_wire_pcr_info_long (hdr : List Nat) (io : Nat) :
    (wire_pcr_info_long hdr io).length
      = 48 + u16_at hdr (io + 4) + u16_at hdr (io + 9) := by
  simp only [wire_pcr_info_long, List.length_append, length_readBytes, length_reverse_copy,
    length_wire_pcr_selection, TPM_DIGEST_SIZE]
  omega

theorem img_UNLOAD_PCR_SELECTION (base : Nat) (hdr : List Nat) (so : Nat) (c : Cur)
    (xs : List Nat) (L : Nat) (h : img c base xs L)
    (hl : base + xs.length + (2 + u16_at hdr so) ≤ L)
    (h32 : xs.length + (2 + u16_at hdr so) < 2 ^ 32) :
    img (UNLOAD_PCR_SELECTION base hdr so c) base (xs ++ wire_pcr_selection hdr so) L := by
  unfold UNLOAD_PCR_SELECTION wire_pcr_selection
  have h1 := img_UNLOAD_INTEGER_rb base hdr so 2 c xs L h (by omega) (by omega)
  have h2 := img_UNLOAD_BLOB_rb base hdr (so + 2) (u16_at hdr so) _ _ L h1
    (by simp only [List.length_append, length_reverse_copy]; omega)
    (by simp only [List.length_append, length_reverse_copy]; omega)
  rw [List.append_assoc] at h2
  exact h2

theorem img_UNLOAD_PCR_INFO_LONG (base : Nat) (hdr : List Nat) (io : Nat) (c : Cur)
    (xs : List Nat) (L : Nat) (h : img c base xs L)
    (hl : base + xs.length + (48 + u16_at hdr (io + 4) + u16_at hdr (io + 9)) ≤ L)
    (h32 : xs.length + (48 + u16_at hdr (io + 4) + u16_at hdr (io + 9)) < 2 ^ 32) :
    img (UNLOAD_PCR_INFO_LONG base hdr io c) base (xs ++ wire_pcr_info_long hdr io) L := by
  unfold UNLOAD_PCR_INFO_LONG wire_pcr_info_long
  have h1 := img_UNLOAD_INTEGER_rb base hdr io 2 c xs L h (by omega) (by omega)
  have h2 := img_UNLOAD_BLOB_rb base hdr (io + 2) 1 _ _ L h1
    (by simp only [List.length_append, length_reverse_copy]; omega)
    (by simp only [List.length_append, length_reverse_copy]; omega)
  have h3 := img_UNLOAD_BLOB_rb base hdr (io + 3) 1 _ _ L h2
    (by simp only [List.length_append, length_reverse_copy, length_readBytes]; omega)
    (by simp only [List.length_append, length_reverse_copy, length_readBytes]; omega)
  have h4 := img_UNLOAD_PCR_SELECTION base hdr (io + 4) _ _ L h3
    (by simp only [List.length_append, length_reverse_copy, length_readBytes]; omega)
    (by simp only [List.length_append, length_reverse_copy, length_readBytes]; omega)
  have h5 := img_UNLOAD_PCR_SELECTION base hdr (io + 9) _ _ L h4
    (by simp only [List.length_append, length_reverse_copy, length_readBytes,
      length_wire_pcr_selection]; omega)
    (by simp only [List.length_append, length_reverse_copy, length_readBytes,
      length_wire_pcr_selection]; omega)
  have h6 := img_UNLOAD_BLOB_rb base hdr (io + 14) TPM_DIGEST_SIZE _ _ L h5
    (by simp only [List.length_append, length_reverse_copy, length_readBytes,
      length_wire_pcr_selection, TPM_DIGEST_SIZE]; omega)
    (by simp only [List.length_append, length_reverse_copy, length_readBytes,
      length_wire_pcr_selection, TPM_DIGEST_SIZE]; omega)
  have h7 := img_UNLOAD_BLOB_rb base hdr (io + 34) TPM_DIGEST_SIZE _ _ L h6
    (by simp only [List.length_append, length_reverse_copy, length_readBytes,
      length_wire_pcr_selection, TPM_DIGEST_SIZE]; omega)
    (by simp only [List.length_append, length_reverse_copy, length_readBytes,
      length_wire_pcr_selection, TPM_DIGEST_SIZE]; omega)
  simp only [List.append_assoc] at h7 ⊢
  exact h7

theorem length_wire_stored_data12 (hdr : List Nat) :
    (wire_stored_data12 hdr).length
      = if hdr_seal_info_size hdr = 0 then 12 + short_enc_data_size hdr
        else 60 + u16_at hdr (8 + 4) + u16_at hdr (8 + 9) + long_enc_data_size hdr := by
  unfold wire_stored_data12
  split_ifs with hz
  · simp only [List.length_append, length_readBytes, length_reverse_copy]
    omega
  · simp only [List.length_append, length_readBytes, length_reverse_copy,
      length_wire_pcr_info_long]
    omega

theorem img_UNLOAD_STORED_DATA12 (base : Nat) (hdr : List Nat) (c : Cur)
    (xs : List Nat) (L : Nat) (h : img c base xs L)
    (hl : base + xs.length + (wire_stored_data12 hdr).length ≤ L)
    (h32 : xs.length + (wire_stored_data12 hdr).length < 2 ^ 32) :
    img (UNLOAD_STORED_DATA12 base hdr c) base (xs ++ wire_stored_data12 hdr) L := by
  rw [length_wire_stored_data12] at hl h32
  unfold UNLOAD_STORED_DATA12 wire_stored_data12
  dsimp only
  have h1 := img_UNLOAD_INTEGER_rb base hdr 0 2 c xs L h (by split_ifs at hl <;> omega)
    (by split_ifs at h32 <;> omega)
  have h2 := img_UNLOAD_INTEGER_rb base hdr 2 2 _ _ L h1
    (by simp only [List.length_append, length_reverse_copy]; split_ifs at hl <;> omega)
    (by simp only [List.length_append, length_reverse_copy]; split_ifs at h32 <;> omega)
  have h3 := img_UNLOAD_INTEGER_rb base hdr 4 4 _ _ L h2
    (by simp only [List.length_append, length_reverse_copy]; split_ifs at hl <;> omega)
    (by simp only [List.length_append, length_reverse_copy]; split_ifs at h32 <;> omega)
  by_cases hz : hdr_seal_info_size hdr = 0
  · rw [if_pos hz] at hl h32 ⊢
    rw [if_pos hz]
    have h4 := img_UNLOAD_INTEGER_rb base hdr 8 4 _ _ L h3
      (by simp only [List.length_append, length_reverse_copy]; omega)
      (by simp only [List.length_append, length_reverse_copy]; omega)
    have h5 := img_UNLOAD_BLOB_rb base hdr 12 (short_enc_data_size hdr) _ _ L h4
      (by simp only [List.length_append, length_reverse_copy]; omega)
      (by simp only [List.length_append, length_reverse_copy]; omega)
    simp only [List.append_assoc] at h5 ⊢
    exact h5
  · rw [if_neg hz] at hl h32 ⊢
    rw [if_neg hz]
    have h4 := img_UNLOAD_PCR_INFO_LONG base hdr 8 _ _ L h3
      (by simp only [List.length_append, length_reverse_copy]; omega)
      (by simp only [List.length_append, length_reverse_copy]; omega)
    have h5 := img_UNLOAD_INTEGER_rb base hdr 62 4 _ _ L h4
      (by simp only [List.length_append, length_reverse_copy, length_wire_pcr_info_long]; omega)
      (by simp only [List.length_append, length_reverse_copy, length_wire_pcr_info_long]; omega)
    have h6 := img_UNLOAD_BLOB_rb base hdr 66 (long_enc_data_size hdr) _ _ L h5
      (by simp only [List.length_append, length_reverse_copy, length_wire_pcr_info_long]; omega)
      (by simp only [List.length_append, length_reverse_copy, length_wire_pcr_info_long]; omega)
    simp only [List.append_assoc] at h6 ⊢
    exact h6

/-! ### The composite digest -/

theorem length_values_in_order (vs : List (Option (List Nat))) (n : Nat) :
    (values_in_order vs n).length = 20 * n := by
  unfold values_in_order
  induction n with
  | zero => rfl
  | succ k ih =>
    rw [List.range_succ, List.foldl_append]
    simp only [List.foldl_cons, List.foldl_nil, List.length_append, length_pcr_value]
    rw [ih]
    omega

theorem values_in_order_succ (vs : List (Option (List Nat))) (n : Nat) :
    values_in_order vs (n + 1) = values_in_order vs n ++ pcr_value vs n := by
  unfold values_in_order
  rw [List.range_succ, List.foldl_append]
  rfl

/-- The loop of `UNLOAD_BLOB_TYPE` over the values appends them in the order of
the array. -/
theorem img_unload_values (vs : List (Option (List Nat))) (n : Nat) (c2 : Cur)
    (xs : List Nat) (L : Nat) (h : img c2 CMD_HEAD_SIZE xs L)
    (hl : CMD_HEAD_SIZE + xs.length + 20 * n ≤ L) (h32 : xs.length + 20 * n < 2 ^ 32) :
    img ((List.range n).foldl (fun c i => UNLOAD_BLOB CMD_HEAD_SIZE (pcr_value vs i) c) c2)
      CMD_HEAD_SIZE (xs ++ values_in_order vs n) L := by
  induction n with
  | zero =>
    unfold values_in_order
    simpa using h
  | succ k ih =>
    have i1 := ih (by omega) (by omega)
    rw [List.range_succ, List.foldl_append, values_in_order_succ, ← List.append_assoc]
    simp only [List.foldl_cons, List.foldl_nil]
    exact img_UNLOAD_BLOB _ _ _ _ L i1
      (by rw [List.length_append, length_values_in_order, length_pcr_value]; omega)
      (by rw [List.length_append, length_values_in_order, length_pcr_value]; omega)

/-- The message hashed for a composite digest: the selection at position `so` of
`sel` (of size 3), the length of the values, the values in array order. -/
theorem img_composite (cmd_buf sel : List Nat) (so nr : Nat) (vs : List (Option (List Nat)))
    (h0 : rd sel so = 3) (h1 : rd sel (so + 1) = 0)
    (hl : CMD_HEAD_SIZE + 9 + 20 * nr ≤ cmd_buf.length) (h32 : 20 * nr + 9 < 2 ^ 32) :
    img ((List.range nr).foldl (fun c i => UNLOAD_BLOB CMD_HEAD_SIZE (pcr_value vs i) c)
        (UNLOAD_INTEGER CMD_HEAD_SIZE (le_bytes 4 (u32 (TPM_DIGEST_SIZE * nr)))
          (UNLOAD_PCR_SELECTION CMD_HEAD_SIZE sel so ⟨cmd_buf, 0⟩)))
      CMD_HEAD_SIZE
      ([0, 3] ++ readBytes sel (so + 2) 3 ++ be_bytes 4 (20 * nr) ++ values_in_order vs nr)
      cmd_buf.length := by
  have hu : u16_at sel so = 3 := by rw [u16_at_eq, h0, h1]
  have e : u32 (TPM_DIGEST_SIZE * nr) = 20 * nr := u32_of_lt _ (by unfold TPM_DIGEST_SIZE; omega)
  rw [e]
  have a1 := img_UNLOAD_PCR_SELECTION CMD_HEAD_SIZE sel so ⟨cmd_buf, 0⟩ [] cmd_buf.length
    (img_nil cmd_buf CMD_HEAD_SIZE) (by rw [hu]; simp only [List.length_nil]; omega)
    (by rw [hu]; simp only [List.length_nil]; omega)
  have ew : wire_pcr_selection sel so = [0, 3] ++ readBytes sel (so + 2) 3 := by
    unfold wire_pcr_selection
    rw [hu]
    have e2 : _reverse_copy (readBytes sel so 2) 2 = [rd sel (so + 1), rd sel (so + 0)] := rfl
    rw [e2, h1, Nat.add_zero, h0]
  rw [List.nil_append, ew] at a1
  have a2 := img_UNLOAD_INTEGER_le CMD_HEAD_SIZE 4 (20 * nr) _ _ cmd_buf.length a1
    (by simp only [List.length_append, length_readBytes, List.length_cons, List.length_nil]; omega)
    (by simp only [List.length_append, length_readBytes, List.length_cons, List.length_nil]; omega)
  exact img_unload_values vs nr _ _ cmd_buf.length a2
    (by simp only [List.length_append, length_readBytes, List.length_cons, List.length_nil,
      length_be_bytes]; omega)
    (by simp only [List.length_append, length_readBytes, List.length_cons, List.length_nil,
      length_be_bytes]; omega)

/-- The selection bytes built by the loop do not depend on where the selection
is kept. -/
theorem pcr_select_fold_bytes (ix : List Nat) (nr so so2 : Nat) (m m2 : List Nat)
    (hix : ∀ i, i < nr → rd ix i < 24) (hlen : so + 5 ≤ m.length) (hlen2 : so2 + 5 ≤ m2.length)
    (h : ∀ k, k < 3 → rd m (so + 2 + k) = rd m2 (so2 + 2 + k)) :
    ∀ k, k < 3 →
      rd ((List.range nr).foldl (fun m i => pcr_select_or m so (rd ix i)) m) (so + 2 + k)
        = rd ((List.range nr).foldl (fun m i => pcr_select_or m so2 (rd ix i)) m2)
            (so2 + 2 + k) := by
  induction nr with
  | zero => exact h
  | succ n ih =>
    have i1 := ih (fun i hi => hix i (by omega))
    have hn := hix n (by omega)
    obtain ⟨l1, _, _⟩ := pcr_select_fold ix so n m (fun i hi => hix i (by omega)) hlen
    obtain ⟨l2, _, _⟩ := pcr_select_fold ix so2 n m2 (fun i hi => hix i (by omega)) hlen2
    rw [List.range_succ, List.foldl_append, List.foldl_append]
    simp only [List.foldl_cons, List.foldl_nil]
    generalize (List.range n).foldl (fun m i => pcr_select_or m so (rd ix i)) m = a at i1 l1
    generalize (List.range n).foldl (fun m i => pcr_select_or m so2 (rd ix i)) m2 = b at i1 l2
    intro k hk
    rw [rd_pcr_select_or _ _ _ _ hn (by omega), rd_pcr_select_or _ _ _ _ hn (by omega), i1 k hk]
    by_cases hb : k = rd ix n / 8
    · rw [if_pos (by omega), if_pos (by omega)]
    · rw [if_neg (by omega), if_neg (by omega)]

/-- The digest `calc_pcr_composition` stores, with the selection it built. -/
theorem calc_pcr_composition_image (sha1 : List Nat → List Nat) (cmd_buf : List Nat)
    (nr : Nat) (ix : List Nat) (vs : List (Option (List Nat))) (comp : List Nat)
    (hnr : 0 < nr) (hix : ∀ i, i < nr → rd ix i < 24)
    (hl : CMD_HEAD_SIZE + 9 + 20 * nr ≤ cmd_buf.length) (h32 : 20 * nr + 9 < 2 ^ 32) :
    (calc_pcr_composition sha1 cmd_buf nr (some ix) (some vs) (some comp)).2
      = some (memcpy comp 0 (sha1_buffer sha1
          ([0, 3] ++ readBytes ((List.range nr).foldl
              (fun s i => pcr_select_or s 0 (rd ix i)) [3, 0, 0, 0, 0]) (0 + 2) 3
            ++ be_bytes 4 (20 * nr) ++ values_in_order vs nr))) := by
  obtain ⟨g1, g2, g3⟩ := pcr_select_fold ix 0 nr (le_bytes 2 3 ++ [0, 0, 0]) hix
    (by simp [le_bytes])
  have e0 : (le_bytes 2 3 ++ [0, 0, 0] : List Nat) = [3, 0, 0, 0, 0] := rfl
  rw [e0] at g1 g2 g3
  unfold calc_pcr_composition
  simp only
  rw [if_neg (by omega), e0]
  generalize (List.range nr).foldl (fun s i => pcr_select_or s 0 (rd ix i)) [3, 0, 0, 0, 0] = sel
    at g1 g2 g3
  have s0 : rd sel 0 = 3 := g2 0 (by omega)
  have s1 : rd sel (0 + 1) = 0 := g2 1 (by omega)
  have hi := img_composite cmd_buf sel 0 nr vs s0 s1 hl h32
  rw [img_read _ _ _ _ hi]

set_option maxRecDepth 100000 in
/-- C27, as stated, fails: for the pairs (register 1, twenty bytes 0xAA) and
(register 0, twenty bytes 0xBB), listed in this order, `calc_pcr_composition`
hashes the message 00 03 | 03 00 00 | 00 00 00 28 | 0xAA.. | 0xBB.., in which the
value of register 1 precedes that of register 0; with the stand-in hash that
keeps the last 20 bytes of its input the digest is 0xBB.., and it is 0xAA.. when
the same pairs are listed in ascending order. -/
theorem calc_pcr_composition_order_counterexample :
    (∀ sha1 : List Nat → List Nat,
      (calc_pcr_composition sha1 (List.replicate 768 0) 2 (some [1, 0])
        (some [some (List.replicate 20 0xAA), some (List.replicate 20 0xBB)])
        (some (List.replicate 20 0))).2
      = some (memcpy (List.replicate 20 0) 0 (sha1_buffer sha1
          ([0, 3, 3, 0, 0, 0, 0, 0, 40] ++ List.replicate 20 0xAA
            ++ List.replicate 20 0xBB)))) ∧
    (calc_pcr_composition last20 (List.replicate 768 0) 2 (some [1, 0])
        (some [some (List.replicate 20 0xAA), some (List.replicate 20 0xBB)])
        (some (List.replicate 20 0))).2 = some (List.replicate 20 0xBB) ∧
    (calc_pcr_composition last20 (List.replicate 768 0) 2 (some [0, 1])
        (some [some (List.replicate 20 0xBB), some (List.replicate 20 0xAA)])
        (some (List.replicate 20 0))).2 = some (List.replicate 20 0xAA) := by
  refine ⟨fun sha1 => ?_, by decide, by decide⟩
  rw [calc_pcr_composition_image sha1 _ 2 [1, 0] _ _ (by decide)
    (by intro i hi; interval_cases i <;> decide) (by decide) (by decide)]
  rfl

/-- C27 (amended): the values are hashed in the order of the caller's array.  For
every non-empty list of register indices below 24, `calc_pcr_composition`
stores SHA1(0x00 0x03 ‖ 3 selection bytes ‖ big-endian 32-bit 20*n ‖ values[0]
‖ ... ‖ values[n-1]), where bit `r mod 8` of selection byte `r div 8` is set
exactly for the listed registers `r`. -/
theorem calc_pcr_composition_digest (sha1 : List Nat → List Nat) (cmd_buf : List Nat)
    (nr : Nat) (ix : List Nat) (vs : List (Option (List Nat))) (comp : List Nat)
    (hnr : 0 < nr) (hix : ∀ i, i < nr → rd ix i < 24)
    (hl : CMD_HEAD_SIZE + 9 + 20 * nr ≤ cmd_buf.length) (h32 : 20 * nr + 9 < 2 ^ 32) :
    ∃ S, S.length = 3 ∧
      (∀ r, r < 24 → (bit (rd S (r / 8)) (r % 8) = 1 ↔ ∃ i, i < nr ∧ rd ix i = r)) ∧
      (calc_pcr_composition sha1 cmd_buf nr (some ix) (some vs) (some comp)).2
        = some (memcpy comp 0 (sha1_buffer sha1
            ([0, 3] ++ S ++ be_bytes 4 (20 * nr) ++ values_in_order vs nr))) := by
  obtain ⟨g1, g2, g3⟩ := pcr_select_fold ix 0 nr [3, 0, 0, 0, 0] hix (by decide)
  refine ⟨_, length_readBytes _ _ _, ?_,
    calc_pcr_composition_image sha1 cmd_buf nr ix vs comp hnr hix hl h32⟩
  intro r hr
  have := g3 r hr
  rw [rd_readBytes, if_pos (by omega), this]
  have hz : rd [3, 0, 0, 0, 0] (0 + 2 + r / 8) = 0 := by
    have : r / 8 < 3 := by omega
    interval_cases (r / 8) <;> rfl
  rw [hz]
  simp [bit]

set_option maxRecDepth 100000 in
theorem calc_pcr_composition_digest_witness :
    ∃ S, S.length = 3 ∧
      (∀ r, r < 24 → (bit (rd S (r / 8)) (r % 8) = 1 ↔ ∃ i, i < 2 ∧ rd [1, 0] i = r)) ∧
      (calc_pcr_composition last20 (List.replicate 768 0) 2 (some [1, 0])
        (some [some (List.replicate 20 0xAA), some (List.replicate 20 0xBB)])
        (some (List.replicate 20 0))).2
        = some (memcpy (List.replicate 20 0) 0 (sha1_buffer last20
            ([0, 3] ++ S ++ be_bytes 4 (20 * 2) ++ values_in_order
              [some (List.replicate 20 0xAA), some (List.replicate 20 0xBB)] 2))) :=
  calc_pcr_composition_digest last20 (List.replicate 768 0) 2 [1, 0]
    [some (List.replicate 20 0xAA), some (List.replicate 20 0xBB)] (List.replicate 20 0)
    (by decide) (by intro i hi; interval_cases i <;> decide) (by decide) (by decide)

/-- The release selection and the digests of the record `init_pcr_info` builds,
before the release digest is stored. -/
theorem init_pcr_info_release_bytes (info0 : List Nat) (loc rl nrc nrr : Nat) (ixc ixr : List Nat)
    (hlen : sizeof_pcr_info_long ≤ info0.length)
    (hc : ∀ i, i < nrc → rd ixc i < 24) (hr : ∀ i, i < nrr → rd ixr i < 24) :
    ∀ m7, m7 = (List.range nrr).foldl (fun m i => pcr_select_or m 9 (rd ixr i))
        (memcpy ((List.range nrc).foldl (fun m i => pcr_select_or m 4 (rd ixc i))
          (memcpy (memcpy (memcpy (memcpy (memset info0 0 0 sizeof_pcr_info_long) 0
            (le_bytes 2 TPM_TAG_PCR_INFO_LONG)) 2 [loc]) 3 [rl]) 4 (le_bytes 2 3)))
          9 (le_bytes 2 3)) →
      (∀ j, 14 ≤ j → j < 54 → rd m7 j = 0) ∧
      ∀ k, k < 3 → rd m7 (9 + 2 + k)
        = rd ((List.range nrr).foldl (fun s i => pcr_select_or s 0 (rd ixr i)) [3, 0, 0, 0, 0])
            (0 + 2 + k) := by
  intro m7 hm7
  have hs : sizeof_pcr_info_long = 54 := rfl
  rw [hs] at hlen
  have l2 : (le_bytes 2 TPM_TAG_PCR_INFO_LONG).length = 2 := by simp [le_bytes]
  have l3 : (le_bytes 2 3).length = 2 := by simp [le_bytes]
  obtain ⟨m4, hm4⟩ : ∃ m4, m4 = memcpy (memcpy (memcpy (memcpy
      (memset info0 0 0 sizeof_pcr_info_long) 0 (le_bytes 2 TPM_TAG_PCR_INFO_LONG)) 2 [loc])
      3 [rl]) 4 (le_bytes 2 3) := ⟨_, rfl⟩
  have m4len : m4.length = info0.length := by
    rw [hm4, length_memcpy, length_memcpy, length_memcpy, length_memcpy]
    unfold memset
    rw [length_memcpy]
  have m4z : ∀ j, 6 ≤ j → j < 54 → rd m4 j = 0 := by
    intro j h1 h2
    rw [hm4, rd_memcpy, if_neg (by rw [l3]; omega), rd_memcpy,
      if_neg (by simp only [List.length_singleton]; omega), rd_memcpy,
      if_neg (by simp only [List.length_singleton]; omega), rd_memcpy,
      if_neg (by rw [l2]; omega)]
    unfold memset
    rw [rd_memcpy, hs, if_pos (by simp only [List.length_replicate]; omega), rd_replicate_zero]
  rw [← hm4] at hm7
  obtain ⟨c1, c2, _⟩ := pcr_select_fold ixc 4 nrc m4 hc (by omega)
  generalize (List.range nrc).foldl (fun m i => pcr_select_or m 4 (rd ixc i)) m4 = m5
    at hm7 c1 c2
  obtain ⟨m6, hm6⟩ : ∃ m6, m6 = memcpy m5 9 (le_bytes 2 3) := ⟨_, rfl⟩
  rw [← hm6] at hm7
  have m6len : m6.length = info0.length := by rw [hm6, length_memcpy, c1, m4len]
  have m6hi : ∀ j, 11 ≤ j → rd m6 j = rd m5 j := by
    intro j hj
    rw [hm6, rd_memcpy, if_neg (by rw [l3]; omega)]
  obtain ⟨_, d2, _⟩ := pcr_select_fold ixr 9 nrr m6 hr (by omega)
  have hb := pcr_select_fold_bytes ixr nrr 9 0 m6 [3, 0, 0, 0, 0] hr (by omega) (by decide)
    (by
      intro k hk
      rw [m6hi _ (by omega), c2 _ (by omega), m4z _ (by omega) (by omega)]
      interval_cases k <;> rfl)
  rw [← hm7] at d2 hb
  refine ⟨?_, hb⟩
  intro j h1 h2
  rw [d2 j (by omega), m6hi j (by omega), c2 j (by omega), m4z j (by omega) h2]

/-- C30: the two code paths that compute a composite digest agree.  For every
list of in-range release indices with non-null values, `init_pcr_info` returns
true with a record whose `digest_at_release` equals, when the list is not
empty, the composite that `calc_pcr_composition` stores for the same indices
and values, and consists of twenty zero bytes when the list is empty. -/
theorem init_pcr_info_digest_at_release (h : TpmH) (sha1 : List Nat → List Nat)
    (cmd_buf cmd_buf2 : List Nat) (locality release_locs nrc : Nat) (ixc : List Nat)
    (nrr : Nat) (ixr : List Nat) (vs : List (Option (List Nat))) (info0 comp : List Nat)
    (hrl : release_locs &&& h.TPM_LOC_RSVD = 0) (hloc : locality < h.TPM_NR_LOCALITIES)
    (hlen : sizeof_pcr_info_long ≤ info0.length) (hcomp : TPM_DIGEST_SIZE ≤ comp.length)
    (hc : ∀ i, i < nrc → rd ixc i < 24)
    (hr : ∀ i, i < nrr → rd ixr i < 24 ∧ vs.getD i none ≠ none)
    (hl : CMD_HEAD_SIZE + 9 + 20 * nrr ≤ cmd_buf.length)
    (hl2 : CMD_HEAD_SIZE + 9 + 20 * nrr ≤ cmd_buf2.length) (h32 : 20 * nrr + 9 < 2 ^ 32) :
    ∃ info cmd, init_pcr_info h sha1 cmd_buf locality release_locs nrc (some ixc) nrr
        (some ixr) (some vs) (some info0) = (true, some info, cmd) ∧
      (0 < nrr → ∃ comp2,
        (calc_pcr_composition sha1 cmd_buf2 nrr (some ixr) (some vs) (some comp)).2
          = some comp2 ∧
        readBytes info 34 TPM_DIGEST_SIZE = readBytes comp2 0 TPM_DIGEST_SIZE) ∧
      (nrr = 0 → readBytes info 34 TPM_DIGEST_SIZE = List.replicate TPM_DIGEST_SIZE 0) := by
  have hs : sizeof_pcr_info_long = 54 := rfl
  obtain ⟨f1, f2, f3, f4, f5, _⟩ := init_pcr_info_fields info0 (rd h.TPM_LOC locality)
    (release_locs % 256) nrc nrr ixc ixr hlen hc (fun i hi => (hr i hi).1) _ rfl
  obtain ⟨z1, z2⟩ := init_pcr_info_release_bytes info0 (rd h.TPM_LOC locality)
    (release_locs % 256) nrc nrr ixc ixr hlen hc (fun i hi => (hr i hi).1) _ rfl
  unfold init_pcr_info
  rw [if_neg (by rw [hrl]; exact fun hh => hh rfl)]
  simp only
  rw [if_neg (by omega)]
  simp only [reduceCtorEq, if_false, or_self, Option.getD_some]
  rw [any_index_out_of_range_false nrc ixc hc, any_release_invalid_false nrr ixr vs hr]
  simp only [Bool.false_eq_true, if_false]
  generalize (List.range nrr).foldl (fun m i => pcr_select_or m 9 (rd ixr i))
        (memcpy ((List.range nrc).foldl (fun m i => pcr_select_or m 4 (rd ixc i))
          (memcpy (memcpy (memcpy (memcpy (memset info0 0 0 sizeof_pcr_info_long) 0
            (le_bytes 2 TPM_TAG_PCR_INFO_LONG)) 2 [rd h.TPM_LOC locality]) 3
            [release_locs % 256]) 4 (le_bytes 2 3)))
          9 (le_bytes 2 3)) = m7 at f1 f2 f3 f4 f5 z1 z2
  rw [hs] at hlen
  unfold TPM_DIGEST_SIZE at hcomp
  by_cases hn : 0 < nrr
  · rw [if_pos hn]
    refine ⟨_, _, rfl, fun _ => ?_, fun h0 => absurd h0 (by omega)⟩
    have hi := img_composite cmd_buf m7 9 nrr vs f4 f5 hl h32
    rw [img_read _ _ _ _ hi,
      calc_pcr_composition_image sha1 cmd_buf2 nrr ixr vs comp hn (fun i hi => (hr i hi).1)
        hl2 h32]
    refine ⟨_, rfl, ?_⟩
    unfold TPM_DIGEST_SIZE
    have esel : readBytes m7 (9 + 2) 3 = readBytes ((List.range nrr).foldl
        (fun s i => pcr_select_or s 0 (rd ixr i)) [3, 0, 0, 0, 0]) (0 + 2) 3 :=
      readBytes_ext _ _ _ _ _ z2
    rw [esel]
    have hd : ∀ msg, (sha1_buffer sha1 msg).length = 20 := fun msg => length_readBytes _ _ _
    rw [readBytes_memcpy_hit0 _ _ _ _ (by omega) (by rw [hd]),
      readBytes_memcpy_hit0 _ _ _ _ (by omega) (by rw [hd])]
  · rw [if_neg hn]
    refine ⟨_, _, rfl, fun h0 => absurd h0 hn, fun _ => ?_⟩
    unfold TPM_DIGEST_SIZE
    apply list_ext_rd
    · simp [length_readBytes]
    · intro i hi
      rw [length_readBytes] at hi
      rw [rd_readBytes, if_pos hi, z1 _ (by omega) (by omega), rd_replicate_zero]

set_option maxRecDepth 100000 in
theorem init_pcr_info_digest_at_release_witness :
    ∃ info cmd, init_pcr_info tpm_h last20 (List.replicate 768 0) 0 0 0 (some []) 2
        (some [1, 0]) (some [some (List.replicate 20 0xAA), some (List.replicate 20 0xBB)])
        (some (List.replicate 54 0xFF)) = (true, some info, cmd) ∧
      (0 < 2 → ∃ comp2,
        (calc_pcr_composition last20 (List.replicate 768 0) 2 (some [1, 0])
          (some [some (List.replicate 20 0xAA), some (List.replicate 20 0xBB)])
          (some (List.replicate 20 0))).2 = some comp2 ∧
        readBytes info 34 TPM_DIGEST_SIZE = readBytes comp2 0 TPM_DIGEST_SIZE) ∧
      (2 = 0 → readBytes info 34 TPM_DIGEST_SIZE = List.replicate TPM_DIGEST_SIZE 0) :=
  init_pcr_info_digest_at_release tpm_h last20 (List.replicate 768 0) (List.replicate 768 0)
    0 0 0 [] 2 [1, 0] [some (List.replicate 20 0xAA), some (List.replicate 20 0xBB)]
    (List.replicate 54 0xFF) (List.replicate 20 0) (by decide) (by decide) (by decide)
    (by decide) (by intro i hi; omega)
    (by intro i hi; interval_cases i <;> decide) (by decide) (by decide) (by decide)

/-! ### The authorization codes of Seal and Unseal -/

theorem length_hmac (sha1 : List Nat → List Nat) (key msg : List Nat) :
    (hmac sha1 key msg).2.length = 20 := by
  unfold hmac
  exact length_readBytes _ _ _

theorem length_sha1_buffer (sha1 : List Nat → List Nat) (msg : List Nat) :
    (sha1_buffer sha1 msg).length = 20 := length_readBytes _ _ _

theorem readBytes_of_length (m : List Nat) (n : Nat) (h : m.length = n) :
    readBytes m 0 n = m := by
  rw [← h]
  exact readBytes_self m

/-- Bytes of the area after the loop of `XOR_BLOB_TYPE`. -/
theorem XOR_BLOB_TYPE_spec (data pad : List Nat) (n m : Nat) (hn : n ≤ data.length) :
    XOR_BLOB_TYPE data pad n m = (List.range data.length).map fun i =>
      if i < n then (rd data i ^^^ rd pad (i % m)) % 256 else rd data i := by
  unfold XOR_BLOB_TYPE
  induction n with
  | zero =>
    apply list_ext_rd
    · simp
    · intro i hi
      rw [rd_map_range, if_pos (by simpa using hi)]
      simp
  | succ k ih =>
    rw [List.range_succ, List.foldl_append, ih (by omega)]
    simp only [List.foldl_cons, List.foldl_nil]
    apply list_ext_rd
    · simp
    · intro i hi
      rw [length_memcpy, List.length_map, List.length_range] at hi
      rw [rd_memcpy]
      simp only [rd_map_range, List.length_map, List.length_range, List.length_singleton]
      by_cases hik : i = k
      · subst hik
        rw [if_pos ⟨Nat.le_refl _, by omega, hi⟩, if_pos hi, if_neg (Nat.lt_irrefl _),
          if_pos hi, if_pos (Nat.lt_succ_self _), Nat.sub_self]
        rfl
      · rw [if_neg (by omega), if_pos hi, if_pos hi]
        by_cases hlt : i < k
        · rw [if_pos hlt, if_pos (by omega)]
        · rw [if_neg hlt, if_neg (by omega)]

/-- The encrypted auth value that `_tpm_wrap_seal` computes. -/
theorem xor_auth_eq (sha1 : List Nat → List Nat) (secret nonce_even : List Nat) :
    XOR_BLOB_TYPE (memcpy (List.replicate sizeof_nonce 0) 0
        (readBytes blob_authdata 0 sizeof_nonce))
      (sha1_buffer sha1 (secret ++ readBytes nonce_even 0 sizeof_nonce))
      sizeof_nonce TPM_DIGEST_SIZE = xor_auth sha1 secret nonce_even := by
  rw [XOR_BLOB_TYPE_spec _ _ _ _ (by simp)]
  unfold xor_auth
  simp only [length_memcpy, List.length_replicate]
  apply List.map_congr_left
  intro i hi
  have hi2 : i < 20 := List.mem_range.mp hi
  have e : sizeof_nonce = 20 := rfl
  have e2 : TPM_DIGEST_SIZE = 20 := rfl
  rw [e, e2, if_pos hi2, Nat.mod_eq_of_lt hi2, rd_memcpy,
    if_pos (by simp only [length_readBytes, List.length_replicate]; omega), Nat.sub_zero,
    rd_readBytes, if_pos hi2, Nat.zero_add]

theorem length_xor_auth (sha1 : List Nat → List Nat) (secret nonce_even : List Nat) :
    (xor_auth sha1 secret nonce_even).length = 20 := by
  simp [xor_auth, sizeof_nonce]

theorem length_seal_args (ea pcr_info : List Nat) (ids : Nat) (ind : List Nat) :
    (seal_args ea pcr_info ids ind).length
      = ea.length + 56 + u16_at pcr_info (0 + 4) + u16_at pcr_info (0 + 9) + ids := by
  simp only [seal_args, List.length_append, length_be_bytes, length_wire_pcr_info_long,
    length_readBytes]
  omega

/-- After a successful OSAP, `_tpm_wrap_seal` is the call of `_tpm_seal` with
the encrypted auth value and the authorization code computed from the OSAP
results. -/
theorem _tpm_wrap_seal_eq {σ : Type} (h : TpmH) (t : Tpm σ) (sha1 : List Nat → List Nat)
    (odd_osap nonce_odd : List Nat) (locality : Nat) (pcr_info : List Nat)
    (in_data_size : Nat) (in_data : List Nat) (sealed_data_size : Option Nat)
    (sealed_data : Option (List Nat)) (s : St σ) (o : OsapRes σ)
    (ho : tpm_osap h t locality TPM_ET_SRK TPM_KH_SRK (some odd_osap)
      (some (List.replicate 4 0)) (some (List.replicate sizeof_nonce 0))
      (some (List.replicate sizeof_nonce 0)) s = some o)
    (hok : o.ret = TPM_SUCCESS)
    (hcap : CMD_HEAD_SIZE + (80 + u16_at pcr_info (0 + 4) + u16_at pcr_info (0 + 9)
      + in_data_size) ≤ o.s.cmd_buf.length)
    (h32 : 80 + u16_at pcr_info (0 + 4) + u16_at pcr_info (0 + 9) + in_data_size < 2 ^ 32) :
    ∃ D, D.length = o.s.cmd_buf.length ∧
      _tpm_wrap_seal h t sha1 odd_osap nonce_odd locality pcr_info in_data_size in_data
          sealed_data_size sealed_data s
        = match _tpm_seal h t locality TPM_KH_SRK
            (some (xor_auth sha1 (osap_secret sha1 (o.even_osap.getD []) odd_osap)
              (o.nonce_even.getD [])))
            sizeof_pcr_info_long (some pcr_info) in_data_size (some in_data)
            (le_val (readBytes (o.hauth.getD []) 0 4)) (some nonce_odd) (some [0])
            (some (auth_code sha1 (osap_secret sha1 (o.even_osap.getD []) odd_osap)
              TPM_ORD_SEAL
              (seal_args (xor_auth sha1 (osap_secret sha1 (o.even_osap.getD []) odd_osap)
                (o.nonce_even.getD [])) pcr_info in_data_size in_data)
              (o.nonce_even.getD []) nonce_odd))
            sealed_data_size sealed_data (some (o.nonce_even.getD []))
            (some (List.replicate sizeof_nonce 0)) { o.s with cmd_buf := D } with
          | none => none
          | some r => some ⟨r.ret, r.sealed_data_size, r.sealed_data, r.s⟩ := by
  have e20 : sizeof_nonce = 20 := rfl
  have ed : TPM_DIGEST_SIZE = 20 := rfl
  have e10 : CMD_HEAD_SIZE = 10 := rfl
  rw [e10] at hcap
  unfold _tpm_wrap_seal
  dsimp only
  rw [ho]
  dsimp only
  rw [if_neg (not_not.mpr hok)]
  generalize hL : o.s.cmd_buf.length = L at hcap
  -- the shared secret
  have ha := img_UNLOAD_BLOB_rb CMD_HEAD_SIZE odd_osap 0 sizeof_nonce _ _ L
    (img_UNLOAD_BLOB_rb CMD_HEAD_SIZE (o.even_osap.getD []) 0 sizeof_nonce ⟨o.s.cmd_buf, 0⟩ [] L
      (hL ▸ img_nil o.s.cmd_buf CMD_HEAD_SIZE)
      (by rw [e10, e20]; simp only [List.length_nil]; omega)
      (by rw [e20]; simp only [List.length_nil]; omega))
    (by rw [e10, e20]; simp only [List.nil_append, length_readBytes]; omega)
    (by rw [e20]; simp only [List.nil_append, length_readBytes]; omega)
  rw [List.nil_append] at ha
  rw [img_read _ _ _ _ ha]
  have hal := ha.2.1
  generalize (UNLOAD_BLOB CMD_HEAD_SIZE (readBytes odd_osap 0 sizeof_nonce)
    (UNLOAD_BLOB CMD_HEAD_SIZE (readBytes (o.even_osap.getD []) 0 sizeof_nonce)
      ⟨o.s.cmd_buf, 0⟩)).mem = am at hal
  have hS : (hmac sha1 srk_authdata (readBytes (o.even_osap.getD []) 0 sizeof_nonce ++
      readBytes odd_osap 0 sizeof_nonce)).2 = osap_secret sha1 (o.even_osap.getD []) odd_osap :=
    rfl
  rw [hS]
  generalize hSdef : osap_secret sha1 (o.even_osap.getD []) odd_osap = S
  have hSl : S.length = 20 := by rw [← hSdef]; exact length_hmac _ _ _
  rw [e20, readBytes_of_length S 20 hSl]
  -- the encrypted auth value
  have hb := img_UNLOAD_BLOB_rb CMD_HEAD_SIZE (o.nonce_even.getD []) 0 20 _ _ L
    (img_UNLOAD_BLOB CMD_HEAD_SIZE S ⟨am, 0⟩ [] L (hal ▸ img_nil am CMD_HEAD_SIZE)
      (by rw [e10, hSl]; simp only [List.length_nil]; omega)
      (by rw [hSl]; simp only [List.length_nil]; omega))
    (by rw [e10]; simp only [List.nil_append, hSl]; omega)
    (by simp only [List.nil_append, hSl]; omega)
  rw [List.nil_append] at hb
  rw [img_read _ _ _ _ hb]
  have hbl := hb.2.1
  generalize (UNLOAD_BLOB CMD_HEAD_SIZE (readBytes (o.nonce_even.getD []) 0 20)
    (UNLOAD_BLOB CMD_HEAD_SIZE S ⟨am, 0⟩)).mem = bm at hbl
  have hx := xor_auth_eq sha1 S (o.nonce_even.getD [])
  rw [e20] at hx
  rw [hx]
  generalize hEdef : xor_auth sha1 S (o.nonce_even.getD []) = EA
  have hEl : EA.length = 20 := by rw [← hEdef]; exact length_xor_auth _ _ _
  rw [readBytes_of_length EA 20 hEl]
  -- the digest of the ordinal and the arguments
  have hc1 := img_UNLOAD_INTEGER_le CMD_HEAD_SIZE 4 TPM_ORD_SEAL ⟨bm, 0⟩ [] L
    (hbl ▸ img_nil bm CMD_HEAD_SIZE) (by rw [e10]; simp only [List.length_nil]; omega)
    (by simp only [List.length_nil]; omega)
  rw [List.nil_append] at hc1
  have hc2 := img_UNLOAD_BLOB CMD_HEAD_SIZE EA _ _ L hc1
    (by rw [e10, length_be_bytes, hEl]; omega) (by rw [length_be_bytes, hEl]; omega)
  have hc3 := img_UNLOAD_INTEGER_le CMD_HEAD_SIZE 4 sizeof_pcr_info_long _ _ L hc2
    (by rw [e10, List.length_append, length_be_bytes, hEl]; omega)
    (by rw [List.length_append, length_be_bytes, hEl]; omega)
  have hc4 := img_UNLOAD_PCR_INFO_LONG CMD_HEAD_SIZE pcr_info 0 _ _ L hc3
    (by rw [e10]; simp only [List.length_append, length_be_bytes, hEl]; omega)
    (by simp only [List.length_append, length_be_bytes, hEl]; omega)
  have hc5 := img_UNLOAD_INTEGER_le CMD_HEAD_SIZE 4 in_data_size _ _ L hc4
    (by rw [e10]; simp only [List.length_append, length_be_bytes, hEl,
      length_wire_pcr_info_long]; omega)
    (by simp only [List.length_append, length_be_bytes, hEl, length_wire_pcr_info_long]; omega)
  have hc6 := img_UNLOAD_BLOB_rb CMD_HEAD_SIZE in_data 0 in_data_size _ _ L hc5
    (by rw [e10]; simp only [List.length_append, length_be_bytes, hEl,
      length_wire_pcr_info_long]; omega)
    (by simp only [List.length_append, length_be_bytes, hEl, length_wire_pcr_info_long]; omega)
  rw [img_read _ _ _ _ hc6]
  have hcl := hc6.2.1
  generalize (UNLOAD_BLOB CMD_HEAD_SIZE (readBytes in_data 0 in_data_size)
    (UNLOAD_INTEGER CMD_HEAD_SIZE (le_bytes 4 in_data_size)
      (UNLOAD_PCR_INFO_LONG CMD_HEAD_SIZE pcr_info 0
        (UNLOAD_INTEGER CMD_HEAD_SIZE (le_bytes 4 sizeof_pcr_info_long)
          (UNLOAD_BLOB CMD_HEAD_SIZE EA
            (UNLOAD_INTEGER CMD_HEAD_SIZE (le_bytes 4 TPM_ORD_SEAL) ⟨bm, 0⟩)))))).mem = cm at hcl
  have hargs : be_bytes 4 TPM_ORD_SEAL ++ EA ++ be_bytes 4 sizeof_pcr_info_long ++
      wire_pcr_info_long pcr_info 0 ++ be_bytes 4 in_data_size ++
      readBytes in_data 0 in_data_size
      = be_bytes 4 TPM_ORD_SEAL ++ seal_args EA pcr_info in_data_size in_data := by
    unfold seal_args
    simp only [List.append_assoc]
  rw [hargs, ed, readBytes_of_length _ 20 (length_sha1_buffer _ _)]
  generalize hGdef : sha1_buffer sha1 (be_bytes 4 TPM_ORD_SEAL ++
    seal_args EA pcr_info in_data_size in_data) = G
  have hGl : G.length = 20 := by rw [← hGdef]; exact length_sha1_buffer _ _
  -- the authorization code
  have hd1 := img_UNLOAD_BLOB CMD_HEAD_SIZE G ⟨cm, 0⟩ [] L (hcl ▸ img_nil cm CMD_HEAD_SIZE)
    (by rw [e10, hGl]; simp only [List.length_nil]; omega)
    (by rw [hGl]; simp only [List.length_nil]; omega)
  rw [List.nil_append] at hd1
  have hd2 := img_UNLOAD_BLOB_rb CMD_HEAD_SIZE (o.nonce_even.getD []) 0 20 _ _ L hd1
    (by rw [e10, hGl]; omega) (by rw [hGl]; omega)
  have hd3 := img_UNLOAD_BLOB_rb CMD_HEAD_SIZE nonce_odd 0 20 _ _ L hd2
    (by rw [e10, List.length_append, length_readBytes, hGl]; omega)
    (by rw [List.length_append, length_readBytes, hGl]; omega)
  have hd4 := img_UNLOAD_INTEGER_rb CMD_HEAD_SIZE [0] 0 1 _ _ L hd3
    (by rw [e10]; simp only [List.length_append, length_readBytes, hGl]; omega)
    (by simp only [List.length_append, length_readBytes, hGl]; omega)
  rw [img_read _ _ _ _ hd4]
  have hdl := hd4.2.1
  have hcs : _reverse_copy (readBytes [0] 0 1) 1 = [0] := rfl
  rw [hcs]
  have hpa : (hmac sha1 S (G ++ readBytes (o.nonce_even.getD []) 0 20 ++
      readBytes nonce_odd 0 20 ++ [0])).2
      = auth_code sha1 S TPM_ORD_SEAL (seal_args EA pcr_info in_data_size in_data)
          (o.nonce_even.getD []) nonce_odd := by
    unfold auth_code
    rw [hGdef, e20]
  rw [hpa]
  exact ⟨_, hdl, rfl⟩

/-- The Seal command that `_tpm_seal` hands to the transfer: header with the
one-auth-block tag, then the serialised arguments. -/
theorem _tpm_seal_command {σ : Type} (h : TpmH) (t : Tpm σ) (locality hkey : Nat)
    (ea : List Nat) (pcr_info_size : Nat) (info : List Nat) (in_data_size : Nat)
    (ind : List Nat) (hauth : Nat) (no cs pa : List Nat) (sds : Nat) (sd ne ra : List Nat)
    (s : St σ)
    (hcap : CMD_HEAD_SIZE + (125 + u16_at info (0 + 4) + u16_at info (0 + 9) + in_data_size)
      ≤ s.cmd_buf.length)
    (hmax : CMD_HEAD_SIZE + (125 + u16_at info (0 + 4) + u16_at info (0 + 9) + in_data_size)
      ≤ h.TPM_CMD_SIZE_MAX)
    (h32 : h.TPM_CMD_SIZE_MAX < 2 ^ 32) :
    ∃ cb r1 res,
      tpm_write_cmd_fifo h t locality (some cb)
        (CMD_HEAD_SIZE + (125 + u16_at info (0 + 4) + u16_at info (0 + 9) + in_data_size))
        (some s.rsp_buf) (some (submit_rsp_size h (WRAPPER_OUT_MAX_SIZE h))) s.hw = some r1 ∧
      _tpm_seal h t locality hkey (some ea) pcr_info_size (some info) in_data_size (some ind)
        hauth (some no) (some cs) (some pa) (some sds) (some sd) (some ne) (some ra) s
        = some res ∧
      res.s.cmd_buf = cb ∧ (res.s.hw = r1.hw ∨ ∃ m, res.s.hw = printk m r1.hw) ∧
      cb.length = s.cmd_buf.length ∧
      be_at cb 0 2 = TPM_TAG_RQU_AUTH1_COMMAND ∧
      be_at cb CMD_SIZE_OFFSET 4
        = CMD_HEAD_SIZE + (125 + u16_at info (0 + 4) + u16_at info (0 + 9) + in_data_size) ∧
      be_at cb CMD_ORD_OFFSET 4 = TPM_ORD_SEAL ∧
      readBytes cb CMD_HEAD_SIZE (125 + u16_at info (0 + 4) + u16_at info (0 + 9) + in_data_size)
        = be_bytes 4 hkey ++ readBytes ea 0 sizeof_nonce ++ be_bytes 4 pcr_info_size ++
          wire_pcr_info_long info 0 ++ be_bytes 4 in_data_size ++
          readBytes ind 0 in_data_size ++ be_bytes 4 hauth ++ readBytes no 0 sizeof_nonce ++
          _reverse_copy (readBytes cs 0 1) 1 ++ readBytes pa 0 sizeof_nonce := by
  have e20 : sizeof_nonce = 20 := rfl
  have e10 : CMD_HEAD_SIZE = 10 := rfl
  rw [e10] at hcap hmax
  generalize hL : s.cmd_buf.length = L at hcap
  have i1 := img_UNLOAD_INTEGER_le CMD_HEAD_SIZE 4 hkey ⟨s.cmd_buf, 0⟩ [] L
    (hL ▸ img_nil s.cmd_buf CMD_HEAD_SIZE) (by rw [e10]; simp only [List.length_nil]; omega)
    (by simp only [List.length_nil]; omega)
  rw [List.nil_append] at i1
  have i2 := img_UNLOAD_BLOB_rb CMD_HEAD_SIZE ea 0 sizeof_nonce _ _ L i1
    (by rw [e10, e20, length_be_bytes]; omega) (by rw [e20, length_be_bytes]; omega)
  have i3 := img_UNLOAD_INTEGER_le CMD_HEAD_SIZE 4 pcr_info_size _ _ L i2
    (by rw [e10]; simp only [List.length_append, length_be_bytes, length_readBytes, e20]; omega)
    (by simp only [List.length_append, length_be_bytes, length_readBytes, e20]; omega)
  have i4 := img_UNLOAD_PCR_INFO_LONG CMD_HEAD_SIZE info 0 _ _ L i3
    (by rw [e10]; simp only [List.length_append, length_be_bytes, length_readBytes, e20]; omega)
    (by simp only [List.length_append, length_be_bytes, length_readBytes, e20]; omega)
  have i5 := img_UNLOAD_INTEGER_le CMD_HEAD_SIZE 4 in_data_size _ _ L i4
    (by rw [e10]; simp only [List.length_append, length_be_bytes, length_readBytes, e20,
      length_wire_pcr_info_long]; omega)
    (by simp only [List.length_append, length_be_bytes, length_readBytes, e20,
      length_wire_pcr_info_long]; omega)
  have i6 := img_UNLOAD_BLOB_rb CMD_HEAD_SIZE ind 0 in_data_size _ _ L i5
    (by rw [e10]; simp only [List.length_append, length_be_bytes, length_readBytes, e20,
      length_wire_pcr_info_long]; omega)
    (by simp only [List.length_append, length_be_bytes, length_readBytes, e20,
      length_wire_pcr_info_long]; omega)
  have i7 := img_UNLOAD_INTEGER_le CMD_HEAD_SIZE 4 hauth _ _ L i6
    (by rw [e10]; simp only [List.length_append, length_be_bytes, length_readBytes, e20,
      length_wire_pcr_info_long]; omega)
    (by simp only [List.length_append, length_be_bytes, length_readBytes, e20,
      length_wire_pcr_info_long]; omega)
  have i8 := img_UNLOAD_BLOB_rb CMD_HEAD_SIZE no 0 sizeof_nonce _ _ L i7
    (by rw [e10]; simp only [List.length_append, length_be_bytes, length_readBytes, e20,
      length_wire_pcr_info_long]; omega)
    (by simp only [List.length_append, length_be_bytes, length_readBytes, e20,
      length_wire_pcr_info_long]; omega)
  have i9 := img_UNLOAD_INTEGER_rb CMD_HEAD_SIZE cs 0 1 _ _ L i8
    (by rw [e10]; simp only [List.length_append, length_be_bytes, length_readBytes, e20,
      length_wire_pcr_info_long]; omega)
    (by simp only [List.length_append, length_be_bytes, length_readBytes, e20,
      length_wire_pcr_info_long]; omega)
  have i10 := img_UNLOAD_BLOB_rb CMD_HEAD_SIZE pa 0 sizeof_nonce _ _ L i9
    (by rw [e10]; simp only [List.length_append, length_be_bytes, length_readBytes, e20,
      length_wire_pcr_info_long, length_reverse_copy]; omega)
    (by simp only [List.length_append, length_be_bytes, length_readBytes, e20,
      length_wire_pcr_info_long, length_reverse_copy]; omega)
  unfold _tpm_seal
  dsimp only
  generalize hX : be_bytes 4 hkey ++ readBytes ea 0 sizeof_nonce ++ be_bytes 4 pcr_info_size ++
      wire_pcr_info_long info 0 ++ be_bytes 4 in_data_size ++
      readBytes ind 0 in_data_size ++ be_bytes 4 hauth ++ readBytes no 0 sizeof_nonce ++
      _reverse_copy (readBytes cs 0 1) 1 ++ readBytes pa 0 sizeof_nonce = X at i10 ⊢
  have hXl : X.length = 125 + u16_at info (0 + 4) + u16_at info (0 + 9) + in_data_size := by
    rw [← hX]
    simp only [List.length_append, length_be_bytes, length_readBytes, e20,
      length_wire_pcr_info_long, length_reverse_copy]
    omega
  generalize UNLOAD_BLOB CMD_HEAD_SIZE (readBytes pa 0 sizeof_nonce)
    (UNLOAD_INTEGER CMD_HEAD_SIZE (readBytes cs 0 1)
    (UNLOAD_BLOB CMD_HEAD_SIZE (readBytes no 0 sizeof_nonce)
    (UNLOAD_INTEGER CMD_HEAD_SIZE (le_bytes 4 hauth)
    (UNLOAD_BLOB CMD_HEAD_SIZE (readBytes ind 0 in_data_size)
    (UNLOAD_INTEGER CMD_HEAD_SIZE (le_bytes 4 in_data_size)
    (UNLOAD_PCR_INFO_LONG CMD_HEAD_SIZE info 0
    (UNLOAD_INTEGER CMD_HEAD_SIZE (le_bytes 4 pcr_info_size)
    (UNLOAD_BLOB CMD_HEAD_SIZE (readBytes ea 0 sizeof_nonce)
    (UNLOAD_INTEGER CMD_HEAD_SIZE (le_bytes 4 hkey) ⟨s.cmd_buf, 0⟩))))))))) = cur at i10 ⊢
  obtain ⟨io, il, ir⟩ := i10
  rw [hXl] at io ir
  rw [io]
  generalize hN : 125 + u16_at info (0 + 4) + u16_at info (0 + 9) + in_data_size = N
    at hcap hmax ir ⊢
  unfold tpm_submit_cmd_auth1
  have hu : u32 (CMD_HEAD_SIZE + N) = CMD_HEAD_SIZE + N := u32_of_lt _ (by rw [e10]; omega)
  obtain ⟨r1, osz1, h1, h2, _⟩ := _tpm_submit_cmd_transfer h t locality
    TPM_TAG_RQU_AUTH1_COMMAND TPM_ORD_SEAL N (WRAPPER_OUT_MAX_SIZE h)
    { s with cmd_buf := cur.mem } (by rw [hu, e10]; exact hmax)
  rw [hu] at h1
  rw [h2]
  dsimp only at h1 ⊢
  obtain ⟨b1, b2, b3, b4, b5⟩ := submit_cmd_buf_spec cur.mem TPM_TAG_RQU_AUTH1_COMMAND
    TPM_ORD_SEAL N (by rw [e10]; omega) (by decide) (by decide) (by rw [e10, il]; omega)
  have hfin : cur.mem.length = L ∧
      readBytes (submit_cmd_buf cur.mem TPM_TAG_RQU_AUTH1_COMMAND TPM_ORD_SEAL N)
        CMD_HEAD_SIZE N = X := by
    rw [b4 _ _ (Nat.le_refl _)]
    exact ⟨il, ir⟩
  split_ifs
  · exact ⟨_, r1, _, h1, rfl, rfl, Or.inr ⟨_, rfl⟩, by rw [b5]; exact hfin.1, b1, b2, b3, hfin.2⟩
  · exact ⟨_, r1, _, h1, rfl, rfl, Or.inr ⟨_, rfl⟩, by rw [b5]; exact hfin.1, b1, b2, b3, hfin.2⟩
  · exact ⟨_, r1, _, h1, rfl, rfl, Or.inl rfl, by rw [b5]; exact hfin.1, b1, b2, b3, hfin.2⟩

/-- The Seal command of `_tpm_wrap_seal` after a successful OSAP, byte by byte. -/
theorem _tpm_wrap_seal_command {σ : Type} (h : TpmH) (t : Tpm σ) (sha1 : List Nat → List Nat)
    (odd_osap nonce_odd : List Nat) (locality : Nat) (pcr_info : List Nat)
    (in_data_size : Nat) (in_data : List Nat) (sds : Nat) (sd : List Nat) (s : St σ)
    (o : OsapRes σ)
    (ho : tpm_osap h t locality TPM_ET_SRK TPM_KH_SRK (some odd_osap)
      (some (List.replicate 4 0)) (some (List.replicate sizeof_nonce 0))
      (some (List.replicate sizeof_nonce 0)) s = some o)
    (hok : o.ret = TPM_SUCCESS)
    (hcap : CMD_HEAD_SIZE + (125 + u16_at pcr_info (0 + 4) + u16_at pcr_info (0 + 9)
      + in_data_size) ≤ o.s.cmd_buf.length)
    (hmax : CMD_HEAD_SIZE + (125 + u16_at pcr_info (0 + 4) + u16_at pcr_info (0 + 9)
      + in_data_size) ≤ h.TPM_CMD_SIZE_MAX)
    (h32 : h.TPM_CMD_SIZE_MAX < 2 ^ 32) :
    ∃ cb r1 res,
      tpm_write_cmd_fifo h t locality (some cb)
        (CMD_HEAD_SIZE + (125 + u16_at pcr_info (0 + 4) + u16_at pcr_info (0 + 9)
          + in_data_size))
        (some o.s.rsp_buf) (some (submit_rsp_size h (WRAPPER_OUT_MAX_SIZE h))) o.s.hw
        = some r1 ∧
      _tpm_wrap_seal h t sha1 odd_osap nonce_odd locality pcr_info in_data_size in_data
        (some sds) (some sd) s = some res ∧
      res.s.cmd_buf = cb ∧ (res.s.hw = r1.hw ∨ ∃ m, res.s.hw = printk m r1.hw) ∧
      be_at cb 0 2 = TPM_TAG_RQU_AUTH1_COMMAND ∧
      be_at cb CMD_SIZE_OFFSET 4
        = CMD_HEAD_SIZE + (125 + u16_at pcr_info (0 + 4) + u16_at pcr_info (0 + 9)
          + in_data_size) ∧
      be_at cb CMD_ORD_OFFSET 4 = TPM_ORD_SEAL ∧
      readBytes cb CMD_HEAD_SIZE
          (125 + u16_at pcr_info (0 + 4) + u16_at pcr_info (0 + 9) + in_data_size)
        = be_bytes 4 TPM_KH_SRK ++
          (seal_args (xor_auth sha1 (osap_secret sha1 (o.even_osap.getD []) odd_osap)
              (o.nonce_even.getD [])) pcr_info in_data_size in_data ++
          (be_bytes 4 (le_val (readBytes (o.hauth.getD []) 0 4)) ++
          (readBytes nonce_odd 0 sizeof_nonce ++ ([0] ++
          auth_code sha1 (osap_secret sha1 (o.even_osap.getD []) odd_osap) TPM_ORD_SEAL
            (seal_args (xor_auth sha1 (osap_secret sha1 (o.even_osap.getD []) odd_osap)
              (o.nonce_even.getD [])) pcr_info in_data_size in_data)
            (o.nonce_even.getD []) nonce_odd)))) := by
  obtain ⟨D, hD, heq⟩ := _tpm_wrap_seal_eq h t sha1 odd_osap nonce_odd locality pcr_info
    in_data_size in_data (some sds) (some sd) s o ho hok (by omega) (by
      have e10 : CMD_HEAD_SIZE = 10 := rfl
      rw [e10] at hmax
      omega)
  obtain ⟨cb, r1, res, g1, g2, g3, g4, _, g6, g7, g8, g9⟩ := _tpm_seal_command h t locality
    TPM_KH_SRK (xor_auth sha1 (osap_secret sha1 (o.even_osap.getD []) odd_osap)
      (o.nonce_even.getD [])) sizeof_pcr_info_long pcr_info in_data_size in_data
    (le_val (readBytes (o.hauth.getD []) 0 4)) nonce_odd [0]
    (auth_code sha1 (osap_secret sha1 (o.even_osap.getD []) odd_osap) TPM_ORD_SEAL
      (seal_args (xor_auth sha1 (osap_secret sha1 (o.even_osap.getD []) odd_osap)
        (o.nonce_even.getD [])) pcr_info in_data_size in_data) (o.nonce_even.getD []) nonce_odd)
    sds sd (o.nonce_even.getD []) (List.replicate sizeof_nonce 0) { o.s with cmd_buf := D }
    (by rw [hD]; exact hcap) hmax h32
  rw [g2] at heq
  refine ⟨cb, r1, _, g1, heq, g3, g4, g6, g7, g8, ?_⟩
  rw [g9]
  have e20 : sizeof_nonce = 20 := rfl
  have hcs : _reverse_copy (readBytes [0] 0 1) 1 = [0] := rfl
  rw [hcs, e20, readBytes_of_length _ 20 (length_xor_auth _ _ _),
    readBytes_of_length (auth_code _ _ _ _ _ _) 20 (length_hmac _ _ _)]
  unfold seal_args
  simp only [List.append_assoc]

/-- C22: for every Seal request that `_tpm_wrap_seal` submits after a successful
OSAP (results `hauth`, `nonce_even`, `even_osap`; locals `odd_osap`,
`nonce_odd`), the command handed to the transfer has the tag 0x00C2 and the
ordinal 0x17 and consists, after the header, of the key handle, the argument
bytes `args` (encAuth, `pcr_info_size`, the serialised PCR-info-long,
`in_data_size`, `in_data`), the session handle, `nonce_odd`, the
continue-session byte 0 and the authorization code
hmac(S, SHA1(ordinal 0x17 big-endian ‖ args) ‖ nonce_even ‖ nonce_odd ‖ 0x00),
where S = hmac(twenty zero bytes, even_osap ‖ odd_osap). -/
theorem _tpm_wrap_seal_auth_code {σ : Type} (h : TpmH) (t : Tpm σ)
    (sha1 : List Nat → List Nat) (odd_osap nonce_odd : List Nat) (locality : Nat)
    (pcr_info : List Nat) (in_data_size : Nat) (in_data : List Nat) (sds : Nat)
    (sd : List Nat) (s : St σ) (o : OsapRes σ)
    (ho : tpm_osap h t locality TPM_ET_SRK TPM_KH_SRK (some odd_osap)
      (some (List.replicate 4 0)) (some (List.replicate sizeof_nonce 0))
      (some (List.replicate sizeof_nonce 0)) s = some o)
    (hok : o.ret = TPM_SUCCESS)
    (hcap : CMD_HEAD_SIZE + (125 + u16_at pcr_info (0 + 4) + u16_at pcr_info (0 + 9)
      + in_data_size) ≤ o.s.cmd_buf.length)
    (hmax : CMD_HEAD_SIZE + (125 + u16_at pcr_info (0 + 4) + u16_at pcr_info (0 + 9)
      + in_data_size) ≤ h.TPM_CMD_SIZE_MAX)
    (h32 : h.TPM_CMD_SIZE_MAX < 2 ^ 32) :
    ∃ cb r1 res args,
      tpm_write_cmd_fifo h t locality (some cb)
        (CMD_HEAD_SIZE + (125 + u16_at pcr_info (0 + 4) + u16_at pcr_info (0 + 9)
          + in_data_size))
        (some o.s.rsp_buf) (some (submit_rsp_size h (WRAPPER_OUT_MAX_SIZE h))) o.s.hw
        = some r1 ∧
      _tpm_wrap_seal h t sha1 odd_osap nonce_odd locality pcr_info in_data_size in_data
        (some sds) (some sd) s = some res ∧
      res.s.cmd_buf = cb ∧ (res.s.hw = r1.hw ∨ ∃ m, res.s.hw = printk m r1.hw) ∧
      be_at cb 0 2 = 0x00C2 ∧ be_at cb CMD_ORD_OFFSET 4 = 0x17 ∧
      args.length = 76 + u16_at pcr_info (0 + 4) + u16_at pcr_info (0 + 9) + in_data_size ∧
      args.drop 20 = be_bytes 4 sizeof_pcr_info_long ++ wire_pcr_info_long pcr_info 0 ++
        be_bytes 4 in_data_size ++ readBytes in_data 0 in_data_size ∧
      readBytes cb CMD_HEAD_SIZE
          (125 + u16_at pcr_info (0 + 4) + u16_at pcr_info (0 + 9) + in_data_size)
        = be_bytes 4 TPM_KH_SRK ++ (args ++
          (be_bytes 4 (le_val (readBytes (o.hauth.getD []) 0 4)) ++
          (readBytes nonce_odd 0 20 ++ ([0] ++
          (hmac sha1
            (hmac sha1 (List.replicate 20 0)
              (readBytes (o.even_osap.getD []) 0 20 ++ readBytes odd_osap 0 20)).2
            (sha1_buffer sha1 (be_bytes 4 0x17 ++ args) ++
              readBytes (o.nonce_even.getD []) 0 20 ++ readBytes nonce_odd 0 20 ++ [0])).2)))) := by
  obtain ⟨cb, r1, res, g1, g2, g3, g4, g5, _, g7, g8⟩ := _tpm_wrap_seal_command h t sha1
    odd_osap nonce_odd locality pcr_info in_data_size in_data sds sd s o ho hok hcap hmax h32
  refine ⟨cb, r1, res, _, g1, g2, g3, g4, g5, g7, ?_, ?_, g8⟩
  · rw [length_seal_args, length_xor_auth]
  · unfold seal_args
    simp only [List.append_assoc]
    rw [List.drop_append_of_le_length (by rw [length_xor_auth]),
      List.drop_of_length_le (by rw [length_xor_auth]), List.nil_append]

/-- C23: for every Seal request that `_tpm_wrap_seal` submits after a successful
OSAP, byte `i` (0..19) of the encrypted auth value in the command (positions
14..33, after the key handle) is `blob_authdata[i] xor SHA1(S ‖ nonce_even)[i]`,
with S = hmac(srk_authdata, even_osap ‖ odd_osap) the shared secret and
`nonce_even` the module nonce returned by OSAP: each byte is XORed with its pad
byte once. -/
theorem _tpm_wrap_seal_enc_auth {σ : Type} (h : TpmH) (t : Tpm σ)
    (sha1 : List Nat → List Nat) (odd_osap nonce_odd : List Nat) (locality : Nat)
    (pcr_info : List Nat) (in_data_size : Nat) (in_data : List Nat) (sds : Nat)
    (sd : List Nat) (s : St σ) (o : OsapRes σ)
    (ho : tpm_osap h t locality TPM_ET_SRK TPM_KH_SRK (some odd_osap)
      (some (List.replicate 4 0)) (some (List.replicate sizeof_nonce 0))
      (some (List.replicate sizeof_nonce 0)) s = some o)
    (hok : o.ret = TPM_SUCCESS)
    (hcap : CMD_HEAD_SIZE + (125 + u16_at pcr_info (0 + 4) + u16_at pcr_info (0 + 9)
      + in_data_size) ≤ o.s.cmd_buf.length)
    (hmax : CMD_HEAD_SIZE + (125 + u16_at pcr_info (0 + 4) + u16_at pcr_info (0 + 9)
      + in_data_size) ≤ h.TPM_CMD_SIZE_MAX)
    (h32 : h.TPM_CMD_SIZE_MAX < 2 ^ 32) :
    ∃ cb r1 res,
      tpm_write_cmd_fifo h t locality (some cb)
        (CMD_HEAD_SIZE + (125 + u16_at pcr_info (0 + 4) + u16_at pcr_info (0 + 9)
          + in_data_size))
        (some o.s.rsp_buf) (some (submit_rsp_size h (WRAPPER_OUT_MAX_SIZE h))) o.s.hw
        = some r1 ∧
      _tpm_wrap_seal h t sha1 odd_osap nonce_odd locality pcr_info in_data_size in_data
        (some sds) (some sd) s = some res ∧
      res.s.cmd_buf = cb ∧ (res.s.hw = r1.hw ∨ ∃ m, res.s.hw = printk m r1.hw) ∧
      be_at cb CMD_ORD_OFFSET 4 = TPM_ORD_SEAL ∧
      ∀ i, i < 20 →
        rd cb (CMD_HEAD_SIZE + 4 + i)
          = (rd blob_authdata i ^^^
              rd (sha1_buffer sha1
                ((hmac sha1 srk_authdata
                    (readBytes (o.even_osap.getD []) 0 20 ++ readBytes odd_osap 0 20)).2 ++
                  readBytes (o.nonce_even.getD []) 0 20)) i) % 256 := by
  obtain ⟨cb, r1, res, g1, g2, g3, g4, _, _, g7, g8⟩ := _tpm_wrap_seal_command h t sha1
    odd_osap nonce_odd locality pcr_info in_data_size in_data sds sd s o ho hok hcap hmax h32
  refine ⟨cb, r1, res, g1, g2, g3, g4, g7, ?_⟩
  intro i hi
  have e := congrArg (fun l => rd l (4 + i)) g8
  dsimp only at e
  rw [rd_readBytes, if_pos (by omega), rd_append, length_be_bytes, if_neg (by omega)] at e
  unfold seal_args at e
  simp only [List.append_assoc] at e
  rw [rd_append, length_xor_auth, if_pos (by omega)] at e
  rw [show CMD_HEAD_SIZE + 4 + i = CMD_HEAD_SIZE + (4 + i) by omega, e,
    show 4 + i - 4 = i by omega]
  unfold xor_auth
  rw [rd_map_range, if_pos (by exact hi)]
  rfl

/-- The Unseal command that `_tpm_unseal` hands to the transfer: header with the
two-auth-block tag, then the serialised arguments. -/
theorem _tpm_unseal_command {σ : Type} (h : TpmH) (t : Tpm σ) (locality hkey : Nat)
    (ind : List Nat) (hauth : Nat) (no cs au : List Nat) (hauth_d : Nat)
    (nod csd aud : List Nat) (ssz : Nat) (sec ne ra ned rad : List Nat) (s : St σ)
    (hcap : CMD_HEAD_SIZE + (94 + (wire_stored_data12 ind).length) ≤ s.cmd_buf.length)
    (hmax : CMD_HEAD_SIZE + (94 + (wire_stored_data12 ind).length) ≤ h.TPM_CMD_SIZE_MAX)
    (h32 : h.TPM_CMD_SIZE_MAX < 2 ^ 32) :
    ∃ cb r1 res,
      tpm_write_cmd_fifo h t locality (some cb)
        (CMD_HEAD_SIZE + (94 + (wire_stored_data12 ind).length))
        (some s.rsp_buf) (some (submit_rsp_size h (WRAPPER_OUT_MAX_SIZE h))) s.hw = some r1 ∧
      _tpm_unseal h t locality hkey (some ind) hauth (some no) (some cs) (some au) hauth_d
        (some nod) (some csd) (some aud) (some ssz) (some sec) (some ne) (some ra) (some ned)
        (some rad) s = some res ∧
      res.s.cmd_buf = cb ∧ (res.s.hw = r1.hw ∨ ∃ m, res.s.hw = printk m r1.hw) ∧
      be_at cb 0 2 = TPM_TAG_RQU_AUTH2_COMMAND ∧
      be_at cb CMD_SIZE_OFFSET 4 = CMD_HEAD_SIZE + (94 + (wire_stored_data12 ind).length) ∧
      be_at cb CMD_ORD_OFFSET 4 = TPM_ORD_UNSEAL ∧
      readBytes cb CMD_HEAD_SIZE (94 + (wire_stored_data12 ind).length)
        = be_bytes 4 hkey ++ wire_stored_data12 ind ++ be_bytes 4 hauth ++
          readBytes no 0 sizeof_nonce ++ _reverse_copy (readBytes cs 0 1) 1 ++
          readBytes au 0 sizeof_nonce ++ be_bytes 4 hauth_d ++ readBytes nod 0 sizeof_nonce ++
          _reverse_copy (readBytes csd 0 1) 1 ++ readBytes aud 0 sizeof_nonce := by
  have e20 : sizeof_nonce = 20 := rfl
  have e10 : CMD_HEAD_SIZE = 10 := rfl
  rw [e10] at hcap hmax
  generalize hL : s.cmd_buf.length = L at hcap
  generalize hW : wire_stored_data12 ind = W at hcap hmax ⊢
  have i1 := img_UNLOAD_INTEGER_le CMD_HEAD_SIZE 4 hkey ⟨s.cmd_buf, 0⟩ [] L
    (hL ▸ img_nil s.cmd_buf CMD_HEAD_SIZE) (by rw [e10]; simp only [List.length_nil]; omega)
    (by simp only [List.length_nil]; omega)
  rw [List.nil_append] at i1
  have i2 := img_UNLOAD_STORED_DATA12 CMD_HEAD_SIZE ind _ _ L i1
    (by rw [e10, length_be_bytes, hW]; omega) (by rw [length_be_bytes, hW]; omega)
  rw [hW] at i2
  have i3 := img_UNLOAD_INTEGER_le CMD_HEAD_SIZE 4 hauth _ _ L i2
    (by rw [e10]; simp only [List.length_append, length_be_bytes]; omega)
    (by simp only [List.length_append, length_be_bytes]; omega)
  have i4 := img_UNLOAD_BLOB_rb CMD_HEAD_SIZE no 0 sizeof_nonce _ _ L i3
    (by rw [e10]; simp only [List.length_append, length_be_bytes, e20]; omega)
    (by simp only [List.length_append, length_be_bytes, e20]; omega)
  have i5 := img_UNLOAD_INTEGER_rb CMD_HEAD_SIZE cs 0 1 _ _ L i4
    (by rw [e10]; simp only [List.length_append, length_be_bytes, length_readBytes, e20]; omega)
    (by simp only [List.length_append, length_be_bytes, length_readBytes, e20]; omega)
  have i6 := img_UNLOAD_BLOB_rb CMD_HEAD_SIZE au 0 sizeof_nonce _ _ L i5
    (by rw [e10]; simp only [List.length_append, length_be_bytes, length_readBytes, e20,
      length_reverse_copy]; omega)
    (by simp only [List.length_append, length_be_bytes, length_readBytes, e20,
      length_reverse_copy]; omega)
  have i7 := img_UNLOAD_INTEGER_le CMD_HEAD_SIZE 4 hauth_d _ _ L i6
    (by rw [e10]; simp only [List.length_append, length_be_bytes, length_readBytes, e20,
      length_reverse_copy]; omega)
    (by simp only [List.length_append, length_be_bytes, length_readBytes, e20,
      length_reverse_copy]; omega)
  have i8 := img_UNLOAD_BLOB_rb CMD_HEAD_SIZE nod 0 sizeof_nonce _ _ L i7
    (by rw [e10]; simp only [List.length_append, length_be_bytes, length_readBytes, e20,
      length_reverse_copy]; omega)
    (by simp only [List.length_append, length_be_bytes, length_readBytes, e20,
      length_reverse_copy]; omega)
  have i9 := img_UNLOAD_INTEGER_rb CMD_HEAD_SIZE csd 0 1 _ _ L i8
    (by rw [e10]; simp only [List.length_append, length_be_bytes, length_readBytes, e20,
      length_reverse_copy]; omega)
    (by simp only [List.length_append, length_be_bytes, length_readBytes, e20,
      length_reverse_copy]; omega)
  have i10 := img_UNLOAD_BLOB_rb CMD_HEAD_SIZE aud 0 sizeof_nonce _ _ L i9
    (by rw [e10]; simp only [List.length_append, length_be_bytes, length_readBytes, e20,
      length_reverse_copy]; omega)
    (by simp only [List.length_append, length_be_bytes, length_readBytes, e20,
      length_reverse_copy]; omega)
  unfold _tpm_unseal
  dsimp only
  generalize hX : be_bytes 4 hkey ++ W ++ be_bytes 4 hauth ++
      readBytes no 0 sizeof_nonce ++ _reverse_copy (readBytes cs 0 1) 1 ++
      readBytes au 0 sizeof_nonce ++ be_bytes 4 hauth_d ++ readBytes nod 0 sizeof_nonce ++
      _reverse_copy (readBytes csd 0 1) 1 ++ readBytes aud 0 sizeof_nonce = X at i10 ⊢
  have hXl : X.length = 94 + W.length := by
    rw [← hX]
    simp only [List.length_append, length_be_bytes, length_readBytes, e20, length_reverse_copy]
    omega
  generalize UNLOAD_BLOB CMD_HEAD_SIZE (readBytes aud 0 sizeof_nonce)
    (UNLOAD_INTEGER CMD_HEAD_SIZE (readBytes csd 0 1)
    (UNLOAD_BLOB CMD_HEAD_SIZE (readBytes nod 0 sizeof_nonce)
    (UNLOAD_INTEGER CMD_HEAD_SIZE (le_bytes 4 hauth_d)
    (UNLOAD_BLOB CMD_HEAD_SIZE (readBytes au 0 sizeof_nonce)
    (UNLOAD_INTEGER CMD_HEAD_SIZE (readBytes cs 0 1)
    (UNLOAD_BLOB CMD_HEAD_SIZE (readBytes no 0 sizeof_nonce)
    (UNLOAD_INTEGER CMD_HEAD_SIZE (le_bytes 4 hauth)
    (UNLOAD_STORED_DATA12 CMD_HEAD_SIZE ind
    (UNLOAD_INTEGER CMD_HEAD_SIZE (le_bytes 4 hkey) ⟨s.cmd_buf, 0⟩))))))))) = cur at i10 ⊢
  obtain ⟨io, il, ir⟩ := i10
  rw [hXl] at io ir
  rw [io]
  generalize hN : 94 + W.length = N at hcap hmax ir ⊢
  unfold tpm_submit_cmd_auth2
  have hu : u32 (CMD_HEAD_SIZE + N) = CMD_HEAD_SIZE + N := u32_of_lt _ (by rw [e10]; omega)
  obtain ⟨r1, osz1, h1, h2, _⟩ := _tpm_submit_cmd_transfer h t locality
    TPM_TAG_RQU_AUTH2_COMMAND TPM_ORD_UNSEAL N (WRAPPER_OUT_MAX_SIZE h)
    { s with cmd_buf := cur.mem } (by rw [hu, e10]; exact hmax)
  rw [hu] at h1
  rw [h2]
  dsimp only at h1 ⊢
  obtain ⟨b1, b2, b3, b4, b5⟩ := submit_cmd_buf_spec cur.mem TPM_TAG_RQU_AUTH2_COMMAND
    TPM_ORD_UNSEAL N (by rw [e10]; omega) (by decide) (by decide) (by rw [e10, il]; omega)
  have hfin : readBytes (submit_cmd_buf cur.mem TPM_TAG_RQU_AUTH2_COMMAND TPM_ORD_UNSEAL N)
        CMD_HEAD_SIZE N = X := by
    rw [b4 _ _ (Nat.le_refl _)]
    exact ir
  split_ifs
  · exact ⟨_, r1, _, h1, rfl, rfl, Or.inr ⟨_, rfl⟩, b1, b2, b3, hfin⟩
  · exact ⟨_, r1, _, h1, rfl, rfl, Or.inr ⟨_, rfl⟩, b1, b2, b3, hfin⟩
  · exact ⟨_, r1, _, h1, rfl, rfl, Or.inl rfl, b1, b2, b3, hfin⟩

/-- After a successful OSAP and a successful OIAP, `_tpm_wrap_unseal` is the call
of `_tpm_unseal` with the two authorization codes computed from the results of
the two sessions. -/
theorem _tpm_wrap_unseal_eq {σ : Type} (h : TpmH) (t : Tpm σ) (sha1 : List Nat → List Nat)
    (stack : UnsealStack) (locality : Nat) (in_data : List Nat) (secret_size : Option Nat)
    (secret : Option (List Nat)) (s : St σ) (o : OsapRes σ) (p : OiapRes σ)
    (ho : tpm_osap h t locality TPM_ET_SRK TPM_KH_SRK (some stack.odd_osap)
      (some (List.replicate 4 0)) (some (List.replicate sizeof_nonce 0))
      (some (List.replicate sizeof_nonce 0)) s = some o)
    (hok : o.ret = TPM_SUCCESS)
    (hp : tpm_oiap h t locality (some (List.replicate 4 0))
      (some (List.replicate sizeof_nonce 0))
      { o.s with cmd_buf := (osap_secret_cur o stack.odd_osap).mem } = some p)
    (hpok : p.ret = TPM_SUCCESS)
    (hcapo : CMD_HEAD_SIZE + 40 ≤ o.s.cmd_buf.length)
    (hcap : CMD_HEAD_SIZE + (61 + (wire_stored_data12 in_data).length) ≤ p.s.cmd_buf.length)
    (h32 : 61 + (wire_stored_data12 in_data).length < 2 ^ 32) :
    ∃ D, D.length = p.s.cmd_buf.length ∧
      _tpm_wrap_unseal h t sha1 stack locality in_data secret_size secret s
        = match _tpm_unseal h t locality TPM_KH_SRK (some in_data)
            (le_val (readBytes (o.hauth.getD []) 0 4)) (some stack.nonce_odd) (some [0])
            (some (auth_code sha1 (osap_secret sha1 (o.even_osap.getD []) stack.odd_osap)
              TPM_ORD_UNSEAL (wire_stored_data12 in_data) (o.nonce_even.getD [])
              stack.nonce_odd))
            (le_val (readBytes (p.hauth.getD []) 0 4)) (some stack.nonce_odd_d) (some [0])
            (some (auth_code sha1 blob_authdata TPM_ORD_UNSEAL (wire_stored_data12 in_data)
              (p.nonce_even.getD []) stack.nonce_odd_d))
            secret_size secret (some (o.nonce_even.getD []))
            (some (List.replicate sizeof_nonce 0)) (some (p.nonce_even.getD []))
            (some (List.replicate sizeof_nonce 0)) { p.s with cmd_buf := D } with
          | none => none
          | some r => some ⟨r.ret, r.secret_size, r.secret, r.s⟩ := by
  have e20 : sizeof_nonce = 20 := rfl
  have ed : TPM_DIGEST_SIZE = 20 := rfl
  have e10 : CMD_HEAD_SIZE = 10 := rfl
  rw [e10] at hcap hcapo
  unfold osap_secret_cur at hp
  unfold _tpm_wrap_unseal
  dsimp only
  rw [ho]
  dsimp only
  rw [if_neg (not_not.mpr hok), hp]
  dsimp only
  rw [if_neg (not_not.mpr hpok)]
  generalize hLo : o.s.cmd_buf.length = Lo at hcapo
  generalize hL : p.s.cmd_buf.length = L at hcap
  generalize hW : wire_stored_data12 in_data = W at hcap h32 ⊢
  -- the shared secret
  have ha := img_UNLOAD_BLOB_rb CMD_HEAD_SIZE stack.odd_osap 0 sizeof_nonce _ _ Lo
    (img_UNLOAD_BLOB_rb CMD_HEAD_SIZE (o.even_osap.getD []) 0 sizeof_nonce ⟨o.s.cmd_buf, 0⟩ [] Lo
      (hLo ▸ img_nil o.s.cmd_buf CMD_HEAD_SIZE)
      (by rw [e10, e20]; simp only [List.length_nil]; omega)
      (by rw [e20]; simp only [List.length_nil]; omega))
    (by rw [e10, e20]; simp only [List.nil_append, length_readBytes]; omega)
    (by rw [e20]; simp only [List.nil_append, length_readBytes]; omega)
  rw [List.nil_append] at ha
  rw [img_read _ _ _ _ ha]
  have hS : (hmac sha1 srk_authdata (readBytes (o.even_osap.getD []) 0 sizeof_nonce ++
      readBytes stack.odd_osap 0 sizeof_nonce)).2
      = osap_secret sha1 (o.even_osap.getD []) stack.odd_osap := rfl
  rw [hS]
  generalize osap_secret sha1 (o.even_osap.getD []) stack.odd_osap = S
  -- the request digest
  have hb1 := img_UNLOAD_INTEGER_le CMD_HEAD_SIZE 4 TPM_ORD_UNSEAL ⟨p.s.cmd_buf, 0⟩ [] L
    (hL ▸ img_nil p.s.cmd_buf CMD_HEAD_SIZE) (by rw [e10]; simp only [List.length_nil]; omega)
    (by simp only [List.length_nil]; omega)
  rw [List.nil_append] at hb1
  have hb2 := img_UNLOAD_STORED_DATA12 CMD_HEAD_SIZE in_data _ _ L hb1
    (by rw [e10, length_be_bytes, hW]; omega) (by rw [length_be_bytes, hW]; omega)
  rw [hW] at hb2
  rw [img_read _ _ _ _ hb2]
  have hbl := hb2.2.1
  generalize (UNLOAD_STORED_DATA12 CMD_HEAD_SIZE in_data
    (UNLOAD_INTEGER CMD_HEAD_SIZE (le_bytes 4 TPM_ORD_UNSEAL) ⟨p.s.cmd_buf, 0⟩)).mem = bm at hbl
  rw [ed, e20, readBytes_of_length _ 20 (length_sha1_buffer _ _)]
  generalize hGdef : sha1_buffer sha1 (be_bytes 4 TPM_ORD_UNSEAL ++ W) = G
  have hGl : G.length = 20 := by rw [← hGdef]; exact length_sha1_buffer _ _
  -- the first authorization code
  have hc1 := img_UNLOAD_BLOB CMD_HEAD_SIZE G ⟨bm, 0⟩ [] L (hbl ▸ img_nil bm CMD_HEAD_SIZE)
    (by rw [e10, hGl]; simp only [List.length_nil]; omega)
    (by rw [hGl]; simp only [List.length_nil]; omega)
  rw [List.nil_append] at hc1
  have hc2 := img_UNLOAD_BLOB_rb CMD_HEAD_SIZE (o.nonce_even.getD []) 0 20 _ _ L hc1
    (by rw [e10, hGl]; omega) (by rw [hGl]; omega)
  have hc3 := img_UNLOAD_BLOB_rb CMD_HEAD_SIZE stack.nonce_odd 0 20 _ _ L hc2
    (by rw [e10, List.length_append, length_readBytes, hGl]; omega)
    (by rw [List.length_append, length_readBytes, hGl]; omega)
  have hc4 := img_UNLOAD_INTEGER_rb CMD_HEAD_SIZE [0] 0 1 _ _ L hc3
    (by rw [e10]; simp only [List.length_append, length_readBytes, hGl]; omega)
    (by simp only [List.length_append, length_readBytes, hGl]; omega)
  rw [img_read _ _ _ _ hc4]
  have hcl := hc4.2.1
  generalize (UNLOAD_INTEGER CMD_HEAD_SIZE (readBytes [0] 0 1)
    (UNLOAD_BLOB CMD_HEAD_SIZE (readBytes stack.nonce_odd 0 20)
      (UNLOAD_BLOB CMD_HEAD_SIZE (readBytes (o.nonce_even.getD []) 0 20)
        (UNLOAD_BLOB CMD_HEAD_SIZE G ⟨bm, 0⟩)))).mem = cm at hcl
  -- the second authorization code
  have hd1 := img_UNLOAD_BLOB CMD_HEAD_SIZE G ⟨cm, 0⟩ [] L (hcl ▸ img_nil cm CMD_HEAD_SIZE)
    (by rw [e10, hGl]; simp only [List.length_nil]; omega)
    (by rw [hGl]; simp only [List.length_nil]; omega)
  rw [List.nil_append] at hd1
  have hd2 := img_UNLOAD_BLOB_rb CMD_HEAD_SIZE (p.nonce_even.getD []) 0 20 _ _ L hd1
    (by rw [e10, hGl]; omega) (by rw [hGl]; omega)
  have hd3 := img_UNLOAD_BLOB_rb CMD_HEAD_SIZE stack.nonce_odd_d 0 20 _ _ L hd2
    (by rw [e10, List.length_append, length_readBytes, hGl]; omega)
    (by rw [List.length_append, length_readBytes, hGl]; omega)
  have hd4 := img_UNLOAD_INTEGER_rb CMD_HEAD_SIZE [0] 0 1 _ _ L hd3
    (by rw [e10]; simp only [List.length_append, length_readBytes, hGl]; omega)
    (by simp only [List.length_append, length_readBytes, hGl]; omega)
  rw [img_read _ _ _ _ hd4]
  have hdl := hd4.2.1
  have hcs : _reverse_copy (readBytes [0] 0 1) 1 = [0] := rfl
  rw [hcs]
  have hpa : ∀ key ne no, (hmac sha1 key (G ++ readBytes ne 0 20 ++ readBytes no 0 20 ++ [0])).2
      = auth_code sha1 key TPM_ORD_UNSEAL W ne no := by
    intro key ne no
    unfold auth_code
    rw [hGdef, e20]
  rw [hpa, hpa]
  exact ⟨_, hdl, rfl⟩

/-- The Unseal command of `_tpm_wrap_unseal` after a successful OSAP and a
successful OIAP, byte by byte. -/
theorem _tpm_wrap_unseal_command {σ : Type} (h : TpmH) (t : Tpm σ)
    (sha1 : List Nat → List Nat) (stack : UnsealStack) (locality : Nat) (in_data : List Nat)
    (ssz : Nat) (sec : List Nat) (s : St σ) (o : OsapRes σ) (p : OiapRes σ)
    (ho : tpm_osap h t locality TPM_ET_SRK TPM_KH_SRK (some stack.odd_osap)
      (some (List.replicate 4 0)) (some (List.replicate sizeof_nonce 0))
      (some (List.replicate sizeof_nonce 0)) s = some o)
    (hok : o.ret = TPM_SUCCESS)
    (hp : tpm_oiap h t locality (some (List.replicate 4 0))
      (some (List.replicate sizeof_nonce 0))
      { o.s with cmd_buf := (osap_secret_cur o stack.odd_osap).mem } = some p)
    (hpok : p.ret = TPM_SUCCESS)
    (hcapo : CMD_HEAD_SIZE + 40 ≤ o.s.cmd_buf.length)
    (hcap : CMD_HEAD_SIZE + (94 + (wire_stored_data12 in_data).length) ≤ p.s.cmd_buf.length)
    (hmax : CMD_HEAD_SIZE + (94 + (wire_stored_data12 in_data).length) ≤ h.TPM_CMD_SIZE_MAX)
    (h32 : h.TPM_CMD_SIZE_MAX < 2 ^ 32) :
    ∃ cb r1 res,
      tpm_write_cmd_fifo h t locality (some cb)
        (CMD_HEAD_SIZE + (94 + (wire_stored_data12 in_data).length))
        (some p.s.rsp_buf) (some (submit_rsp_size h (WRAPPER_OUT_MAX_SIZE h))) p.s.hw
        = some r1 ∧
      _tpm_wrap_unseal h t sha1 stack locality in_data (some ssz) (some sec) s = some res ∧
      res.s.cmd_buf = cb ∧ (res.s.hw = r1.hw ∨ ∃ m, res.s.hw = printk m r1.hw) ∧
      be_at cb 0 2 = TPM_TAG_RQU_AUTH2_COMMAND ∧
      be_at cb CMD_SIZE_OFFSET 4 = CMD_HEAD_SIZE + (94 + (wire_stored_data12 in_data).length) ∧
      be_at cb CMD_ORD_OFFSET 4 = TPM_ORD_UNSEAL ∧
      readBytes cb CMD_HEAD_SIZE (94 + (wire_stored_data12 in_data).length)
        = be_bytes 4 TPM_KH_SRK ++ (wire_stored_data12 in_data ++
          (be_bytes 4 (le_val (readBytes (o.hauth.getD []) 0 4)) ++
          (readBytes stack.nonce_odd 0 sizeof_nonce ++ ([0] ++
          (auth_code sha1 (osap_secret sha1 (o.even_osap.getD []) stack.odd_osap)
            TPM_ORD_UNSEAL (wire_stored_data12 in_data) (o.nonce_even.getD [])
            stack.nonce_odd ++
          (be_bytes 4 (le_val (readBytes (p.hauth.getD []) 0 4)) ++
          (readBytes stack.nonce_odd_d 0 sizeof_nonce ++ ([0] ++
          auth_code sha1 blob_authdata TPM_ORD_UNSEAL (wire_stored_data12 in_data)
            (p.nonce_even.getD []) stack.nonce_odd_d)))))))) := by
  have e10 : CMD_HEAD_SIZE = 10 := rfl
  obtain ⟨D, hD, heq⟩ := _tpm_wrap_unseal_eq h t sha1 stack locality in_data (some ssz)
    (some sec) s o p ho hok hp hpok hcapo (by omega) (by rw [e10] at hmax; omega)
  obtain ⟨cb, r1, res, g1, g2, g3, g4, g6, g7, g8, g9⟩ := _tpm_unseal_command h t locality
    TPM_KH_SRK in_data (le_val (readBytes (o.hauth.getD []) 0 4)) stack.nonce_odd [0]
    (auth_code sha1 (osap_secret sha1 (o.even_osap.getD []) stack.odd_osap)
      TPM_ORD_UNSEAL (wire_stored_data12 in_data) (o.nonce_even.getD []) stack.nonce_odd)
    (le_val (readBytes (p.hauth.getD []) 0 4)) stack.nonce_odd_d [0]
    (auth_code sha1 blob_authdata TPM_ORD_UNSEAL (wire_stored_data12 in_data)
      (p.nonce_even.getD []) stack.nonce_odd_d)
    ssz sec (o.nonce_even.getD []) (List.replicate sizeof_nonce 0) (p.nonce_even.getD [])
    (List.replicate sizeof_nonce 0) { p.s with cmd_buf := D }
    (by rw [hD]; exact hcap) hmax h32
  rw [g2] at heq
  refine ⟨cb, r1, _, g1, heq, g3, g4, g6, g7, g8, ?_⟩
  rw [g9]
  have e20 : sizeof_nonce = 20 := rfl
  have hcs : _reverse_copy (readBytes [0] 0 1) 1 = [0] := rfl
  rw [hcs, e20, readBytes_of_length (auth_code _ _ _ _ _ _) 20 (length_hmac _ _ _),
    readBytes_of_length (auth_code _ _ _ _ _ _) 20 (length_hmac _ _ _)]
  simp only [List.append_assoc]

/-! ### A run of the two session commands on the scripted module -/

set_option maxRecDepth 100000 in
/-- The two session commands on the scripted module succeed; OSAP returns the
scripted `even_osap`; the static buffers keep their sizes. -/
theorem sim_sessions_run :
    decide (sim_o.ret = TPM_SUCCESS ∧ sim_o.s.cmd_buf.length = 768 ∧
      sim_o.even_osap = some (List.replicate 20 0x22) ∧
      sim_p.ret = TPM_SUCCESS ∧ sim_p.s.cmd_buf.length = 768) = true := by
  decide

theorem getD_some_of {α : Type} (run : Option α) (d : α) (P : α → Prop) (hd : ¬ P d)
    (h : P (run.getD d)) : run = some (run.getD d) := by
  cases run with
  | none => exact absurd h hd
  | some r => rfl

theorem sim_sessions_facts :
    tpm_osap tpm_h sim 0 TPM_ET_SRK TPM_KH_SRK (some stack_1.odd_osap)
      (some (List.replicate 4 0)) (some (List.replicate sizeof_nonce 0))
      (some (List.replicate sizeof_nonce 0)) (sim_st_full [osap_rsp_1, oiap_rsp_1])
      = some sim_o ∧
    sim_o.ret = TPM_SUCCESS ∧ sim_o.s.cmd_buf.length = 768 ∧
    sim_o.even_osap = some (List.replicate 20 0x22) ∧
    tpm_oiap tpm_h sim 0 (some (List.replicate 4 0)) (some (List.replicate sizeof_nonce 0))
      { sim_o.s with cmd_buf := (osap_secret_cur sim_o stack_1.odd_osap).mem } = some sim_p ∧
    sim_p.ret = TPM_SUCCESS ∧ sim_p.s.cmd_buf.length = 768 := by
  obtain ⟨h1, h2, h3, h4, h5⟩ := of_decide_eq_true sim_sessions_run
  refine ⟨?_, h1, h2, h3, ?_, h4, h5⟩
  · exact getD_some_of (tpm_osap tpm_h sim 0 TPM_ET_SRK TPM_KH_SRK (some stack_1.odd_osap)
      (some (List.replicate 4 0)) (some (List.replicate sizeof_nonce 0))
      (some (List.replicate sizeof_nonce 0)) (sim_st_full [osap_rsp_1, oiap_rsp_1]))
      ⟨1, none, none, none, sim_st_full []⟩ (fun r => r.ret = TPM_SUCCESS)
      (fun hh => by cases hh) h1
  · exact getD_some_of (tpm_oiap tpm_h sim 0 (some (List.replicate 4 0))
      (some (List.replicate sizeof_nonce 0))
      { sim_o.s with cmd_buf := (osap_secret_cur sim_o stack_1.odd_osap).mem })
      ⟨1, none, none, sim_st_full []⟩ (fun r => r.ret = TPM_SUCCESS)
      (fun hh => by cases hh) h4

/-- C24: for every Unseal request that `_tpm_wrap_unseal` submits after a
successful OSAP and a successful OIAP, the command handed to the transfer has
the two-auth-block tag 0x00C3 and the ordinal 0x18 and consists, after the
header, of the key handle, the serialised sealed blob, the OSAP session handle,
`nonce_odd`, the continue-session byte 0, the first authorization code
hmac(hmac(twenty zero bytes, even_osap ‖ odd_osap), D ‖ nonce_even ‖ nonce_odd ‖
0x00), the OIAP session handle, `nonce_odd_d`, the byte 0 and the second
authorization code hmac(twenty zero bytes, D ‖ nonce_even_d ‖ nonce_odd_d ‖
0x00), where D = SHA1(ordinal 0x18 big-endian ‖ the serialised blob) is the same
digest in both codes. -/
theorem _tpm_wrap_unseal_auth_codes {σ : Type} (h : TpmH) (t : Tpm σ)
    (sha1 : List Nat → List Nat) (stack : UnsealStack) (locality : Nat) (in_data : List Nat)
    (ssz : Nat) (sec : List Nat) (s : St σ) (o : OsapRes σ) (p : OiapRes σ)
    (ho : tpm_osap h t locality TPM_ET_SRK TPM_KH_SRK (some stack.odd_osap)
      (some (List.replicate 4 0)) (some (List.replicate sizeof_nonce 0))
      (some (List.replicate sizeof_nonce 0)) s = some o)
    (hok : o.ret = TPM_SUCCESS)
    (hp : tpm_oiap h t locality (some (List.replicate 4 0))
      (some (List.replicate sizeof_nonce 0))
      { o.s with cmd_buf := (osap_secret_cur o stack.odd_osap).mem } = some p)
    (hpok : p.ret = TPM_SUCCESS)
    (hcapo : CMD_HEAD_SIZE + 40 ≤ o.s.cmd_buf.length)
    (hcap : CMD_HEAD_SIZE + (94 + (wire_stored_data12 in_data).length) ≤ p.s.cmd_buf.length)
    (hmax : CMD_HEAD_SIZE + (94 + (wire_stored_data12 in_data).length) ≤ h.TPM_CMD_SIZE_MAX)
    (h32 : h.TPM_CMD_SIZE_MAX < 2 ^ 32) :
    ∃ cb r1 res D,
      tpm_write_cmd_fifo h t locality (some cb)
        (CMD_HEAD_SIZE + (94 + (wire_stored_data12 in_data).length))
        (some p.s.rsp_buf) (some (submit_rsp_size h (WRAPPER_OUT_MAX_SIZE h))) p.s.hw
        = some r1 ∧
      _tpm_wrap_unseal h t sha1 stack locality in_data (some ssz) (some sec) s = some res ∧
      res.s.cmd_buf = cb ∧ (res.s.hw = r1.hw ∨ ∃ m, res.s.hw = printk m r1.hw) ∧
      be_at cb 0 2 = 0x00C3 ∧ be_at cb CMD_ORD_OFFSET 4 = 0x18 ∧
      D = sha1_buffer sha1 (be_bytes 4 0x18 ++ wire_stored_data12 in_data) ∧
      readBytes cb CMD_HEAD_SIZE (94 + (wire_stored_data12 in_data).length)
        = be_bytes 4 TPM_KH_SRK ++ (wire_stored_data12 in_data ++
          (be_bytes 4 (le_val (readBytes (o.hauth.getD []) 0 4)) ++
          (readBytes stack.nonce_odd 0 20 ++ ([0] ++
          ((hmac sha1
            (hmac sha1 (List.replicate 20 0)
              (readBytes (o.even_osap.getD []) 0 20 ++ readBytes stack.odd_osap 0 20)).2
            (D ++ readBytes (o.nonce_even.getD []) 0 20 ++ readBytes stack.nonce_odd 0 20
              ++ [0])).2 ++
          (be_bytes 4 (le_val (readBytes (p.hauth.getD []) 0 4)) ++
          (readBytes stack.nonce_odd_d 0 20 ++ ([0] ++
          (hmac sha1 (List.replicate 20 0)
            (D ++ readBytes (p.nonce_even.getD []) 0 20 ++ readBytes stack.nonce_odd_d 0 20
              ++ [0])).2)))))))) := by
  obtain ⟨cb, r1, res, g1, g2, g3, g4, g5, _, g7, g8⟩ := _tpm_wrap_unseal_command h t sha1
    stack locality in_data ssz sec s o p ho hok hp hpok hcapo hcap hmax h32
  exact ⟨cb, r1, res, _, g1, g2, g3, g4, g5, g7, rfl, g8⟩

/-! ### Instances -/

set_option maxRecDepth 100000 in
theorem _tpm_wrap_seal_auth_code_witness :
    sim_o.ret = TPM_SUCCESS ∧
    ∃ cb res, _tpm_wrap_seal tpm_h sim sum_hash stack_1.odd_osap stack_1.nonce_odd 0
        (List.replicate 54 0) 1 [0x5A] (some 64) (some (List.replicate 64 0))
        (sim_st_full [osap_rsp_1, oiap_rsp_1]) = some res ∧
      res.s.cmd_buf = cb ∧ be_at cb 0 2 = 0x00C2 ∧ be_at cb CMD_ORD_OFFSET 4 = 0x17 := by
  obtain ⟨f1, f2, f3, _⟩ := sim_sessions_facts
  obtain ⟨cb, r1, res, args, _, g2, g3, _, g5, g6, _⟩ := _tpm_wrap_seal_auth_code tpm_h sim
    sum_hash stack_1.odd_osap stack_1.nonce_odd 0 (List.replicate 54 0) 1 [0x5A] 64
    (List.replicate 64 0) (sim_st_full [osap_rsp_1, oiap_rsp_1]) sim_o f1 f2
    (by rw [f3]; decide) (by decide) (by decide)
  exact ⟨f2, cb, res, g2, g3, g5, g6⟩

set_option maxRecDepth 100000 in
theorem _tpm_wrap_seal_enc_auth_witness :
    sim_o.ret = TPM_SUCCESS ∧
    ∃ cb res, _tpm_wrap_seal tpm_h sim sum_hash stack_1.odd_osap stack_1.nonce_odd 0
        (List.replicate 54 0) 1 [0x5A] (some 64) (some (List.replicate 64 0))
        (sim_st_full [osap_rsp_1, oiap_rsp_1]) = some res ∧
      res.s.cmd_buf = cb ∧
      ∀ i, i < 20 →
        rd cb (CMD_HEAD_SIZE + 4 + i)
          = (rd blob_authdata i ^^^
              rd (sha1_buffer sum_hash
                ((hmac sum_hash srk_authdata
                    (readBytes (sim_o.even_osap.getD []) 0 20 ++
                      readBytes stack_1.odd_osap 0 20)).2 ++
                  readBytes (sim_o.nonce_even.getD []) 0 20)) i) % 256 := by
  obtain ⟨f1, f2, f3, _⟩ := sim_sessions_facts
  obtain ⟨cb, r1, res, _, g2, g3, _, _, g6⟩ := _tpm_wrap_seal_enc_auth tpm_h sim
    sum_hash stack_1.odd_osap stack_1.nonce_odd 0 (List.replicate 54 0) 1 [0x5A] 64
    (List.replicate 64 0) (sim_st_full [osap_rsp_1, oiap_rsp_1]) sim_o f1 f2
    (by rw [f3]; decide) (by decide) (by decide)
  exact ⟨f2, cb, res, g2, g3, g6⟩

set_option maxRecDepth 100000 in
theorem _tpm_wrap_unseal_auth_codes_witness :
    sim_o.ret = TPM_SUCCESS ∧ sim_p.ret = TPM_SUCCESS ∧
    ∃ cb res, _tpm_wrap_unseal tpm_h sim sum_hash stack_1 0 blob_short_1 (some 64)
        (some (List.replicate 64 0)) (sim_st_full [osap_rsp_1, oiap_rsp_1]) = some res ∧
      res.s.cmd_buf = cb ∧ be_at cb 0 2 = 0x00C3 ∧ be_at cb CMD_ORD_OFFSET 4 = 0x18 := by
  obtain ⟨f1, f2, f3, _, f5, f6, f7⟩ := sim_sessions_facts
  obtain ⟨cb, r1, res, D, _, g2, g3, _, g5, g6, _⟩ := _tpm_wrap_unseal_auth_codes tpm_h sim
    sum_hash stack_1 0 blob_short_1 64 (List.replicate 64 0)
    (sim_st_full [osap_rsp_1, oiap_rsp_1]) sim_o sim_p f1 f2 f5 f6
    (by rw [f3]; decide) (by rw [f7]; decide) (by decide) (by decide)
  exact ⟨f2, f6, cb, res, g2, g3, g5, g6⟩

theorem release_locality_spec_witness :
    ((release_locality dead_tpm 0 hw0).1 = true ∧
      (release_locality dead_tpm 0 hw0).2.log = [Ev.rd 0 TPM_REG_ACCESS [0]]) ∧
    ∃ evs : List Ev, evs.length ≤ TPM_ACTIVE_LOCALITY_TIME_OUT ∧
      ((release_locality sim 0 (sim_st []).hw).1 = true ↔
        ∃ v, Ev.rd 0 TPM_REG_ACCESS v ∈ evs ∧ acc_active_locality v = 0) := by
  refine ⟨(release_locality_spec dead_tpm 0 hw0).1 (by decide), ?_⟩
  obtain ⟨evs, msgs, _, h2, _, h4, _⟩ := (release_locality_spec sim 0 (sim_st []).hw).2
    (by decide)
  exact ⟨evs, h2, h4⟩

/-! ### `tpm_cmp_creation_pcrs` without indices, sizes in `check_sealed_data` -/

/-- C31: for every long-form blob accepted by `check_sealed_data`,
`tpm_cmp_creation_pcrs` called with `pcr_nr_create = 0` or with a null index
array computes no hash (the result does not depend on the hash primitive and
`cmd_buf`, the scratch area of the hash input, is unchanged) and returns true if
and only if the 20 bytes of `digest_at_creation`, at position 22 of the blob,
are all zero. -/
theorem tpm_cmp_creation_pcrs_no_indices (sha1 : List Nat → List Nat) (cmd_buf : List Nat)
    (nr : Nat) (ixo : Option (List Nat)) (vs : Option (List (Option (List Nat))))
    (size : Nat) (data : List Nat)
    (hacc : check_sealed_data size data = true)
    (hlong : hdr_seal_info_size data ≠ 0)
    (hz : nr = 0 ∨ ixo = none) :
    tpm_cmp_creation_pcrs sha1 cmd_buf nr ixo vs size data
      = (decide (readBytes data 22 20 = List.replicate 20 0), cmd_buf) ∧
    ((tpm_cmp_creation_pcrs sha1 cmd_buf nr ixo vs size data).1 = true ↔
      readBytes data 22 20 = List.replicate 20 0) := by
  have hnr : (if ixo = none then 0 else nr) = 0 := by
    rcases hz with h | h
    · rw [h]
      split_ifs <;> rfl
    · rw [if_pos h]
  have e : tpm_cmp_creation_pcrs sha1 cmd_buf nr ixo vs size data
      = (decide (readBytes data 22 20 = List.replicate 20 0), cmd_buf) := by
    unfold tpm_cmp_creation_pcrs get_cre_pcr_composite
    simp only [hnr, hacc, hlong, List.range_zero, List.any_nil, Nat.lt_irrefl, if_false,
      Bool.not_true, Bool.false_eq_true, Option.getD_some, TPM_DIGEST_SIZE,
      off_digest_at_creation, sizeof_pcr_selection]
    rw [show (8 + 2 + 1 + 1 + 5 + 5) = 22 from rfl]
    have hr : readBytes (List.replicate 20 0) 0 20 = List.replicate 20 0 := by decide
    rw [hr]
    by_cases hq : readBytes data 22 20 = List.replicate 20 0
    · rw [if_neg (by rw [hq]; exact fun hh => hh rfl), decide_eq_true hq]
    · rw [if_pos (fun hh => hq hh.symm), decide_eq_false hq]
  refine ⟨e, ?_⟩
  rw [e]
  simp

theorem tpm_cmp_creation_pcrs_no_indices_witness :
    tpm_cmp_creation_pcrs (fun _ => []) (List.replicate 64 0xAA) 0 none none 67 blob_long_1
      = (decide (readBytes blob_long_1 22 20 = List.replicate 20 0), List.replicate 64 0xAA) ∧
    ((tpm_cmp_creation_pcrs (fun _ => []) (List.replicate 64 0xAA) 0 none none 67
        blob_long_1).1 = true ↔
      readBytes blob_long_1 22 20 = List.replicate 20 0) :=
  tpm_cmp_creation_pcrs_no_indices (fun _ => []) (List.replicate 64 0xAA) 0 none none 67
    blob_long_1 (by decide) (by decide) (Or.inl rfl)

/-- C32: the size test of `check_sealed_data` cannot be passed through
wrap-around.  For every `size` and blob it accepts, `size` is below 2^32 and the
declared `enc_data_size` is exactly `size - 12` (short form) or `size - 66`
(long form): the struct and the declared payload fill the `size` bytes, although
the sum in the test is evaluated modulo 2^32. -/
theorem check_sealed_data_no_wrap (size : Nat) (data : List Nat)
    (hacc : check_sealed_data size data = true) :
    size < 2 ^ 32 ∧
    (hdr_seal_info_size data = 0 →
      12 ≤ size ∧ short_enc_data_size data = size - 12 ∧ 12 + short_enc_data_size data = size) ∧
    (hdr_seal_info_size data ≠ 0 →
      66 ≤ size ∧ long_enc_data_size data = size - 66 ∧ 66 + long_enc_data_size data = size) := by
  have hs := u32_at_lt data 8
  have hl := u32_at_lt data 62
  unfold check_sealed_data sizeof_stored_data12 sizeof_stored_data12_short sizeof_pcr_info_long
    sizeof_stored_data12_header sizeof_pcr_selection TPM_DIGEST_SIZE TPM_TAG_STORED_DATA12
    u32 at hacc
  unfold short_enc_data_size at hacc ⊢
  unfold long_enc_data_size at hacc ⊢
  by_cases htag : hdr_tag data = 22 <;> by_cases hz : hdr_seal_info_size data = 0 <;>
    simp [htag, hz] at hacc ⊢ <;> omega

theorem check_sealed_data_no_wrap_witness :
    67 < 2 ^ 32 ∧
    (hdr_seal_info_size blob_long_1 = 0 →
      12 ≤ 67 ∧ short_enc_data_size blob_long_1 = 67 - 12 ∧
        12 + short_enc_data_size blob_long_1 = 67) ∧
    (hdr_seal_info_size blob_long_1 ≠ 0 →
      66 ≤ 67 ∧ long_enc_data_size blob_long_1 = 67 - 66 ∧
        66 + long_enc_data_size blob_long_1 = 67) :=
  check_sealed_data_no_wrap 67 blob_long_1 (by decide)

/-! ### `*out_size` after `_tpm_submit_cmd` -/

/-- The size that `tpm_write_cmd_fifo` leaves in `*out_size` never exceeds the
capacity passed in. -/
theorem tpm_write_cmd_fifo_out_size_le {σ : Type} (h : TpmH) (t : Tpm σ) (locality : Nat)
    (inp : Option (List Nat)) (in_size : Nat) (out : Option (List Nat)) (osz : Nat)
    (s : Hw σ) (r : FifoRes σ)
    (hr : tpm_write_cmd_fifo h t locality inp in_size out (some osz) s = some r) :
    ∃ k, r.out_size = some k ∧ k ≤ osz := by
  unfold tpm_write_cmd_fifo relinquish_control at hr
  dsimp only at hr
  split at hr
  · cases hr
    exact ⟨osz, rfl, Nat.le_refl _⟩
  · split at hr
    · rename_i inb outb osz9 e1 e2 e3
      cases e3
      split at hr
      · cases hr
        exact ⟨osz, rfl, Nat.le_refl _⟩
      · split at hr
        · cases hr
          exact ⟨osz, rfl, Nat.le_refl _⟩
        · split at hr
          · cases hr
            exact ⟨osz, rfl, Nat.le_refl _⟩
          · split at hr
            · cases hr
            · cases hr
              exact ⟨osz, rfl, Nat.le_refl _⟩
            · split at hr
              · cases hr
                exact ⟨osz, rfl, Nat.le_refl _⟩
              · split at hr
                · cases hr
                · cases hr
                  exact ⟨osz, rfl, Nat.le_refl _⟩
                · cases hr
                  refine ⟨_, rfl, ?_⟩
                  split_ifs <;> omega
    · cases hr
      exact ⟨osz, rfl, Nat.le_refl _⟩

/-- What `_tpm_submit_cmd` leaves in `*out_size`, in terms of the size `k0` that
the transfer reported. -/
theorem _tpm_submit_cmd_out_size_cases {σ : Type} (h : TpmH) (t : Tpm σ)
    (locality tag cmd arg_size osz : Nat) (st : St σ) (q : SubmitRes σ)
    (hq : _tpm_submit_cmd h t locality tag cmd arg_size (some osz) st = some q) :
    (q.ret = h.TPM_BAD_PARAMETER ∧ q.out_size = some osz ∧
      h.TPM_CMD_SIZE_MAX < u32 (CMD_HEAD_SIZE + arg_size)) ∨
    (u32 (CMD_HEAD_SIZE + arg_size) ≤ h.TPM_CMD_SIZE_MAX ∧
      ∃ r1 k0, tpm_write_cmd_fifo h t locality
          (some (submit_cmd_buf st.cmd_buf tag cmd arg_size)) (u32 (CMD_HEAD_SIZE + arg_size))
          (some st.rsp_buf) (some (submit_rsp_size h osz)) st.hw = some r1 ∧
        r1.out_size = some k0 ∧ k0 ≤ submit_rsp_size h osz ∧ q.ret = r1.ret ∧
        (r1.ret ≠ TPM_SUCCESS → q.out_size = some osz) ∧
        (r1.ret = TPM_SUCCESS → ∃ k, q.out_size = some k ∧ k ≤ osz ∧
          k ≤ k0 - RSP_HEAD_SIZE ∧ (osz = 0 → k = 0) ∧ (k0 ≤ RSP_HEAD_SIZE → k = 0))) := by
  by_cases hsz : u32 (CMD_HEAD_SIZE + arg_size) ≤ h.TPM_CMD_SIZE_MAX
  · right
    refine ⟨hsz, ?_⟩
    unfold _tpm_submit_cmd at hq
    simp only at hq
    rw [if_neg (show ¬ h.TPM_CMD_SIZE_MAX < u32 (CMD_HEAD_SIZE + arg_size) by omega)] at hq
    have hcb : memcpy (memcpy (memcpy st.cmd_buf 0 (_reverse_copy (le_bytes 2 tag) 2))
        CMD_SIZE_OFFSET (_reverse_copy (le_bytes 4 (u32 (CMD_HEAD_SIZE + arg_size))) 4))
        CMD_ORD_OFFSET (_reverse_copy (le_bytes 4 cmd) 4)
        = submit_cmd_buf st.cmd_buf tag cmd arg_size := rfl
    have hrs : (if h.TPM_RSP_SIZE_MAX < u32 (RSP_HEAD_SIZE + osz) then h.TPM_RSP_SIZE_MAX
        else u32 (RSP_HEAD_SIZE + osz)) = submit_rsp_size h osz := rfl
    rw [hcb, hrs] at hq
    generalize submit_cmd_buf st.cmd_buf tag cmd arg_size = cb at hq ⊢
    generalize submit_rsp_size h osz = rsz at hq ⊢
    cases hr1 : tpm_write_cmd_fifo h t locality (some cb) (u32 (CMD_HEAD_SIZE + arg_size))
        (some st.rsp_buf) (some rsz) st.hw with
    | none =>
      rw [hr1] at hq
      cases hq
    | some r1 =>
      rw [hr1] at hq
      obtain ⟨k0, hk0, hk0le⟩ := tpm_write_cmd_fifo_out_size_le h t locality _ _ _ _ _ r1 hr1
      simp only [hk0, Option.getD_some] at hq
      refine ⟨r1, k0, rfl, hk0, hk0le, ?_⟩
      unfold RSP_HEAD_SIZE at hq ⊢
      by_cases hret : r1.ret ≠ TPM_SUCCESS
      · rw [if_pos hret] at hq
        cases hq
        exact ⟨rfl, fun _ => rfl, fun hh => absurd hh hret⟩
      · rw [if_neg hret] at hq
        split_ifs at hq with c1 c2 c3 c4 c5
        all_goals cases hq
        all_goals refine ⟨rfl, fun hh => absurd hh hret, fun _ => ⟨_, rfl, ?_⟩⟩
        all_goals omega
  · left
    unfold _tpm_submit_cmd at hq
    simp only at hq
    rw [if_pos (by omega)] at hq
    cases hq
    exact ⟨rfl, rfl, by omega⟩

/-- C33: for every call of `_tpm_submit_cmd` that returns `TPM_SUCCESS`, the
value left in `*out_size` is at most the value passed in and at most
`TPM_RSP_SIZE_MAX - 10`; it is 0 when 0 was passed in and when the transfer
reported a response of at most 10 bytes (no payload).  When the call returns
another status, `*out_size` is unchanged. -/
theorem _tpm_submit_cmd_out_size {σ : Type} (h : TpmH) (t : Tpm σ)
    (locality tag cmd arg_size : Nat) (out_size : Option Nat) (st : St σ) (q : SubmitRes σ)
    (hbad : h.TPM_BAD_PARAMETER ≠ TPM_SUCCESS)
    (hq : _tpm_submit_cmd h t locality tag cmd arg_size out_size st = some q) :
    (q.ret = TPM_SUCCESS →
      ∃ osz k, out_size = some osz ∧ q.out_size = some k ∧ k ≤ osz ∧
        k ≤ h.TPM_RSP_SIZE_MAX - RSP_HEAD_SIZE ∧ (osz = 0 → k = 0) ∧
        ∃ r1 k0, tpm_write_cmd_fifo h t locality
            (some (submit_cmd_buf st.cmd_buf tag cmd arg_size))
            (u32 (CMD_HEAD_SIZE + arg_size)) (some st.rsp_buf)
            (some (submit_rsp_size h osz)) st.hw = some r1 ∧
          r1.out_size = some k0 ∧ (k0 ≤ RSP_HEAD_SIZE → k = 0)) ∧
    (q.ret ≠ TPM_SUCCESS → q.out_size = out_size) := by
  cases out_size with
  | none =>
    unfold _tpm_submit_cmd at hq
    cases hq
    exact ⟨fun hh => absurd hh hbad, fun _ => rfl⟩
  | some osz =>
    rcases _tpm_submit_cmd_out_size_cases h t locality tag cmd arg_size osz st q hq with
      ⟨a1, a2, _⟩ | ⟨_, r1, k0, b1, b2, b3, b4, b5, b6⟩
    · exact ⟨fun hh => absurd (a1 ▸ hh) hbad, fun _ => a2⟩
    · constructor
      · intro hs
        obtain ⟨k, c1, c2, c3, c4, c5⟩ := b6 (b4 ▸ hs)
        refine ⟨osz, k, rfl, c1, c2, ?_, c4, r1, k0, b1, b2, c5⟩
        have : submit_rsp_size h osz ≤ h.TPM_RSP_SIZE_MAX := by
          unfold submit_rsp_size
          split_ifs <;> omega
        omega
      · intro hn
        exact b5 (b4 ▸ hn)

theorem _tpm_submit_cmd_out_size_witness :
    ∃ q, _tpm_submit_cmd tpm_h sim 0 TPM_TAG_RQU_COMMAND TPM_ORD_GET_RANDOM 4 (some 5)
        (sim_st [random_rsp [0xAA]]) = some q ∧
      (q.ret = TPM_SUCCESS → ∃ k, q.out_size = some k ∧ k ≤ 5) := by
  have hsome : ∃ q, _tpm_submit_cmd tpm_h sim 0 TPM_TAG_RQU_COMMAND TPM_ORD_GET_RANDOM 4 (some 5)
      (sim_st [random_rsp [0xAA]]) = some q := by
    obtain ⟨r1, osz1, _, h2, _⟩ := _tpm_submit_cmd_transfer tpm_h sim 0 TPM_TAG_RQU_COMMAND
      TPM_ORD_GET_RANDOM 4 5 (sim_st [random_rsp [0xAA]]) (by decide)
    exact ⟨_, h2⟩
  obtain ⟨q, hq⟩ := hsome
  refine ⟨q, hq, fun hs => ?_⟩
  obtain ⟨osz, k, e, c1, c2, _⟩ := (_tpm_submit_cmd_out_size tpm_h sim 0 TPM_TAG_RQU_COMMAND
    TPM_ORD_GET_RANDOM 4 (some 5) (sim_st [random_rsp [0xAA]]) q (by decide) hq).1 hs
  cases e
  exact ⟨k, c1, c2⟩

/-- A successful `_tpm_submit_cmd` leaves at most the passed value in `*out_size`. -/
theorem _tpm_submit_cmd_success_le {σ : Type} (h : TpmH) (t : Tpm σ)
    (locality tag cmd arg_size osz : Nat) (st : St σ) (q : SubmitRes σ)
    (hbad : h.TPM_BAD_PARAMETER ≠ TPM_SUCCESS)
    (hq : _tpm_submit_cmd h t locality tag cmd arg_size (some osz) st = some q)
    (hs : q.ret = TPM_SUCCESS) :
    ∃ k, q.out_size = some k ∧ k ≤ osz := by
  rcases _tpm_submit_cmd_out_size_cases h t locality tag cmd arg_size osz st q hq with
    ⟨a1, _, _⟩ | ⟨_, r1, k0, _, _, _, b4, _, b6⟩
  · exact absurd (a1 ▸ hs) hbad
  · obtain ⟨k, c1, c2, _⟩ := b6 (b4 ▸ hs)
    exact ⟨k, c1, c2⟩

/-- What a successful `tpm_nv_read_value` returns: a size within the request and
the cap, and the old area with that many response bytes copied to its start. -/
theorem tpm_nv_read_value_success_cases {σ : Type} (h : TpmH) (t : Tpm σ)
    (locality index offset : Nat) (data : Option (List Nat)) (data_size : Option Nat)
    (s : St σ) (r : NvRes σ)
    (hbad : h.TPM_BAD_PARAMETER ≠ TPM_SUCCESS)
    (hr : tpm_nv_read_value h t locality index offset data data_size s = some r)
    (hs : r.ret = TPM_SUCCESS) :
    ∃ dat dsz0 n, data = some dat ∧ data_size = some dsz0 ∧ r.data_size = some n ∧
      n ≤ dsz0 ∧ n ≤ h.TPM_NV_READ_VALUE_DATA_SIZE_MAX ∧
      r.data = some (memcpy dat 0 (readBytes r.s.rsp_buf (RSP_HEAD_SIZE + 4) n)) ∧
      (∀ i, i < n → i < dat.length →
        rd (r.data.getD []) i = rd r.s.rsp_buf (RSP_HEAD_SIZE + 4 + i)) ∧
      (∀ i, n ≤ i → rd (r.data.getD []) i = rd dat i) := by
  have hm0 : ∀ (dat : List Nat) (n : Nat), ¬ 0 < n →
      dat = memcpy dat 0 (readBytes r.s.rsp_buf (RSP_HEAD_SIZE + 4) n) := by
    intro dat n hn
    symm
    apply list_ext_rd _ _ (length_memcpy _ _ _)
    intro i _
    rw [rd_memcpy, length_readBytes, if_neg (by omega)]
  have hrest : ∀ (dat : List Nat) (n : Nat),
      (∀ i, i < n → i < dat.length →
        rd (memcpy dat 0 (readBytes r.s.rsp_buf (RSP_HEAD_SIZE + 4) n)) i
          = rd r.s.rsp_buf (RSP_HEAD_SIZE + 4 + i)) ∧
      (∀ i, n ≤ i → rd (memcpy dat 0 (readBytes r.s.rsp_buf (RSP_HEAD_SIZE + 4) n)) i
          = rd dat i) := by
    intro dat n
    constructor
    · intro i hi hl
      rw [rd_memcpy, length_readBytes, if_pos ⟨by omega, by omega, hl⟩, rd_readBytes, if_pos (by omega)]
      rfl
    · intro i hi
      rw [rd_memcpy, length_readBytes, if_neg (by omega)]
  cases data with
  | none =>
    unfold tpm_nv_read_value at hr
    cases hr
    exact absurd hs hbad
  | some dat =>
    cases data_size with
    | none =>
      unfold tpm_nv_read_value at hr
      cases hr
      exact absurd hs hbad
    | some dsz0 =>
      unfold tpm_nv_read_value at hr
      dsimp only at hr
      split_ifs at hr with c0 c1
      · cases hr
        exact absurd hs hbad
      all_goals
        unfold tpm_submit_cmd at hr
        split at hr
        · cases hr
        · rename_i q hq
          split_ifs at hr with d1 d2 d3 d4
          all_goals cases hr
          all_goals first
            | exact absurd hs d1
            | skip
          all_goals
            obtain ⟨k, hk1, hk2⟩ := _tpm_submit_cmd_success_le h t locality _ _ _ _ _ q hbad hq hs
            simp only [hk1, Option.getD_some] at *
            have hu1 : u32 (h.TPM_NV_READ_VALUE_DATA_SIZE_MAX + 4)
                ≤ h.TPM_NV_READ_VALUE_DATA_SIZE_MAX + 4 := Nat.mod_le _ _
            have hu2 : u32 (dsz0 + 4) ≤ dsz0 + 4 := Nat.mod_le _ _
            refine ⟨dat, dsz0, _, rfl, rfl, rfl, by omega, by omega, ?_, ?_, ?_⟩
            · first
                | rfl
                | exact congrArg some (hm0 dat _ (by omega))
            · first
                | exact (hrest dat _).1
                | (intro i hi; omega)
            · first
                | exact (hrest dat _).2
                | (intro i _; rfl)

/-- C34: for every call of `tpm_nv_read_value` that returns `TPM_SUCCESS`, whatever
the module answered, the returned `*data_size` is at most the requested size and at
most `TPM_NV_READ_VALUE_DATA_SIZE_MAX`, and the area behind `data` is the old area
with exactly `*data_size` bytes, those at positions 14 .. of the response buffer
(after the 10-byte header and the 4-byte length prefix), copied to its start. -/
theorem tpm_nv_read_value_bounds {σ : Type} (h : TpmH) (t : Tpm σ)
    (locality index offset : Nat) (data : Option (List Nat)) (data_size : Option Nat)
    (s : St σ) (r : NvRes σ)
    (hbad : h.TPM_BAD_PARAMETER ≠ TPM_SUCCESS)
    (hr : tpm_nv_read_value h t locality index offset data data_size s = some r)
    (hs : r.ret = TPM_SUCCESS) :
    ∃ dat dsz0 n, data = some dat ∧ data_size = some dsz0 ∧ r.data_size = some n ∧
      n ≤ dsz0 ∧ n ≤ h.TPM_NV_READ_VALUE_DATA_SIZE_MAX ∧
      r.data = some (memcpy dat 0 (readBytes r.s.rsp_buf (RSP_HEAD_SIZE + 4) n)) ∧
      (∀ i, i < n → i < dat.length →
        rd (r.data.getD []) i = rd r.s.rsp_buf (RSP_HEAD_SIZE + 4 + i)) ∧
      (∀ i, n ≤ i → rd (r.data.getD []) i = rd dat i) :=
  tpm_nv_read_value_success_cases h t locality index offset data data_size s r hbad hr hs

theorem tpm_nv_read_value_bounds_witness :
    ∃ r, tpm_nv_read_value tpm_h sim 0 0x20000001 0 (some [0, 0, 0, 0]) (some 2)
        (sim_st [random_rsp [0xAA, 0xBB, 0xCC]]) = some r ∧ r.ret = TPM_SUCCESS ∧
      r.data_size = some 2 ∧ r.data = some [0xAA, 0xBB, 0, 0] ∧
      ∃ n, r.data_size = some n ∧ n ≤ 2 := by
  have hrun : (tpm_nv_read_value tpm_h sim 0 0x20000001 0 (some [0, 0, 0, 0]) (some 2)
      (sim_st [random_rsp [0xAA, 0xBB, 0xCC]])).map
        (fun r => decide (r.ret = TPM_SUCCESS ∧ r.data_size = some 2 ∧
          r.data = some [0xAA, 0xBB, 0, 0])) = some true := by decide
  generalize hg : tpm_nv_read_value tpm_h sim 0 0x20000001 0 (some [0, 0, 0, 0]) (some 2)
      (sim_st [random_rsp [0xAA, 0xBB, 0xCC]]) = o at hrun
  cases o with
  | none => cases hrun
  | some r =>
    simp only [Option.map, Option.some.injEq, decide_eq_true_eq] at hrun
    obtain ⟨_, _, n, _, _, hn, hle, _⟩ := tpm_nv_read_value_bounds tpm_h sim 0 0x20000001 0
      (some [0, 0, 0, 0]) (some 2) (sim_st [random_rsp [0xAA, 0xBB, 0xCC]]) r (by decide) hg hrun.1
    rename_i e1 e2
    cases e1
    cases e2
    exact ⟨r, rfl, hrun.1, hrun.2.1, hrun.2.2, n, hn, hle⟩

/-- C35 does not hold for the code: asked for 1 byte, with a module whose
GetRandom response declares 3 bytes in its length prefix, `tpm_get_random`
returns `TPM_SUCCESS` with `*data_size = 3` and has written 3 bytes through
`random_data` (the one received byte `AA` and two bytes of the response buffer
that were never received), because `*data_size` is taken from the response and
used as the `memcpy` length without comparing it with the requested size or with
`out_size`. -/
theorem tpm_get_random_length_overrun :
    (tpm_get_random tpm_h sim 2 0 (some [0x11, 0x22, 0x33, 0x44]) 0 (some 1)
        (sim_st [random_rsp [0xAA, 0xBB, 0xCC]])).map
      (fun res => (res.ret, res.random_data, res.data_size, fifo_rd_count res.s.hw.log))
      = some (TPM_SUCCESS, some [0xAA, 0, 0, 0x44], some 3, 15) := by
  decide

set_option maxRecDepth 100000 in
/-- C36 does not hold for the code: with a capacity of 1 byte in `*secret_size`
and an Unseal response of 87 payload bytes whose length prefix declares a 3-byte
secret, the check `*secret_size < out_size - 86` passes (1 < 1 is false) and
`_tpm_unseal` returns `TPM_SUCCESS` with `*secret_size = 3` after copying 3 bytes
through `secret`: the copy length is the prefix of the response, which the check
does not look at. -/
theorem _tpm_unseal_length_overrun :
    (_tpm_unseal tpm_h sim 0 0x40000000 (some blob_long_1)
        0 (some (List.replicate 20 0)) (some [0]) (some (List.replicate 20 0))
        0 (some (List.replicate 20 0)) (some [0]) (some (List.replicate 20 0))
        (some 1) (some [0x11, 0x22, 0x33, 0x44])
        (some (List.replicate 20 0)) (some (List.replicate 20 0))
        (some (List.replicate 20 0)) (some (List.replicate 20 0))
        (sim_st_n 192 [unseal_rsp_len_3])).map
      (fun res => (res.ret, res.secret_size, res.secret))
      = some (TPM_SUCCESS, some 3, some [0xAA, 0xBB, 0xCC, 0x44]) := by
  decide

/-! ### `evaluate_error` -/

theorem before_terminator_cons_ne (H : TbH) (e : tb_policy_map_entry_t)
    (rest : List tb_policy_map_entry_t) (h : ¬ e.error = H.TB_ERR_NONE) :
    before_terminator H (e :: rest) = e :: before_terminator H rest := by
  simp [before_terminator, h]

theorem before_terminator_cons_eq (H : TbH) (e : tb_policy_map_entry_t)
    (rest : List tb_policy_map_entry_t) (h : e.error = H.TB_ERR_NONE) :
    before_terminator H (e :: rest) = [] := by
  simp [before_terminator, h]

/-- The inner loop of `evaluate_error` is the lookup before the terminator when
no error is listed twice there. -/
theorem exception_loop_lookup (H : TbH) (error : Nat) (hne : error ≠ H.TB_ERR_NONE) :
    ∀ (table : List tb_policy_map_entry_t) (action : tb_policy_action_t),
      ((before_terminator H table).map fun e => e.error).Nodup →
      exception_loop H error table action =
        match (before_terminator H table).find? fun e => decide (e.error = error) with
        | some e => e.action
        | none => action
  | [], action, _ => rfl
  | e :: rest, action, hnd => by
    unfold exception_loop
    by_cases h0 : e.error = H.TB_ERR_NONE
    · have h1 : ¬ e.error = error := fun hh => hne (hh ▸ h0)
      have h2 : ¬ H.TB_ERR_NONE = error := fun hh => hne hh.symm
      simp [before_terminator, h0, h2]
    · have hbt := before_terminator_cons_ne H e rest h0
      rw [hbt] at hnd ⊢
      rw [List.map_cons, List.nodup_cons] at hnd
      have ih := exception_loop_lookup H error hne rest
      simp only [h0, if_false]
      by_cases h1 : e.error = error
      · have hnone : (before_terminator H rest).find? (fun e => decide (e.error = error))
            = none := by
          rw [List.find?_eq_none]
          intro x hx hxe
          apply hnd.1
          rw [List.mem_map]
          exact ⟨x, hx, by rw [h1]; simpa using hxe⟩
        rw [ih _ hnd.2, hnone]
        simp [h1]
      · rw [ih _ hnd.2]
        simp [h1]

/-- C37: `evaluate_error` is the table lookup and fails closed.  With pairwise
distinct policy types and, in each row, pairwise distinct listed errors, the
function equals the lookup `evaluate_error_lookup` for every policy type and
error: `TB_ERR_NONE` gives CONTINUE; another error gives the exception action
of the row of the policy type when the error is listed before the terminator
and the row's default action otherwise; in particular every such error gives
HALT under `TB_POLTYPE_HALT`, `TB_ERR_FATAL` gives HALT under each of the three
listed types, and a policy type without a row gives HALT. -/
theorem evaluate_error_is_lookup (H : TbH)
    (hpt : [H.TB_POLTYPE_CONT_NON_FATAL, H.TB_POLTYPE_CONT_VERIFY_FAIL,
      H.TB_POLTYPE_HALT].Nodup)
    (he1 : [H.TB_ERR_FATAL, H.TB_ERR_TPM_NOT_READY, H.TB_ERR_SMX_NOT_SUPPORTED,
      H.TB_ERR_VMX_NOT_SUPPORTED, H.TB_ERR_TXT_NOT_SUPPORTED, H.TB_ERR_SINIT_NOT_PRESENT,
      H.TB_ERR_ACMOD_VERIFY_FAILED, H.TB_ERR_NONE].Nodup)
    (he2 : [H.TB_ERR_FATAL, H.TB_ERR_MODULE_VERIFICATION_FAILED, H.TB_ERR_POLICY_NOT_PRESENT,
      H.TB_ERR_POLICY_INVALID, H.TB_ERR_NONE].Nodup) :
    (∀ policy_type error,
      evaluate_error H policy_type error = evaluate_error_lookup H policy_type error) ∧
    (∀ policy_type,
      evaluate_error H policy_type H.TB_ERR_NONE = tb_policy_action_t.TB_POLACT_CONTINUE) ∧
    (∀ error, error ≠ H.TB_ERR_NONE →
      evaluate_error H H.TB_POLTYPE_HALT error = tb_policy_action_t.TB_POLACT_HALT) ∧
    (∀ policy_type, policy_type ∈ (g_policy_map H).map (fun row => row.policy_type) →
      evaluate_error H policy_type H.TB_ERR_FATAL = tb_policy_action_t.TB_POLACT_HALT) ∧
    (∀ policy_type error, error ≠ H.TB_ERR_NONE →
      policy_type ∉ (g_policy_map H).map (fun row => row.policy_type) →
      evaluate_error H policy_type error = tb_policy_action_t.TB_POLACT_HALT) := by
  simp only [List.nodup_cons, List.mem_cons, List.mem_singleton, List.not_mem_nil, not_or,
    not_false_eq_true, and_true, List.nodup_nil] at hpt he1 he2
  obtain ⟨⟨p1, p2⟩, p3⟩ := hpt
  obtain ⟨⟨a1, a2, a3, a4, a5, a6, a7⟩, ⟨b2, b3, b4, b5, b6, b7⟩, ⟨c3, c4, c5, c6, c7⟩,
    ⟨d4, d5, d6, d7⟩, ⟨e5, e6, e7⟩, ⟨f6, f7⟩, g7⟩ := he1
  obtain ⟨⟨x1, x2, x3, x4⟩, ⟨y2, y3, y4⟩, ⟨z3, z4⟩, w4⟩ := he2
  have bt1 : before_terminator H (exception_table H
      [ ⟨H.TB_ERR_FATAL, tb_policy_action_t.TB_POLACT_HALT⟩,
        ⟨H.TB_ERR_TPM_NOT_READY, tb_policy_action_t.TB_POLACT_UNMEASURED_LAUNCH⟩,
        ⟨H.TB_ERR_SMX_NOT_SUPPORTED, tb_policy_action_t.TB_POLACT_UNMEASURED_LAUNCH⟩,
        ⟨H.TB_ERR_VMX_NOT_SUPPORTED, tb_policy_action_t.TB_POLACT_UNMEASURED_LAUNCH⟩,
        ⟨H.TB_ERR_TXT_NOT_SUPPORTED, tb_policy_action_t.TB_POLACT_UNMEASURED_LAUNCH⟩,
        ⟨H.TB_ERR_SINIT_NOT_PRESENT, tb_policy_action_t.TB_POLACT_UNMEASURED_LAUNCH⟩,
        ⟨H.TB_ERR_ACMOD_VERIFY_FAILED, tb_policy_action_t.TB_POLACT_UNMEASURED_LAUNCH⟩,
        ⟨H.TB_ERR_NONE, tb_policy_action_t.TB_POLACT_CONTINUE⟩ ])
      = [ ⟨H.TB_ERR_FATAL, tb_policy_action_t.TB_POLACT_HALT⟩,
        ⟨H.TB_ERR_TPM_NOT_READY, tb_policy_action_t.TB_POLACT_UNMEASURED_LAUNCH⟩,
        ⟨H.TB_ERR_SMX_NOT_SUPPORTED, tb_policy_action_t.TB_POLACT_UNMEASURED_LAUNCH⟩,
        ⟨H.TB_ERR_VMX_NOT_SUPPORTED, tb_policy_action_t.TB_POLACT_UNMEASURED_LAUNCH⟩,
        ⟨H.TB_ERR_TXT_NOT_SUPPORTED, tb_policy_action_t.TB_POLACT_UNMEASURED_LAUNCH⟩,
        ⟨H.TB_ERR_SINIT_NOT_PRESENT, tb_policy_action_t.TB_POLACT_UNMEASURED_LAUNCH⟩,
        ⟨H.TB_ERR_ACMOD_VERIFY_FAILED, tb_policy_action_t.TB_POLACT_UNMEASURED_LAUNCH⟩ ] := by
    simp only [exception_table, List.cons_append, List.nil_append]
    rw [before_terminator_cons_ne _ _ _ a7, before_terminator_cons_ne _ _ _ b7,
      before_terminator_cons_ne _ _ _ c7, before_terminator_cons_ne _ _ _ d7,
      before_terminator_cons_ne _ _ _ e7, before_terminator_cons_ne _ _ _ f7,
      before_terminator_cons_ne _ _ _ g7, before_terminator_cons_eq _ _ _ rfl]
  have bt2 : before_terminator H (exception_table H
      [ ⟨H.TB_ERR_MODULE_VERIFICATION_FAILED, tb_policy_action_t.TB_POLACT_CONTINUE⟩,
        ⟨H.TB_ERR_POLICY_NOT_PRESENT, tb_policy_action_t.TB_POLACT_CONTINUE⟩,
        ⟨H.TB_ERR_POLICY_INVALID, tb_policy_action_t.TB_POLACT_CONTINUE⟩,
        ⟨H.TB_ERR_NONE, tb_policy_action_t.TB_POLACT_CONTINUE⟩ ])
      = [ ⟨H.TB_ERR_MODULE_VERIFICATION_FAILED, tb_policy_action_t.TB_POLACT_CONTINUE⟩,
        ⟨H.TB_ERR_POLICY_NOT_PRESENT, tb_policy_action_t.TB_POLACT_CONTINUE⟩,
        ⟨H.TB_ERR_POLICY_INVALID, tb_policy_action_t.TB_POLACT_CONTINUE⟩ ] := by
    simp only [exception_table, List.cons_append, List.nil_append]
    rw [before_terminator_cons_ne _ _ _ y4, before_terminator_cons_ne _ _ _ z4,
      before_terminator_cons_ne _ _ _ w4, before_terminator_cons_eq _ _ _ rfl]
  have bt3 : before_terminator H (exception_table H
      [ ⟨H.TB_ERR_NONE, tb_policy_action_t.TB_POLACT_CONTINUE⟩ ]) = [] := by
    simp only [exception_table, List.cons_append, List.nil_append]
    rw [before_terminator_cons_eq _ _ _ rfl]
  have hmain : ∀ policy_type error,
      evaluate_error H policy_type error = evaluate_error_lookup H policy_type error := by
    intro pt error
    unfold evaluate_error evaluate_error_lookup
    by_cases hne : error = H.TB_ERR_NONE
    · rw [if_pos hne, if_pos hne]
    · rw [if_neg hne, if_neg hne]
      have hl := exception_loop_lookup H error hne
      simp only [g_policy_map, List.foldl, List.find?]
      rw [hl, hl, hl, bt1, bt2, bt3]
      · by_cases q3 : H.TB_POLTYPE_HALT = pt
        · subst q3
          simp [p2, p3, bt1, bt2, bt3]
        · by_cases q2 : H.TB_POLTYPE_CONT_VERIFY_FAIL = pt
          · subst q2
            simp [p1, p3, q3, bt1, bt2, bt3]
          · by_cases q1 : H.TB_POLTYPE_CONT_NON_FATAL = pt
            · subst q1
              simp [q2, q3, bt1, bt2, bt3]
            · simp [q1, q2, q3, bt1, bt2, bt3]
      all_goals first
        | (rw [bt3]; exact List.nodup_nil)
        | (rw [bt2]; simp [y2, y3, z3])
        | (rw [bt1]; simp [*])
  refine ⟨hmain, ?_, ?_, ?_, ?_⟩
  · intro pt
    unfold evaluate_error
    rw [if_pos rfl]
  · intro error hne
    rw [hmain]
    unfold evaluate_error_lookup
    rw [if_neg hne]
    simp [g_policy_map, List.find?, p2, p3, bt3]
  · intro pt hmem
    rw [hmain]
    unfold evaluate_error_lookup
    rw [if_neg a7]
    simp only [g_policy_map, List.map_cons, List.map_nil, List.mem_cons, List.mem_singleton,
      List.not_mem_nil, or_false] at hmem
    rcases hmem with hh | hh | hh
    · subst hh
      simp [g_policy_map, List.find?, bt1]
    · subst hh
      have x1s : ¬ H.TB_ERR_MODULE_VERIFICATION_FAILED = H.TB_ERR_FATAL := fun hh => x1 hh.symm
      have x2s : ¬ H.TB_ERR_POLICY_NOT_PRESENT = H.TB_ERR_FATAL := fun hh => x2 hh.symm
      have x3s : ¬ H.TB_ERR_POLICY_INVALID = H.TB_ERR_FATAL := fun hh => x3 hh.symm
      simp [g_policy_map, List.find?, p1, bt2, x1s, x2s, x3s]
    · subst hh
      simp [g_policy_map, List.find?, p2, p3, bt3]
  · intro pt error hne hmem
    rw [hmain]
    unfold evaluate_error_lookup
    rw [if_neg hne]
    simp only [g_policy_map, List.map_cons, List.map_nil, List.mem_cons, List.mem_singleton,
      List.not_mem_nil, or_false, not_or] at hmem
    obtain ⟨m1, m2, m3⟩ := hmem
    have n1 : ¬ H.TB_POLTYPE_CONT_NON_FATAL = pt := fun hh => m1 hh.symm
    have n2 : ¬ H.TB_POLTYPE_CONT_VERIFY_FAIL = pt := fun hh => m2 hh.symm
    have n3 : ¬ H.TB_POLTYPE_HALT = pt := fun hh => m3 hh.symm
    simp [g_policy_map, List.find?, n1, n2, n3]

theorem evaluate_error_is_lookup_witness :
    evaluate_error tb_h tb_h.TB_POLTYPE_CONT_NON_FATAL tb_h.TB_ERR_TPM_NOT_READY
        = tb_policy_action_t.TB_POLACT_UNMEASURED_LAUNCH ∧
      evaluate_error tb_h tb_h.TB_POLTYPE_CONT_VERIFY_FAIL tb_h.TB_ERR_TPM_NOT_READY
        = tb_policy_action_t.TB_POLACT_HALT ∧
      evaluate_error tb_h tb_h.TB_POLTYPE_CONT_VERIFY_FAIL tb_h.TB_ERR_POLICY_INVALID
        = evaluate_error_lookup tb_h tb_h.TB_POLTYPE_CONT_VERIFY_FAIL
            tb_h.TB_ERR_POLICY_INVALID ∧
      evaluate_error tb_h tb_h.TB_POLTYPE_HALT tb_h.TB_ERR_POLICY_INVALID
        = tb_policy_action_t.TB_POLACT_HALT ∧
      evaluate_error tb_h 7 tb_h.TB_ERR_POLICY_INVALID = tb_policy_action_t.TB_POLACT_HALT :=
  ⟨by decide, by decide,
    (evaluate_error_is_lookup tb_h (by decide) (by decide) (by decide)).1 _ _,
    (evaluate_error_is_lookup tb_h (by decide) (by decide) (by decide)).2.2.1 _ (by decide),
    (evaluate_error_is_lookup tb_h (by decide) (by decide) (by decide)).2.2.2.2 _ _
      (by decide) (by decide)⟩

/-! ### Policy lists -/

/-- An element whose `size` field is 0 keeps the loop of `verify_policy_list` in
the same state: no amount of fuel ends it. -/
theorem verify_elts_loop_zero_size (H : LcpH) (pollist : List Nat) (elts_size elt : Nat)
    (hlt : elts_size < policy_elements_size H pollist) (h32 : elts_size < 4294967296)
    (hz : elt_size H pollist elt = 0) :
    ∀ fuel, verify_elts_loop H pollist fuel elts_size elt = none
  | 0 => rfl
  | fuel + 1 => by
    unfold verify_elts_loop
    have hu : u32 (elts_size + 0) = elts_size := by
      unfold u32
      rw [Nat.add_zero]
      exact Nat.mod_eq_of_lt h32
    rw [if_pos hlt, hz, hu, if_neg (by omega), Nat.add_zero]
    exact verify_elts_loop_zero_size H pollist elts_size elt hlt h32 hz fuel

/-- C39 does not hold for the code: on the 20-byte policy list
`pollist_zero_elt` (valid header, `policy_elements_size = 12`, first element
with `size = 0`) the loop of `verify_policy_list` adds 0 to `elts_size` and
leaves `elt` where it is, so no number of iterations ends it. -/
theorem verify_policy_list_zero_size_loops :
    ∀ fuel, verify_policy_list lcp_h fuel (some pollist_zero_elt) 20 false true = none := by
  intro fuel
  have hl := verify_elts_loop_zero_size lcp_h pollist_zero_elt 0 lcp_h.off_policy_elements
    (by decide) (by decide) (by decide) fuel
  unfold verify_policy_list
  simp only
  rw [hl]
  decide

theorem size_t_sub_eq (H : LcpH) (a b : Nat) (hb : b ≤ a) (ha : a < H.size_t_mod) :
    size_t_sub H a b = a - b := by
  unfold size_t_sub
  rw [Nat.mod_eq_of_lt (show b < H.size_t_mod by omega)]
  have e : a + (H.size_t_mod - b) = (a - b) + H.size_t_mod := by omega
  rw [e, Nat.add_mod_right, Nat.mod_eq_of_lt (by omega)]

theorem size_t_add_eq (H : LcpH) (a b : Nat) (h : a + b < H.size_t_mod) :
    size_t_add H a b = a + b := by
  unfold size_t_add
  exact Nat.mod_eq_of_lt h

theorem rd_lt_of_bytes (m : List Nat) (hb : ∀ b ∈ m, b < 256) (i : Nat) : rd m i < 256 := by
  unfold rd
  by_cases h : i < m.length
  · rw [List.getD_eq_getElem _ _ h]
    exact hb _ (List.getElem_mem _)
  · rw [List.getD_eq_default _ _ (by omega)]
    decide

theorem u32_at_congr (m1 m2 : List Nat) (a b : Nat)
    (h : ∀ j, j < 4 → rd m1 (a + j) = rd m2 (b + j)) : u32_at m1 a = u32_at m2 b := by
  unfold u32_at
  rw [readBytes_ext m1 m2 a b 4 h]

/-- Storing the value of a 4-byte field again gives back its bytes. -/
theorem rd_le_bytes_u32_at (m : List Nat) (o j : Nat) (hj : j < 4)
    (hb : ∀ k, k < 4 → rd m (o + k) < 256) :
    rd (le_bytes 4 (u32_at m o)) j = rd m (o + j) := by
  have e : readBytes m o 4 = [rd m (o + 0), rd m (o + 1), rd m (o + 2), rd m (o + 3)] := rfl
  have h0 := hb 0 (by omega)
  have h1 := hb 1 (by omega)
  have h2 := hb 2 (by omega)
  have h3 := hb 3 (by omega)
  unfold le_bytes u32_at
  rw [rd_map_range, if_pos hj, e]
  simp only [le_val]
  have hj4 : j = 0 ∨ j = 1 ∨ j = 2 ∨ j = 3 := by omega
  rcases hj4 with hh | hh | hh | hh
  all_goals subst hh
  all_goals simp only [Nat.add_zero] at *
  all_goals generalize rd m o = b0 at *
  all_goals generalize rd m (o + 1) = b1 at *
  all_goals generalize rd m (o + 2) = b2 at *
  all_goals generalize rd m (o + 3) = b3 at *
  all_goals norm_num
  all_goals omega

/-- The 4-byte field just stored reads back as the stored value. -/
theorem u32_at_memcpy_le_bytes (m : List Nat) (o v : Nat) (ho : o + 4 ≤ m.length)
    (hv : v < 4294967296) : u32_at (memcpy m o (le_bytes 4 v)) o = v := by
  unfold u32_at
  rw [readBytes_memcpy_hit0 m o (le_bytes 4 v) 4 ho (by rw [length_le_bytes])]
  have e : readBytes (le_bytes 4 v) 0 4 = le_bytes 4 v := by
    have := readBytes_self (le_bytes 4 v)
    rwa [length_le_bytes] at this
  rw [e]
  exact le_val_le_bytes_4 v (by norm_num; exact hv)

theorem rd_realloc (p : List Nat) (n : Nat) (f : List Nat) :
    ∃ nb, realloc p n (some f) = some nb ∧ nb.length = n ∧
      ∀ i, rd nb i = if i < n then (if i < p.length then rd p i else rd f (i - p.length)) else 0 := by
  refine ⟨_, rfl, by simp, fun i => ?_⟩
  rw [rd_map_range]

/-- The block that `add_policy_element` returns, byte by byte. -/
theorem add_policy_element_bytes (H : LcpH) (p e f : List Nat)
    (hlay1 : H.off_policy_elements_size + 4 ≤ H.off_policy_elements)
    (hold1 : H.off_policy_elements ≤ H.get_policy_list_size p)
    (hold2 : H.get_policy_list_size p ≤ p.length)
    (hsz : H.get_policy_list_size p + elt_size H e 0 < H.size_t_mod)
    (hpes : policy_elements_size H p + elt_size H e 0 < 4294967296) :
    ∃ np, add_policy_element H (some p) (some e) (some f) = some np ∧
      np.length = H.get_policy_list_size p + elt_size H e 0 ∧
      ∀ i, i < H.get_policy_list_size p + elt_size H e 0 →
        rd np i =
          if H.off_policy_elements_size ≤ i ∧ i < H.off_policy_elements_size + 4 then
            rd (le_bytes 4 (policy_elements_size H p + elt_size H e 0))
              (i - H.off_policy_elements_size)
          else if H.off_policy_elements ≤ i ∧ i < H.off_policy_elements + elt_size H e 0 then
            rd e (i - H.off_policy_elements)
          else if H.off_policy_elements + elt_size H e 0 ≤ i then rd p (i - elt_size H e 0)
          else rd p i := by
  obtain ⟨nb, hnb, hlen, hrd⟩ := rd_realloc p (H.get_policy_list_size p + elt_size H e 0) f
  unfold add_policy_element
  simp only
  rw [size_t_add_eq H _ _ hsz, hnb, size_t_sub_eq H _ _ hold1 (by omega)]
  simp only
  generalize hesz : elt_size H e 0 = esz at *
  generalize hold : H.get_policy_list_size p = old at *
  generalize hoff : H.off_policy_elements = off at *
  generalize hpo : H.off_policy_elements_size = po at *
  have hm2 : policy_elements_size H
      (memcpy (memmove nb (off + esz) off (old - off)) off (readBytes e 0 esz))
      = policy_elements_size H p := by
    unfold policy_elements_size memmove
    rw [hpo]
    apply u32_at_congr
    intro j hj
    rw [rd_memcpy, if_neg (by omega), rd_memcpy, if_neg (by omega), hrd,
      if_pos (by omega), if_pos (by omega)]
  rw [hm2]
  have hu : u32 (policy_elements_size H p + esz) = policy_elements_size H p + esz :=
    Nat.mod_eq_of_lt hpes
  rw [hu]
  refine ⟨_, rfl, ?_, ?_⟩
  · unfold memmove
    simp only [length_memcpy]
    exact hlen
  · intro i hi
    unfold memmove
    rw [rd_memcpy, length_le_bytes, length_memcpy, length_memcpy, hlen]
    by_cases c1 : po ≤ i ∧ i < po + 4
    · rw [if_pos ⟨c1.1, c1.2, hi⟩, if_pos c1]
    · rw [if_neg (fun hh => c1 ⟨hh.1, hh.2.1⟩), if_neg c1]
      rw [rd_memcpy, length_readBytes, length_memcpy, hlen]
      by_cases c2 : off ≤ i ∧ i < off + esz
      · rw [if_pos ⟨c2.1, c2.2, hi⟩, if_pos c2, rd_readBytes, if_pos (by omega), Nat.zero_add]
      · rw [if_neg (fun hh => c2 ⟨hh.1, hh.2.1⟩), if_neg c2]
        rw [rd_memcpy, length_readBytes, hlen]
        by_cases c3 : off + esz ≤ i
        · rw [if_pos ⟨c3, by omega, hi⟩, if_pos c3, rd_readBytes, if_pos (by omega), hrd,
            if_pos (by omega), if_pos (by omega)]
          congr 1
          omega
        · rw [if_neg (fun hh => c3 hh.1), if_neg c3, hrd, if_pos hi, if_pos (by omega)]

/-- C38: adding then deleting a policy element restores the list.  For a policy
list block `p` of bytes whose size `get_policy_list_size` lies within the block
and an element `e` whose `size` is at least the element header size (and such
that the sizes do not wrap), `add_policy_element` returns a block that holds
`e` at the beginning of the elements region, the old elements and signature
behind it, and `policy_elements_size` increased by `e->size`;
`del_policy_element` on that block with `e->type` returns true and leaves the
first `get_policy_list_size p` bytes (header, `policy_elements_size`, remaining
elements, signature) equal to those of `p`. -/
theorem add_del_policy_element_restores (H : LcpH) (p e f : List Nat)
    (hlay1 : H.off_policy_elements_size + 4 ≤ H.off_policy_elements)
    (hlay2 : H.off_elt_size + 4 ≤ H.sizeof_lcp_policy_element_t)
    (hlay3 : H.off_elt_type + 4 ≤ H.sizeof_lcp_policy_element_t)
    (hhdr : H.sizeof_lcp_policy_element_t ≤ elt_size H e 0)
    (hbytes : ∀ b ∈ p, b < 256)
    (hold1 : H.off_policy_elements ≤ H.get_policy_list_size p)
    (hold2 : H.get_policy_list_size p ≤ p.length)
    (hsz : H.get_policy_list_size p + elt_size H e 0 < H.size_t_mod)
    (hpes : policy_elements_size H p + elt_size H e 0 < 4294967296)
    (hgrow : ∀ np, add_policy_element H (some p) (some e) (some f) = some np →
      H.get_policy_list_size np = H.get_policy_list_size p + elt_size H e 0) :
    ∃ np, add_policy_element H (some p) (some e) (some f) = some np ∧
      np.length = H.get_policy_list_size p + elt_size H e 0 ∧
      readBytes np H.off_policy_elements (elt_size H e 0) = readBytes e 0 (elt_size H e 0) ∧
      policy_elements_size H np = policy_elements_size H p + elt_size H e 0 ∧
      readBytes np (H.off_policy_elements + elt_size H e 0)
          (H.get_policy_list_size p - H.off_policy_elements)
        = readBytes p H.off_policy_elements
          (H.get_policy_list_size p - H.off_policy_elements) ∧
      ∀ fuel, ∃ dp,
        del_policy_element H (fuel + 1) (some np) (elt_type H e 0) = some (true, some dp) ∧
        dp.length = np.length ∧
        readBytes dp 0 (H.get_policy_list_size p) = readBytes p 0 (H.get_policy_list_size p) ∧
        policy_elements_size H dp = policy_elements_size H p := by
  obtain ⟨np, hadd, hlen, hrd⟩ :=
    add_policy_element_bytes H p e f hlay1 hold1 hold2 hsz hpes
  have htot := hgrow np hadd
  have hF2 : elt_type H np H.off_policy_elements = elt_type H e 0 := by
    unfold elt_type
    apply u32_at_congr
    intro j hj
    rw [hrd _ (by omega), if_neg (by omega), if_pos (by omega)]
    congr 1
    omega
  have hF3 : elt_size H np H.off_policy_elements = elt_size H e 0 := by
    have hh : elt_size H np H.off_policy_elements
        = u32_at np (H.off_policy_elements + H.off_elt_size) := rfl
    have hh2 : elt_size H e 0 = u32_at e (0 + H.off_elt_size) := rfl
    rw [hh]
    conv_rhs => rw [hh2]
    apply u32_at_congr
    intro j hj
    rw [hrd _ (by omega), if_neg (by omega), if_pos (by omega)]
    congr 1
    omega
  generalize hesz : elt_size H e 0 = esz at *
  generalize hold : H.get_policy_list_size p = old at *
  generalize hoff : H.off_policy_elements = off at *
  generalize hpo : H.off_policy_elements_size = po at *
  have hF1 : policy_elements_size H np = policy_elements_size H p + esz := by
    unfold policy_elements_size
    rw [hpo]
    have e1 : readBytes np po 4 = le_bytes 4 (u32_at p po + esz) := by
      apply list_ext_rd
      · rw [length_readBytes, length_le_bytes]
      · intro i hi
        rw [length_readBytes] at hi
        rw [rd_readBytes, if_pos hi, hrd _ (by omega), if_pos (by omega)]
        unfold policy_elements_size
        rw [hpo]
        congr 1
        omega
    unfold u32_at at e1 ⊢
    rw [e1]
    unfold policy_elements_size u32_at at hpes
    rw [hpo] at hpes
    exact le_val_le_bytes_4 _ (by norm_num; exact hpes)
  have hesz32 : esz < 4294967296 := by omega
  refine ⟨np, hadd, hlen, ?_, hF1, ?_, ?_⟩
  · apply readBytes_ext
    intro j hj
    rw [hrd _ (by omega), if_neg (by omega), if_pos (by omega)]
    congr 1
    omega
  · apply readBytes_ext
    intro j hj
    rw [hrd _ (by omega), if_neg (by omega), if_neg (by omega), if_pos (by omega)]
    congr 1
    omega
  · intro fuel
    unfold del_policy_element
    simp only
    unfold del_policy_element_loop
    rw [hoff, if_pos (by rw [hF1]; omega), if_pos hF2]
    simp only [Option.map]
    rw [hF3, htot, hpo, size_t_sub_eq H _ _ (by omega) (by omega)]
    have e0 : old + esz - (off + esz) = old - off := by omega
    rw [e0]
    have hd1 : policy_elements_size H (memmove np off (off + esz) (old - off))
        = policy_elements_size H p + esz := by
      rw [← hF1]
      unfold policy_elements_size memmove
      rw [hpo]
      apply u32_at_congr
      intro j hj
      rw [rd_memcpy, if_neg (by omega)]
    rw [hd1]
    have hu : u32 (policy_elements_size H p + esz + (4294967296 - u32 esz))
        = policy_elements_size H p := by
      unfold u32
      omega
    rw [hu]
    refine ⟨_, rfl, ?_, ?_, ?_⟩
    · unfold memmove
      simp only [length_memcpy]
    · apply readBytes_ext
      intro j hj
      simp only [Nat.zero_add]
      unfold memmove
      rw [rd_memcpy, length_le_bytes, length_memcpy, hlen]
      by_cases c1 : po ≤ j ∧ j < po + 4
      · rw [if_pos ⟨c1.1, c1.2, by omega⟩]
        unfold policy_elements_size
        rw [hpo, rd_le_bytes_u32_at p po (j - po) (by omega)
          (fun k _ => rd_lt_of_bytes p hbytes _)]
        congr 1
        omega
      · rw [if_neg (fun hh => c1 ⟨hh.1, hh.2.1⟩), rd_memcpy, length_readBytes, hlen]
        by_cases c2 : off ≤ j
        · rw [if_pos ⟨c2, by omega, by omega⟩, rd_readBytes, if_pos (by omega),
            hrd _ (by omega), if_neg (by omega), if_neg (by omega), if_pos (by omega)]
          congr 1
          omega
        · rw [if_neg (fun hh => c2 hh.1), hrd _ (by omega), if_neg c1, if_neg (by omega),
            if_neg (by omega)]
    · unfold policy_elements_size
      rw [hpo]
      apply u32_at_memcpy_le_bytes
      · unfold memmove
        rw [length_memcpy, hlen]
        omega
      · have hlt := u32_at_lt p po
        norm_num at hlt
        exact hlt

set_option maxRecDepth 100000 in
theorem add_del_policy_element_restores_witness :
    ∃ np, add_policy_element lcp_h (some pollist_one_elt) (some elt_type_1)
        (some (List.replicate 13 0xEE)) = some np ∧
      np.length = 33 ∧
      ∀ fuel, ∃ dp,
        del_policy_element lcp_h (fuel + 1) (some np) 1 = some (true, some dp) ∧
        readBytes dp 0 20 = pollist_one_elt := by
  have hadd : add_policy_element lcp_h (some pollist_one_elt) (some elt_type_1)
      (some (List.replicate 13 0xEE))
      = some ([0, 1, 0, 0, 25, 0, 0, 0] ++ elt_type_1 ++ [12, 0, 0, 0, 2, 0, 0, 0, 0, 0, 0, 0]) := by
    decide
  obtain ⟨np, h1, h2, _, _, _, h6⟩ := add_del_policy_element_restores lcp_h pollist_one_elt
    elt_type_1 (List.replicate 13 0xEE) (by decide) (by decide) (by decide) (by decide)
    (by decide) (by decide) (by decide) (by decide) (by decide)
    (fun np hnp => by
      rw [hadd] at hnp
      cases hnp
      decide)
  refine ⟨np, h1, h2, fun fuel => ?_⟩
  obtain ⟨dp, d1, _, d3, _⟩ := h6 fuel
  exact ⟨dp, d1, d3⟩

/-! ### `read_policy_from_tpm` -/

theorem ext_by_log {σ : Type} {X : List Ev} {s1 s2 : Hw σ} (h : ext_by X s1 s2) :
    ∃ evs, s2.log = evs ++ s1.log := by
  obtain ⟨evs, hl, _⟩ := h
  exact ⟨evs, hl⟩

/-- What the events of a call look like when its last two events are a message
and, after it, the deactivation write. -/
theorem new_events_deactivated {σ : Type} (t : Tpm σ) (locality : Nat) (m : Msg) (s q p : Hw σ)
    (hq : ∃ evs, q.log = evs ++ s.log) (hp : ∃ evs, p.log = evs ++ q.log) (r : Hw σ)
    (hr : r = write_tpm_reg t locality TPM_REG_ACCESS ACC_ACTIVE_LOCALITY (printk m p)) :
    Ev.msg m ∈ new_events s.log r.log ∧
      (∃ rest, new_events s.log r.log
        = Ev.wr locality TPM_REG_ACCESS ACC_ACTIVE_LOCALITY :: rest) ∧
      ∃ evs, r.log = evs ++ q.log := by
  obtain ⟨e1, h1⟩ := hq
  obtain ⟨e2, h2⟩ := hp
  have hlog : r.log = (Ev.wr locality TPM_REG_ACCESS ACC_ACTIVE_LOCALITY :: Ev.msg m :: e2)
      ++ q.log := by
    rw [hr]
    show Ev.wr locality TPM_REG_ACCESS ACC_ACTIVE_LOCALITY :: Ev.msg m :: p.log = _
    rw [h2]
    rfl
  have hlog2 : r.log = (Ev.wr locality TPM_REG_ACCESS ACC_ACTIVE_LOCALITY :: Ev.msg m :: e2
      ++ e1) ++ s.log := by
    rw [hlog, h1]
    simp
  refine ⟨?_, ?_, _, hlog⟩
  · rw [hlog2, new_events_append]
    simp
  · rw [hlog2, new_events_append]
    exact ⟨_, rfl⟩

/-- The command-ready wait of `tpm_wait_cmd_ready` exhausts its budget. -/
theorem tpm_wait_cmd_ready_of_cmd_ready_none {σ : Type} (h : TpmH) (t : Tpm σ) (locality : Nat)
    (s : Hw σ)
    (hv : acc_tpm_reg_valid_sts (read_tpm_reg t locality TPM_REG_ACCESS 1 s).1 ≠ 0)
    (ha : (poll (active_body t locality) TPM_ACTIVE_LOCALITY_TIME_OUT
      (write_tpm_reg t locality TPM_REG_ACCESS ACC_REQUEST_USE
        (read_tpm_reg t locality TPM_REG_ACCESS 1 s).2)).1 ≠ none)
    (hc : (poll (cmd_ready_body t locality) TPM_CMD_READY_TIME_OUT
      (poll (active_body t locality) TPM_ACTIVE_LOCALITY_TIME_OUT
        (write_tpm_reg t locality TPM_REG_ACCESS ACC_REQUEST_USE
          (read_tpm_reg t locality TPM_REG_ACCESS 1 s).2)).2).1 = none) :
    tpm_wait_cmd_ready h t locality s
      = (h.TPM_FAIL, write_tpm_reg t locality TPM_REG_ACCESS ACC_ACTIVE_LOCALITY
          (printk Msg.command_ready_timeout (printk Msg.status_reg_content
            (poll (cmd_ready_body t locality) TPM_CMD_READY_TIME_OUT
              (poll (active_body t locality) TPM_ACTIVE_LOCALITY_TIME_OUT
                (write_tpm_reg t locality TPM_REG_ACCESS ACC_REQUEST_USE
                  (read_tpm_reg t locality TPM_REG_ACCESS 1 s).2)).2).2))) := by
  unfold tpm_wait_cmd_ready
  dsimp only
  rw [if_neg hv]
  generalize poll (active_body t locality) TPM_ACTIVE_LOCALITY_TIME_OUT
      (write_tpm_reg t locality TPM_REG_ACCESS ACC_REQUEST_USE
        (read_tpm_reg t locality TPM_REG_ACCESS 1 s).2) = p at ha hc
  cases hp : p.1 with
  | none => exact absurd hp ha
  | some u =>
    dsimp only
    generalize poll (cmd_ready_body t locality) TPM_CMD_READY_TIME_OUT p.2 = q at hc
    rw [hc]

/-- Both waits of `tpm_wait_cmd_ready` see their condition. -/
theorem tpm_wait_cmd_ready_of_ready {σ : Type} (h : TpmH) (t : Tpm σ) (locality : Nat)
    (s : Hw σ)
    (hv : acc_tpm_reg_valid_sts (read_tpm_reg t locality TPM_REG_ACCESS 1 s).1 ≠ 0)
    (ha : (poll (active_body t locality) TPM_ACTIVE_LOCALITY_TIME_OUT
      (write_tpm_reg t locality TPM_REG_ACCESS ACC_REQUEST_USE
        (read_tpm_reg t locality TPM_REG_ACCESS 1 s).2)).1 ≠ none)
    (hc : (poll (cmd_ready_body t locality) TPM_CMD_READY_TIME_OUT
      (poll (active_body t locality) TPM_ACTIVE_LOCALITY_TIME_OUT
        (write_tpm_reg t locality TPM_REG_ACCESS ACC_REQUEST_USE
          (read_tpm_reg t locality TPM_REG_ACCESS 1 s).2)).2).1 ≠ none) :
    tpm_wait_cmd_ready h t locality s
      = (TPM_SUCCESS, (poll (cmd_ready_body t locality) TPM_CMD_READY_TIME_OUT
              (poll (active_body t locality) TPM_ACTIVE_LOCALITY_TIME_OUT
                (write_tpm_reg t locality TPM_REG_ACCESS ACC_REQUEST_USE
                  (read_tpm_reg t locality TPM_REG_ACCESS 1 s).2)).2).2) := by
  unfold tpm_wait_cmd_ready
  dsimp only
  rw [if_neg hv]
  generalize poll (active_body t locality) TPM_ACTIVE_LOCALITY_TIME_OUT
      (write_tpm_reg t locality TPM_REG_ACCESS ACC_REQUEST_USE
        (read_tpm_reg t locality TPM_REG_ACCESS 1 s).2) = p at ha hc
  cases hp : p.1 with
  | none => exact absurd hp ha
  | some u =>
    dsimp only
    generalize poll (cmd_ready_body t locality) TPM_CMD_READY_TIME_OUT p.2 = q at hc
    cases hq : q.1 with
    | none => exact absurd hq hc
    | some u2 => rfl

/-- A call of `tpm_write_cmd_fifo` with valid parameters whose
`tpm_validate_locality` and `tpm_wait_cmd_ready` succeed continues with the
command write loop. -/
theorem tpm_write_cmd_fifo_of_ready {σ : Type} (h : TpmH) (t : Tpm σ) (locality : Nat)
    (inb : List Nat) (in_size : Nat) (outb : List Nat) (osz : Nat) (s sw : Hw σ)
    (hloc : locality < h.TPM_NR_LOCALITIES) (hin : CMD_HEAD_SIZE ≤ in_size)
    (hout : RSP_HEAD_SIZE ≤ osz) (hv : (tpm_validate_locality t locality s).1 = true)
    (hw : tpm_wait_cmd_ready h t locality (tpm_validate_locality t locality s).2
      = (TPM_SUCCESS, sw)) :
    tpm_write_cmd_fifo h t locality (some inb) in_size (some outb) (some osz) s
      = match fifo_write_loop t locality inb in_size in_size 0 sw with
        | none => none
        | some (false, s1) => some (relinquish_control t locality h.TPM_FAIL outb osz s1)
        | some (true, s1) =>
          match (poll (data_avail_body t locality) TPM_DATA_AVAIL_TIME_OUT
              (write_tpm_reg t locality TPM_REG_STS STS_TPM_GO s1)).1 with
          | none =>
            some (relinquish_control t locality h.TPM_FAIL outb osz
              (printk Msg.data_avail_timeout
                (poll (data_avail_body t locality) TPM_DATA_AVAIL_TIME_OUT
                  (write_tpm_reg t locality TPM_REG_STS STS_TPM_GO s1)).2))
          | some _ =>
            match fifo_read_loop t locality osz osz ⟨0, 0, outb,
                (poll (data_avail_body t locality) TPM_DATA_AVAIL_TIME_OUT
                  (write_tpm_reg t locality TPM_REG_STS STS_TPM_GO s1)).2⟩ with
            | none => none
            | some (false, v1) =>
              some (relinquish_control t locality h.TPM_FAIL v1.out osz v1.s)
            | some (true, v1) =>
              some (relinquish_control t locality
                (le_val (_reverse_copy (readBytes v1.out RSP_RST_OFFSET 4) 4)) v1.out
                (if v1.rsp_size < osz then v1.rsp_size else osz)
                (write_tpm_reg t locality TPM_REG_STS STS_COMMAND_READY v1.s)) := by
  unfold tpm_write_cmd_fifo
  rw [if_neg (by omega)]
  dsimp only
  rw [if_neg (by omega)]
  generalize tpm_validate_locality t locality s = v at hv hw
  rw [hv, hw]
  dsimp only
  rw [if_neg (by decide), if_neg (by simp)]

/-- A pass of the command write loop whose burst-count wait exhausts its budget
ends the loop with the timeout message. -/
theorem fifo_write_loop_of_pass {σ : Type} (t : Tpm σ) (locality : Nat) (inp : List Nat)
    (in_size : Nat) :
    ∀ (k fuel offset : Nat) (s : Hw σ) (off1 : Nat) (sk : Hw σ) (res : Bool × Hw σ),
      fifo_write_pass t locality inp in_size k offset s = some (off1, sk) →
      (poll (burst_body t locality) TPM_CMD_WRITE_TIME_OUT sk).1 = none →
      fifo_write_loop t locality inp in_size fuel offset s = some res →
      res = (false, printk Msg.write_cmd_timeout
        (poll (burst_body t locality) TPM_CMD_WRITE_TIME_OUT sk).2) ∧
      ∃ evs, sk.log = evs ++ s.log
  | 0, fuel, offset, s, off1, sk, res, hp, hn, hl => by
    unfold fifo_write_pass at hp
    cases hp
    cases fuel with
    | zero =>
      unfold fifo_write_loop at hl
      cases hl
    | succ n =>
      unfold fifo_write_loop at hl
      dsimp only at hl
      rw [hn] at hl
      cases hl
      exact ⟨rfl, [], rfl⟩
  | k + 1, fuel, offset, s, off1, sk, res, hp, hn, hl => by
    unfold fifo_write_pass at hp
    dsimp only at hp
    have e1 := ext_by_poll (burst_body t locality) (ext_by_burst_body t locality)
      TPM_CMD_WRITE_TIME_OUT s
    cases hr : (poll (burst_body t locality) TPM_CMD_WRITE_TIME_OUT s).1 with
    | none =>
      rw [hr] at hp
      cases hp
    | some row_size =>
      rw [hr] at hp
      dsimp only at hp
      have e2 := ext_by_fifo_write_row t locality inp in_size row_size offset
        (poll (burst_body t locality) TPM_CMD_WRITE_TIME_OUT s).2
      split_ifs at hp with hlt
      cases fuel with
      | zero =>
        unfold fifo_write_loop at hl
        cases hl
      | succ n =>
        unfold fifo_write_loop at hl
        dsimp only at hl
        rw [hr] at hl
        dsimp only at hl
        rw [if_pos hlt] at hl
        obtain ⟨g1, evs, g2⟩ := fifo_write_loop_of_pass t locality inp in_size k n _ _ off1 sk
          res hp hn hl
        refine ⟨g1, ?_⟩
        obtain ⟨ev1, h1⟩ := ext_by_log (ext_by_quiet_trans e1 e2)
        exact ⟨evs ++ ev1, by rw [g2, h1, List.append_assoc]⟩

/-- A pass of the response read loop whose burst-count wait exhausts its budget
ends the loop with the timeout message. -/
theorem fifo_read_loop_of_pass {σ : Type} (t : Tpm σ) (locality out_size : Nat) :
    ∀ (k fuel : Nat) (v vk : RdVars σ) (res : Bool × RdVars σ),
      fifo_read_pass t locality out_size k v = some vk →
      (poll (burst_body t locality) TPM_RSP_READ_TIME_OUT vk.s).1 = none →
      fifo_read_loop t locality out_size fuel v = some res →
      res = (false, { vk with
        s := printk Msg.read_rsp_timeout
          (poll (burst_body t locality) TPM_RSP_READ_TIME_OUT vk.s).2 }) ∧
      ∃ evs, vk.s.log = evs ++ v.s.log
  | 0, fuel, v, vk, res, hp, hn, hl => by
    unfold fifo_read_pass at hp
    cases hp
    cases fuel with
    | zero =>
      unfold fifo_read_loop at hl
      cases hl
    | succ n =>
      unfold fifo_read_loop at hl
      dsimp only at hl
      rw [hn] at hl
      cases hl
      exact ⟨rfl, [], rfl⟩
  | k + 1, fuel, v, vk, res, hp, hn, hl => by
    unfold fifo_read_pass at hp
    dsimp only at hp
    have e1 := ext_by_poll (burst_body t locality) (ext_by_burst_body t locality)
      TPM_RSP_READ_TIME_OUT v.s
    cases hr : (poll (burst_body t locality) TPM_RSP_READ_TIME_OUT v.s).1 with
    | none =>
      rw [hr] at hp
      cases hp
    | some row_size =>
      rw [hr] at hp
      dsimp only at hp
      have e2 := ext_by_fifo_read_row t locality out_size row_size
        { v with s := (poll (burst_body t locality) TPM_RSP_READ_TIME_OUT v.s).2 }
      split_ifs at hp with hlt
      cases fuel with
      | zero =>
        unfold fifo_read_loop at hl
        cases hl
      | succ n =>
        unfold fifo_read_loop at hl
        dsimp only at hl
        rw [hr] at hl
        dsimp only at hl
        rw [if_pos hlt] at hl
        obtain ⟨g1, evs, g2⟩ := fifo_read_loop_of_pass t locality out_size k n _ vk res hp hn hl
        refine ⟨g1, ?_⟩
        obtain ⟨ev1, h1⟩ := ext_by_log (ext_by_quiet_trans e1 e2)
        exact ⟨evs ++ ev1, by rw [g2, h1, List.append_assoc]⟩

theorem log_ext_trans {σ : Type} {s1 s2 s3 : Hw σ} (h1 : ∃ evs, s2.log = evs ++ s1.log)
    (h2 : ∃ evs, s3.log = evs ++ s2.log) : ∃ evs, s3.log = evs ++ s1.log := by
  obtain ⟨e1, g1⟩ := h1
  obtain ⟨e2, g2⟩ := h2
  exact ⟨e2 ++ e1, by rw [g2, g1, List.append_assoc]⟩

theorem log_ext_poll {σ α : Type} (body : Hw σ → Option α × Hw σ)
    (hb : ∀ s, ext_by [] s (body s).2) (n : Nat) (s : Hw σ) :
    ∃ evs, (poll body n s).2.log = evs ++ s.log :=
  ext_by_log (ext_by_poll body hb n s)

theorem at_request_use_some {σ : Type} (t : Tpm σ) (locality : Nat) (s sa : Hw σ)
    (h : at_request_use t locality s = some sa) :
    (tpm_validate_locality t locality s).1 = true ∧
      acc_tpm_reg_valid_sts (read_tpm_reg t locality TPM_REG_ACCESS 1
        (tpm_validate_locality t locality s).2).1 ≠ 0 ∧
      sa = write_tpm_reg t locality TPM_REG_ACCESS ACC_REQUEST_USE
        (read_tpm_reg t locality TPM_REG_ACCESS 1 (tpm_validate_locality t locality s).2).2 := by
  unfold at_request_use at h
  dsimp only at h
  split_ifs at h with h1 h2
  exact ⟨h1, h2, (Option.some.inj h).symm⟩

theorem at_request_use_log {σ : Type} (t : Tpm σ) (locality : Nat) (s sa : Hw σ)
    (h : at_request_use t locality s = some sa) : ∃ evs, sa.log = evs ++ s.log := by
  obtain ⟨h1, _, h3⟩ := at_request_use_some t locality s sa h
  have e0 := tpm_validate_locality_ext t locality s
  rw [h1] at e0
  have e1 := ext_by_read_tpm_reg t locality TPM_REG_ACCESS 1
    (tpm_validate_locality t locality s).2
  have e2 := ext_by_write_access t locality ACC_REQUEST_USE
    (read_tpm_reg t locality TPM_REG_ACCESS 1 (tpm_validate_locality t locality s).2).2
  rw [h3]
  exact log_ext_trans (ext_by_log e0) (log_ext_trans (ext_by_log e1) (ext_by_log e2))

theorem at_cmd_ready_some {σ : Type} (t : Tpm σ) (locality : Nat) (s sc : Hw σ)
    (h : at_cmd_ready t locality s = some sc) :
    ∃ sa, at_request_use t locality s = some sa ∧
      (poll (active_body t locality) TPM_ACTIVE_LOCALITY_TIME_OUT sa).1 ≠ none ∧
      sc = (poll (active_body t locality) TPM_ACTIVE_LOCALITY_TIME_OUT sa).2 := by
  unfold at_cmd_ready at h
  cases ha : at_request_use t locality s with
  | none =>
    rw [ha] at h
    cases h
  | some sa =>
    rw [ha] at h
    dsimp only at h
    cases hp : (poll (active_body t locality) TPM_ACTIVE_LOCALITY_TIME_OUT sa).1 with
    | none =>
      rw [hp] at h
      cases h
    | some u =>
      rw [hp] at h
      exact ⟨sa, rfl, (by rw [hp]; exact fun hh => by cases hh), (Option.some.inj h).symm⟩

theorem at_cmd_ready_log {σ : Type} (t : Tpm σ) (locality : Nat) (s sc : Hw σ)
    (h : at_cmd_ready t locality s = some sc) : ∃ evs, sc.log = evs ++ s.log := by
  obtain ⟨sa, h1, _, h3⟩ := at_cmd_ready_some t locality s sc h
  rw [h3]
  exact log_ext_trans (at_request_use_log t locality s sa h1)
    (log_ext_poll (active_body t locality) (ext_by_active_body t locality) _ sa)

theorem at_write_loop_some {σ : Type} (t : Tpm σ) (locality : Nat) (s sw : Hw σ)
    (h : at_write_loop t locality s = some sw) :
    ∃ sc, at_cmd_ready t locality s = some sc ∧
      (poll (cmd_ready_body t locality) TPM_CMD_READY_TIME_OUT sc).1 ≠ none ∧
      sw = (poll (cmd_ready_body t locality) TPM_CMD_READY_TIME_OUT sc).2 := by
  unfold at_write_loop at h
  cases ha : at_cmd_ready t locality s with
  | none =>
    rw [ha] at h
    cases h
  | some sc =>
    rw [ha] at h
    dsimp only at h
    cases hp : (poll (cmd_ready_body t locality) TPM_CMD_READY_TIME_OUT sc).1 with
    | none =>
      rw [hp] at h
      cases h
    | some u =>
      rw [hp] at h
      exact ⟨sc, rfl, (by rw [hp]; exact fun hh => by cases hh), (Option.some.inj h).symm⟩

theorem at_write_loop_log {σ : Type} (t : Tpm σ) (locality : Nat) (s sw : Hw σ)
    (h : at_write_loop t locality s = some sw) : ∃ evs, sw.log = evs ++ s.log := by
  obtain ⟨sc, h1, _, h3⟩ := at_write_loop_some t locality s sw h
  rw [h3]
  exact log_ext_trans (at_cmd_ready_log t locality s sc h1)
    (log_ext_poll (cmd_ready_body t locality) (ext_by_cmd_ready_body t locality) _ sc)

/-- A call that reaches the command write loop has passed `tpm_validate_locality`
and `tpm_wait_cmd_ready` successfully. -/
theorem at_write_loop_run {σ : Type} (h : TpmH) (t : Tpm σ) (locality : Nat) (s sw : Hw σ)
    (hw : at_write_loop t locality s = some sw) :
    (tpm_validate_locality t locality s).1 = true ∧
      tpm_wait_cmd_ready h t locality (tpm_validate_locality t locality s).2
        = (TPM_SUCCESS, sw) := by
  obtain ⟨sc, h1, h2, h3⟩ := at_write_loop_some t locality s sw hw
  obtain ⟨sa, g1, g2, g3⟩ := at_cmd_ready_some t locality s sc h1
  obtain ⟨f1, f2, f3⟩ := at_request_use_some t locality s sa g1
  subst f3
  subst g3
  subst h3
  exact ⟨f1, tpm_wait_cmd_ready_of_ready h t locality _ f2 g2 h2⟩

theorem at_data_avail_some {σ : Type} (t : Tpm σ) (locality : Nat) (inp : List Nat)
    (in_size : Nat) (s sg : Hw σ) (h : at_data_avail t locality inp in_size s = some sg) :
    ∃ sw s1, at_write_loop t locality s = some sw ∧
      fifo_write_loop t locality inp in_size in_size 0 sw = some (true, s1) ∧
      sg = write_tpm_reg t locality TPM_REG_STS STS_TPM_GO s1 := by
  unfold at_data_avail at h
  cases ha : at_write_loop t locality s with
  | none =>
    rw [ha] at h
    cases h
  | some sw =>
    rw [ha] at h
    dsimp only at h
    cases hl : fifo_write_loop t locality inp in_size in_size 0 sw with
    | none =>
      rw [hl] at h
      cases h
    | some res =>
      obtain ⟨b, s1⟩ := res
      rw [hl] at h
      cases b with
      | false => cases h
      | true => exact ⟨sw, s1, rfl, hl, (Option.some.inj h).symm⟩

theorem at_data_avail_log {σ : Type} (t : Tpm σ) (locality : Nat) (inp : List Nat)
    (in_size : Nat) (s sg : Hw σ) (h : at_data_avail t locality inp in_size s = some sg) :
    ∃ evs, sg.log = evs ++ s.log := by
  obtain ⟨sw, s1, h1, h2, h3⟩ := at_data_avail_some t locality inp in_size s sg h
  rw [h3]
  exact log_ext_trans (at_write_loop_log t locality s sw h1)
    (log_ext_trans (ext_by_log (fifo_write_loop_ext t locality inp in_size in_size 0 sw true s1 h2))
      (ext_by_log (ext_by_write_go t locality s1)))

/-- C9 (amended): for every valid-parameter call of `tpm_write_cmd_fifo` and
every register behaviour, stated on the waits themselves.  When the
command-ready wait, the burst-count wait of some pass of the command write
loop, the data-available wait or the burst-count wait of some pass of the
response read loop, entered in the state the call reaches it in, exhausts its
budget (`poll` ends with `none`), the call returns `TPM_FAIL`, prints the
timeout message of that wait, and its last register access is the write of the
deactivation value (`active_locality` = 1, all other bits 0) to the locality's
access register; the state in which the wait is entered is a state of this
run, its event log being the older part of the log of the call.  When the
access-register validation wait or the request-use wait exhausts its budget,
the call returns `TPM_FAIL` and prints the timeout message without writing the
deactivation value. -/
theorem tpm_write_cmd_fifo_wait_exhausted {σ : Type} (h : TpmH) (t : Tpm σ) (locality : Nat)
    (inb : List Nat) (in_size : Nat) (outb : List Nat) (osz : Nat) (s : Hw σ) (r : FifoRes σ)
    (hfail : h.TPM_FAIL ≠ TPM_SUCCESS)
    (hloc : locality < h.TPM_NR_LOCALITIES) (hin : CMD_HEAD_SIZE ≤ in_size)
    (hout : RSP_HEAD_SIZE ≤ osz)
    (hr : tpm_write_cmd_fifo h t locality (some inb) in_size (some outb) (some osz) s = some r) :
    ((poll (validate_body t locality) TPM_VALIDATE_LOCALITY_TIME_OUT s).1 = none →
      r.ret = h.TPM_FAIL ∧
        Ev.msg Msg.validate_locality_timeout ∈ new_events s.log r.hw.log ∧
        Ev.wr locality TPM_REG_ACCESS ACC_ACTIVE_LOCALITY ∉ new_events s.log r.hw.log) ∧
    (∀ sa, at_request_use t locality s = some sa →
      (poll (active_body t locality) TPM_ACTIVE_LOCALITY_TIME_OUT sa).1 = none →
      r.ret = h.TPM_FAIL ∧
        Ev.msg Msg.request_use_timeout ∈ new_events s.log r.hw.log ∧
        Ev.wr locality TPM_REG_ACCESS ACC_ACTIVE_LOCALITY ∉ new_events s.log r.hw.log) ∧
    (∀ sc, at_cmd_ready t locality s = some sc →
      (poll (cmd_ready_body t locality) TPM_CMD_READY_TIME_OUT sc).1 = none →
      r.ret = h.TPM_FAIL ∧
        Ev.msg Msg.command_ready_timeout ∈ new_events s.log r.hw.log ∧
        (∃ rest, new_events s.log r.hw.log
          = Ev.wr locality TPM_REG_ACCESS ACC_ACTIVE_LOCALITY :: rest) ∧
        ∃ evs, r.hw.log = evs ++ sc.log) ∧
    (∀ k sk, at_write_burst t locality inb in_size s k = some sk →
      (poll (burst_body t locality) TPM_CMD_WRITE_TIME_OUT sk).1 = none →
      r.ret = h.TPM_FAIL ∧
        Ev.msg Msg.write_cmd_timeout ∈ new_events s.log r.hw.log ∧
        (∃ rest, new_events s.log r.hw.log
          = Ev.wr locality TPM_REG_ACCESS ACC_ACTIVE_LOCALITY :: rest) ∧
        ∃ evs, r.hw.log = evs ++ sk.log) ∧
    (∀ sg, at_data_avail t locality inb in_size s = some sg →
      (poll (data_avail_body t locality) TPM_DATA_AVAIL_TIME_OUT sg).1 = none →
      r.ret = h.TPM_FAIL ∧
        Ev.msg Msg.data_avail_timeout ∈ new_events s.log r.hw.log ∧
        (∃ rest, new_events s.log r.hw.log
          = Ev.wr locality TPM_REG_ACCESS ACC_ACTIVE_LOCALITY :: rest) ∧
        ∃ evs, r.hw.log = evs ++ sg.log) ∧
    (∀ k sk, at_read_burst t locality inb in_size outb osz s k = some sk →
      (poll (burst_body t locality) TPM_RSP_READ_TIME_OUT sk).1 = none →
      r.ret = h.TPM_FAIL ∧
        Ev.msg Msg.read_rsp_timeout ∈ new_events s.log r.hw.log ∧
        (∃ rest, new_events s.log r.hw.log
          = Ev.wr locality TPM_REG_ACCESS ACC_ACTIVE_LOCALITY :: rest) ∧
        ∃ evs, r.hw.log = evs ++ sk.log) := by
  refine ⟨?_, ?_, ?_, ?_, ?_, ?_⟩
  · intro hp
    have hv := tpm_validate_locality_of_none t locality s hp
    have hrun := tpm_write_cmd_fifo_of_validate_false h t locality inb in_size outb osz s hloc
      hin hout (by rw [hv])
    have he := tpm_validate_locality_ext t locality s
    generalize tpm_validate_locality t locality s = v at hv hrun he
    have hv1 : v.1 = false := by rw [hv]
    rw [hv1] at he
    have he2 : ext_by [Ev.msg Msg.locality_not_open, Ev.msg Msg.validate_locality_timeout] s
        (printk Msg.locality_not_open v.2) := by
      simpa using ext_by_trans he (ext_by_printk Msg.locality_not_open v.2)
    rw [hr] at hrun
    cases Option.some.inj hrun
    refine ⟨rfl, ?_, ?_⟩
    · rw [ext_by_mem he2 _ (by decide)]
      decide
    · rw [ext_by_mem he2 _ (by simp [Ev.quiet])]
      simp
  · intro sa hsa hp
    obtain ⟨hv1, hval, hs⟩ := at_request_use_some t locality s sa hsa
    subst hs
    have he := tpm_validate_locality_ext t locality s
    obtain ⟨hw1, hw2⟩ := tpm_wait_cmd_ready_of_active_none_ext h t locality
      (tpm_validate_locality t locality s).2 hval hp
    have hrun := tpm_write_cmd_fifo_of_wait_fail h t locality inb in_size outb osz s hloc hin
      hout hv1 (by rw [hw1]; exact hfail)
    rw [hv1] at he
    have he2 := ext_by_trans_quiet he hw2
    generalize tpm_wait_cmd_ready h t locality (tpm_validate_locality t locality s).2 = w
      at hw1 hrun he2
    rw [hr] at hrun
    cases Option.some.inj hrun
    refine ⟨hw1, ?_, ?_⟩
    · rw [ext_by_mem he2 _ (by decide)]
      simp
    · rw [ext_by_mem he2 _ (by simp [Ev.quiet])]
      simp [ACC_ACTIVE_LOCALITY, ACC_REQUEST_USE]
  · intro sc hsc hp
    have hlog := at_cmd_ready_log t locality s sc hsc
    obtain ⟨sa, g1, g2, g3⟩ := at_cmd_ready_some t locality s sc hsc
    obtain ⟨hv1, hval, hs⟩ := at_request_use_some t locality s sa g1
    subst hs
    subst g3
    have hw := tpm_wait_cmd_ready_of_cmd_ready_none h t locality
      (tpm_validate_locality t locality s).2 hval g2 hp
    have hrun := tpm_write_cmd_fifo_of_wait_fail h t locality inb in_size outb osz s hloc hin
      hout hv1 (by rw [hw]; exact hfail)
    rw [hr, hw] at hrun
    cases Option.some.inj hrun
    refine ⟨rfl, ?_⟩
    exact new_events_deactivated t locality Msg.command_ready_timeout s _ _ hlog
      (log_ext_trans
        (log_ext_poll (cmd_ready_body t locality) (ext_by_cmd_ready_body t locality) _ _)
        (ext_by_log (ext_by_printk Msg.status_reg_content _))) _ rfl
  · intro k sk hsk hp
    unfold at_write_burst at hsk
    cases hw : at_write_loop t locality s with
    | none =>
      rw [hw] at hsk
      cases hsk
    | some sw =>
      rw [hw] at hsk
      dsimp only at hsk
      cases hpass : fifo_write_pass t locality inb in_size k 0 sw with
      | none =>
        rw [hpass] at hsk
        cases hsk
      | some p =>
        obtain ⟨off1, sk1⟩ := p
        rw [hpass] at hsk
        cases Option.some.inj hsk
        obtain ⟨hv1, hwait⟩ := at_write_loop_run h t locality s sw hw
        have hrun := tpm_write_cmd_fifo_of_ready h t locality inb in_size outb osz s sw hloc hin
          hout hv1 hwait
        rw [hr] at hrun
        cases hl : fifo_write_loop t locality inb in_size in_size 0 sw with
        | none =>
          rw [hl] at hrun
          cases hrun
        | some res =>
          obtain ⟨g1, g2⟩ := fifo_write_loop_of_pass t locality inb in_size k in_size 0 sw off1
            _ res hpass hp hl
          rw [hl, g1] at hrun
          cases Option.some.inj hrun
          refine ⟨rfl, ?_⟩
          exact new_events_deactivated t locality Msg.write_cmd_timeout s _ _
            (log_ext_trans (at_write_loop_log t locality s sw hw) g2)
            (log_ext_poll (burst_body t locality) (ext_by_burst_body t locality) _ _) _ rfl
  · intro sg hsg hp
    have hlog := at_data_avail_log t locality inb in_size s sg hsg
    obtain ⟨sw, s1, hw, hl, hs⟩ := at_data_avail_some t locality inb in_size s sg hsg
    subst hs
    obtain ⟨hv1, hwait⟩ := at_write_loop_run h t locality s sw hw
    have hrun := tpm_write_cmd_fifo_of_ready h t locality inb in_size outb osz s sw hloc hin
      hout hv1 hwait
    rw [hr, hl] at hrun
    dsimp only at hrun
    rw [hp] at hrun
    cases Option.some.inj hrun
    refine ⟨rfl, ?_⟩
    exact new_events_deactivated t locality Msg.data_avail_timeout s _ _ hlog
      (log_ext_poll (data_avail_body t locality) (ext_by_data_avail_body t locality) _ _) _ rfl
  · intro k sk hsk hp
    unfold at_read_burst at hsk
    cases hg : at_data_avail t locality inb in_size s with
    | none =>
      rw [hg] at hsk
      cases hsk
    | some sg =>
      rw [hg] at hsk
      dsimp only at hsk
      have hlog := at_data_avail_log t locality inb in_size s sg hg
      obtain ⟨sw, s1, hw, hl, hs⟩ := at_data_avail_some t locality inb in_size s sg hg
      subst hs
      obtain ⟨hv1, hwait⟩ := at_write_loop_run h t locality s sw hw
      have hrun := tpm_write_cmd_fifo_of_ready h t locality inb in_size outb osz s sw hloc hin
        hout hv1 hwait
      rw [hr, hl] at hrun
      dsimp only at hrun
      cases hd : (poll (data_avail_body t locality) TPM_DATA_AVAIL_TIME_OUT
          (write_tpm_reg t locality TPM_REG_STS STS_TPM_GO s1)).1 with
      | none =>
        rw [hd] at hsk
        cases hsk
      | some u =>
        rw [hd] at hsk hrun
        dsimp only at hsk hrun
        cases hpass : fifo_read_pass t locality osz k ⟨0, 0, outb,
            (poll (data_avail_body t locality) TPM_DATA_AVAIL_TIME_OUT
              (write_tpm_reg t locality TPM_REG_STS STS_TPM_GO s1)).2⟩ with
        | none =>
          rw [hpass] at hsk
          cases hsk
        | some vk =>
          rw [hpass] at hsk
          cases Option.some.inj hsk
          cases hrl : fifo_read_loop t locality osz osz ⟨0, 0, outb,
              (poll (data_avail_body t locality) TPM_DATA_AVAIL_TIME_OUT
                (write_tpm_reg t locality TPM_REG_STS STS_TPM_GO s1)).2⟩ with
          | none =>
            rw [hrl] at hrun
            cases hrun
          | some res =>
            obtain ⟨g1, g2⟩ := fifo_read_loop_of_pass t locality osz k osz _ vk res hpass hp hrl
            rw [hrl, g1] at hrun
            cases Option.some.inj hrun
            refine ⟨rfl, ?_⟩
            exact new_events_deactivated t locality Msg.read_rsp_timeout s _ _
              (log_ext_trans (log_ext_trans hlog
                (log_ext_poll (data_avail_body t locality) (ext_by_data_avail_body t locality)
                  _ _)) g2)
              (log_ext_poll (burst_body t locality) (ext_by_burst_body t locality) _ _) _ rfl

theorem poll_none_inv {σ α : Type} (body : Hw σ → Option α × Hw σ) (P : Hw σ → Prop)
    (hb : ∀ s, P s → (body s).1 = none ∧ P (body s).2) (n : Nat) (s : Hw σ) (hs : P s) :
    (poll body n s).1 = none := by
  induction n generalizing s with
  | zero => rfl
  | succ n ih =>
    unfold poll
    obtain ⟨h1, h2⟩ := hb s hs
    generalize body s = r at h1 h2
    dsimp only
    rw [h1]
    exact ih _ h2

theorem stuck_read_sts (a b : Nat) (s : Hw Unit) :
    (read_tpm_reg (stuck_tpm a b) 0 TPM_REG_STS 3 s).1 = [a % 256, b % 256, 0] := by
  simp [read_tpm_reg, readb_loop, stuck_tpm, TPM_REG_STS, TPM_REG_ACCESS]

theorem stuck_cmd_ready_body (s : Hw Unit) : (cmd_ready_body (stuck_tpm 0 0) 0 s).1 = none := by
  unfold cmd_ready_body
  dsimp only
  rw [stuck_read_sts]
  rw [if_neg (by decide)]

theorem stuck_burst_body (s : Hw Unit) : (burst_body (stuck_tpm 0x40 0) 0 s).1 = none := by
  unfold burst_body
  dsimp only
  rw [stuck_read_sts]
  rw [if_neg (by decide)]

theorem stuck_data_avail_body (s : Hw Unit) :
    (data_avail_body (stuck_tpm 0x40 10) 0 s).1 = none := by
  unfold data_avail_body
  dsimp only
  rw [stuck_read_sts]
  rw [if_neg (by decide)]

theorem silent_rsp_burst_body (s : Hw Bool) (hs : s.dev = true) :
    (burst_body silent_rsp_tpm 0 s).1 = none ∧ (burst_body silent_rsp_tpm 0 s).2.dev = true := by
  have h1 : (read_tpm_reg silent_rsp_tpm 0 TPM_REG_STS 3 s).1 = [0xD0, 0, 0] := by
    simp [read_tpm_reg, readb_loop, silent_rsp_tpm, TPM_REG_STS, TPM_REG_ACCESS, hs]
  have h2 : (read_tpm_reg silent_rsp_tpm 0 TPM_REG_STS 3 s).2.dev = true := by
    simp [read_tpm_reg, readb_loop, silent_rsp_tpm, hs]
  unfold burst_body
  dsimp only
  rw [h1]
  rw [if_neg (by decide)]
  exact ⟨rfl, h2⟩

theorem some_of_map_eq {α β : Type} (f : α → β) (o : Option α) (b : β)
    (h : o.map f = some b) : ∃ a, o = some a ∧ f a = b := by
  cases o with
  | none => cases h
  | some a => exact ⟨a, rfl, Option.some.inj h⟩

theorem tpm_write_cmd_fifo_wait_exhausted_witness :
    (∃ r, tpm_write_cmd_fifo tpm_h dead_tpm 0 (some (List.replicate 10 0)) 10
          (some (List.replicate 10 0)) (some 10) hw0 = some r ∧
        (poll (validate_body dead_tpm 0) TPM_VALIDATE_LOCALITY_TIME_OUT hw0).1 = none ∧
        r.ret = tpm_h.TPM_FAIL ∧
        Ev.msg Msg.validate_locality_timeout ∈ new_events hw0.log r.hw.log ∧
        Ev.wr 0 TPM_REG_ACCESS ACC_ACTIVE_LOCALITY ∉ new_events hw0.log r.hw.log) ∧
    (∃ r sa, tpm_write_cmd_fifo tpm_h never_active_tpm 0 (some (List.replicate 10 0)) 10
          (some (List.replicate 10 0)) (some 10) hw0 = some r ∧
        at_request_use never_active_tpm 0 hw0 = some sa ∧
        (poll (active_body never_active_tpm 0) TPM_ACTIVE_LOCALITY_TIME_OUT sa).1 = none ∧
        r.ret = tpm_h.TPM_FAIL ∧
        Ev.msg Msg.request_use_timeout ∈ new_events hw0.log r.hw.log ∧
        Ev.wr 0 TPM_REG_ACCESS ACC_ACTIVE_LOCALITY ∉ new_events hw0.log r.hw.log) ∧
    (∃ r sc, tpm_write_cmd_fifo tpm_h (stuck_tpm 0 0) 0 (some (List.replicate 10 0)) 10
          (some (List.replicate 10 0)) (some 10) hw0 = some r ∧
        at_cmd_ready (stuck_tpm 0 0) 0 hw0 = some sc ∧
        (poll (cmd_ready_body (stuck_tpm 0 0) 0) TPM_CMD_READY_TIME_OUT sc).1 = none ∧
        r.ret = tpm_h.TPM_FAIL ∧
        Ev.msg Msg.command_ready_timeout ∈ new_events hw0.log r.hw.log ∧
        (∃ rest, new_events hw0.log r.hw.log
          = Ev.wr 0 TPM_REG_ACCESS ACC_ACTIVE_LOCALITY :: rest) ∧
        ∃ evs, r.hw.log = evs ++ sc.log) ∧
    (∃ r sk, tpm_write_cmd_fifo tpm_h (stuck_tpm 0x40 0) 0 (some (List.replicate 10 0)) 10
          (some (List.replicate 10 0)) (some 10) hw0 = some r ∧
        at_write_burst (stuck_tpm 0x40 0) 0 (List.replicate 10 0) 10 hw0 0 = some sk ∧
        (poll (burst_body (stuck_tpm 0x40 0) 0) TPM_CMD_WRITE_TIME_OUT sk).1 = none ∧
        r.ret = tpm_h.TPM_FAIL ∧
        Ev.msg Msg.write_cmd_timeout ∈ new_events hw0.log r.hw.log ∧
        (∃ rest, new_events hw0.log r.hw.log
          = Ev.wr 0 TPM_REG_ACCESS ACC_ACTIVE_LOCALITY :: rest) ∧
        ∃ evs, r.hw.log = evs ++ sk.log) ∧
    (∃ r sg, tpm_write_cmd_fifo tpm_h (stuck_tpm 0x40 10) 0 (some (List.replicate 10 0)) 10
          (some (List.replicate 10 0)) (some 10) hw0 = some r ∧
        at_data_avail (stuck_tpm 0x40 10) 0 (List.replicate 10 0) 10 hw0 = some sg ∧
        (poll (data_avail_body (stuck_tpm 0x40 10) 0) TPM_DATA_AVAIL_TIME_OUT sg).1 = none ∧
        r.ret = tpm_h.TPM_FAIL ∧
        Ev.msg Msg.data_avail_timeout ∈ new_events hw0.log r.hw.log ∧
        (∃ rest, new_events hw0.log r.hw.log
          = Ev.wr 0 TPM_REG_ACCESS ACC_ACTIVE_LOCALITY :: rest) ∧
        ∃ evs, r.hw.log = evs ++ sg.log) ∧
    (∃ r sk, tpm_write_cmd_fifo tpm_h silent_rsp_tpm 0 (some (List.replicate 10 0)) 10
          (some (List.replicate 10 0)) (some 10) ⟨false, []⟩ = some r ∧
        at_read_burst silent_rsp_tpm 0 (List.replicate 10 0) 10 (List.replicate 10 0) 10
          ⟨false, []⟩ 0 = some sk ∧
        (poll (burst_body silent_rsp_tpm 0) TPM_RSP_READ_TIME_OUT sk).1 = none ∧
        r.ret = tpm_h.TPM_FAIL ∧
        Ev.msg Msg.read_rsp_timeout ∈ new_events [] r.hw.log ∧
        (∃ rest, new_events [] r.hw.log
          = Ev.wr 0 TPM_REG_ACCESS ACC_ACTIVE_LOCALITY :: rest) ∧
        ∃ evs, r.hw.log = evs ++ sk.log) := by
  refine ⟨?_, ?_, ?_, ?_, ?_, ?_⟩
  · obtain ⟨r, hr⟩ := Option.isSome_iff_exists.mp (tpm_write_cmd_fifo_isSome tpm_h dead_tpm 0
      (some (List.replicate 10 0)) 10 (some (List.replicate 10 0)) (some 10) hw0)
    have hp := poll_none (validate_body dead_tpm 0) dead_validate_body
      TPM_VALIDATE_LOCALITY_TIME_OUT hw0
    exact ⟨r, hr, hp, (tpm_write_cmd_fifo_wait_exhausted tpm_h dead_tpm 0 (List.replicate 10 0)
      10 (List.replicate 10 0) 10 hw0 r (by decide) (by decide) (by decide) (by decide) hr).1 hp⟩
  · obtain ⟨r, hr⟩ := Option.isSome_iff_exists.mp (tpm_write_cmd_fifo_isSome tpm_h
      never_active_tpm 0 (some (List.replicate 10 0)) 10 (some (List.replicate 10 0)) (some 10)
      hw0)
    obtain ⟨sa, hsa⟩ := Option.isSome_iff_exists.mp
      (show (at_request_use never_active_tpm 0 hw0).isSome = true by decide)
    have hp := poll_none (active_body never_active_tpm 0) never_active_body
      TPM_ACTIVE_LOCALITY_TIME_OUT sa
    exact ⟨r, sa, hr, hsa, hp, (tpm_write_cmd_fifo_wait_exhausted tpm_h never_active_tpm 0
      (List.replicate 10 0) 10 (List.replicate 10 0) 10 hw0 r (by decide) (by decide)
      (by decide) (by decide) hr).2.1 sa hsa hp⟩
  · obtain ⟨r, hr⟩ := Option.isSome_iff_exists.mp (tpm_write_cmd_fifo_isSome tpm_h
      (stuck_tpm 0 0) 0 (some (List.replicate 10 0)) 10 (some (List.replicate 10 0)) (some 10)
      hw0)
    obtain ⟨sc, hsc⟩ := Option.isSome_iff_exists.mp
      (show (at_cmd_ready (stuck_tpm 0 0) 0 hw0).isSome = true by decide)
    have hp := poll_none (cmd_ready_body (stuck_tpm 0 0) 0) stuck_cmd_ready_body
      TPM_CMD_READY_TIME_OUT sc
    exact ⟨r, sc, hr, hsc, hp, (tpm_write_cmd_fifo_wait_exhausted tpm_h (stuck_tpm 0 0) 0
      (List.replicate 10 0) 10 (List.replicate 10 0) 10 hw0 r (by decide) (by decide)
      (by decide) (by decide) hr).2.2.1 sc hsc hp⟩
  · obtain ⟨r, hr⟩ := Option.isSome_iff_exists.mp (tpm_write_cmd_fifo_isSome tpm_h
      (stuck_tpm 0x40 0) 0 (some (List.replicate 10 0)) 10 (some (List.replicate 10 0))
      (some 10) hw0)
    obtain ⟨sk, hsk⟩ := Option.isSome_iff_exists.mp
      (show (at_write_burst (stuck_tpm 0x40 0) 0 (List.replicate 10 0) 10 hw0 0).isSome = true
        by decide)
    have hp := poll_none (burst_body (stuck_tpm 0x40 0) 0) stuck_burst_body
      TPM_CMD_WRITE_TIME_OUT sk
    exact ⟨r, sk, hr, hsk, hp, (tpm_write_cmd_fifo_wait_exhausted tpm_h (stuck_tpm 0x40 0) 0
      (List.replicate 10 0) 10 (List.replicate 10 0) 10 hw0 r (by decide) (by decide)
      (by decide) (by decide) hr).2.2.2.1 0 sk hsk hp⟩
  · obtain ⟨r, hr⟩ := Option.isSome_iff_exists.mp (tpm_write_cmd_fifo_isSome tpm_h
      (stuck_tpm 0x40 10) 0 (some (List.replicate 10 0)) 10 (some (List.replicate 10 0))
      (some 10) hw0)
    obtain ⟨sg, hsg⟩ := Option.isSome_iff_exists.mp
      (show (at_data_avail (stuck_tpm 0x40 10) 0 (List.replicate 10 0) 10 hw0).isSome = true
        by decide)
    have hp := poll_none (data_avail_body (stuck_tpm 0x40 10) 0) stuck_data_avail_body
      TPM_DATA_AVAIL_TIME_OUT sg
    exact ⟨r, sg, hr, hsg, hp, (tpm_write_cmd_fifo_wait_exhausted tpm_h (stuck_tpm 0x40 10) 0
      (List.replicate 10 0) 10 (List.replicate 10 0) 10 hw0 r (by decide) (by decide)
      (by decide) (by decide) hr).2.2.2.2.1 sg hsg hp⟩
  · obtain ⟨r, hr⟩ := Option.isSome_iff_exists.mp (tpm_write_cmd_fifo_isSome tpm_h
      silent_rsp_tpm 0 (some (List.replicate 10 0)) 10 (some (List.replicate 10 0))
      (some 10) ⟨false, []⟩)
    obtain ⟨sk, hsk, hdev⟩ := some_of_map_eq (fun s : Hw Bool => s.dev)
      (at_read_burst silent_rsp_tpm 0 (List.replicate 10 0) 10 (List.replicate 10 0) 10
        ⟨false, []⟩ 0) true (by decide)
    have hp := poll_none_inv (burst_body silent_rsp_tpm 0) (fun s => s.dev = true)
      silent_rsp_burst_body TPM_RSP_READ_TIME_OUT sk hdev
    exact ⟨r, sk, hr, hsk, hp, (tpm_write_cmd_fifo_wait_exhausted tpm_h silent_rsp_tpm 0
      (List.replicate 10 0) 10 (List.replicate 10 0) 10 ⟨false, []⟩ r (by decide) (by decide)
      (by decide) (by decide) hr).2.2.2.2.2 0 sk hsk hp⟩

/-! ### The register accesses of the waits and of the transfer loops -/

/-- A wait whose iteration is one read of the register `reg`: its events are
reads of `reg`, at most one per iteration, and all iterations are made when the
wait fails. -/
theorem poll_reads {σ α : Type} (t : Tpm σ) (locality reg size : Nat)
    (body : Hw σ → Option α × Hw σ)
    (hb : ∀ s, (body s).2 = (read_tpm_reg t locality reg size s).2) (n : Nat) (s : Hw σ) :
    ∃ vs : List (List Nat), (poll body n s).2.log = vs.map (Ev.rd locality reg) ++ s.log ∧
      vs.length ≤ n ∧ ((poll body n s).1 = none → vs.length = n) := by
  induction n generalizing s with
  | zero => exact ⟨[], rfl, Nat.le_refl _, fun _ => rfl⟩
  | succ n ih =>
    unfold poll
    have h2 := hb s
    have hl : (read_tpm_reg t locality reg size s).2.log
        = Ev.rd locality reg (read_tpm_reg t locality reg size s).1 :: s.log := rfl
    cases hr : (body s).1 with
    | some v =>
      dsimp only
      rw [hr]
      dsimp only
      refine ⟨[(read_tpm_reg t locality reg size s).1], ?_, by simp, fun hn => by cases hn⟩
      rw [h2, hl]
      rfl
    | none =>
      dsimp only
      rw [hr]
      dsimp only
      obtain ⟨vs, g1, g2, g3⟩ := ih (body s).2
      refine ⟨vs ++ [(read_tpm_reg t locality reg size s).1], ?_, ?_, ?_⟩
      · rw [g1, h2, hl]
        simp
      · simp only [List.length_append, List.length_singleton]
        omega
      · intro hn
        simp only [List.length_append, List.length_singleton]
        rw [g3 hn]

theorem validate_body_read {σ : Type} (t : Tpm σ) (locality : Nat) (s : Hw σ) :
    (validate_body t locality s).2 = (read_tpm_reg t locality TPM_REG_ACCESS 1 s).2 := by
  unfold validate_body
  dsimp only
  split_ifs <;> rfl

theorem active_body_read {σ : Type} (t : Tpm σ) (locality : Nat) (s : Hw σ) :
    (active_body t locality s).2 = (read_tpm_reg t locality TPM_REG_ACCESS 1 s).2 := by
  unfold active_body
  dsimp only
  split_ifs <;> rfl

theorem burst_body_read {σ : Type} (t : Tpm σ) (locality : Nat) (s : Hw σ) :
    (burst_body t locality s).2 = (read_tpm_reg t locality TPM_REG_STS 3 s).2 := by
  unfold burst_body
  dsimp only
  split_ifs <;> rfl

theorem data_avail_body_read {σ : Type} (t : Tpm σ) (locality : Nat) (s : Hw σ) :
    (data_avail_body t locality s).2 = (read_tpm_reg t locality TPM_REG_STS 3 s).2 := by
  unfold data_avail_body
  dsimp only
  split_ifs <;> rfl

theorem cmd_ready_events_append (locality : Nat) (a b : List (List Nat)) :
    cmd_ready_events locality (a ++ b)
      = cmd_ready_events locality a ++ cmd_ready_events locality b := by
  induction a with
  | nil => rfl
  | cons v a ih =>
    show _ :: _ :: cmd_ready_events locality (a ++ b) = _
    rw [ih]
    rfl

/-- The events of the command-ready wait: per iteration a `command_ready` write
and a status read. -/
theorem poll_cmd_ready_events {σ : Type} (t : Tpm σ) (locality : Nat) (n : Nat) (s : Hw σ) :
    ∃ vs : List (List Nat),
      (poll (cmd_ready_body t locality) n s).2.log = cmd_ready_events locality vs ++ s.log ∧
      vs.length ≤ n ∧ ((poll (cmd_ready_body t locality) n s).1 = none → vs.length = n) := by
  induction n generalizing s with
  | zero => exact ⟨[], rfl, Nat.le_refl _, fun _ => rfl⟩
  | succ n ih =>
    unfold poll
    have h2 : (cmd_ready_body t locality s).2
        = (read_tpm_reg t locality TPM_REG_STS 3
            (write_tpm_reg t locality TPM_REG_STS STS_COMMAND_READY s)).2 := by
      unfold cmd_ready_body
      dsimp only
      split_ifs <;> rfl
    have hl : (read_tpm_reg t locality TPM_REG_STS 3
        (write_tpm_reg t locality TPM_REG_STS STS_COMMAND_READY s)).2.log
        = cmd_ready_events locality [(read_tpm_reg t locality TPM_REG_STS 3
            (write_tpm_reg t locality TPM_REG_STS STS_COMMAND_READY s)).1] ++ s.log := rfl
    cases hr : (cmd_ready_body t locality s).1 with
    | some v =>
      dsimp only
      rw [hr]
      dsimp only
      refine ⟨[(read_tpm_reg t locality TPM_REG_STS 3
        (write_tpm_reg t locality TPM_REG_STS STS_COMMAND_READY s)).1], ?_, by simp,
        fun hn => by cases hn⟩
      rw [h2, hl]
    | none =>
      dsimp only
      rw [hr]
      dsimp only
      obtain ⟨vs, g1, g2, g3⟩ := ih (cmd_ready_body t locality s).2
      refine ⟨vs ++ [(read_tpm_reg t locality TPM_REG_STS 3
        (write_tpm_reg t locality TPM_REG_STS STS_COMMAND_READY s)).1], ?_, ?_, ?_⟩
      · rw [g1, h2, hl, cmd_ready_events_append, List.append_assoc]
      · simp only [List.length_append, List.length_singleton]
        omega
      · intro hn
        simp only [List.length_append, List.length_singleton]
        rw [g3 hn]

/-- The events of one row of the command write: one FIFO write per byte. -/
theorem fifo_write_row_events {σ : Type} (t : Tpm σ) (locality : Nat) (inp : List Nat)
    (in_size row_size offset : Nat) (s : Hw σ) :
    ∃ bs : List Nat,
      (fifo_write_row t locality inp in_size row_size offset s).2.log
        = bs.map (fun b => Ev.wr locality TPM_REG_DATA_FIFO [b]) ++ s.log ∧
      bs.length = (fifo_write_row t locality inp in_size row_size offset s).1 - offset := by
  induction row_size generalizing offset s with
  | zero =>
    unfold fifo_write_row
    exact ⟨[], rfl, by simp⟩
  | succ n ih =>
    have ho := fifo_write_row_offset t locality inp in_size n (offset + 1)
      (write_tpm_reg t locality TPM_REG_DATA_FIFO [rd inp offset] s)
    unfold fifo_write_row
    split_ifs with hlt
    · obtain ⟨bs, g1, g2⟩ := ih (offset + 1)
        (write_tpm_reg t locality TPM_REG_DATA_FIFO [rd inp offset] s)
      refine ⟨bs ++ [rd inp offset], ?_, ?_⟩
      · rw [g1]
        simp [write_tpm_reg]
      · simp only [List.length_append, List.length_singleton]
        omega
    · exact ⟨[], rfl, by simp⟩

/-- The events of one row of the response read: one FIFO read per byte. -/
theorem fifo_read_row_events {σ : Type} (t : Tpm σ) (locality out_size row_size : Nat)
    (v : RdVars σ) :
    ∃ rs : List (List Nat),
      (fifo_read_row t locality out_size row_size v).s.log
        = rs.map (Ev.rd locality TPM_REG_DATA_FIFO) ++ v.s.log ∧
      rs.length = (fifo_read_row t locality out_size row_size v).offset - v.offset := by
  induction row_size generalizing v with
  | zero =>
    unfold fifo_read_row
    exact ⟨[], rfl, by simp⟩
  | succ n ih =>
    unfold fifo_read_row
    by_cases hlt : v.offset < out_size
    · simp only [if_pos hlt]
      generalize hv1 : (⟨v.offset + 1,
        if v.offset = RSP_RST_OFFSET - 1 then
          le_val (_reverse_copy (readBytes (memcpy v.out v.offset
            (read_tpm_reg t locality TPM_REG_DATA_FIFO 1 v.s).1) RSP_SIZE_OFFSET 4) 4)
        else v.rsp_size,
        memcpy v.out v.offset (read_tpm_reg t locality TPM_REG_DATA_FIFO 1 v.s).1,
        (read_tpm_reg t locality TPM_REG_DATA_FIFO 1 v.s).2⟩ : RdVars σ) = v1
      have ho := fifo_read_row_offset t locality out_size n v1
      obtain ⟨rs, g1, g2⟩ := ih v1
      have e1 : v1.offset = v.offset + 1 := by rw [← hv1]
      have e2 : v1.s.log = Ev.rd locality TPM_REG_DATA_FIFO
          (read_tpm_reg t locality TPM_REG_DATA_FIFO 1 v.s).1 :: v.s.log := by
        rw [← hv1]
        rfl
      refine ⟨rs ++ [(read_tpm_reg t locality TPM_REG_DATA_FIFO 1 v.s).1], ?_, ?_⟩
      · rw [g1, e2]
        simp
      · simp only [List.length_append, List.length_singleton]
        omega
    · simp only [if_neg hlt]
      exact ⟨[], rfl, by simp⟩

/-- The events of the command write loop: a sequence of passes, at most
`in_size - offset` of them, each a burst-count wait within its budget followed by
at least one FIFO write (none only when the wait used its whole budget), and
then the timeout message when the loop fails. -/
theorem fifo_write_loop_events {σ : Type} (t : Tpm σ) (locality : Nat) (inp : List Nat)
    (in_size : Nat) :
    ∀ (fuel offset : Nat) (s : Hw σ) (b : Bool) (s2 : Hw σ), offset < in_size →
      fifo_write_loop t locality inp in_size fuel offset s = some (b, s2) →
      ∃ (passes : List (List Ev)) (msgs : List Ev),
        s2.log = msgs ++ passes.flatten ++ s.log ∧
        passes.length ≤ in_size - offset ∧
        (∀ p ∈ passes, write_pass_events locality TPM_CMD_WRITE_TIME_OUT p) ∧
        msgs = (if b then [] else [Ev.msg Msg.write_cmd_timeout])
  | 0, offset, s, b, s2, _, hl => by
    unfold fifo_write_loop at hl
    cases hl
  | fuel + 1, offset, s, b, s2, ho, hl => by
    unfold fifo_write_loop at hl
    dsimp only at hl
    obtain ⟨vs, p1, p2, p3⟩ := poll_reads t locality TPM_REG_STS 3 (burst_body t locality)
      (burst_body_read t locality) TPM_CMD_WRITE_TIME_OUT s
    cases hr : (poll (burst_body t locality) TPM_CMD_WRITE_TIME_OUT s).1 with
    | none =>
      rw [hr] at hl
      dsimp only at hl
      cases Option.some.inj hl
      refine ⟨[vs.map (Ev.rd locality TPM_REG_STS)], [Ev.msg Msg.write_cmd_timeout], ?_, ?_, ?_,
        rfl⟩
      · show Ev.msg Msg.write_cmd_timeout :: _ = _
        rw [p1]
        simp
      · simp only [List.length_singleton]
        omega
      · intro p hp
        rw [List.mem_singleton.mp hp]
        exact ⟨[], vs, rfl, p2, fun _ => p3 hr⟩
    | some row_size =>
      rw [hr] at hl
      dsimp only at hl
      have hpos : 0 < row_size :=
        poll_some (burst_body t locality) (fun v => 0 < v) (burst_body_pos t locality) _ _ _ hr
      have hoff := fifo_write_row_offset t locality inp in_size row_size offset
        (poll (burst_body t locality) TPM_CMD_WRITE_TIME_OUT s).2
      obtain ⟨bs, w1, w2⟩ := fifo_write_row_events t locality inp in_size row_size offset
        (poll (burst_body t locality) TPM_CMD_WRITE_TIME_OUT s).2
      generalize fifo_write_row t locality inp in_size row_size offset
        (poll (burst_body t locality) TPM_CMD_WRITE_TIME_OUT s).2 = w at hl hoff w1 w2
      have hbs : bs ≠ [] := by
        intro he
        rw [he] at w2
        simp only [List.length_nil] at w2
        omega
      have hpass : write_pass_events locality TPM_CMD_WRITE_TIME_OUT
          (bs.map (fun b => Ev.wr locality TPM_REG_DATA_FIFO [b])
            ++ vs.map (Ev.rd locality TPM_REG_STS)) :=
        ⟨bs, vs, rfl, p2, fun he => absurd he hbs⟩
      split_ifs at hl with hlt
      · obtain ⟨passes, msgs, g1, g2, g3, g4⟩ :=
          fifo_write_loop_events t locality inp in_size fuel w.1 w.2 b s2 hlt hl
        refine ⟨passes ++ [bs.map (fun b => Ev.wr locality TPM_REG_DATA_FIFO [b])
          ++ vs.map (Ev.rd locality TPM_REG_STS)], msgs, ?_, ?_, ?_, g4⟩
        · rw [g1, w1, p1]
          simp
        · simp only [List.length_append, List.length_singleton]
          omega
        · intro p hp
          rcases List.mem_append.mp hp with hp | hp
          · exact g3 p hp
          · rw [List.mem_singleton.mp hp]
            exact hpass
      · cases Option.some.inj hl
        refine ⟨[bs.map (fun b => Ev.wr locality TPM_REG_DATA_FIFO [b])
          ++ vs.map (Ev.rd locality TPM_REG_STS)], [], ?_, ?_, ?_, rfl⟩
        · rw [w1, p1]
          simp
        · simp only [List.length_singleton]
          omega
        · intro p hp
          rw [List.mem_singleton.mp hp]
          exact hpass

/-- The events of the response read loop: a sequence of passes, at most
`out_size - offset` of them, each a burst-count wait within its budget followed
by at least one FIFO read (none only when the wait used its whole budget), and
then the timeout message when the loop fails. -/
theorem fifo_read_loop_events {σ : Type} (t : Tpm σ) (locality out_size : Nat)
    (hsz : RSP_RST_OFFSET ≤ out_size) :
    ∀ (fuel : Nat) (v : RdVars σ) (b : Bool) (v2 : RdVars σ), v.offset < out_size →
      fifo_read_loop t locality out_size fuel v = some (b, v2) →
      ∃ (passes : List (List Ev)) (msgs : List Ev),
        v2.s.log = msgs ++ passes.flatten ++ v.s.log ∧
        passes.length ≤ out_size - v.offset ∧
        (∀ p ∈ passes, read_pass_events locality TPM_RSP_READ_TIME_OUT p) ∧
        msgs = (if b then [] else [Ev.msg Msg.read_rsp_timeout])
  | 0, v, b, v2, _, hl => by
    unfold fifo_read_loop at hl
    cases hl
  | fuel + 1, v, b, v2, ho, hl => by
    unfold fifo_read_loop at hl
    dsimp only at hl
    obtain ⟨vs, p1, p2, p3⟩ := poll_reads t locality TPM_REG_STS 3 (burst_body t locality)
      (burst_body_read t locality) TPM_RSP_READ_TIME_OUT v.s
    cases hr : (poll (burst_body t locality) TPM_RSP_READ_TIME_OUT v.s).1 with
    | none =>
      rw [hr] at hl
      dsimp only at hl
      cases Option.some.inj hl
      refine ⟨[vs.map (Ev.rd locality TPM_REG_STS)], [Ev.msg Msg.read_rsp_timeout], ?_, ?_, ?_,
        rfl⟩
      · show Ev.msg Msg.read_rsp_timeout :: _ = _
        rw [p1]
        simp
      · simp only [List.length_singleton]
        omega
      · intro p hp
        rw [List.mem_singleton.mp hp]
        exact ⟨[], vs, rfl, p2, fun _ => p3 hr⟩
    | some row_size =>
      rw [hr] at hl
      dsimp only at hl
      have hpos : 0 < row_size :=
        poll_some (burst_body t locality) (fun v => 0 < v) (burst_body_pos t locality) _ _ _ hr
      have hoff := fifo_read_row_offset t locality out_size row_size
        { v with s := (poll (burst_body t locality) TPM_RSP_READ_TIME_OUT v.s).2 }
      obtain ⟨rs, w1, w2⟩ := fifo_read_row_events t locality out_size row_size
        { v with s := (poll (burst_body t locality) TPM_RSP_READ_TIME_OUT v.s).2 }
      generalize fifo_read_row t locality out_size row_size
        { v with s := (poll (burst_body t locality) TPM_RSP_READ_TIME_OUT v.s).2 } = w
        at hl hoff w1 w2
      dsimp only at hoff w1 w2
      have hrs : rs ≠ [] := by
        intro he
        rw [he] at w2
        simp only [List.length_nil] at w2
        omega
      have hpass : read_pass_events locality TPM_RSP_READ_TIME_OUT
          (rs.map (Ev.rd locality TPM_REG_DATA_FIFO) ++ vs.map (Ev.rd locality TPM_REG_STS)) :=
        ⟨rs, vs, rfl, p2, fun he => absurd he hrs⟩
      split_ifs at hl with hlt
      · have hw : w.offset < out_size := by
          rcases hlt with h1 | h2
          · omega
          · exact h2.2
        obtain ⟨passes, msgs, g1, g2, g3, g4⟩ :=
          fifo_read_loop_events t locality out_size hsz fuel w b v2 hw hl
        refine ⟨passes ++ [rs.map (Ev.rd locality TPM_REG_DATA_FIFO)
          ++ vs.map (Ev.rd locality TPM_REG_STS)], msgs, ?_, ?_, ?_, g4⟩
        · rw [g1, w1, p1]
          simp
        · simp only [List.length_append, List.length_singleton]
          omega
        · intro p hp
          rcases List.mem_append.mp hp with hp | hp
          · exact g3 p hp
          · rw [List.mem_singleton.mp hp]
            exact hpass
      · cases Option.some.inj hl
        refine ⟨[rs.map (Ev.rd locality TPM_REG_DATA_FIFO)
          ++ vs.map (Ev.rd locality TPM_REG_STS)], [], ?_, ?_, ?_, rfl⟩
        · rw [w1, p1]
          simp
        · simp only [List.length_singleton]
          omega
        · intro p hp
          rw [List.mem_singleton.mp hp]
          exact hpass

theorem rd_count_nil : rd_count [] = 0 := rfl

/-- The register accesses of `tpm_validate_locality`: reads of the access
register only, at most `TPM_VALIDATE_LOCALITY_TIME_OUT` = 0x100 of them, followed
by the timeout message when it fails. -/
theorem tpm_validate_locality_events {σ : Type} (t : Tpm σ) (locality : Nat) (s : Hw σ) :
    ∃ (vs : List (List Nat)) (msgs : List Ev),
      (tpm_validate_locality t locality s).2.log
        = msgs ++ vs.map (Ev.rd locality TPM_REG_ACCESS) ++ s.log ∧
      vs.length ≤ 0x100 ∧
      msgs = (if (tpm_validate_locality t locality s).1 then []
        else [Ev.msg Msg.validate_locality_timeout]) := by
  obtain ⟨vs, p1, p2, _⟩ := poll_reads t locality TPM_REG_ACCESS 1 (validate_body t locality)
    (validate_body_read t locality) TPM_VALIDATE_LOCALITY_TIME_OUT s
  unfold tpm_validate_locality
  dsimp only
  cases hr : (poll (validate_body t locality) TPM_VALIDATE_LOCALITY_TIME_OUT s).1 with
  | some u =>
    dsimp only
    exact ⟨vs, [], by rw [p1]; rfl, p2, rfl⟩
  | none =>
    dsimp only
    refine ⟨vs, [Ev.msg Msg.validate_locality_timeout], ?_, p2, rfl⟩
    show Ev.msg Msg.validate_locality_timeout :: _ = _
    rw [p1]
    rfl

/-- The register accesses of `tpm_wait_cmd_ready`: one read of the access
register, the request-use write, the request-use wait (reads of the access
register only, at most `TIMEOUT_A` of them), the command-ready wait (per
iteration a `command_ready` write and a status read, at most `TIMEOUT_B`
iterations), and a tail without register reads. -/
theorem tpm_wait_cmd_ready_events {σ : Type} (h : TpmH) (t : Tpm σ) (locality : Nat)
    (s : Hw σ) :
    ∃ (tail : List Ev) (cs acs : List (List Nat)) (req : List Ev),
      (tpm_wait_cmd_ready h t locality s).2.log
        = tail ++ cmd_ready_events locality cs ++ acs.map (Ev.rd locality TPM_REG_ACCESS)
          ++ req ++ [Ev.rd locality TPM_REG_ACCESS (read_tpm_reg t locality TPM_REG_ACCESS 1 s).1]
          ++ s.log ∧
      rd_count tail = 0 ∧
      cs.length ≤ 2000 * (0x100000 / 330) ∧
      acs.length ≤ 750 * (0x100000 / 330) ∧
      (req = [] ∨ req = [Ev.wr locality TPM_REG_ACCESS ACC_REQUEST_USE]) := by
  unfold tpm_wait_cmd_ready
  dsimp only
  by_cases hv : acc_tpm_reg_valid_sts (read_tpm_reg t locality TPM_REG_ACCESS 1 s).1 = 0
  · rw [if_pos hv]
    exact ⟨[Ev.msg Msg.access_reg_not_valid], [], [], [], rfl, rfl, Nat.zero_le _, Nat.zero_le _,
      Or.inl rfl⟩
  · rw [if_neg hv]
    obtain ⟨acs, a1, a2, _⟩ := poll_reads t locality TPM_REG_ACCESS 1 (active_body t locality)
      (active_body_read t locality) TPM_ACTIVE_LOCALITY_TIME_OUT
      (write_tpm_reg t locality TPM_REG_ACCESS ACC_REQUEST_USE
        (read_tpm_reg t locality TPM_REG_ACCESS 1 s).2)
    have hl : (write_tpm_reg t locality TPM_REG_ACCESS ACC_REQUEST_USE
        (read_tpm_reg t locality TPM_REG_ACCESS 1 s).2).log
        = [Ev.wr locality TPM_REG_ACCESS ACC_REQUEST_USE]
          ++ [Ev.rd locality TPM_REG_ACCESS (read_tpm_reg t locality TPM_REG_ACCESS 1 s).1]
          ++ s.log := rfl
    rw [hl] at a1
    generalize poll (active_body t locality) TPM_ACTIVE_LOCALITY_TIME_OUT
      (write_tpm_reg t locality TPM_REG_ACCESS ACC_REQUEST_USE
        (read_tpm_reg t locality TPM_REG_ACCESS 1 s).2) = p at a1
    cases hp : p.1 with
    | none =>
      dsimp only
      refine ⟨[Ev.msg Msg.request_use_timeout], [], acs, _, ?_, rfl, Nat.zero_le _, a2,
        Or.inr rfl⟩
      show Ev.msg Msg.request_use_timeout :: p.2.log = _
      rw [a1]
      simp [cmd_ready_events]
    | some u =>
      dsimp only
      obtain ⟨cs, c1, c2, _⟩ := poll_cmd_ready_events t locality TPM_CMD_READY_TIME_OUT p.2
      generalize poll (cmd_ready_body t locality) TPM_CMD_READY_TIME_OUT p.2 = q at c1
      cases hq : q.1 with
      | none =>
        dsimp only
        refine ⟨[Ev.wr locality TPM_REG_ACCESS ACC_ACTIVE_LOCALITY,
          Ev.msg Msg.command_ready_timeout, Ev.msg Msg.status_reg_content], cs, acs, _, ?_,
          by simp [rd_count], c2, a2, Or.inr rfl⟩
        show _ :: _ :: _ :: q.2.log = _
        rw [c1, a1]
        simp
      | some u2 =>
        dsimp only
        refine ⟨[], cs, acs, _, ?_, rfl, c2, a2, Or.inr rfl⟩
        rw [c1, a1]
        simp

/-- The register accesses of a valid-parameter call of `tpm_write_cmd_fifo`
after `tpm_validate_locality` and `tpm_wait_cmd_ready`: the passes of the command
write loop (at most `in_size`), the "execute" write, the data-available wait
(status reads only, at most `TIMEOUT_B`), the passes of the response read loop
(at most `*out_size`), and a tail without register reads. -/
theorem tpm_write_cmd_fifo_events {σ : Type} (h : TpmH) (t : Tpm σ) (locality : Nat)
    (inb : List Nat) (in_size : Nat) (outb : List Nat) (osz : Nat) (s : Hw σ) (r : FifoRes σ)
    (hloc : locality < h.TPM_NR_LOCALITIES) (hin : CMD_HEAD_SIZE ≤ in_size)
    (hout : RSP_HEAD_SIZE ≤ osz)
    (hr : tpm_write_cmd_fifo h t locality (some inb) in_size (some outb) (some osz) s = some r) :
    ((tpm_validate_locality t locality s).1 = false →
      r.hw.log = Ev.msg Msg.locality_not_open :: (tpm_validate_locality t locality s).2.log) ∧
    ((tpm_validate_locality t locality s).1 = true →
      (tpm_wait_cmd_ready h t locality (tpm_validate_locality t locality s).2).1 ≠ TPM_SUCCESS →
      r.hw.log = (tpm_wait_cmd_ready h t locality (tpm_validate_locality t locality s).2).2.log) ∧
    ((tpm_validate_locality t locality s).1 = true →
      (tpm_wait_cmd_ready h t locality (tpm_validate_locality t locality s).2).1 = TPM_SUCCESS →
      ∃ (tail : List Ev) (rp : List (List Ev)) (ds : List (List Nat)) (g : List Ev)
          (wp : List (List Ev)),
        r.hw.log = tail ++ rp.flatten ++ ds.map (Ev.rd locality TPM_REG_STS) ++ g ++ wp.flatten
          ++ (tpm_wait_cmd_ready h t locality (tpm_validate_locality t locality s).2).2.log ∧
        rd_count tail = 0 ∧
        rp.length ≤ osz ∧
        (∀ p ∈ rp, read_pass_events locality (750 * (0x100000 / 330)) p) ∧
        ds.length ≤ 2000 * (0x100000 / 330) ∧
        (g = [] ∨ g = [Ev.wr locality TPM_REG_STS STS_TPM_GO]) ∧
        wp.length ≤ in_size ∧
        (∀ p ∈ wp, write_pass_events locality (750 * (0x100000 / 330)) p)) := by
  refine ⟨?_, ?_, ?_⟩
  · intro hv
    have hrun := tpm_write_cmd_fifo_of_validate_false h t locality inb in_size outb osz s hloc
      hin hout hv
    rw [hr] at hrun
    cases Option.some.inj hrun
    rfl
  · intro hv hw
    have hrun := tpm_write_cmd_fifo_of_wait_fail h t locality inb in_size outb osz s hloc hin
      hout hv hw
    rw [hr] at hrun
    cases Option.some.inj hrun
    rfl
  · intro hv hw
    have hrun := tpm_write_cmd_fifo_of_ready h t locality inb in_size outb osz s
      (tpm_wait_cmd_ready h t locality (tpm_validate_locality t locality s).2).2 hloc hin hout hv
      (Prod.ext hw rfl)
    rw [hr] at hrun
    generalize (tpm_wait_cmd_ready h t locality (tpm_validate_locality t locality s).2).2 = sw
      at hrun
    have hin0 : 0 < in_size := by
      unfold CMD_HEAD_SIZE at hin
      omega
    have hosz : RSP_RST_OFFSET ≤ osz := by
      unfold RSP_HEAD_SIZE at hout
      unfold RSP_RST_OFFSET
      omega
    have hosz0 : 0 < osz := by
      unfold RSP_HEAD_SIZE at hout
      omega
    cases hl : fifo_write_loop t locality inb in_size in_size 0 sw with
    | none =>
      rw [hl] at hrun
      cases hrun
    | some res =>
      obtain ⟨b, s1⟩ := res
      obtain ⟨wp, msgs, w1, w2, w3, w4⟩ :=
        fifo_write_loop_events t locality inb in_size in_size 0 sw b s1 hin0 hl
      rw [hl] at hrun
      cases b with
      | false =>
        dsimp only at hrun
        cases Option.some.inj hrun
        refine ⟨[Ev.wr locality TPM_REG_ACCESS ACC_ACTIVE_LOCALITY,
          Ev.msg Msg.write_cmd_timeout], [], [], [], wp, ?_, by simp [rd_count], Nat.zero_le _,
          (fun p hp => absurd hp (List.not_mem_nil _)), Nat.zero_le _, Or.inl rfl, w2, w3⟩
        show _ :: s1.log = _
        rw [w1, w4]
        simp
      | true =>
        dsimp only at hrun
        obtain ⟨ds, d1, d2, _⟩ := poll_reads t locality TPM_REG_STS 3
          (data_avail_body t locality) (data_avail_body_read t locality) TPM_DATA_AVAIL_TIME_OUT
          (write_tpm_reg t locality TPM_REG_STS STS_TPM_GO s1)
        have hg : (write_tpm_reg t locality TPM_REG_STS STS_TPM_GO s1).log
            = Ev.wr locality TPM_REG_STS STS_TPM_GO :: s1.log := rfl
        rw [hg, w1, w4] at d1
        generalize poll (data_avail_body t locality) TPM_DATA_AVAIL_TIME_OUT
          (write_tpm_reg t locality TPM_REG_STS STS_TPM_GO s1) = d at hrun d1
        cases hd : d.1 with
        | none =>
          rw [hd] at hrun
          dsimp only at hrun
          cases Option.some.inj hrun
          refine ⟨[Ev.wr locality TPM_REG_ACCESS ACC_ACTIVE_LOCALITY,
            Ev.msg Msg.data_avail_timeout], [], ds, [Ev.wr locality TPM_REG_STS STS_TPM_GO], wp,
            ?_, by simp [rd_count], Nat.zero_le _,
            (fun p hp => absurd hp (List.not_mem_nil _)), d2, Or.inr rfl, w2, w3⟩
          show _ :: _ :: d.2.log = _
          rw [d1]
          simp
        | some u =>
          rw [hd] at hrun
          dsimp only at hrun
          cases hrl : fifo_read_loop t locality osz osz ⟨0, 0, outb, d.2⟩ with
          | none =>
            rw [hrl] at hrun
            cases hrun
          | some res2 =>
            obtain ⟨b2, v1⟩ := res2
            obtain ⟨rp, msgs2, r1, r2, r3, r4⟩ :=
              fifo_read_loop_events t locality osz hosz osz ⟨0, 0, outb, d.2⟩ b2 v1 hosz0 hrl
            dsimp only at r1 r2
            rw [hrl] at hrun
            cases b2 with
            | false =>
              dsimp only at hrun
              cases Option.some.inj hrun
              refine ⟨[Ev.wr locality TPM_REG_ACCESS ACC_ACTIVE_LOCALITY,
                Ev.msg Msg.read_rsp_timeout], rp, ds, [Ev.wr locality TPM_REG_STS STS_TPM_GO],
                wp, ?_, by simp [rd_count], r2, r3, d2, Or.inr rfl, w2, w3⟩
              show _ :: v1.s.log = _
              rw [r1, r4, d1]
              simp
            | true =>
              dsimp only at hrun
              cases Option.some.inj hrun
              refine ⟨[Ev.wr locality TPM_REG_ACCESS ACC_ACTIVE_LOCALITY,
                Ev.wr locality TPM_REG_STS STS_COMMAND_READY], rp, ds,
                [Ev.wr locality TPM_REG_STS STS_TPM_GO],
                wp, ?_, by simp [rd_count], r2, r3, d2, Or.inr rfl, w2, w3⟩
              show _ :: _ :: v1.s.log = _
              rw [r1, r4, d1]
              simp

/-- C10: `tpm_write_cmd_fifo` terminates for every register behaviour, and its
polling loops keep to their budgets of register reads.  With the write loop
limited to `in_size` iterations and the read loop to `*out_size` iterations the
function always returns.  The accesses of `tpm_validate_locality` are at most
0x100 reads of the access register.  Those of `tpm_wait_cmd_ready` are one read
of the access register, the request-use write, at most 750*(0x100000/330) reads
of the access register (active-locality wait) and at most 2000*(0x100000/330)
status reads, each after a `command_ready` write (command-ready wait).  After
them a valid-parameter call of `tpm_write_cmd_fifo` makes at most `in_size`
passes of the write loop, each a burst-count wait of at most 750*(0x100000/330)
status reads followed by FIFO writes, then the "execute" write, at most
2000*(0x100000/330) status reads (data-available wait), and at most `*out_size`
passes of the read loop, each a burst-count wait of at most 750*(0x100000/330)
status reads followed by FIFO reads; a pass transfers at least one byte unless
its wait has used the whole budget, and no register is read after the read
loop.  A burst wait that succeeds yields a non-zero row size and each row then
transfers at least one byte, so `in_size` (respectively `*out_size`) iterations
suffice for the write (respectively read) loop. -/
theorem tpm_write_cmd_fifo_terminates {σ : Type} (h : TpmH) (t : Tpm σ) (locality : Nat) :
    (∀ inp in_size out out_size s,
      (tpm_write_cmd_fifo h t locality inp in_size out out_size s).isSome = true) ∧
    (∀ s, ∃ (vs : List (List Nat)) (msgs : List Ev),
      (tpm_validate_locality t locality s).2.log
        = msgs ++ vs.map (Ev.rd locality TPM_REG_ACCESS) ++ s.log ∧
      vs.length ≤ 0x100 ∧
      msgs = (if (tpm_validate_locality t locality s).1 then []
        else [Ev.msg Msg.validate_locality_timeout])) ∧
    (∀ s, ∃ (tail : List Ev) (cs acs : List (List Nat)) (req : List Ev),
      (tpm_wait_cmd_ready h t locality s).2.log
        = tail ++ cmd_ready_events locality cs ++ acs.map (Ev.rd locality TPM_REG_ACCESS)
          ++ req ++ [Ev.rd locality TPM_REG_ACCESS (read_tpm_reg t locality TPM_REG_ACCESS 1 s).1]
          ++ s.log ∧
      rd_count tail = 0 ∧
      cs.length ≤ 2000 * (0x100000 / 330) ∧
      acs.length ≤ 750 * (0x100000 / 330) ∧
      (req = [] ∨ req = [Ev.wr locality TPM_REG_ACCESS ACC_REQUEST_USE])) ∧
    (∀ inb in_size outb osz s r, locality < h.TPM_NR_LOCALITIES → CMD_HEAD_SIZE ≤ in_size →
      RSP_HEAD_SIZE ≤ osz →
      tpm_write_cmd_fifo h t locality (some inb) in_size (some outb) (some osz) s = some r →
      ((tpm_validate_locality t locality s).1 = false →
        r.hw.log = Ev.msg Msg.locality_not_open :: (tpm_validate_locality t locality s).2.log) ∧
      ((tpm_validate_locality t locality s).1 = true →
        (tpm_wait_cmd_ready h t locality (tpm_validate_locality t locality s).2).1
          ≠ TPM_SUCCESS →
        r.hw.log
          = (tpm_wait_cmd_ready h t locality (tpm_validate_locality t locality s).2).2.log) ∧
      ((tpm_validate_locality t locality s).1 = true →
        (tpm_wait_cmd_ready h t locality (tpm_validate_locality t locality s).2).1
          = TPM_SUCCESS →
        ∃ (tail : List Ev) (rp : List (List Ev)) (ds : List (List Nat)) (g : List Ev)
            (wp : List (List Ev)),
          r.hw.log = tail ++ rp.flatten ++ ds.map (Ev.rd locality TPM_REG_STS) ++ g
            ++ wp.flatten
            ++ (tpm_wait_cmd_ready h t locality (tpm_validate_locality t locality s).2).2.log ∧
          rd_count tail = 0 ∧
          rp.length ≤ osz ∧
          (∀ p ∈ rp, read_pass_events locality (750 * (0x100000 / 330)) p) ∧
          ds.length ≤ 2000 * (0x100000 / 330) ∧
          (g = [] ∨ g = [Ev.wr locality TPM_REG_STS STS_TPM_GO]) ∧
          wp.length ≤ in_size ∧
          (∀ p ∈ wp, write_pass_events locality (750 * (0x100000 / 330)) p))) ∧
    (∀ n s row_size, (poll (burst_body t locality) n s).1 = some row_size → 0 < row_size) ∧
    (∀ inb in_size row_size offset s, 0 < row_size → offset < in_size →
      offset < (fifo_write_row t locality inb in_size row_size offset s).1) ∧
    (∀ osz row_size v, 0 < row_size → v.offset < osz →
      v.offset < (fifo_read_row t locality osz row_size v).offset) ∧
    (∀ inb in_size s, 0 < in_size →
      (fifo_write_loop t locality inb in_size in_size 0 s).isSome = true) ∧
    (∀ osz outb s, RSP_RST_OFFSET ≤ osz →
      (fifo_read_loop t locality osz osz ⟨0, 0, outb, s⟩).isSome = true) := by
  refine ⟨?_, ?_, ?_, ?_, ?_, ?_, ?_, ?_, ?_⟩
  · intro inp in_size out out_size s
    exact tpm_write_cmd_fifo_isSome h t locality inp in_size out out_size s
  · intro s
    exact tpm_validate_locality_events t locality s
  · intro s
    exact tpm_wait_cmd_ready_events h t locality s
  · intro inb in_size outb osz s r hloc hin hout hr
    exact tpm_write_cmd_fifo_events h t locality inb in_size outb osz s r hloc hin hout hr
  · intro n s row_size hp
    exact poll_some (burst_body t locality) (fun v => 0 < v) (burst_body_pos t locality) n s _ hp
  · intro inb in_size row_size offset s hr ho
    rw [fifo_write_row_offset]
    omega
  · intro osz row_size v hr ho
    rw [fifo_read_row_offset]
    omega
  · intro inb in_size s hpos
    exact fifo_write_loop_isSome t locality inb in_size in_size 0 s hpos (by omega)
  · intro osz outb s hsz
    exact fifo_read_loop_isSome t locality osz osz ⟨0, 0, outb, s⟩
      (by unfold RSP_RST_OFFSET at hsz; simp only; omega) hsz (by simp only; omega)

theorem tpm_write_cmd_fifo_terminates_witness :
    ∃ r, tpm_write_cmd_fifo tpm_h sim 0 (some (List.replicate 10 0)) 10
        (some (List.replicate 10 0)) (some 10) (sim_st [error_rsp 0x21]).hw = some r ∧
      ∃ (tail : List Ev) (rp : List (List Ev)) (ds : List (List Nat)) (g : List Ev)
          (wp : List (List Ev)),
        r.hw.log = tail ++ rp.flatten ++ ds.map (Ev.rd 0 TPM_REG_STS) ++ g ++ wp.flatten
          ++ (tpm_wait_cmd_ready tpm_h sim 0
            (tpm_validate_locality sim 0 (sim_st [error_rsp 0x21]).hw).2).2.log ∧
        rd_count tail = 0 ∧
        rp.length ≤ 10 ∧
        (∀ p ∈ rp, read_pass_events 0 (750 * (0x100000 / 330)) p) ∧
        ds.length ≤ 2000 * (0x100000 / 330) ∧
        (g = [] ∨ g = [Ev.wr 0 TPM_REG_STS STS_TPM_GO]) ∧
        wp.length ≤ 10 ∧
        (∀ p ∈ wp, write_pass_events 0 (750 * (0x100000 / 330)) p) :=
  match Option.isSome_iff_exists.mp ((tpm_write_cmd_fifo_terminates tpm_h sim 0).1
      (some (List.replicate 10 0)) 10 (some (List.replicate 10 0)) (some 10)
      (sim_st [error_rsp 0x21]).hw) with
  | ⟨r, hr⟩ =>
    ⟨r, hr, ((tpm_write_cmd_fifo_terminates tpm_h sim 0).2.2.2.1 (List.replicate 10 0) 10
      (List.replicate 10 0) 10 (sim_st [error_rsp 0x21]).hw r (by decide) (by decide)
      (by decide) hr).2.2 (by decide) (by decide)⟩

/-! ### The response bytes and the area behind `out` -/

theorem fifo_rd_bytes_append (a b : List Ev) :
    fifo_rd_bytes (a ++ b) = fifo_rd_bytes b ++ fifo_rd_bytes a := by
  simp [fifo_rd_bytes, List.filterMap_append]

theorem fifo_rd_bytes_nil : fifo_rd_bytes [] = [] := rfl

theorem fifo_rd_bytes_map_rd (locality reg : Nat) (hreg : reg ≠ TPM_REG_DATA_FIFO)
    (vs : List (List Nat)) : fifo_rd_bytes (vs.map (Ev.rd locality reg)) = [] := by
  induction vs with
  | nil => rfl
  | cons v vs ih =>
    have e : (v :: vs).map (Ev.rd locality reg)
        = [Ev.rd locality reg v] ++ vs.map (Ev.rd locality reg) := rfl
    rw [e, fifo_rd_bytes_append, ih]
    simp [fifo_rd_bytes, hreg]

theorem fifo_rd_bytes_cmd_ready_events (locality : Nat) (cs : List (List Nat)) :
    fifo_rd_bytes (cmd_ready_events locality cs) = [] := by
  induction cs with
  | nil => rfl
  | cons v cs ih =>
    have e : cmd_ready_events locality (v :: cs)
        = [Ev.rd locality TPM_REG_STS v, Ev.wr locality TPM_REG_STS STS_COMMAND_READY]
          ++ cmd_ready_events locality cs := rfl
    rw [e, fifo_rd_bytes_append, ih]
    simp [fifo_rd_bytes, TPM_REG_STS, TPM_REG_DATA_FIFO]

theorem fifo_rd_bytes_of_rd_count (l : List Ev) (h : rd_count l = 0) : fifo_rd_bytes l = [] := by
  induction l with
  | nil => rfl
  | cons e l ih =>
    have e1 : e :: l = [e] ++ l := rfl
    cases e with
    | rd a b c => simp [rd_count] at h
    | wr a b c =>
      have h2 : rd_count l = 0 := by simpa [rd_count] using h
      rw [e1, fifo_rd_bytes_append, ih h2]
      rfl
    | msg m =>
      have h2 : rd_count l = 0 := by simpa [rd_count] using h
      rw [e1, fifo_rd_bytes_append, ih h2]
      rfl

theorem fifo_rd_bytes_map_wr (locality : Nat) (bs : List Nat) :
    fifo_rd_bytes (bs.map fun b => Ev.wr locality TPM_REG_DATA_FIFO [b]) = [] := by
  apply fifo_rd_bytes_of_rd_count
  induction bs with
  | nil => rfl
  | cons b bs ih => simp [rd_count]

theorem fifo_rd_bytes_write_passes (locality budget : Nat) (wp : List (List Ev))
    (h : ∀ p ∈ wp, write_pass_events locality budget p) : fifo_rd_bytes wp.flatten = [] := by
  induction wp with
  | nil => rfl
  | cons p wp ih =>
    obtain ⟨bs, vs, e, _, _⟩ := h p (List.mem_cons_self _ _)
    rw [List.flatten_cons, fifo_rd_bytes_append, ih (fun q hq => h q (List.mem_cons_of_mem _ hq)),
      e, fifo_rd_bytes_append, fifo_rd_bytes_map_wr,
      fifo_rd_bytes_map_rd _ _ (by decide)]
    rfl

theorem fifo_rd_bytes_validate {σ : Type} (t : Tpm σ) (locality : Nat) (s : Hw σ) :
    fifo_rd_bytes (tpm_validate_locality t locality s).2.log = fifo_rd_bytes s.log := by
  obtain ⟨vs, msgs, e, _, hm⟩ := tpm_validate_locality_events t locality s
  have h0 : fifo_rd_bytes msgs = [] := by
    rw [hm]
    split_ifs <;> rfl
  rw [e, fifo_rd_bytes_append, fifo_rd_bytes_append, h0,
    fifo_rd_bytes_map_rd _ _ (by decide)]
  simp

theorem fifo_rd_bytes_wait {σ : Type} (h : TpmH) (t : Tpm σ) (locality : Nat) (s : Hw σ) :
    fifo_rd_bytes (tpm_wait_cmd_ready h t locality s).2.log = fifo_rd_bytes s.log := by
  obtain ⟨tail, cs, acs, req, e, ht, _, _, hreq⟩ := tpm_wait_cmd_ready_events h t locality s
  have h0 : fifo_rd_bytes req = [] := by
    rcases hreq with hh | hh <;> (rw [hh]; rfl)
  have h1 : fifo_rd_bytes [Ev.rd locality TPM_REG_ACCESS
      (read_tpm_reg t locality TPM_REG_ACCESS 1 s).1] = [] :=
    fifo_rd_bytes_map_rd locality TPM_REG_ACCESS (by decide) [_]
  rw [e]
  simp only [fifo_rd_bytes_append, h0, h1, fifo_rd_bytes_of_rd_count tail ht,
    fifo_rd_bytes_cmd_ready_events, fifo_rd_bytes_map_rd _ _ (show TPM_REG_ACCESS
      ≠ TPM_REG_DATA_FIFO by decide), List.append_nil]

theorem fifo_rd_bytes_poll_sts {σ α : Type} (t : Tpm σ) (locality : Nat)
    (body : Hw σ → Option α × Hw σ)
    (hb : ∀ s, (body s).2 = (read_tpm_reg t locality TPM_REG_STS 3 s).2) (n : Nat) (s : Hw σ) :
    fifo_rd_bytes (poll body n s).2.log = fifo_rd_bytes s.log := by
  obtain ⟨vs, e, _, _⟩ := poll_reads t locality TPM_REG_STS 3 body hb n s
  rw [e, fifo_rd_bytes_append, fifo_rd_bytes_map_rd _ _ (by decide)]
  simp

theorem fifo_rd_bytes_write_loop {σ : Type} (t : Tpm σ) (locality : Nat) (inp : List Nat)
    (in_size fuel offset : Nat) (s : Hw σ) (b : Bool) (s2 : Hw σ) (ho : offset < in_size)
    (hl : fifo_write_loop t locality inp in_size fuel offset s = some (b, s2)) :
    fifo_rd_bytes s2.log = fifo_rd_bytes s.log := by
  obtain ⟨wp, msgs, e, _, hp, hm⟩ :=
    fifo_write_loop_events t locality inp in_size fuel offset s b s2 ho hl
  have h0 : fifo_rd_bytes msgs = [] := by
    rw [hm]
    split_ifs <;> rfl
  rw [e, fifo_rd_bytes_append, fifo_rd_bytes_append, h0,
    fifo_rd_bytes_write_passes _ _ wp hp]
  simp

theorem read_fifo_length {σ : Type} (t : Tpm σ) (locality : Nat) (s : Hw σ) :
    (read_tpm_reg t locality TPM_REG_DATA_FIFO 1 s).1.length = 1 := by
  simp [read_tpm_reg, readb_loop]

theorem readBytes_memcpy_next (out : List Nat) (off : Nat) (src : List Nat)
    (hs : src.length = 1) (ho : off < out.length) :
    readBytes (memcpy out off src) 0 (off + 1) = readBytes out 0 off ++ [rd src 0] := by
  apply list_ext_rd
  · simp [length_readBytes]
  · intro i hi
    rw [length_readBytes] at hi
    rw [rd_readBytes, if_pos hi, Nat.zero_add, rd_memcpy, rd_append]
    rw [length_readBytes]
    by_cases h1 : i < off
    · rw [if_neg (by omega), if_pos h1, rd_readBytes, if_pos h1, Nat.zero_add]
    · have h2 : i = off := by omega
      subst h2
      rw [if_pos (by omega), if_neg h1]
      simp only [Nat.sub_self]
      rfl

/-- One row of the response read keeps the bytes read from the FIFO in the call
so far at the start of `out`. -/
theorem fifo_read_row_bytes {σ : Type} (t : Tpm σ) (locality out_size : Nat) (base : List Nat) :
    ∀ (row_size : Nat) (v : RdVars σ), out_size ≤ v.out.length →
      fifo_rd_bytes v.s.log = base ++ readBytes v.out 0 v.offset →
      fifo_rd_bytes (fifo_read_row t locality out_size row_size v).s.log
          = base ++ readBytes (fifo_read_row t locality out_size row_size v).out 0
            (fifo_read_row t locality out_size row_size v).offset ∧
        out_size ≤ (fifo_read_row t locality out_size row_size v).out.length
  | 0, v, hc, hi => by
    unfold fifo_read_row
    exact ⟨hi, hc⟩
  | row_size + 1, v, hc, hi => by
    unfold fifo_read_row
    by_cases hlt : v.offset < out_size
    · simp only [if_pos hlt]
      apply fifo_read_row_bytes t locality out_size base row_size
      · simp only [length_memcpy]
        exact hc
      · simp only
        have hl : (read_tpm_reg t locality TPM_REG_DATA_FIFO 1 v.s).2.log
            = [Ev.rd locality TPM_REG_DATA_FIFO (read_tpm_reg t locality TPM_REG_DATA_FIFO 1 v.s).1]
              ++ v.s.log := rfl
        rw [hl, fifo_rd_bytes_append, hi,
          readBytes_memcpy_next _ _ _ (read_fifo_length t locality v.s) (by omega),
          List.append_assoc]
        simp [fifo_rd_bytes]
    · simp only [if_neg hlt]
      exact ⟨hi, hc⟩

/-- The response read loop keeps the bytes read from the FIFO in the call so far
at the start of `out`, whether it ends or times out. -/
theorem fifo_read_loop_bytes {σ : Type} (t : Tpm σ) (locality out_size : Nat)
    (base : List Nat) :
    ∀ (fuel : Nat) (v : RdVars σ) (b : Bool) (v2 : RdVars σ), out_size ≤ v.out.length →
      fifo_rd_bytes v.s.log = base ++ readBytes v.out 0 v.offset →
      fifo_read_loop t locality out_size fuel v = some (b, v2) →
      fifo_rd_bytes v2.s.log = base ++ readBytes v2.out 0 v2.offset
  | 0, v, b, v2, _, _, hl => by
    unfold fifo_read_loop at hl
    cases hl
  | fuel + 1, v, b, v2, hc, hi, hl => by
    unfold fifo_read_loop at hl
    dsimp only at hl
    have hp := fifo_rd_bytes_poll_sts t locality (burst_body t locality)
      (burst_body_read t locality) TPM_RSP_READ_TIME_OUT v.s
    cases hr : (poll (burst_body t locality) TPM_RSP_READ_TIME_OUT v.s).1 with
    | none =>
      rw [hr] at hl
      dsimp only at hl
      cases Option.some.inj hl
      show fifo_rd_bytes ([Ev.msg Msg.read_rsp_timeout] ++ _) = _
      rw [fifo_rd_bytes_append, hp, hi]
      simp [fifo_rd_bytes]
    | some row_size =>
      rw [hr] at hl
      dsimp only at hl
      obtain ⟨g1, g2⟩ := fifo_read_row_bytes t locality out_size base row_size
        { v with s := (poll (burst_body t locality) TPM_RSP_READ_TIME_OUT v.s).2 } hc
        (by rw [← hi, ← hp])
      generalize fifo_read_row t locality out_size row_size
        { v with s := (poll (burst_body t locality) TPM_RSP_READ_TIME_OUT v.s).2 } = w
        at hl g1 g2
      split_ifs at hl with hlt
      · exact fifo_read_loop_bytes t locality out_size base fuel w b v2 g2 g1 hl
      · cases Option.some.inj hl
        exact g1

/-- A response read loop that fails has found a pass whose burst-count wait
exhausts its budget. -/
theorem fifo_read_loop_false {σ : Type} (t : Tpm σ) (locality out_size : Nat) :
    ∀ (fuel : Nat) (v v2 : RdVars σ),
      fifo_read_loop t locality out_size fuel v = some (false, v2) →
      ∃ k vk, fifo_read_pass t locality out_size k v = some vk ∧
        (poll (burst_body t locality) TPM_RSP_READ_TIME_OUT vk.s).1 = none
  | 0, v, v2, hl => by
    unfold fifo_read_loop at hl
    cases hl
  | fuel + 1, v, v2, hl => by
    unfold fifo_read_loop at hl
    dsimp only at hl
    cases hr : (poll (burst_body t locality) TPM_RSP_READ_TIME_OUT v.s).1 with
    | none => exact ⟨0, v, rfl, hr⟩
    | some row_size =>
      rw [hr] at hl
      dsimp only at hl
      split_ifs at hl with hlt
      · obtain ⟨k, vk, g1, g2⟩ := fifo_read_loop_false t locality out_size fuel _ v2 hl
        refine ⟨k + 1, vk, ?_, g2⟩
        unfold fifo_read_pass
        dsimp only
        rw [hr]
        dsimp only
        rw [if_pos hlt]
        exact g1
      · cases Option.some.inj hl

/-- A call that has passed `tpm_validate_locality` and `tpm_wait_cmd_ready`
successfully has reached the command write loop. -/
theorem at_write_loop_of_run {σ : Type} (h : TpmH) (t : Tpm σ) (locality : Nat) (s sw : Hw σ)
    (hfail : h.TPM_FAIL ≠ TPM_SUCCESS)
    (hv : (tpm_validate_locality t locality s).1 = true)
    (hw : tpm_wait_cmd_ready h t locality (tpm_validate_locality t locality s).2
      = (TPM_SUCCESS, sw)) :
    at_write_loop t locality s = some sw := by
  unfold at_write_loop at_cmd_ready at_request_use
  dsimp only
  rw [if_pos hv]
  unfold tpm_wait_cmd_ready at hw
  dsimp only at hw
  by_cases hval : acc_tpm_reg_valid_sts (read_tpm_reg t locality TPM_REG_ACCESS 1
      (tpm_validate_locality t locality s).2).1 = 0
  · rw [if_pos hval] at hw
    exact absurd (congrArg Prod.fst hw) hfail
  · rw [if_neg hval] at hw
    rw [if_neg hval]
    dsimp only
    generalize poll (active_body t locality) TPM_ACTIVE_LOCALITY_TIME_OUT
      (write_tpm_reg t locality TPM_REG_ACCESS ACC_REQUEST_USE
        (read_tpm_reg t locality TPM_REG_ACCESS 1 (tpm_validate_locality t locality s).2).2) = p
      at hw
    cases hp : p.1 with
    | none =>
      rw [hp] at hw
      exact absurd (congrArg Prod.fst hw) hfail
    | some u =>
      rw [hp] at hw
      dsimp only at hw
      dsimp only
      generalize poll (cmd_ready_body t locality) TPM_CMD_READY_TIME_OUT p.2 = q at hw
      cases hq : q.1 with
      | none =>
        rw [hq] at hw
        exact absurd (congrArg Prod.fst hw) hfail
      | some u2 =>
        rw [hq] at hw
        dsimp only at hw
        dsimp only
        exact congrArg some (congrArg Prod.snd hw)

theorem tpm_write_cmd_fifo_log_ext {σ : Type} (h : TpmH) (t : Tpm σ) (locality : Nat)
    (inb : List Nat) (in_size : Nat) (outb : List Nat) (osz : Nat) (s : Hw σ) (r : FifoRes σ)
    (hfail : h.TPM_FAIL ≠ TPM_SUCCESS)
    (hloc : locality < h.TPM_NR_LOCALITIES) (hin : CMD_HEAD_SIZE ≤ in_size)
    (hout : RSP_HEAD_SIZE ≤ osz)
    (hr : tpm_write_cmd_fifo h t locality (some inb) in_size (some outb) (some osz) s = some r) :
    ∃ evs, r.hw.log = evs ++ s.log := by
  have hc := tpm_write_cmd_fifo_cases h t locality inb in_size outb osz s r hfail hloc hin hout hr
  rcases hc with ⟨_, h2⟩ | ⟨_, h2⟩ | ⟨_, h2⟩ | ⟨_, ⟨_, h2⟩ | ⟨_, h2⟩ | ⟨_, h2⟩ |
    ⟨_, h2⟩ | ⟨_, h2⟩⟩ <;> exact ext_by_log h2

theorem fifo_rd_bytes_new (l0 l1 : List Ev) (x : List Nat) (he : ∃ evs, l1 = evs ++ l0)
    (hf : fifo_rd_bytes l1 = fifo_rd_bytes l0 ++ x) : fifo_rd_bytes (new_events l0 l1) = x := by
  obtain ⟨evs, e⟩ := he
  rw [e, fifo_rd_bytes_append] at hf
  rw [e, new_events_append]
  exact List.append_cancel_left hf

/-- The response of a valid-parameter call of `tpm_write_cmd_fifo` with an `out`
area of at least `*out_size` bytes: either no byte is read from the data FIFO,
or the burst-count wait of a pass of the response read loop exhausts its
budget, or the call returns the big-endian integer at bytes 6..9 of `out` and
the bytes read from the FIFO are the first bytes of `out`. -/
theorem tpm_write_cmd_fifo_response {σ : Type} (h : TpmH) (t : Tpm σ) (locality : Nat)
    (inb : List Nat) (in_size : Nat) (outb : List Nat) (osz : Nat) (s : Hw σ) (r : FifoRes σ)
    (hfail : h.TPM_FAIL ≠ TPM_SUCCESS)
    (hloc : locality < h.TPM_NR_LOCALITIES) (hin : CMD_HEAD_SIZE ≤ in_size)
    (hout : RSP_HEAD_SIZE ≤ osz) (hcap : osz ≤ outb.length)
    (hr : tpm_write_cmd_fifo h t locality (some inb) in_size (some outb) (some osz) s = some r) :
    fifo_rd_bytes (new_events s.log r.hw.log) = [] ∨
    (∃ k sk, at_read_burst t locality inb in_size outb osz s k = some sk ∧
      (poll (burst_body t locality) TPM_RSP_READ_TIME_OUT sk).1 = none) ∨
    (r.ret = be_at (r.out.getD []) RSP_RST_OFFSET 4 ∧
      ∃ n, fifo_rd_bytes (new_events s.log r.hw.log) = readBytes (r.out.getD []) 0 n) := by
  have hext := tpm_write_cmd_fifo_log_ext h t locality inb in_size outb osz s r hfail hloc hin
    hout hr
  have hfv := fifo_rd_bytes_validate t locality s
  have hfw := fifo_rd_bytes_wait h t locality (tpm_validate_locality t locality s).2
  have key : ∀ x, fifo_rd_bytes r.hw.log = fifo_rd_bytes s.log ++ x →
      fifo_rd_bytes (new_events s.log r.hw.log) = x :=
    fun x hx => fifo_rd_bytes_new s.log r.hw.log x hext hx
  have hmsg : ∀ (m : Msg) (l : List Ev), fifo_rd_bytes (Ev.msg m :: l) = fifo_rd_bytes l := by
    intro m l
    have e : Ev.msg m :: l = [Ev.msg m] ++ l := rfl
    rw [e, fifo_rd_bytes_append]
    simp [fifo_rd_bytes]
  have hwr : ∀ (a b : Nat) (c : List Nat) (l : List Ev),
      fifo_rd_bytes (Ev.wr a b c :: l) = fifo_rd_bytes l := by
    intro a b c l
    have e : Ev.wr a b c :: l = [Ev.wr a b c] ++ l := rfl
    rw [e, fifo_rd_bytes_append]
    simp [fifo_rd_bytes]
  cases hv : (tpm_validate_locality t locality s).1 with
  | false =>
    left
    apply key
    have hrun := tpm_write_cmd_fifo_of_validate_false h t locality inb in_size outb osz s hloc
      hin hout hv
    rw [hr] at hrun
    cases Option.some.inj hrun
    show fifo_rd_bytes (Ev.msg _ :: _) = _
    rw [hmsg, hfv]
    simp
  | true =>
    by_cases hw : (tpm_wait_cmd_ready h t locality (tpm_validate_locality t locality s).2).1
        = TPM_SUCCESS
    · have hwe : tpm_wait_cmd_ready h t locality (tpm_validate_locality t locality s).2
          = (TPM_SUCCESS, (tpm_wait_cmd_ready h t locality
              (tpm_validate_locality t locality s).2).2) := Prod.ext hw rfl
      have hrun := tpm_write_cmd_fifo_of_ready h t locality inb in_size outb osz s _ hloc hin
        hout hv hwe
      have hat := at_write_loop_of_run h t locality s _ hfail hv hwe
      rw [hr] at hrun
      generalize (tpm_wait_cmd_ready h t locality (tpm_validate_locality t locality s).2).2 = sw
        at hrun hfw hat
      have hin0 : 0 < in_size := by
        unfold CMD_HEAD_SIZE at hin
        omega
      cases hl : fifo_write_loop t locality inb in_size in_size 0 sw with
      | none =>
        rw [hl] at hrun
        cases hrun
      | some res =>
        obtain ⟨b, s1⟩ := res
        have hf1 := fifo_rd_bytes_write_loop t locality inb in_size in_size 0 sw b s1 hin0 hl
        rw [hl] at hrun
        cases b with
        | false =>
          dsimp only at hrun
          cases Option.some.inj hrun
          left
          apply key
          show fifo_rd_bytes (Ev.wr _ _ _ :: _) = _
          rw [hwr, hf1, hfw, hfv]
          simp
        | true =>
          dsimp only at hrun
          have hfd := fifo_rd_bytes_poll_sts t locality (data_avail_body t locality)
            (data_avail_body_read t locality) TPM_DATA_AVAIL_TIME_OUT
            (write_tpm_reg t locality TPM_REG_STS STS_TPM_GO s1)
          have hg : fifo_rd_bytes (write_tpm_reg t locality TPM_REG_STS STS_TPM_GO s1).log
              = fifo_rd_bytes s1.log := hwr _ _ _ _
          rw [hg, hf1, hfw, hfv] at hfd
          have hda : at_data_avail t locality inb in_size s
              = some (write_tpm_reg t locality TPM_REG_STS STS_TPM_GO s1) := by
            unfold at_data_avail
            rw [hat]
            dsimp only
            rw [hl]
          cases hd : (poll (data_avail_body t locality) TPM_DATA_AVAIL_TIME_OUT
              (write_tpm_reg t locality TPM_REG_STS STS_TPM_GO s1)).1 with
          | none =>
            rw [hd] at hrun
            dsimp only at hrun
            cases Option.some.inj hrun
            left
            apply key
            show fifo_rd_bytes (Ev.wr _ _ _ :: Ev.msg _ :: _) = _
            rw [hwr, hmsg, hfd]
            simp
          | some u =>
            rw [hd] at hrun
            dsimp only at hrun
            cases hrl : fifo_read_loop t locality osz osz ⟨0, 0, outb,
                (poll (data_avail_body t locality) TPM_DATA_AVAIL_TIME_OUT
                  (write_tpm_reg t locality TPM_REG_STS STS_TPM_GO s1)).2⟩ with
            | none =>
              rw [hrl] at hrun
              cases hrun
            | some res2 =>
              obtain ⟨b2, v1⟩ := res2
              have hinv := fifo_read_loop_bytes t locality osz (fifo_rd_bytes s.log) osz
                ⟨0, 0, outb, (poll (data_avail_body t locality) TPM_DATA_AVAIL_TIME_OUT
                  (write_tpm_reg t locality TPM_REG_STS STS_TPM_GO s1)).2⟩ b2 v1 hcap
                (by
                  show fifo_rd_bytes _ = fifo_rd_bytes s.log ++ readBytes outb 0 0
                  rw [hfd]
                  simp [readBytes]) hrl
              rw [hrl] at hrun
              cases b2 with
              | false =>
                right
                left
                obtain ⟨k, vk, g1, g2⟩ := fifo_read_loop_false t locality osz osz _ v1 hrl
                refine ⟨k, vk.s, ?_, g2⟩
                unfold at_read_burst
                rw [hda]
                dsimp only
                rw [hd]
                dsimp only
                rw [g1]
                rfl
              | true =>
                dsimp only at hrun
                cases Option.some.inj hrun
                right
                right
                refine ⟨rfl, v1.offset, ?_⟩
                apply key
                show fifo_rd_bytes (Ev.wr _ _ _ :: Ev.wr _ _ _ :: _) = _
                rw [hwr, hwr, hinv]
                rfl
    · left
      apply key
      have hrun := tpm_write_cmd_fifo_of_wait_fail h t locality inb in_size outb osz s hloc hin
        hout hv hw
      rw [hr] at hrun
      cases Option.some.inj hrun
      show fifo_rd_bytes _ = _
      rw [hfw, hfv]
      simp

theorem be_at_readBytes_start (m : List Nat) (n a k : Nat) (h : a + k ≤ n) :
    be_at (readBytes m 0 n) a k = be_at m a k := by
  unfold be_at
  congr 1
  congr 1
  apply readBytes_ext
  intro j hj
  rw [rd_readBytes, if_pos (by omega), Nat.zero_add]

theorem fifo_read_pass_none_succ {σ : Type} (t : Tpm σ) (locality out_size : Nat) :
    ∀ (k : Nat) (v : RdVars σ), fifo_read_pass t locality out_size k v = none →
      fifo_read_pass t locality out_size (k + 1) v = none
  | 0, v, hk => by
    unfold fifo_read_pass at hk
    cases hk
  | k + 1, v, hk => by
    unfold fifo_read_pass at hk
    unfold fifo_read_pass
    dsimp only at hk
    dsimp only
    cases hr : (poll (burst_body t locality) TPM_RSP_READ_TIME_OUT v.s).1 with
    | none => rfl
    | some row_size =>
      rw [hr] at hk
      dsimp only at hk
      dsimp only
      split_ifs at hk with hc
      · rw [if_pos hc]
        exact fifo_read_pass_none_succ t locality out_size k _ hk
      · rw [if_neg hc]

theorem at_read_burst_none_succ {σ : Type} (t : Tpm σ) (locality : Nat) (inp : List Nat)
    (in_size : Nat) (outb : List Nat) (osz : Nat) (s : Hw σ) (k : Nat)
    (hk : at_read_burst t locality inp in_size outb osz s k = none) :
    at_read_burst t locality inp in_size outb osz s (k + 1) = none := by
  unfold at_read_burst at hk
  unfold at_read_burst
  cases hg : at_data_avail t locality inp in_size s with
  | none => rfl
  | some sg =>
    rw [hg] at hk
    dsimp only at hk
    dsimp only
    cases hd : (poll (data_avail_body t locality) TPM_DATA_AVAIL_TIME_OUT sg).1 with
    | none => rfl
    | some u =>
      rw [hd] at hk
      dsimp only at hk
      dsimp only
      cases hp : fifo_read_pass t locality osz k ⟨0, 0, outb,
          (poll (data_avail_body t locality) TPM_DATA_AVAIL_TIME_OUT sg).2⟩ with
      | none =>
        rw [fifo_read_pass_none_succ t locality osz k _ hp]
        rfl
      | some vk =>
        rw [hp] at hk
        cases hk

/-- When the response read loop of a call makes only `n` passes and the
burst-count waits of these passes all succeed, no burst-count wait of the read
loop exhausts its budget. -/
theorem read_waits_ok {σ : Type} (t : Tpm σ) (locality : Nat) (inp : List Nat)
    (in_size : Nat) (outb : List Nat) (osz : Nat) (s : Hw σ) (n : Nat)
    (hn : (at_read_burst t locality inp in_size outb osz s n).isSome = false)
    (hlt : ∀ k, k < n → (at_read_burst t locality inp in_size outb osz s k).all
      (fun sk => (poll (burst_body t locality) TPM_RSP_READ_TIME_OUT sk).1.isSome) = true) :
    ∀ k sk, at_read_burst t locality inp in_size outb osz s k = some sk →
      (poll (burst_body t locality) TPM_RSP_READ_TIME_OUT sk).1 ≠ none := by
  have hnone : ∀ j, at_read_burst t locality inp in_size outb osz s (n + j) = none := by
    intro j
    induction j with
    | zero =>
      cases hh : at_read_burst t locality inp in_size outb osz s n with
      | none => exact hh
      | some x =>
        rw [hh] at hn
        cases hn
    | succ j ih => exact at_read_burst_none_succ t locality inp in_size outb osz s _ ih
  intro k sk hk
  by_cases hkn : k < n
  · have h1 := hlt k hkn
    rw [hk] at h1
    intro h2
    have h3 : (poll (burst_body t locality) TPM_RSP_READ_TIME_OUT sk).1.isSome = true := h1
    rw [h2] at h3
    cases h3
  · have h1 := hnone (k - n)
    rw [show n + (k - n) = k by omega, hk] at h1
    cases h1

/-- C15, as stated, fails on two paths on which no wait times out.  (1) When
`tpm_wait_cmd_ready` finds the access register not valid: on a module whose
access register reads valid once and 0 afterwards, a valid-parameter call makes
two register reads, prints only "Access reg not valid" and returns `TPM_FAIL`;
no response byte is read and bytes 6..9 of `out` (untouched) form the integer 0.
(2) When the response ends before its return code: on the scripted module
answering with the 6 bytes `00 C4 00 00 00 06`, the call reads exactly these 6
bytes from the data FIFO, prints no message, and returns 0x21, the bytes 6..9
of the area `out` as the caller passed it, which are no bytes of the response. -/
theorem tpm_write_cmd_fifo_return_code_counterexample :
    (∃ r, tpm_write_cmd_fifo tpm_h flaky_tpm 0 (some (List.replicate 10 0)) 10
        (some (List.replicate 10 0)) (some 10) ⟨0, []⟩ = some r ∧
      r.hw.log = [Ev.msg Msg.access_reg_not_valid, Ev.rd 0 TPM_REG_ACCESS [0],
        Ev.rd 0 TPM_REG_ACCESS [0x80]] ∧
      r.ret = tpm_h.TPM_FAIL ∧ be_at (r.out.getD []) RSP_RST_OFFSET 4 = 0 ∧
      r.ret ≠ be_at (r.out.getD []) RSP_RST_OFFSET 4) ∧
    (tpm_write_cmd_fifo tpm_h sim 0 (some (List.replicate 10 0)) 10
        (some out_stale) (some 10) (sim_st [rsp_6]).hw).map
      (fun r => (r.ret, fifo_rd_bytes r.hw.log, summary r.hw.log,
        be_at (fifo_rd_bytes r.hw.log) RSP_RST_OFFSET 4, be_at out_stale RSP_RST_OFFSET 4))
      = some (0x21, rsp_6, [Ev.wr 0 TPM_REG_ACCESS ACC_ACTIVE_LOCALITY,
          Ev.wr 0 TPM_REG_STS STS_TPM_GO, Ev.wr 0 TPM_REG_ACCESS ACC_REQUEST_USE], 0, 0x21) :=
  ⟨⟨_, rfl, by decide, by decide, by decide, by decide⟩, by decide⟩

/-- C15 (amended): for every valid-parameter call of `tpm_write_cmd_fifo` with
an `out` area of at least `*out_size` bytes, in which no burst-count wait of the
response read loop exhausts its budget (no other wait can have timed out once
response bytes were read) and at least the 10 header bytes of the response are
read from the data FIFO, the value returned is the 32-bit big-endian integer
formed from bytes 6..9 of the response, that is, of the bytes read from the data
FIFO during the call, and the response bytes are the first bytes of `out`; and
whenever `_tpm_submit_cmd` reaches its FIFO transfer it returns the value of
that transfer unchanged, zero or not. -/
theorem tpm_write_cmd_fifo_return_code {σ : Type} (h : TpmH) (t : Tpm σ) (locality : Nat)
    (inb : List Nat) (in_size : Nat) (outb : List Nat) (osz : Nat) (s : Hw σ) (r : FifoRes σ)
    (hfail : h.TPM_FAIL ≠ TPM_SUCCESS)
    (hloc : locality < h.TPM_NR_LOCALITIES) (hin : CMD_HEAD_SIZE ≤ in_size)
    (hout : RSP_HEAD_SIZE ≤ osz) (hcap : osz ≤ outb.length)
    (hr : tpm_write_cmd_fifo h t locality (some inb) in_size (some outb) (some osz) s = some r)
    (hwait : ∀ k sk, at_read_burst t locality inb in_size outb osz s k = some sk →
      (poll (burst_body t locality) TPM_RSP_READ_TIME_OUT sk).1 ≠ none)
    (hrsp : RSP_HEAD_SIZE ≤ (fifo_rd_bytes (new_events s.log r.hw.log)).length) :
    r.ret = be_at (fifo_rd_bytes (new_events s.log r.hw.log)) RSP_RST_OFFSET 4 ∧
    readBytes (r.out.getD []) 0 (fifo_rd_bytes (new_events s.log r.hw.log)).length
      = fifo_rd_bytes (new_events s.log r.hw.log) ∧
    ∀ (tag cmd arg_size osz0 : Nat) (st : St σ) (r1 : FifoRes σ),
      u32 (CMD_HEAD_SIZE + arg_size) ≤ h.TPM_CMD_SIZE_MAX →
      tpm_write_cmd_fifo h t locality (some (submit_cmd_buf st.cmd_buf tag cmd arg_size))
        (u32 (CMD_HEAD_SIZE + arg_size)) (some st.rsp_buf) (some (submit_rsp_size h osz0))
        st.hw = some r1 →
      ∃ q, _tpm_submit_cmd h t locality tag cmd arg_size (some osz0) st = some q ∧
        q.ret = r1.ret := by
  refine ⟨?_, ?_, ?_⟩
  · rcases tpm_write_cmd_fifo_response h t locality inb in_size outb osz s r hfail hloc hin hout
      hcap hr with h0 | ⟨k, sk, h1, h2⟩ | ⟨h1, n, h2⟩
    · rw [h0] at hrsp
      unfold RSP_HEAD_SIZE at hrsp
      simp at hrsp
    · exact absurd h2 (hwait k sk h1)
    · rw [h2, length_readBytes] at hrsp
      rw [h1, h2, be_at_readBytes_start _ _ _ _ (by
        unfold RSP_HEAD_SIZE at hrsp
        unfold RSP_RST_OFFSET
        omega)]
  · rcases tpm_write_cmd_fifo_response h t locality inb in_size outb osz s r hfail hloc hin hout
      hcap hr with h0 | ⟨k, sk, h1, h2⟩ | ⟨h1, n, h2⟩
    · rw [h0] at hrsp
      unfold RSP_HEAD_SIZE at hrsp
      simp at hrsp
    · exact absurd h2 (hwait k sk h1)
    · rw [h2, length_readBytes]
  · intro tag cmd arg_size osz0 st r1 hsz hr1
    obtain ⟨r2, osz1, h2, h3, _⟩ := _tpm_submit_cmd_transfer h t locality tag cmd arg_size
      osz0 st hsz
    rw [hr1] at h2
    cases h2
    exact ⟨_, h3, rfl⟩

theorem tpm_write_cmd_fifo_return_code_witness :
    sim_r3.ret = 0x21 ∧
    fifo_rd_bytes (new_events (sim_st [error_rsp 0x21]).hw.log sim_r3.hw.log) = error_rsp 0x21 ∧
    (sim_r3.ret = be_at (fifo_rd_bytes (new_events (sim_st [error_rsp 0x21]).hw.log
        sim_r3.hw.log)) RSP_RST_OFFSET 4 ∧
      readBytes (sim_r3.out.getD []) 0
          (fifo_rd_bytes (new_events (sim_st [error_rsp 0x21]).hw.log sim_r3.hw.log)).length
        = fifo_rd_bytes (new_events (sim_st [error_rsp 0x21]).hw.log sim_r3.hw.log) ∧
      ∀ (tag cmd arg_size osz0 : Nat) (st : St Sim) (r1 : FifoRes Sim),
        u32 (CMD_HEAD_SIZE + arg_size) ≤ tpm_h.TPM_CMD_SIZE_MAX →
        tpm_write_cmd_fifo tpm_h sim 0 (some (submit_cmd_buf st.cmd_buf tag cmd arg_size))
          (u32 (CMD_HEAD_SIZE + arg_size)) (some st.rsp_buf)
          (some (submit_rsp_size tpm_h osz0)) st.hw = some r1 →
        ∃ q, _tpm_submit_cmd tpm_h sim 0 tag cmd arg_size (some osz0) st = some q ∧
          q.ret = r1.ret) :=
  ⟨by decide, by decide,
    tpm_write_cmd_fifo_return_code tpm_h sim 0 (List.replicate 10 0) 10
      (List.replicate 10 0) 10 (sim_st [error_rsp 0x21]).hw sim_r3 (by decide) (by decide)
      (by decide) (by decide) (by decide) rfl
      (read_waits_ok sim 0 (List.replicate 10 0) 10 (List.replicate 10 0) 10
        (sim_st [error_rsp 0x21]).hw 2 (by decide) (by decide))
      (by decide)⟩

/-! ### `_tpm_wrap_seal` and `_tpm_wrap_unseal` statement by statement -/

theorem cur_eta (c : Cur) : (⟨c.mem, c.offset⟩ : Cur) = c := rfl

theorem wrap_point_all (stmts : List (WrapVars → WrapVars)) (v : WrapVars) (k : Nat)
    (hk : stmts.length ≤ k) : wrap_point stmts v k = stmts.foldl (fun w f => f w) v := by
  unfold wrap_point
  rw [List.take_of_length_le hk]

/-- The function `_tpm_wrap_seal` is the call of `tpm_osap`, the statements of
`wrap_seal_stmts` and the call of `_tpm_seal`. -/
theorem _tpm_wrap_seal_stmts {σ : Type} (h : TpmH) (t : Tpm σ) (sha1 : List Nat → List Nat)
    (odd_osap nonce_odd : List Nat) (locality : Nat) (pcr_info : List Nat)
    (in_data_size : Nat) (in_data : List Nat) (sealed_data_size : Option Nat)
    (sealed_data : Option (List Nat)) (s : St σ) :
    _tpm_wrap_seal h t sha1 odd_osap nonce_odd locality pcr_info in_data_size in_data
        sealed_data_size sealed_data s
      = match tpm_osap h t locality TPM_ET_SRK TPM_KH_SRK (some odd_osap)
          (some (List.replicate 4 0)) (some (List.replicate sizeof_nonce 0))
          (some (List.replicate sizeof_nonce 0)) s with
        | none => none
        | some o =>
          if o.ret ≠ TPM_SUCCESS then some ⟨o.ret, sealed_data_size, sealed_data, o.s⟩
          else
            wrap_seal_call h t nonce_odd locality pcr_info in_data_size in_data
              sealed_data_size sealed_data o
              (wrap_point (wrap_seal_stmts sha1 odd_osap nonce_odd (o.even_osap.getD [])
                (o.nonce_even.getD []) pcr_info in_data_size in_data)
                (wrap_vars0 o.s.cmd_buf) 24) := by
  unfold _tpm_wrap_seal
  dsimp only
  generalize tpm_osap h t locality TPM_ET_SRK TPM_KH_SRK (some odd_osap)
    (some (List.replicate 4 0)) (some (List.replicate sizeof_nonce 0))
    (some (List.replicate sizeof_nonce 0)) s = oo
  cases oo with
  | none => rfl
  | some o =>
    dsimp only
    by_cases hok : o.ret ≠ TPM_SUCCESS
    · rw [if_pos hok, if_pos hok]
    · rw [if_neg hok, if_neg hok]
      rw [wrap_point_all _ _ _ (by simp [wrap_seal_stmts, wrap_secret_stmts])]
      unfold wrap_seal_call wrap_seal_stmts wrap_secret_stmts
      simp only [List.cons_append, List.nil_append, List.foldl_cons, List.foldl_nil,
        stmt_unload, stmt_offset_0, wrap_vars0, cur_eta]

/-- The function `_tpm_wrap_unseal` is the call of `tpm_osap`, the statements of
`wrap_secret_stmts`, the call of `tpm_oiap`, the statements of
`wrap_unseal_stmts` and the call of `_tpm_unseal`. -/
theorem _tpm_wrap_unseal_stmts {σ : Type} (h : TpmH) (t : Tpm σ) (sha1 : List Nat → List Nat)
    (stack : UnsealStack) (locality : Nat) (in_data : List Nat) (secret_size : Option Nat)
    (secret : Option (List Nat)) (s : St σ) :
    _tpm_wrap_unseal h t sha1 stack locality in_data secret_size secret s
      = match tpm_osap h t locality TPM_ET_SRK TPM_KH_SRK (some stack.odd_osap)
          (some (List.replicate 4 0)) (some (List.replicate sizeof_nonce 0))
          (some (List.replicate sizeof_nonce 0)) s with
        | none => none
        | some o =>
          if o.ret ≠ TPM_SUCCESS then some ⟨o.ret, secret_size, secret, o.s⟩
          else
            match tpm_oiap h t locality (some (List.replicate 4 0))
                (some (List.replicate sizeof_nonce 0))
                { o.s with cmd_buf := (wrap_point (wrap_secret_stmts sha1 stack.odd_osap
                  (o.even_osap.getD [])) (wrap_vars0 o.s.cmd_buf) 4).cmd_buf } with
            | none => none
            | some p =>
              if p.ret ≠ TPM_SUCCESS then some ⟨p.ret, secret_size, secret, p.s⟩
              else
                wrap_unseal_call h t stack locality in_data secret_size secret o p
                  (wrap_point (wrap_unseal_stmts sha1 stack.nonce_odd stack.nonce_odd_d
                    (o.nonce_even.getD []) (p.nonce_even.getD []) in_data)
                    { wrap_point (wrap_secret_stmts sha1 stack.odd_osap (o.even_osap.getD []))
                        (wrap_vars0 o.s.cmd_buf) 4 with cmd_buf := p.s.cmd_buf } 16) := by
  unfold _tpm_wrap_unseal
  dsimp only
  generalize tpm_osap h t locality TPM_ET_SRK TPM_KH_SRK (some stack.odd_osap)
    (some (List.replicate 4 0)) (some (List.replicate sizeof_nonce 0))
    (some (List.replicate sizeof_nonce 0)) s = oo
  cases oo with
  | none => rfl
  | some o =>
    dsimp only
    by_cases hok : o.ret ≠ TPM_SUCCESS
    · rw [if_pos hok, if_pos hok]
    · rw [if_neg hok, if_neg hok]
      have ha : (wrap_point (wrap_secret_stmts sha1 stack.odd_osap (o.even_osap.getD []))
          (wrap_vars0 o.s.cmd_buf) 4).cmd_buf
          = (UNLOAD_BLOB CMD_HEAD_SIZE (readBytes stack.odd_osap 0 sizeof_nonce)
              (UNLOAD_BLOB CMD_HEAD_SIZE (readBytes (o.even_osap.getD []) 0 sizeof_nonce)
                ⟨o.s.cmd_buf, 0⟩)).mem := rfl
      rw [ha]
      generalize tpm_oiap h t locality (some (List.replicate 4 0))
        (some (List.replicate sizeof_nonce 0))
        { o.s with cmd_buf := (UNLOAD_BLOB CMD_HEAD_SIZE (readBytes stack.odd_osap 0 sizeof_nonce)
              (UNLOAD_BLOB CMD_HEAD_SIZE (readBytes (o.even_osap.getD []) 0 sizeof_nonce)
                ⟨o.s.cmd_buf, 0⟩)).mem } = pp
      cases pp with
      | none => rfl
      | some p =>
        dsimp only
        by_cases hpok : p.ret ≠ TPM_SUCCESS
        · rw [if_pos hpok, if_pos hpok]
        · rw [if_neg hpok, if_neg hpok]
          rw [wrap_point_all _ _ 16 (by simp [wrap_unseal_stmts]),
            wrap_point_all _ _ 4 (by simp [wrap_secret_stmts])]
          unfold wrap_unseal_call wrap_unseal_stmts wrap_secret_stmts
          simp only [List.cons_append, List.nil_append, List.foldl_cons, List.foldl_nil,
            stmt_unload, stmt_offset_0, wrap_vars0, cur_eta]

theorem _tpm_wrap_seal_stmts_ok {σ : Type} (h : TpmH) (t : Tpm σ) (sha1 : List Nat → List Nat)
    (odd_osap nonce_odd : List Nat) (locality : Nat) (pcr_info : List Nat)
    (in_data_size : Nat) (in_data : List Nat) (sealed_data_size : Option Nat)
    (sealed_data : Option (List Nat)) (s : St σ) (o : OsapRes σ)
    (ho : tpm_osap h t locality TPM_ET_SRK TPM_KH_SRK (some odd_osap)
      (some (List.replicate 4 0)) (some (List.replicate sizeof_nonce 0))
      (some (List.replicate sizeof_nonce 0)) s = some o)
    (hok : o.ret = TPM_SUCCESS) :
    _tpm_wrap_seal h t sha1 odd_osap nonce_odd locality pcr_info in_data_size in_data
        sealed_data_size sealed_data s
      = wrap_seal_call h t nonce_odd locality pcr_info in_data_size in_data
          sealed_data_size sealed_data o
          (wrap_point (wrap_seal_stmts sha1 odd_osap nonce_odd (o.even_osap.getD [])
            (o.nonce_even.getD []) pcr_info in_data_size in_data)
            (wrap_vars0 o.s.cmd_buf) 24) := by
  rw [_tpm_wrap_seal_stmts, ho]
  dsimp only
  rw [if_neg (not_not.mpr hok)]

theorem wrap_secret_point_cmd_buf {σ : Type} (sha1 : List Nat → List Nat) (o : OsapRes σ)
    (odd_osap : List Nat) :
    (wrap_point (wrap_secret_stmts sha1 odd_osap (o.even_osap.getD []))
      (wrap_vars0 o.s.cmd_buf) 4).cmd_buf = (osap_secret_cur o odd_osap).mem := rfl

theorem _tpm_wrap_unseal_stmts_ok {σ : Type} (h : TpmH) (t : Tpm σ)
    (sha1 : List Nat → List Nat) (stack : UnsealStack) (locality : Nat) (in_data : List Nat)
    (secret_size : Option Nat) (secret : Option (List Nat)) (s : St σ) (o : OsapRes σ)
    (p : OiapRes σ)
    (ho : tpm_osap h t locality TPM_ET_SRK TPM_KH_SRK (some stack.odd_osap)
      (some (List.replicate 4 0)) (some (List.replicate sizeof_nonce 0))
      (some (List.replicate sizeof_nonce 0)) s = some o)
    (hok : o.ret = TPM_SUCCESS)
    (hp : tpm_oiap h t locality (some (List.replicate 4 0))
      (some (List.replicate sizeof_nonce 0))
      { o.s with cmd_buf := (osap_secret_cur o stack.odd_osap).mem } = some p)
    (hpok : p.ret = TPM_SUCCESS) :
    _tpm_wrap_unseal h t sha1 stack locality in_data secret_size secret s
      = wrap_unseal_call h t stack locality in_data secret_size secret o p
          (wrap_point (wrap_unseal_stmts sha1 stack.nonce_odd stack.nonce_odd_d
            (o.nonce_even.getD []) (p.nonce_even.getD []) in_data)
            { wrap_point (wrap_secret_stmts sha1 stack.odd_osap (o.even_osap.getD []))
                (wrap_vars0 o.s.cmd_buf) 4 with cmd_buf := p.s.cmd_buf } 16) := by
  rw [_tpm_wrap_unseal_stmts, ho]
  dsimp only
  rw [if_neg (not_not.mpr hok), wrap_secret_point_cmd_buf, hp]
  dsimp only
  rw [if_neg (not_not.mpr hpok)]

/-- The shared secret after the four statements that calculate it. -/
theorem wrap_secret_point_secret (sha1 : List Nat → List Nat) (odd_osap even_osap : List Nat)
    (cb : List Nat) (hcap : CMD_HEAD_SIZE + 40 ≤ cb.length) :
    (wrap_point (wrap_secret_stmts sha1 odd_osap even_osap) (wrap_vars0 cb) 4).shared_secret
      = osap_secret sha1 even_osap odd_osap := by
  have e20 : sizeof_nonce = 20 := rfl
  have e10 : CMD_HEAD_SIZE = 10 := rfl
  rw [e10] at hcap
  have e : (wrap_point (wrap_secret_stmts sha1 odd_osap even_osap) (wrap_vars0 cb)
      4).shared_secret
      = (hmac sha1 srk_authdata (readBytes
          (UNLOAD_BLOB CMD_HEAD_SIZE (readBytes odd_osap 0 sizeof_nonce)
            (UNLOAD_BLOB CMD_HEAD_SIZE (readBytes even_osap 0 sizeof_nonce) ⟨cb, 0⟩)).mem
          CMD_HEAD_SIZE
          (UNLOAD_BLOB CMD_HEAD_SIZE (readBytes odd_osap 0 sizeof_nonce)
            (UNLOAD_BLOB CMD_HEAD_SIZE (readBytes even_osap 0 sizeof_nonce) ⟨cb, 0⟩)).offset)).2 :=
    rfl
  rw [e]
  have ha := img_UNLOAD_BLOB_rb CMD_HEAD_SIZE odd_osap 0 sizeof_nonce _ _ cb.length
    (img_UNLOAD_BLOB_rb CMD_HEAD_SIZE even_osap 0 sizeof_nonce ⟨cb, 0⟩ [] cb.length
      (img_nil cb CMD_HEAD_SIZE)
      (by rw [e10, e20]; simp only [List.length_nil]; omega)
      (by rw [e20]; simp only [List.length_nil]; omega))
    (by rw [e10, e20]; simp only [List.nil_append, length_readBytes]; omega)
    (by rw [e20]; simp only [List.nil_append, length_readBytes]; omega)
  rw [List.nil_append] at ha
  rw [img_read _ _ _ _ ha]
  rfl

/-- The program point of `_tpm_wrap_seal` after its sixth statement,
`UNLOAD_BLOB_TYPE(WRAPPER_IN_BUF, offset, &shared_secret)`: the twenty bytes of
the local `shared_secret` are at positions 10..29 of `cmd_buf`. -/
theorem wrap_seal_point_secret (sha1 : List Nat → List Nat) (odd_osap nonce_odd even_osap
    nonce_even pcr_info : List Nat) (in_data_size : Nat) (in_data : List Nat) (cb : List Nat)
    (hcap : CMD_HEAD_SIZE + 40 ≤ cb.length) :
    (wrap_point (wrap_seal_stmts sha1 odd_osap nonce_odd even_osap nonce_even pcr_info
      in_data_size in_data) (wrap_vars0 cb) 6).shared_secret
      = osap_secret sha1 even_osap odd_osap ∧
    readBytes (wrap_point (wrap_seal_stmts sha1 odd_osap nonce_odd even_osap nonce_even pcr_info
      in_data_size in_data) (wrap_vars0 cb) 6).cmd_buf CMD_HEAD_SIZE 20
      = osap_secret sha1 even_osap odd_osap := by
  have e20 : sizeof_nonce = 20 := rfl
  have e10 : CMD_HEAD_SIZE = 10 := rfl
  have hs := wrap_secret_point_secret sha1 odd_osap even_osap cb hcap
  have hl : (wrap_point (wrap_secret_stmts sha1 odd_osap even_osap) (wrap_vars0 cb)
      4).cmd_buf.length = cb.length := by
    have e : (wrap_point (wrap_secret_stmts sha1 odd_osap even_osap) (wrap_vars0 cb) 4).cmd_buf
        = (UNLOAD_BLOB CMD_HEAD_SIZE (readBytes odd_osap 0 sizeof_nonce)
            (UNLOAD_BLOB CMD_HEAD_SIZE (readBytes even_osap 0 sizeof_nonce) ⟨cb, 0⟩)).mem := rfl
    rw [e]
    simp [UNLOAD_BLOB]
  have e1 : (wrap_point (wrap_seal_stmts sha1 odd_osap nonce_odd even_osap nonce_even pcr_info
      in_data_size in_data) (wrap_vars0 cb) 6).shared_secret
      = (wrap_point (wrap_secret_stmts sha1 odd_osap even_osap) (wrap_vars0 cb)
          4).shared_secret := rfl
  have e2 : (wrap_point (wrap_seal_stmts sha1 odd_osap nonce_odd even_osap nonce_even pcr_info
      in_data_size in_data) (wrap_vars0 cb) 6).cmd_buf
      = memcpy (wrap_point (wrap_secret_stmts sha1 odd_osap even_osap) (wrap_vars0 cb) 4).cmd_buf
          (CMD_HEAD_SIZE + 0)
          (readBytes (wrap_point (wrap_secret_stmts sha1 odd_osap even_osap) (wrap_vars0 cb)
            4).shared_secret 0 sizeof_nonce) := rfl
  have hSl : (osap_secret sha1 even_osap odd_osap).length = 20 := length_hmac _ _ _
  refine ⟨by rw [e1, hs], ?_⟩
  rw [e2, hs, e20, readBytes_of_length _ 20 hSl, Nat.add_zero,
    readBytes_memcpy_hit0 _ _ _ _ (by rw [hl]; rw [e10] at hcap ⊢; omega) (by omega),
    readBytes_of_length _ 20 hSl]

theorem foldl_same_but_secret (l : List (WrapVars → WrapVars))
    (hl : ∀ f ∈ l, ∀ v w, same_but_secret v w → same_but_secret (f v) (f w)) :
    ∀ v w, same_but_secret v w →
      same_but_secret (l.foldl (fun x f => f x) v) (l.foldl (fun x f => f x) w) := by
  induction l with
  | nil => exact fun v w hvw => hvw
  | cons f l ih =>
    intro v w hvw
    simp only [List.foldl_cons]
    exact ih (fun g hg => hl g (List.mem_cons_of_mem _ hg)) _ _
      (hl f (List.mem_cons_self _ _) v w hvw)

theorem wrap_point_same_but_secret (l : List (WrapVars → WrapVars))
    (hl : ∀ f ∈ l, ∀ v w, same_but_secret v w → same_but_secret (f v) (f w)) (k : Nat)
    (v : WrapVars) (S : List Nat) :
    (wrap_point l { v with shared_secret := S } k).cmd_buf = (wrap_point l v k).cmd_buf := by
  unfold wrap_point
  exact (foldl_same_but_secret (l.take k) (fun f hf => hl f (List.mem_of_mem_take hf))
    { v with shared_secret := S } v ⟨rfl, rfl, rfl, rfl, rfl⟩).1

theorem same_but_secret_offset_0 (v w : WrapVars) (hvw : same_but_secret v w) :
    same_but_secret (stmt_offset_0 v) (stmt_offset_0 w) := by
  obtain ⟨h1, h2, h3, h4, h5⟩ := hvw
  exact ⟨h1, rfl, h3, h4, h5⟩

theorem same_but_secret_unload (f : Cur → Cur) (v w : WrapVars) (hvw : same_but_secret v w) :
    same_but_secret (stmt_unload f v) (stmt_unload f w) := by
  obtain ⟨h1, h2, h3, h4, h5⟩ := hvw
  unfold stmt_unload
  exact ⟨by simp only [h1, h2], by simp only [h1, h2], h3, h4, h5⟩

/-- No statement of `wrap_secret_stmts` stores a byte that depends on the
content of `shared_secret`. -/
theorem wrap_secret_stmts_same (sha1 : List Nat → List Nat) (odd_osap even_osap : List Nat) :
    ∀ f ∈ wrap_secret_stmts sha1 odd_osap even_osap,
      ∀ v w, same_but_secret v w → same_but_secret (f v) (f w) := by
  intro f hf v w hvw
  simp only [wrap_secret_stmts, List.mem_cons, List.mem_singleton, List.not_mem_nil,
    or_false] at hf
  rcases hf with rfl | rfl | rfl | rfl
  · exact same_but_secret_offset_0 v w hvw
  · exact same_but_secret_unload _ v w hvw
  · exact same_but_secret_unload _ v w hvw
  · exact hvw

/-- No statement of `wrap_unseal_stmts` stores a byte that depends on the
content of `shared_secret`: the only statement that reads it is the `hmac` call
that writes `pub_auth`. -/
theorem wrap_unseal_stmts_same (sha1 : List Nat → List Nat) (nonce_odd nonce_odd_d
    nonce_even nonce_even_d in_data : List Nat) :
    ∀ f ∈ wrap_unseal_stmts sha1 nonce_odd nonce_odd_d nonce_even nonce_even_d in_data,
      ∀ v w, same_but_secret v w → same_but_secret (f v) (f w) := by
  intro f hf v w hvw
  simp only [wrap_unseal_stmts, List.mem_cons, List.mem_singleton, List.not_mem_nil,
    or_false] at hf
  have hd : ∀ v w : WrapVars, same_but_secret v w →
      same_but_secret
        { v with digest := sha1_buffer sha1 (readBytes v.cmd_buf CMD_HEAD_SIZE v.offset) }
        { w with digest := sha1_buffer sha1 (readBytes w.cmd_buf CMD_HEAD_SIZE w.offset) } := by
    intro v w hvw
    obtain ⟨h1, h2, h3, h4, h5⟩ := hvw
    exact ⟨h1, h2, by simp only [h1, h2], h4, h5⟩
  have hu : ∀ v w : WrapVars, same_but_secret v w →
      same_but_secret
        (stmt_unload (UNLOAD_BLOB CMD_HEAD_SIZE (readBytes v.digest 0 TPM_DIGEST_SIZE)) v)
        (stmt_unload (UNLOAD_BLOB CMD_HEAD_SIZE (readBytes w.digest 0 TPM_DIGEST_SIZE)) w) := by
    intro v w hvw
    rw [hvw.2.2.1]
    exact same_but_secret_unload _ v w hvw
  rcases hf with rfl | rfl | rfl | rfl | rfl | rfl | rfl | rfl | rfl | rfl | rfl | rfl | rfl |
    rfl | rfl | rfl
  · exact same_but_secret_offset_0 v w hvw
  · exact same_but_secret_unload _ v w hvw
  · exact same_but_secret_unload _ v w hvw
  · exact hd v w hvw
  · exact same_but_secret_offset_0 v w hvw
  · exact hu v w hvw
  · exact same_but_secret_unload _ v w hvw
  · exact same_but_secret_unload _ v w hvw
  · exact same_but_secret_unload _ v w hvw
  · exact hvw
  · exact same_but_secret_offset_0 v w hvw
  · exact hu v w hvw
  · exact same_but_secret_unload _ v w hvw
  · exact same_but_secret_unload _ v w hvw
  · exact same_but_secret_unload _ v w hvw
  · obtain ⟨h1, h2, h3, h4, h5⟩ := hvw
    exact ⟨h1, h2, h3, h4, by simp only [h1, h2]⟩

/-- The value that the statements of `wrap_unseal_stmts` leave in `pub_auth`: the
`hmac`, keyed with `shared_secret`, of the bytes found in `cmd_buf` after the
ninth statement. -/
theorem wrap_unseal_point_pub_auth (sha1 : List Nat → List Nat) (nonce_odd nonce_odd_d
    nonce_even nonce_even_d in_data : List Nat) (v : WrapVars) :
    (wrap_point (wrap_unseal_stmts sha1 nonce_odd nonce_odd_d nonce_even nonce_even_d in_data)
        v 16).pub_auth
      = (hmac sha1 v.shared_secret
          (readBytes (wrap_point (wrap_unseal_stmts sha1 nonce_odd nonce_odd_d nonce_even
              nonce_even_d in_data) v 9).cmd_buf CMD_HEAD_SIZE
            (wrap_point (wrap_unseal_stmts sha1 nonce_odd nonce_odd_d nonce_even
              nonce_even_d in_data) v 9).offset)).2 := by
  have e9 : List.take 9 (wrap_unseal_stmts sha1 nonce_odd nonce_odd_d nonce_even nonce_even_d
      in_data)
      = [stmt_offset_0,
         stmt_unload (UNLOAD_INTEGER CMD_HEAD_SIZE (le_bytes 4 TPM_ORD_UNSEAL)),
         stmt_unload (UNLOAD_STORED_DATA12 CMD_HEAD_SIZE in_data),
         fun v => { v with
           digest := sha1_buffer sha1 (readBytes v.cmd_buf CMD_HEAD_SIZE v.offset) },
         stmt_offset_0,
         fun v => stmt_unload
           (UNLOAD_BLOB CMD_HEAD_SIZE (readBytes v.digest 0 TPM_DIGEST_SIZE)) v,
         stmt_unload (UNLOAD_BLOB CMD_HEAD_SIZE (readBytes nonce_even 0 sizeof_nonce)),
         stmt_unload (UNLOAD_BLOB CMD_HEAD_SIZE (readBytes nonce_odd 0 sizeof_nonce)),
         stmt_unload (UNLOAD_INTEGER CMD_HEAD_SIZE (readBytes [0] 0 1))] := rfl
  rw [wrap_point_all _ _ 16 (by simp [wrap_unseal_stmts])]
  unfold wrap_point
  rw [e9]
  unfold wrap_unseal_stmts
  simp only [List.foldl_cons, List.foldl_nil, stmt_unload, stmt_offset_0, cur_eta]

set_option maxRecDepth 100000 in
/-- C25, as stated, fails for `tpm_seal`: in the run of `_tpm_wrap_seal` on the
scripted module (OSAP answered with `even_osap` twenty bytes 0x22, `odd_osap`
twenty bytes 0x44 on the stack, the stand-in hash `sum_hash`), which is the
call of `tpm_osap`, the statements of `wrap_seal_stmts` and the call of
`_tpm_seal`, the local `shared_secret` holds the bytes 146, 147, ..., 165 after
the sixth statement, `UNLOAD_BLOB_TYPE(WRAPPER_IN_BUF, offset, &shared_secret)`,
and at that program point these twenty bytes are at positions 10..29 of
`cmd_buf`. -/
theorem _tpm_wrap_seal_secret_stored_counterexample :
    tpm_osap tpm_h sim 0 TPM_ET_SRK TPM_KH_SRK (some stack_1.odd_osap)
      (some (List.replicate 4 0)) (some (List.replicate sizeof_nonce 0))
      (some (List.replicate sizeof_nonce 0)) (sim_st_full [osap_rsp_1, oiap_rsp_1])
      = some sim_o ∧
    sim_o.ret = TPM_SUCCESS ∧
    _tpm_wrap_seal tpm_h sim sum_hash stack_1.odd_osap stack_1.nonce_odd 0 (List.replicate 54 0)
        1 [0x5A] (some 64) (some (List.replicate 64 0)) (sim_st_full [osap_rsp_1, oiap_rsp_1])
      = wrap_seal_call tpm_h sim stack_1.nonce_odd 0 (List.replicate 54 0) 1 [0x5A] (some 64)
          (some (List.replicate 64 0)) sim_o
          (wrap_point (wrap_seal_stmts sum_hash stack_1.odd_osap stack_1.nonce_odd
            (sim_o.even_osap.getD []) (sim_o.nonce_even.getD []) (List.replicate 54 0) 1 [0x5A])
            (wrap_vars0 sim_o.s.cmd_buf) 24) ∧
    (wrap_point (wrap_seal_stmts sum_hash stack_1.odd_osap stack_1.nonce_odd
        (sim_o.even_osap.getD []) (sim_o.nonce_even.getD []) (List.replicate 54 0) 1 [0x5A])
        (wrap_vars0 sim_o.s.cmd_buf) 6).shared_secret
      = [146, 147, 148, 149, 150, 151, 152, 153, 154, 155, 156, 157, 158, 159, 160, 161,
          162, 163, 164, 165] ∧
    readBytes (wrap_point (wrap_seal_stmts sum_hash stack_1.odd_osap stack_1.nonce_odd
        (sim_o.even_osap.getD []) (sim_o.nonce_even.getD []) (List.replicate 54 0) 1 [0x5A])
        (wrap_vars0 sim_o.s.cmd_buf) 6).cmd_buf CMD_HEAD_SIZE 20
      = [146, 147, 148, 149, 150, 151, 152, 153, 154, 155, 156, 157, 158, 159, 160, 161,
          162, 163, 164, 165] := by
  obtain ⟨f1, f2, f3, f4, _⟩ := sim_sessions_facts
  have hs : osap_secret sum_hash (List.replicate 20 0x22) stack_1.odd_osap
      = [146, 147, 148, 149, 150, 151, 152, 153, 154, 155, 156, 157, 158, 159, 160, 161,
          162, 163, 164, 165] := by decide
  obtain ⟨g1, g2⟩ := wrap_seal_point_secret sum_hash stack_1.odd_osap stack_1.nonce_odd
    (sim_o.even_osap.getD []) (sim_o.nonce_even.getD []) (List.replicate 54 0) 1 [0x5A]
    sim_o.s.cmd_buf (by rw [f3]; decide)
  rw [f4, Option.getD_some, hs] at g1 g2
  refine ⟨f1, f2, ?_, ?_, ?_⟩
  · exact _tpm_wrap_seal_stmts_ok tpm_h sim sum_hash stack_1.odd_osap stack_1.nonce_odd 0
      (List.replicate 54 0) 1 [0x5A] (some 64) (some (List.replicate 64 0))
      (sim_st_full [osap_rsp_1, oiap_rsp_1]) sim_o f1 f2
  · rw [f4, Option.getD_some]
    exact g1
  · rw [f4, Option.getD_some]
    exact g2

/-- C25 (amended).  `_tpm_wrap_seal` is the call of `tpm_osap`, the statements
of `wrap_seal_stmts` and the call of `_tpm_seal`; `_tpm_wrap_unseal` is the call
of `tpm_osap`, the statements of `wrap_secret_stmts`, the call of `tpm_oiap`,
the statements of `wrap_unseal_stmts` and the call of `_tpm_unseal`.  After
successful session commands:

* in `_tpm_wrap_seal` the shared secret hmac(srk_authdata, even_osap ‖ odd_osap)
  is written into `cmd_buf`, the scratch area for hash inputs: after the sixth
  statement, `UNLOAD_BLOB_TYPE(WRAPPER_IN_BUF, offset, &shared_secret)`, the
  twenty secret bytes are at positions 10..29 of `cmd_buf`; they are overwritten
  before the transfer, and the Seal command handed to `tpm_write_cmd_fifo` holds
  the key handle, the encrypted auth value (`blob_authdata` xor
  SHA1(secret ‖ nonce_even)), the other arguments and the authorization code
  hmac(secret, ..);
* in `_tpm_wrap_unseal` the shared secret is never written into `cmd_buf`: at
  every program point between the statements the content of `cmd_buf` is the
  same whatever the content of the local `shared_secret` is; the one statement
  that reads `shared_secret` is the `hmac` call that writes `pub_auth`; neither
  `tpm_oiap` nor `_tpm_unseal` is passed the secret, and the Unseal command
  handed to `tpm_write_cmd_fifo` depends on it only through the authorization
  code hmac(secret, SHA1(ordinal ‖ blob) ‖ nonce_even ‖ nonce_odd ‖ 0x00). -/
theorem _tpm_wrap_secret_scratch {σ : Type} (h : TpmH) (t : Tpm σ)
    (sha1 : List Nat → List Nat) (stack : UnsealStack) (locality : Nat)
    (pcr_info : List Nat) (in_data_size : Nat) (in_data : List Nat) (sds : Nat)
    (sd : List Nat) (blob : List Nat) (ssz : Nat) (sec : List Nat) (s : St σ)
    (o : OsapRes σ) (p : OiapRes σ)
    (ho : tpm_osap h t locality TPM_ET_SRK TPM_KH_SRK (some stack.odd_osap)
      (some (List.replicate 4 0)) (some (List.replicate sizeof_nonce 0))
      (some (List.replicate sizeof_nonce 0)) s = some o)
    (hok : o.ret = TPM_SUCCESS)
    (hp : tpm_oiap h t locality (some (List.replicate 4 0))
      (some (List.replicate sizeof_nonce 0))
      { o.s with cmd_buf := (wrap_point (wrap_secret_stmts sha1 stack.odd_osap
        (o.even_osap.getD [])) (wrap_vars0 o.s.cmd_buf) 4).cmd_buf } = some p)
    (hpok : p.ret = TPM_SUCCESS)
    (hcap : CMD_HEAD_SIZE + (125 + u16_at pcr_info (0 + 4) + u16_at pcr_info (0 + 9)
      + in_data_size) ≤ o.s.cmd_buf.length)
    (hmax : CMD_HEAD_SIZE + (125 + u16_at pcr_info (0 + 4) + u16_at pcr_info (0 + 9)
      + in_data_size) ≤ h.TPM_CMD_SIZE_MAX)
    (hcapu : CMD_HEAD_SIZE + (94 + (wire_stored_data12 blob).length) ≤ p.s.cmd_buf.length)
    (hmaxu : CMD_HEAD_SIZE + (94 + (wire_stored_data12 blob).length) ≤ h.TPM_CMD_SIZE_MAX)
    (h32 : h.TPM_CMD_SIZE_MAX < 2 ^ 32) :
    (_tpm_wrap_seal h t sha1 stack.odd_osap stack.nonce_odd locality pcr_info in_data_size
        in_data (some sds) (some sd) s
      = wrap_seal_call h t stack.nonce_odd locality pcr_info in_data_size in_data (some sds)
          (some sd) o
          (wrap_point (wrap_seal_stmts sha1 stack.odd_osap stack.nonce_odd
            (o.even_osap.getD []) (o.nonce_even.getD []) pcr_info in_data_size in_data)
            (wrap_vars0 o.s.cmd_buf) 24)) ∧
    ((wrap_point (wrap_seal_stmts sha1 stack.odd_osap stack.nonce_odd (o.even_osap.getD [])
        (o.nonce_even.getD []) pcr_info in_data_size in_data) (wrap_vars0 o.s.cmd_buf)
        6).shared_secret
      = (hmac sha1 srk_authdata
          (readBytes (o.even_osap.getD []) 0 20 ++ readBytes stack.odd_osap 0 20)).2) ∧
    (readBytes (wrap_point (wrap_seal_stmts sha1 stack.odd_osap stack.nonce_odd
        (o.even_osap.getD []) (o.nonce_even.getD []) pcr_info in_data_size in_data)
        (wrap_vars0 o.s.cmd_buf) 6).cmd_buf CMD_HEAD_SIZE 20
      = (wrap_point (wrap_seal_stmts sha1 stack.odd_osap stack.nonce_odd (o.even_osap.getD [])
          (o.nonce_even.getD []) pcr_info in_data_size in_data) (wrap_vars0 o.s.cmd_buf)
          6).shared_secret) ∧
    (∃ cb r1 res,
      tpm_write_cmd_fifo h t locality (some cb)
        (CMD_HEAD_SIZE + (125 + u16_at pcr_info (0 + 4) + u16_at pcr_info (0 + 9)
          + in_data_size))
        (some o.s.rsp_buf) (some (submit_rsp_size h (WRAPPER_OUT_MAX_SIZE h))) o.s.hw
        = some r1 ∧
      _tpm_wrap_seal h t sha1 stack.odd_osap stack.nonce_odd locality pcr_info in_data_size
        in_data (some sds) (some sd) s = some res ∧
      res.s.cmd_buf = cb ∧
      readBytes cb CMD_HEAD_SIZE
          (125 + u16_at pcr_info (0 + 4) + u16_at pcr_info (0 + 9) + in_data_size)
        = be_bytes 4 TPM_KH_SRK ++
          (seal_args (xor_auth sha1 (osap_secret sha1 (o.even_osap.getD []) stack.odd_osap)
              (o.nonce_even.getD [])) pcr_info in_data_size in_data ++
          (be_bytes 4 (le_val (readBytes (o.hauth.getD []) 0 4)) ++
          (readBytes stack.nonce_odd 0 sizeof_nonce ++ ([0] ++
          auth_code sha1 (osap_secret sha1 (o.even_osap.getD []) stack.odd_osap) TPM_ORD_SEAL
            (seal_args (xor_auth sha1 (osap_secret sha1 (o.even_osap.getD []) stack.odd_osap)
              (o.nonce_even.getD [])) pcr_info in_data_size in_data)
            (o.nonce_even.getD []) stack.nonce_odd))))) ∧
    (_tpm_wrap_unseal h t sha1 stack locality blob (some ssz) (some sec) s
      = wrap_unseal_call h t stack locality blob (some ssz) (some sec) o p
          (wrap_point (wrap_unseal_stmts sha1 stack.nonce_odd stack.nonce_odd_d
            (o.nonce_even.getD []) (p.nonce_even.getD []) blob)
            { wrap_point (wrap_secret_stmts sha1 stack.odd_osap (o.even_osap.getD []))
                (wrap_vars0 o.s.cmd_buf) 4 with cmd_buf := p.s.cmd_buf } 16)) ∧
    ((wrap_point (wrap_secret_stmts sha1 stack.odd_osap (o.even_osap.getD []))
        (wrap_vars0 o.s.cmd_buf) 4).shared_secret
      = (hmac sha1 srk_authdata
          (readBytes (o.even_osap.getD []) 0 20 ++ readBytes stack.odd_osap 0 20)).2) ∧
    (∀ (k : Nat) (v : WrapVars) (S : List Nat),
      (wrap_point (wrap_secret_stmts sha1 stack.odd_osap (o.even_osap.getD []))
          { v with shared_secret := S } k).cmd_buf
        = (wrap_point (wrap_secret_stmts sha1 stack.odd_osap (o.even_osap.getD []))
            v k).cmd_buf) ∧
    (∀ (k : Nat) (v : WrapVars) (S : List Nat),
      (wrap_point (wrap_unseal_stmts sha1 stack.nonce_odd stack.nonce_odd_d
          (o.nonce_even.getD []) (p.nonce_even.getD []) blob)
          { v with shared_secret := S } k).cmd_buf
        = (wrap_point (wrap_unseal_stmts sha1 stack.nonce_odd stack.nonce_odd_d
            (o.nonce_even.getD []) (p.nonce_even.getD []) blob) v k).cmd_buf) ∧
    (∀ v : WrapVars,
      (wrap_point (wrap_unseal_stmts sha1 stack.nonce_odd stack.nonce_odd_d
          (o.nonce_even.getD []) (p.nonce_even.getD []) blob) v 16).pub_auth
        = (hmac sha1 v.shared_secret
            (readBytes (wrap_point (wrap_unseal_stmts sha1 stack.nonce_odd stack.nonce_odd_d
                (o.nonce_even.getD []) (p.nonce_even.getD []) blob) v 9).cmd_buf CMD_HEAD_SIZE
              (wrap_point (wrap_unseal_stmts sha1 stack.nonce_odd stack.nonce_odd_d
                (o.nonce_even.getD []) (p.nonce_even.getD []) blob) v 9).offset)).2) ∧
    (∃ cb r1 res,
      tpm_write_cmd_fifo h t locality (some cb)
        (CMD_HEAD_SIZE + (94 + (wire_stored_data12 blob).length))
        (some p.s.rsp_buf) (some (submit_rsp_size h (WRAPPER_OUT_MAX_SIZE h))) p.s.hw
        = some r1 ∧
      _tpm_wrap_unseal h t sha1 stack locality blob (some ssz) (some sec) s = some res ∧
      res.s.cmd_buf = cb ∧
      readBytes cb CMD_HEAD_SIZE (94 + (wire_stored_data12 blob).length)
        = be_bytes 4 TPM_KH_SRK ++ (wire_stored_data12 blob ++
          (be_bytes 4 (le_val (readBytes (o.hauth.getD []) 0 4)) ++
          (readBytes stack.nonce_odd 0 sizeof_nonce ++ ([0] ++
          (auth_code sha1 (osap_secret sha1 (o.even_osap.getD []) stack.odd_osap)
            TPM_ORD_UNSEAL (wire_stored_data12 blob) (o.nonce_even.getD [])
            stack.nonce_odd ++
          (be_bytes 4 (le_val (readBytes (p.hauth.getD []) 0 4)) ++
          (readBytes stack.nonce_odd_d 0 sizeof_nonce ++ ([0] ++
          auth_code sha1 blob_authdata TPM_ORD_UNSEAL (wire_stored_data12 blob)
            (p.nonce_even.getD []) stack.nonce_odd_d))))))))) := by
  have e10 : CMD_HEAD_SIZE = 10 := rfl
  have hcapo : CMD_HEAD_SIZE + 40 ≤ o.s.cmd_buf.length := by
    rw [e10] at hcap ⊢
    omega
  have hp2 : tpm_oiap h t locality (some (List.replicate 4 0))
      (some (List.replicate sizeof_nonce 0))
      { o.s with cmd_buf := (osap_secret_cur o stack.odd_osap).mem } = some p := hp
  obtain ⟨g1, g2⟩ := wrap_seal_point_secret sha1 stack.odd_osap stack.nonce_odd
    (o.even_osap.getD []) (o.nonce_even.getD []) pcr_info in_data_size in_data o.s.cmd_buf hcapo
  obtain ⟨cb, r1, res, c1, c2, c3, _, _, _, _, c8⟩ := _tpm_wrap_seal_command h t sha1
    stack.odd_osap stack.nonce_odd locality pcr_info in_data_size in_data sds sd s o ho hok
    hcap hmax h32
  obtain ⟨cbu, r1u, resu, u1, u2, u3, _, _, _, _, u8⟩ := _tpm_wrap_unseal_command h t sha1
    stack locality blob ssz sec s o p ho hok hp2 hpok hcapo hcapu hmaxu h32
  refine ⟨?_, g1, ?_, ⟨cb, r1, res, c1, c2, c3, c8⟩, ?_, ?_, ?_, ?_, ?_,
    ⟨cbu, r1u, resu, u1, u2, u3, u8⟩⟩
  · exact _tpm_wrap_seal_stmts_ok h t sha1 stack.odd_osap stack.nonce_odd locality pcr_info
      in_data_size in_data (some sds) (some sd) s o ho hok
  · rw [g2, g1]
  · exact _tpm_wrap_unseal_stmts_ok h t sha1 stack locality blob (some ssz) (some sec) s o p
      ho hok hp2 hpok
  · exact wrap_secret_point_secret sha1 stack.odd_osap (o.even_osap.getD []) o.s.cmd_buf hcapo
  · intro k v S
    exact wrap_point_same_but_secret _ (wrap_secret_stmts_same sha1 stack.odd_osap
      (o.even_osap.getD [])) k v S
  · intro k v S
    exact wrap_point_same_but_secret _ (wrap_unseal_stmts_same sha1 stack.nonce_odd
      stack.nonce_odd_d (o.nonce_even.getD []) (p.nonce_even.getD []) blob) k v S
  · intro v
    exact wrap_unseal_point_pub_auth sha1 stack.nonce_odd stack.nonce_odd_d
      (o.nonce_even.getD []) (p.nonce_even.getD []) blob v

set_option maxRecDepth 100000 in
theorem _tpm_wrap_secret_scratch_witness :
    sim_o.ret = TPM_SUCCESS ∧ sim_p.ret = TPM_SUCCESS ∧
    readBytes (wrap_point (wrap_seal_stmts sum_hash stack_1.odd_osap stack_1.nonce_odd
        (sim_o.even_osap.getD []) (sim_o.nonce_even.getD []) (List.replicate 54 0) 1 [0x5A])
        (wrap_vars0 sim_o.s.cmd_buf) 6).cmd_buf CMD_HEAD_SIZE 20
      = (wrap_point (wrap_seal_stmts sum_hash stack_1.odd_osap stack_1.nonce_odd
          (sim_o.even_osap.getD []) (sim_o.nonce_even.getD []) (List.replicate 54 0) 1 [0x5A])
          (wrap_vars0 sim_o.s.cmd_buf) 6).shared_secret ∧
    _tpm_wrap_unseal tpm_h sim sum_hash stack_1 0 blob_short_1 (some 64)
        (some (List.replicate 64 0)) (sim_st_full [osap_rsp_1, oiap_rsp_1])
      = wrap_unseal_call tpm_h sim stack_1 0 blob_short_1 (some 64) (some (List.replicate 64 0))
          sim_o sim_p
          (wrap_point (wrap_unseal_stmts sum_hash stack_1.nonce_odd stack_1.nonce_odd_d
            (sim_o.nonce_even.getD []) (sim_p.nonce_even.getD []) blob_short_1)
            { wrap_point (wrap_secret_stmts sum_hash stack_1.odd_osap (sim_o.even_osap.getD []))
                (wrap_vars0 sim_o.s.cmd_buf) 4 with cmd_buf := sim_p.s.cmd_buf } 16) ∧
    (∀ (k : Nat) (v : WrapVars) (S : List Nat),
      (wrap_point (wrap_unseal_stmts sum_hash stack_1.nonce_odd stack_1.nonce_odd_d
          (sim_o.nonce_even.getD []) (sim_p.nonce_even.getD []) blob_short_1)
          { v with shared_secret := S } k).cmd_buf
        = (wrap_point (wrap_unseal_stmts sum_hash stack_1.nonce_odd stack_1.nonce_odd_d
            (sim_o.nonce_even.getD []) (sim_p.nonce_even.getD []) blob_short_1) v k).cmd_buf) := by
  obtain ⟨f1, f2, f3, _, f5, f6, f7⟩ := sim_sessions_facts
  obtain ⟨_, _, g3, _, g5, _, _, g8, _, _⟩ := _tpm_wrap_secret_scratch tpm_h sim sum_hash
    stack_1 0 (List.replicate 54 0) 1 [0x5A] 64 (List.replicate 64 0) blob_short_1 64
    (List.replicate 64 0) (sim_st_full [osap_rsp_1, oiap_rsp_1]) sim_o sim_p f1 f2 f5 f6
    (by rw [f3]; decide) (by decide) (by rw [f7]; decide) (by decide) (by decide)
  exact ⟨f2, f6, g3, g5, g8⟩

end Tboot
